import Mathlib

/-!
go-preform/squirrel: the Fast statement builders

A shallow embedding of the rendering engine of the Fast builders
(`select_fast.go`, `insert_fast.go`, `update_fast.go`, `delete_fast.go`,
`statement.go`) and theorems about it.

Conventions of the embedding

* A Go `string` is a `List Char` (`Text`); `bytes.Buffer` writes are appends.
* A Go `(sqlStr, args, err)` result is a `SqlResult`; `err = none` is `nil`.
* A value of interface type `Sqlizer` is the record of what its methods
  return (they take no argument and are pure) together with the outcome of
  the dynamic type tests the code performs on it.
* Builder slots that are Go slices are lists in the value-level model; the
  namespace `Go` models the slices with their backing arrays.
* Functions and types that the source files use but do not contain (the
  `Sqlizer` interface, `appendToSql`, `Expr`, `Alias`, `newPart`,
  `newWherePart`, the placeholder formats) are modelled from the specification
  and from the tests of the repository; their doc comments say so.
-/

namespace Squirrel

/-! ## Definitions -/

/-- Go text: a sequence of characters. -/
abbrev Text := List Char

/-- A bound argument (`interface{}` that is not a fragment): an opaque scalar. -/
inductive Arg where
  | int (i : Int)
  | str (s : String)
  | null
  deriving DecidableEq, Repr

/-- The triple `(sqlStr string, args []interface{}, err error)` returned by
every render method; an error is identified by its message. -/
structure SqlResult where
  sqlStr : Text
  args : List Arg
  err : Option String
  deriving DecidableEq, Repr

/-- Modelled from the spec: the `Sqlizer` interface and the unexported
`rawSqlizer` interface (their declarations are not among the source files). §3: a
fragment is "a value polymorphic over the single capability
render → (text, args, error)". The record holds the result of `ToSql()`, the
result of `toSqlRaw()` when the dynamic type has that method
(`SelectBuilderFast` has, select_fast.go:62), and whether the dynamic type is
`SelectBuilder`, which update_fast.go:83 tests. -/
structure Sqlizer where
  ToSql : SqlResult
  toSqlRaw : Option SqlResult
  isSelectBuilder : Bool
  deriving DecidableEq, Repr

/-- Modelled from the spec: `nestedToSql` (not among the source files;
select_fast_test.go:250-265 pins it). §4.7: a nested builder "renders first with its own placeholder format
reset to Question; the outer render is what performs the dialect rewrite":
a fragment that has `toSqlRaw` is rendered with it, any other with `ToSql`. -/
def nestedToSql (s : Sqlizer) : SqlResult :=
  match s.toSqlRaw with
  | some r => r
  | none => s.ToSql

/-- The state of a render in progress: the buffer and the args collected so
far, or the args and error with which the enclosing function returns. -/
abbrev Render := Except (List Arg × String) (Text × List Arg)

/-- Modelled from the spec: the loop of `appendToSql` (not among the source
files), at part index `i`. §2: the render "walks its ordered parts,
asks each part to render, concatenates results with separators, collects
arguments in left-to-right textual order"; §4.1: "the first sub-fragment that
fails aborts the enclosing render and surfaces its error unchanged" (the args
returned with the error are nil). A part whose text is empty is passed over,
and the separator is written before every written part but the one at index 0. -/
def appendToSqlFrom (sep : Text) : Nat → List Sqlizer → Text → List Arg → Render
  | _, [], w, args => .ok (w, args)
  | i, p :: ps, w, args =>
    match (nestedToSql p).err with
    | some e => .error ([], e)
    | none =>
      if (nestedToSql p).sqlStr.length = 0 then
        appendToSqlFrom sep (i + 1) ps w args
      else
        appendToSqlFrom sep (i + 1) ps
          ((if i > 0 then w ++ sep else w) ++ (nestedToSql p).sqlStr)
          (args ++ (nestedToSql p).args)

/-- Modelled from the spec: `appendToSql(parts, w, sep, args)`, see
`appendToSqlFrom`. -/
def appendToSql (parts : List Sqlizer) (w : Text) (sep : Text) (args : List Arg) : Render :=
  appendToSqlFrom sep 0 parts w args

/-- Modelled from the spec: the `PlaceholderFormat` values (their declaration
is not among the source files). §3: "An enumerated choice: Question, Dollar,
Colon, AtP". -/
inductive PlaceholderFormat where
  | Question
  | Dollar
  | Colon
  | AtP
  deriving DecidableEq, Repr

/-- Modelled from the spec: the dialect marker for position `n` (the rewriter
is not among the source files; placeholder_test.go tests it). §6: Question `?`, Dollar `$n`, Colon `:n`,
AtP `@pn`, with `n` in decimal. -/
def PlaceholderFormat.marker : PlaceholderFormat → Nat → Text
  | .Question, _ => ['?']
  | .Dollar, n => '$' :: Nat.toDigits 10 n
  | .Colon, n => ':' :: Nat.toDigits 10 n
  | .AtP, n => '@' :: 'p' :: Nat.toDigits 10 n

/-- Modelled from the spec: the single left-to-right pass of §4.2 with the
running counter at `n` (the rewriter is not among the source files): "when
`?` is seen: if the next character is also `?`, emit a single `?` and advance
past both; else emit the dialect-specific marker for the current `n` and
increment `n`. All other characters are copied verbatim." -/
def PlaceholderFormat.replaceFrom (f : PlaceholderFormat) : Nat → Text → Text
  | _, [] => []
  | n, '?' :: '?' :: rest => '?' :: replaceFrom f n rest
  | n, '?' :: rest => f.marker n ++ replaceFrom f (n + 1) rest
  | n, c :: rest => c :: replaceFrom f n rest

/-- Modelled from the spec: `PlaceholderFormat.ReplacePlaceholders` (not among
the source files): the pass of §4.2 with the counter "starting at
1"; the pass has no failing case, so the error is always nil. -/
def PlaceholderFormat.ReplacePlaceholders (f : PlaceholderFormat) (sql : Text) :
    Text × Option String :=
  (f.replaceFrom 1 sql, none)

/-- The result with which a render function returns: on success the buffer
and the args, on an early `return` the empty `sqlStr` (the named result is
still unset), the args as they stand and the error. -/
def finish : Render → SqlResult
  | .ok (sql, args) => ⟨sql, args, none⟩
  | .error (args, e) => ⟨[], args, some e⟩

/-- The `SelectBuilderFast` struct, select_fast.go:10-25 (`runWith` plays no
part in rendering and is left out). -/
structure SelectBuilderFast where
  placeholderFormat : PlaceholderFormat
  prefixes : List Sqlizer
  options : List Text
  columns : List Sqlizer
  «from» : Option Sqlizer
  joins : List Sqlizer
  whereParts : List Sqlizer
  groupBys : List Text
  havingParts : List Sqlizer
  orderByParts : List Sqlizer
  limit : Text
  offset : Text
  suffixes : List Sqlizer
  deriving DecidableEq, Repr

/-- The body of `SelectBuilderFast.toSqlRaw` after the column check,
select_fast.go:68-158. -/
def SelectBuilderFast.toSqlRawBody (d : SelectBuilderFast) : Render := do
  let s ← (if d.prefixes.length > 0 then do
      let s ← appendToSql d.prefixes [] " ".toList []
      pure (s.1 ++ " ".toList, s.2)
    else pure ([], []))
  let sql := s.1 ++ "SELECT ".toList
  let sql := if d.options.length > 0 then
      sql ++ " ".toList.intercalate d.options ++ " ".toList
    else sql
  let s ← (if d.columns.length > 0 then appendToSql d.columns sql ", ".toList s.2
    else pure (sql, s.2))
  let s ← (match d.«from» with
    | some f => appendToSql [f] (s.1 ++ " FROM ".toList) [] s.2
    | none => pure s)
  let s ← (if d.joins.length > 0 then
      appendToSql d.joins (s.1 ++ " ".toList) " ".toList s.2
    else pure s)
  let s ← (if d.whereParts.length > 0 then
      appendToSql d.whereParts (s.1 ++ " WHERE ".toList) " AND ".toList s.2
    else pure s)
  let sql := if d.groupBys.length > 0 then
      s.1 ++ " GROUP BY ".toList ++ ", ".toList.intercalate d.groupBys
    else s.1
  let s ← (if d.havingParts.length > 0 then
      appendToSql d.havingParts (sql ++ " HAVING ".toList) " AND ".toList s.2
    else pure (sql, s.2))
  let s ← (if d.orderByParts.length > 0 then
      appendToSql d.orderByParts (s.1 ++ " ORDER BY ".toList) ", ".toList s.2
    else pure s)
  let sql := if d.limit.length > 0 then s.1 ++ " LIMIT ".toList ++ d.limit else s.1
  let sql := if d.offset.length > 0 then sql ++ " OFFSET ".toList ++ d.offset else sql
  let s ← (if d.suffixes.length > 0 then
      appendToSql d.suffixes (sql ++ " ".toList) " ".toList s.2
    else pure (sql, s.2))
  pure s

/-- `SelectBuilderFast.toSqlRaw`, select_fast.go:62-159. -/
def SelectBuilderFast.toSqlRaw (d : SelectBuilderFast) : SqlResult :=
  if d.columns.length = 0 then
    ⟨[], [], some "select statements must have at least one result column"⟩
  else
    finish d.toSqlRawBody

/-- `SelectBuilderFast.ToSql`, select_fast.go:52-60. -/
def SelectBuilderFast.ToSql (d : SelectBuilderFast) : SqlResult :=
  let r := d.toSqlRaw
  match r.err with
  | some _ => r
  | none =>
    let p := d.placeholderFormat.ReplacePlaceholders r.sqlStr
    ⟨p.1, r.args, p.2⟩

/-- A `SelectBuilderFast` held in a `Sqlizer` interface: it has both `ToSql`
and `toSqlRaw`, and its dynamic type is not `SelectBuilder`. -/
def SelectBuilderFast.toSqlizer (d : SelectBuilderFast) : Sqlizer :=
  ⟨d.ToSql, some d.toSqlRaw, false⟩

/-! ### Fragments -/

/-- Modelled from the spec: `Expr(sql, args...)` with arguments that are not
fragments (`Expr` is not among the source files). §4.4: "If no argument is
itself a fragment, return (text, args) unchanged." The number of markers is
not compared with the number of arguments: select_fast_test.go:99-103 renders
`Where("x = ? AND y = ?")` without arguments to the full text. -/
def Expr (sql : Text) (args : List Arg) : Sqlizer :=
  ⟨⟨sql, args, none⟩, none, false⟩

/-- Modelled from the spec: `Alias(expr, alias)` (not among the source
files). §4.5: renders `"(" + inner_text + ") AS " + name` with the
inner fragment's `ToSql()`; args are the inner args; an error of the inner
fragment is passed on. -/
def Alias (expr : Sqlizer) (alias_ : Text) : Sqlizer :=
  ⟨match expr.ToSql.err with
    | none => ⟨"(".toList ++ expr.ToSql.sqlStr ++ ") AS ".toList ++ alias_, expr.ToSql.args, none⟩
    | some _ => expr.ToSql,
   none, false⟩

/-- The `pred interface{}` argument of `newPart` and `newWherePart`: nil, a
string, a fragment, or a value of any other type. -/
inductive Pred where
  | nil
  | str (s : Text)
  | sqlizer (s : Sqlizer)
  | other
  deriving DecidableEq, Repr

/-- Modelled from the spec: the rendering of a part (the `part` type is not
among the source files). §3: "A uniform wrapper over (string with optional args,
pre-built fragment, or predicate-sugar value). Rendering dispatches by
variant"; a string is returned with its args unchanged, a fragment is rendered
as a nested fragment, nil renders nothing and any other type fails with
`ERR_INVALID` (§9). -/
def partToSql (pred : Pred) (args : List Arg) : SqlResult :=
  match pred with
  | .nil => ⟨[], [], none⟩
  | .str s => ⟨s, args, none⟩
  | .sqlizer s => nestedToSql s
  | .other => ⟨[], [], some "ERR_INVALID"⟩

/-- Modelled from the spec: `newPart(pred, args...)`, see `partToSql`. -/
def newPart (pred : Pred) (args : List Arg) : Sqlizer :=
  ⟨partToSql pred args, none, false⟩

/-- Modelled from the spec: `newWherePart(pred, args...)` (not among the
source files). §4.7: a where part is a raw SQL string plus args, an
equality mapping (itself a fragment) or a pre-built fragment; "other
unrecognized types fail with ERR_INVALID". -/
def newWherePart (pred : Pred) (args : List Arg) : Sqlizer :=
  ⟨partToSql pred args, none, false⟩

/-! ### SelectBuilderFast: builder methods (select_fast.go:161-386) -/

/-- `SelectBuilderFast.PlaceholderFormat`, select_fast.go:165-168. -/
def SelectBuilderFast.PlaceholderFormat (b : SelectBuilderFast) (f : PlaceholderFormat) :
    SelectBuilderFast :=
  { b with placeholderFormat := f }

/-- `SelectBuilderFast.PrefixExpr`, select_fast.go:202-205. -/
def SelectBuilderFast.PrefixExpr (b : SelectBuilderFast) (expr : Sqlizer) : SelectBuilderFast :=
  { b with prefixes := b.prefixes ++ [expr] }

/-- `SelectBuilderFast.Prefix`, select_fast.go:197-199. -/
def SelectBuilderFast.Prefix (b : SelectBuilderFast) (sql : Text) (args : List Arg) :
    SelectBuilderFast :=
  b.PrefixExpr (Expr sql args)

/-- `SelectBuilderFast.Options`, select_fast.go:213-216. -/
def SelectBuilderFast.Options (b : SelectBuilderFast) (options : List Text) : SelectBuilderFast :=
  { b with options := b.options ++ options }

/-- `SelectBuilderFast.Distinct`, select_fast.go:208-210. -/
def SelectBuilderFast.Distinct (b : SelectBuilderFast) : SelectBuilderFast :=
  b.Options ["DISTINCT".toList]

/-- `SelectBuilderFast.Columns`, select_fast.go:219-226. -/
def SelectBuilderFast.Columns (b : SelectBuilderFast) (columns : List Text) : SelectBuilderFast :=
  { b with columns := b.columns ++ columns.map (fun str => newPart (.str str) []) }

/-- `SelectBuilderFast.RemoveColumns`, select_fast.go:231-234. -/
def SelectBuilderFast.RemoveColumns (b : SelectBuilderFast) : SelectBuilderFast :=
  { b with columns := [] }

/-- `SelectBuilderFast.Column`, select_fast.go:241-244. -/
def SelectBuilderFast.Column (b : SelectBuilderFast) (column : Pred) (args : List Arg) :
    SelectBuilderFast :=
  { b with columns := b.columns ++ [newPart column args] }

/-- `SelectBuilderFast.From`, select_fast.go:247-250. -/
def SelectBuilderFast.From (b : SelectBuilderFast) («from» : Text) : SelectBuilderFast :=
  { b with «from» := some (newPart (.str «from») []) }

/-- `SelectBuilderFast.FromSelectFast`, select_fast.go:260-264. -/
def SelectBuilderFast.FromSelectFast (b : SelectBuilderFast) («from» : SelectBuilderFast)
    (alias_ : Text) : SelectBuilderFast :=
  { b with «from» := some (Alias («from».PlaceholderFormat .Question).toSqlizer alias_) }

/-- `SelectBuilderFast.JoinClause`, select_fast.go:267-270. -/
def SelectBuilderFast.JoinClause (b : SelectBuilderFast) (pred : Pred) (args : List Arg) :
    SelectBuilderFast :=
  { b with joins := b.joins ++ [newPart pred args] }

/-- `SelectBuilderFast.Join`, select_fast.go:273-275. -/
def SelectBuilderFast.Join (b : SelectBuilderFast) (join : Text) (rest : List Arg) :
    SelectBuilderFast :=
  b.JoinClause (.str ("JOIN ".toList ++ join)) rest

/-- `SelectBuilderFast.LeftJoin`, select_fast.go:278-280. -/
def SelectBuilderFast.LeftJoin (b : SelectBuilderFast) (join : Text) (rest : List Arg) :
    SelectBuilderFast :=
  b.JoinClause (.str ("LEFT JOIN ".toList ++ join)) rest

/-- `SelectBuilderFast.RightJoin`, select_fast.go:283-285. -/
def SelectBuilderFast.RightJoin (b : SelectBuilderFast) (join : Text) (rest : List Arg) :
    SelectBuilderFast :=
  b.JoinClause (.str ("RIGHT JOIN ".toList ++ join)) rest

/-- `SelectBuilderFast.InnerJoin`, select_fast.go:288-290. -/
def SelectBuilderFast.InnerJoin (b : SelectBuilderFast) (join : Text) (rest : List Arg) :
    SelectBuilderFast :=
  b.JoinClause (.str ("INNER JOIN ".toList ++ join)) rest

/-- `SelectBuilderFast.CrossJoin`, select_fast.go:293-295. -/
def SelectBuilderFast.CrossJoin (b : SelectBuilderFast) (join : Text) (rest : List Arg) :
    SelectBuilderFast :=
  b.JoinClause (.str ("CROSS JOIN ".toList ++ join)) rest

/-- `SelectBuilderFast.Where`, select_fast.go:317-323. -/
def SelectBuilderFast.Where (b : SelectBuilderFast) (pred : Pred) (args : List Arg) :
    SelectBuilderFast :=
  if pred = .nil ∨ pred = .str [] then b
  else { b with whereParts := b.whereParts ++ [newWherePart pred args] }

/-- `SelectBuilderFast.GroupBy`, select_fast.go:326-329. -/
def SelectBuilderFast.GroupBy (b : SelectBuilderFast) (groupBys : List Text) : SelectBuilderFast :=
  { b with groupBys := b.groupBys ++ groupBys }

/-- `SelectBuilderFast.Having`, select_fast.go:334-337. -/
def SelectBuilderFast.Having (b : SelectBuilderFast) (pred : Pred) (rest : List Arg) :
    SelectBuilderFast :=
  { b with havingParts := b.havingParts ++ [newWherePart pred rest] }

/-- `SelectBuilderFast.OrderByClause`, select_fast.go:340-343. -/
def SelectBuilderFast.OrderByClause (b : SelectBuilderFast) (pred : Pred) (args : List Arg) :
    SelectBuilderFast :=
  { b with orderByParts := b.orderByParts ++ [newPart pred args] }

/-- `SelectBuilderFast.OrderBy`, select_fast.go:346-351. -/
def SelectBuilderFast.OrderBy (b : SelectBuilderFast) (orderBys : List Text) : SelectBuilderFast :=
  orderBys.foldl (fun b orderBy => b.OrderByClause (.str orderBy) []) b

/-- `SelectBuilderFast.Limit`, select_fast.go:354-357; `limit` is a `uint64`,
a natural number below `2^64`, printed with `%d`. -/
def SelectBuilderFast.Limit (b : SelectBuilderFast) (limit : Nat) : SelectBuilderFast :=
  { b with limit := Nat.toDigits 10 limit }

/-- `SelectBuilderFast.RemoveLimit`, select_fast.go:360-363. -/
def SelectBuilderFast.RemoveLimit (b : SelectBuilderFast) : SelectBuilderFast :=
  { b with limit := [] }

/-- `SelectBuilderFast.Offset`, select_fast.go:366-369. -/
def SelectBuilderFast.Offset (b : SelectBuilderFast) (offset : Nat) : SelectBuilderFast :=
  { b with offset := Nat.toDigits 10 offset }

/-- `SelectBuilderFast.RemoveOffset`, select_fast.go:372-375. -/
def SelectBuilderFast.RemoveOffset (b : SelectBuilderFast) : SelectBuilderFast :=
  { b with offset := [] }

/-- `SelectBuilderFast.SuffixExpr`, select_fast.go:383-386. -/
def SelectBuilderFast.SuffixExpr (b : SelectBuilderFast) (expr : Sqlizer) : SelectBuilderFast :=
  { b with suffixes := b.suffixes ++ [expr] }

/-- `SelectBuilderFast.Suffix`, select_fast.go:378-380. -/
def SelectBuilderFast.Suffix (b : SelectBuilderFast) (sql : Text) (args : List Arg) :
    SelectBuilderFast :=
  b.SuffixExpr (Expr sql args)

/-- `StatementBuilderType.SelectFast`, statement.go:12-14, for a statement
builder whose placeholder format is `f`: every slot but the format is empty
before `Columns` runs. -/
def StatementBuilderType.SelectFast (f : PlaceholderFormat) (columns : List Text) :
    SelectBuilderFast :=
  SelectBuilderFast.Columns
    ⟨f, [], [], [], none, [], [], [], [], [], [], [], []⟩ columns

/-- `SelectFast`, statement.go:82-84: `StatementBuilder` has the `Question`
format (statement.go:74). -/
def SelectFast (columns : List Text) : SelectBuilderFast :=
  StatementBuilderType.SelectFast .Question columns

/-! ### The rendering skeleton in the words of the specification -/

/-- The text a fragment renders to when it is nested in a statement. -/
def textOf (p : Sqlizer) : Text := (nestedToSql p).sqlStr

/-- The texts of a slot's fragments, in order. -/
def textsOf (ps : List Sqlizer) : List Text := ps.map textOf

/-- The args of a slot's fragments, concatenated in order. -/
def argsOf (ps : List Sqlizer) : List Arg := ps.flatMap (fun p => (nestedToSql p).args)

/-- A fragment that renders successfully to non-empty text. -/
def RendersNonEmpty (p : Sqlizer) : Prop :=
  (nestedToSql p).err = none ∧ (nestedToSql p).sqlStr ≠ []

/-- Every fragment of a SELECT, in the order of rendering: prefixes, columns,
from, joins, whereParts, havingParts, orderByParts, suffixes. -/
def SelectBuilderFast.fragments (d : SelectBuilderFast) : List Sqlizer :=
  d.prefixes ++ d.columns ++ d.«from».toList ++ d.joins ++ d.whereParts ++ d.havingParts ++
    d.orderByParts ++ d.suffixes

/-- The rendering skeleton of §4.7, written from the specification: each
bracketed group is present exactly when its slot is non-empty. -/
def selectSkeleton (d : SelectBuilderFast) : Text :=
  (if d.prefixes ≠ [] then " ".toList.intercalate (textsOf d.prefixes) ++ " ".toList else []) ++
  "SELECT ".toList ++
  (if d.options ≠ [] then " ".toList.intercalate d.options ++ " ".toList else []) ++
  ", ".toList.intercalate (textsOf d.columns) ++
  (match d.«from» with
    | some f => " FROM ".toList ++ textOf f
    | none => []) ++
  (if d.joins ≠ [] then " ".toList ++ " ".toList.intercalate (textsOf d.joins) else []) ++
  (if d.whereParts ≠ [] then
    " WHERE ".toList ++ " AND ".toList.intercalate (textsOf d.whereParts) else []) ++
  (if d.groupBys ≠ [] then " GROUP BY ".toList ++ ", ".toList.intercalate d.groupBys else []) ++
  (if d.havingParts ≠ [] then
    " HAVING ".toList ++ " AND ".toList.intercalate (textsOf d.havingParts) else []) ++
  (if d.orderByParts ≠ [] then
    " ORDER BY ".toList ++ ", ".toList.intercalate (textsOf d.orderByParts) else []) ++
  (if d.limit ≠ [] then " LIMIT ".toList ++ d.limit else []) ++
  (if d.offset ≠ [] then " OFFSET ".toList ++ d.offset else []) ++
  (if d.suffixes ≠ [] then " ".toList ++ " ".toList.intercalate (textsOf d.suffixes) else [])

instance : DecidablePred RendersNonEmpty := fun p => by
  unfold RendersNonEmpty; infer_instance

/-- A SELECT with every slot filled, used to instantiate the theorems. -/
def demoSelect : SelectBuilderFast :=
  SelectFast ["a".toList, "b".toList]
    |>.Prefix "WITH p AS ?".toList [.int 0]
    |>.Distinct
    |>.From "e".toList
    |>.Join "j ON j.x = ?".toList [.int 1]
    |>.Where (.str "f = ?".toList) [.int 4]
    |>.GroupBy ["l".toList]
    |>.Having (.str "m = n".toList) []
    |>.OrderByClause (.str "? DESC".toList) [.int 1]
    |>.Limit 12
    |>.Offset 13
    |>.Suffix "FETCH FIRST ? ROWS ONLY".toList [.int 14]

/-- The error of the first fragment of the list that fails to render, if any. -/
def firstError : List Sqlizer → Option String
  | [] => none
  | p :: ps =>
    match (nestedToSql p).err with
    | some e => some e
    | none => firstError ps

/-- The error of a render in progress, if it has failed. -/
def errOf : Render → Option String
  | .ok _ => none
  | .error v => some v.2

/-- The args returned with a failed render are nil. -/
def NilOnError : Render → Prop
  | .ok _ => True
  | .error v => v.1 = []

/-- A SELECT with a column whose prefix fragment is a SELECT without columns. -/
def selectWithColumnlessPrefix : SelectBuilderFast :=
  (SelectFast ["a".toList]).PrefixExpr (SelectFast []).toSqlizer

/-! ### The placeholder rewrite in the words of the specification -/

/-- The number of unescaped `?` markers of a text: a `?` followed by a `?` is
an escape, any other `?` is a marker. -/
def countMarkers : Text → Nat
  | [] => 0
  | '?' :: '?' :: rest => countMarkers rest
  | '?' :: rest => countMarkers rest + 1
  | _ :: rest => countMarkers rest

/-- The literal pieces of a text between its unescaped `?` markers, with each
`??` collapsed to `?`: a text with `n` markers has `n + 1` pieces. -/
def segments : Text → List Text
  | [] => [[]]
  | '?' :: '?' :: rest =>
    match segments rest with
    | [] => [['?']]
    | s :: ss => ('?' :: s) :: ss
  | '?' :: rest => [] :: segments rest
  | c :: rest =>
    match segments rest with
    | [] => [[c]]
    | s :: ss => (c :: s) :: ss

/-- The pieces put together again with the markers of the format numbered
`n`, `n + 1`, ... between them. -/
def weave (f : PlaceholderFormat) : Nat → List Text → Text
  | _, [] => []
  | _, [s] => s
  | n, s :: ss => s ++ f.marker n ++ weave f (n + 1) ss

/-- The test `TestSelectBuilderFastFromSelectNestedDollarPlaceholders`,
select_fast_test.go:75-92; the predicates `Gt{"c": 1}` and `Lt{"c": 2}` are
given as the fragments they render to. -/
def nestedDollarSelect : SelectBuilderFast :=
  let subQ := SelectFast ["c".toList]
    |>.From "t".toList
    |>.Where (.sqlizer (Expr "c > ?".toList [.int 1])) []
    |>.PlaceholderFormat .Dollar
  SelectFast ["c".toList]
    |>.FromSelectFast subQ "subq".toList
    |>.Where (.sqlizer (Expr "c < ?".toList [.int 2])) []
    |>.PlaceholderFormat .Dollar

/-- The SELECT `SelectFast("a").Where("b = ?", 1)` under the placeholder
format `f`. -/
def innerSelect (f : PlaceholderFormat) : SelectBuilderFast :=
  SelectFast ["a".toList]
    |>.Where (.str "b = ?".toList) [.int 1]
    |>.PlaceholderFormat f

/-- An outer SELECT under `Dollar` whose FROM is set with `FromSelectFast` to
a sub-select that has `Alias(inner, "x")` as its column, for the inner SELECT
`innerSelect f`:
`SelectFast("c").FromSelectFast(SelectFast().Column(Alias(inner, "x")), "s")`
`.Where("c < ?", 2).PlaceholderFormat(Dollar)`. -/
def fromSelectAliasColumn (f : PlaceholderFormat) : SelectBuilderFast :=
  SelectFast ["c".toList]
    |>.FromSelectFast
      (SelectFast [] |>.Column (.sqlizer (Alias (innerSelect f).toSqlizer "x".toList)) [])
      "s".toList
    |>.Where (.str "c < ?".toList) [.int 2]
    |>.PlaceholderFormat .Dollar

/-- The same outer SELECT with the inner SELECT itself as the column of the
sub-select, `SelectFast().Column(inner)`: the column is a part, which renders
a nested builder with `nestedToSql`. -/
def fromSelectColumn (f : PlaceholderFormat) : SelectBuilderFast :=
  SelectFast ["c".toList]
    |>.FromSelectFast (SelectFast [] |>.Column (.sqlizer (innerSelect f).toSqlizer) []) "s".toList
    |>.Where (.str "c < ?".toList) [.int 2]
    |>.PlaceholderFormat .Dollar

/-! ### InsertBuilderFast (insert_fast.go) -/

/-- A value of type `interface{}` in a VALUES row or a SET clause: the code
tests whether its dynamic type implements `Sqlizer` (insert_fast.go:126,
update_fast.go:78). -/
inductive Value where
  | sqlizer (s : Sqlizer)
  | plain (a : Arg)
  deriving DecidableEq, Repr

/-- The `InsertBuilderFast` struct, insert_fast.go:13-24 (without `runWith`). -/
structure InsertBuilderFast where
  placeholderFormat : PlaceholderFormat
  prefixes : List Sqlizer
  statementKeywordStr : Text
  options : List Text
  into : Text
  columns : List Text
  values : List (List Value)
  suffixes : List Sqlizer
  selectBuilder : Option Sqlizer
  deriving DecidableEq, Repr

/-- The inner loop of `appendValuesToSQL`, insert_fast.go:125-137: the value
strings of one row and the args after it, or the error of the first fragment
value that fails. -/
def insertRow : List Value → List Arg → Except String (List Text × List Arg)
  | [], args => .ok ([], args)
  | .sqlizer vs :: row, args =>
    match vs.ToSql.err with
    | some e => .error e
    | none =>
      match insertRow row (args ++ vs.ToSql.args) with
      | .ok (strs, args) => .ok (vs.ToSql.sqlStr :: strs, args)
      | .error e => .error e
  | .plain val :: row, args =>
    match insertRow row (args ++ [val]) with
    | .ok (strs, args) => .ok ("?".toList :: strs, args)
    | .error e => .error e

/-- The outer loop of `appendValuesToSQL`, insert_fast.go:123-139: the strings
`(v1,v2,...)` of the rows and the args after them. -/
def insertRows : List (List Value) → List Arg → Except String (List Text × List Arg)
  | [], args => .ok ([], args)
  | row :: rows, args =>
    match insertRow row args with
    | .error e => .error e
    | .ok (valueStrings, args) =>
      match insertRows rows args with
      | .ok (strs, args) =>
        .ok (("(".toList ++ ",".toList.intercalate valueStrings ++ ")".toList) :: strs, args)
      | .error e => .error e

/-- `InsertBuilderFast.appendValuesToSQL`, insert_fast.go:115-144. -/
def InsertBuilderFast.appendValuesToSQL (d : InsertBuilderFast) (w : Text) (args : List Arg) :
    Render :=
  if d.values.length = 0 then
    .error (args, "values for insert statements are not set")
  else
    match insertRows d.values args with
    | .error e => .error ([], e)
    | .ok (valuesStrings, args) =>
      .ok (w ++ "VALUES ".toList ++ ",".toList.intercalate valuesStrings, args)

/-- `InsertBuilderFast.appendSelectToSQL`, insert_fast.go:146-160. -/
def InsertBuilderFast.appendSelectToSQL (d : InsertBuilderFast) (w : Text) (args : List Arg) :
    Render :=
  match d.selectBuilder with
  | none => .error (args, "select clause for insert statements are not set")
  | some selectBuilder =>
    match selectBuilder.ToSql.err with
    | some e => .error (args, e)
    | none => .ok (w ++ selectBuilder.ToSql.sqlStr, args ++ selectBuilder.ToSql.args)

/-- The part of `InsertBuilderFast.ToSql` between the two checks and the
placeholder rewrite, insert_fast.go:61-109. -/
def InsertBuilderFast.toSqlBody (d : InsertBuilderFast) : Render := do
  let s ← (if d.prefixes.length > 0 then do
      let s ← appendToSql d.prefixes [] " ".toList []
      pure (s.1 ++ " ".toList, s.2)
    else pure ([], []))
  let sql := if d.statementKeywordStr = [] then s.1 ++ "INSERT ".toList
    else s.1 ++ d.statementKeywordStr ++ " ".toList
  let sql := if d.options.length > 0 then
      sql ++ " ".toList.intercalate d.options ++ " ".toList
    else sql
  let sql := sql ++ "INTO ".toList ++ d.into ++ " ".toList
  let sql := if d.columns.length > 0 then
      sql ++ "(".toList ++ ",".toList.intercalate d.columns ++ ") ".toList
    else sql
  let s ← (if d.selectBuilder ≠ none then d.appendSelectToSQL sql s.2
    else d.appendValuesToSQL sql s.2)
  let s ← (if d.suffixes.length > 0 then
      appendToSql d.suffixes (s.1 ++ " ".toList) " ".toList s.2
    else pure s)
  pure s

/-- The last statement of every `ToSql`: the placeholder rewrite of the
buffer, `sqlStr, err = d.placeholderFormat.ReplacePlaceholders(sql.String())`. -/
def rewriteResult (f : PlaceholderFormat) (r : SqlResult) : SqlResult :=
  match r.err with
  | some _ => r
  | none => ⟨(f.ReplacePlaceholders r.sqlStr).1, r.args, (f.ReplacePlaceholders r.sqlStr).2⟩

/-- `InsertBuilderFast.ToSql`, insert_fast.go:51-113. -/
def InsertBuilderFast.ToSql (d : InsertBuilderFast) : SqlResult :=
  if d.into.length = 0 then
    ⟨[], [], some "insert statements must specify a table"⟩
  else if d.values.length = 0 ∧ d.selectBuilder = none then
    ⟨[], [], some "insert statements must have at least one set of values or select clause"⟩
  else
    rewriteResult d.placeholderFormat (finish d.toSqlBody)

/-- An `InsertBuilderFast` held in a `Sqlizer` interface: it has no `toSqlRaw`. -/
def InsertBuilderFast.toSqlizer (d : InsertBuilderFast) : Sqlizer :=
  ⟨d.ToSql, none, false⟩

/-- `InsertBuilderFast.PlaceholderFormat`, insert_fast.go:175-178. -/
def InsertBuilderFast.PlaceholderFormat (b : InsertBuilderFast) (f : PlaceholderFormat) :
    InsertBuilderFast :=
  { b with placeholderFormat := f }

/-- `InsertBuilderFast.PrefixExpr`, insert_fast.go:209-212. -/
def InsertBuilderFast.PrefixExpr (b : InsertBuilderFast) (expr : Sqlizer) : InsertBuilderFast :=
  { b with prefixes := b.prefixes ++ [expr] }

/-- `InsertBuilderFast.Prefix`, insert_fast.go:204-206. -/
def InsertBuilderFast.Prefix (b : InsertBuilderFast) (sql : Text) (args : List Arg) :
    InsertBuilderFast :=
  b.PrefixExpr (Expr sql args)

/-- `InsertBuilderFast.Options`, insert_fast.go:215-218. -/
def InsertBuilderFast.Options (b : InsertBuilderFast) (options : List Text) : InsertBuilderFast :=
  { b with options := b.options ++ options }

/-- `InsertBuilderFast.Into`, insert_fast.go:221-224. -/
def InsertBuilderFast.Into (b : InsertBuilderFast) («from» : Text) : InsertBuilderFast :=
  { b with into := «from» }

/-- `InsertBuilderFast.Columns`, insert_fast.go:227-230. -/
def InsertBuilderFast.Columns (b : InsertBuilderFast) (columns : List Text) : InsertBuilderFast :=
  { b with columns := b.columns ++ columns }

/-- `InsertBuilderFast.Values`, insert_fast.go:233-236. -/
def InsertBuilderFast.Values (b : InsertBuilderFast) (values : List Value) : InsertBuilderFast :=
  { b with values := b.values ++ [values] }

/-- `InsertBuilderFast.SuffixExpr`, insert_fast.go:244-247. -/
def InsertBuilderFast.SuffixExpr (b : InsertBuilderFast) (expr : Sqlizer) : InsertBuilderFast :=
  { b with suffixes := b.suffixes ++ [expr] }

/-- `InsertBuilderFast.Suffix`, insert_fast.go:239-241. -/
def InsertBuilderFast.Suffix (b : InsertBuilderFast) (sql : Text) (args : List Arg) :
    InsertBuilderFast :=
  b.SuffixExpr (Expr sql args)

/-- `InsertBuilderFast.Select`, insert_fast.go:272-275. -/
def InsertBuilderFast.Select (b : InsertBuilderFast) (sb : Sqlizer) : InsertBuilderFast :=
  { b with selectBuilder := some sb }

/-- `InsertBuilderFast.statementKeyword`, insert_fast.go:277-280. -/
def InsertBuilderFast.statementKeyword (b : InsertBuilderFast) (keyword : Text) :
    InsertBuilderFast :=
  { b with statementKeywordStr := keyword }

/-- `StatementBuilderType.InsertFast`, statement.go:20-22, for a statement
builder whose placeholder format is `f`. -/
def StatementBuilderType.InsertFast (f : PlaceholderFormat) (into : Text) : InsertBuilderFast :=
  InsertBuilderFast.Into ⟨f, [], [], [], [], [], [], [], none⟩ into

/-- `InsertFast`, statement.go:96-98. -/
def InsertFast (into : Text) : InsertBuilderFast :=
  StatementBuilderType.InsertFast .Question into

/-- `StatementBuilderType.ReplaceFast`, statement.go:29-31. -/
def StatementBuilderType.ReplaceFast (f : PlaceholderFormat) (into : Text) : InsertBuilderFast :=
  (InsertBuilderFast.statementKeyword ⟨f, [], [], [], [], [], [], [], none⟩
    "REPLACE".toList).Into into

/-- `ReplaceFast`, statement.go:107-109. -/
def ReplaceFast (into : Text) : InsertBuilderFast :=
  StatementBuilderType.ReplaceFast .Question into

/-- The test `TestInsertFastBuilderToSql`, insert_fast_test.go:9-30. -/
def testInsert : InsertBuilderFast :=
  InsertFast []
    |>.Prefix "WITH prefix AS ?".toList [.int 0]
    |>.Into "a".toList
    |>.Options ["DELAYED".toList, "IGNORE".toList]
    |>.Columns ["b".toList, "c".toList]
    |>.Values [.plain (.int 1), .plain (.int 2)]
    |>.Values [.plain (.int 3), .sqlizer (Expr "? + 1".toList [.int 4])]
    |>.Suffix "RETURNING ?".toList [.int 5]

/-- An INSERT under `Dollar` with a prefix argument whose select source is a
`SelectBuilderFast` that is itself under `Dollar`. -/
def insertSelectDollar : InsertBuilderFast :=
  InsertFast "t".toList
    |>.Prefix "WITH p AS ?".toList [.int 0]
    |>.Select (SelectFast ["a".toList]
        |>.Where (.str "b = ?".toList) [.int 1]
        |>.PlaceholderFormat .Dollar).toSqlizer
    |>.PlaceholderFormat .Dollar

/-! ### UpdateBuilderFast (update_fast.go) -/

/-- Modelled from the spec: the `setClause` struct (its declaration is not
among the source files; its fields `column` and `value` are read at
update_fast.go:78-93). §4.9: "setClauses: ordered [(column,
value-or-fragment)]". -/
structure setClause where
  column : Text
  value : Value
  deriving DecidableEq, Repr

/-- The `UpdateBuilderFast` struct, update_fast.go:11-23 (without `runWith`). -/
structure UpdateBuilderFast where
  placeholderFormat : PlaceholderFormat
  prefixes : List Sqlizer
  table : Text
  setClauses : List setClause
  «from» : Option Sqlizer
  whereParts : List Sqlizer
  orderBys : List Text
  limit : Text
  offset : Text
  suffixes : List Sqlizer
  deriving DecidableEq, Repr

/-- The loop over the set clauses, update_fast.go:76-94: the strings
`column = value` and the args after them, or the error of the first fragment
value that fails. -/
def updateSetSqls : List setClause → List Arg → Except String (List Text × List Arg)
  | [], args => .ok ([], args)
  | ⟨column, .sqlizer vs⟩ :: rest, args =>
    match vs.ToSql.err with
    | some e => .error e
    | none =>
      let valSql := if vs.isSelectBuilder then "(".toList ++ vs.ToSql.sqlStr ++ ")".toList
        else vs.ToSql.sqlStr
      match updateSetSqls rest (args ++ vs.ToSql.args) with
      | .ok (strs, args) => .ok ((column ++ " = ".toList ++ valSql) :: strs, args)
      | .error e => .error e
  | ⟨column, .plain value⟩ :: rest, args =>
    match updateSetSqls rest (args ++ [value]) with
    | .ok (strs, args) => .ok ((column ++ " = ".toList ++ "?".toList) :: strs, args)
    | .error e => .error e

/-- The part of `UpdateBuilderFast.ToSql` between the two checks and the
placeholder rewrite, update_fast.go:60-134. -/
def UpdateBuilderFast.toSqlBody (d : UpdateBuilderFast) : Render := do
  let s ← (if d.prefixes.length > 0 then do
      let s ← appendToSql d.prefixes [] " ".toList []
      pure (s.1 ++ " ".toList, s.2)
    else pure ([], []))
  let sql := s.1 ++ "UPDATE ".toList ++ d.table ++ " SET ".toList
  let s ← (match updateSetSqls d.setClauses s.2 with
    | .error e => .error ([], e)
    | .ok (setSqls, args) => pure (sql ++ ", ".toList.intercalate setSqls, args))
  let s ← (match d.«from» with
    | some f => appendToSql [f] (s.1 ++ " FROM ".toList) [] s.2
    | none => pure s)
  let s ← (if d.whereParts.length > 0 then
      appendToSql d.whereParts (s.1 ++ " WHERE ".toList) " AND ".toList s.2
    else pure s)
  let sql := if d.orderBys.length > 0 then
      s.1 ++ " ORDER BY ".toList ++ ", ".toList.intercalate d.orderBys
    else s.1
  let sql := if d.limit.length > 0 then sql ++ " LIMIT ".toList ++ d.limit else sql
  let sql := if d.offset.length > 0 then sql ++ " OFFSET ".toList ++ d.offset else sql
  let s ← (if d.suffixes.length > 0 then
      appendToSql d.suffixes (sql ++ " ".toList) " ".toList s.2
    else pure (sql, s.2))
  pure s

/-- `UpdateBuilderFast.ToSql`, update_fast.go:50-138. -/
def UpdateBuilderFast.ToSql (d : UpdateBuilderFast) : SqlResult :=
  if d.table.length = 0 then
    ⟨[], [], some "update statements must specify a table"⟩
  else if d.setClauses.length = 0 then
    ⟨[], [], some "update statements must have at least one Set clause"⟩
  else
    rewriteResult d.placeholderFormat (finish d.toSqlBody)

/-- An `UpdateBuilderFast` held in a `Sqlizer` interface: it has no `toSqlRaw`. -/
def UpdateBuilderFast.toSqlizer (d : UpdateBuilderFast) : Sqlizer :=
  ⟨d.ToSql, none, false⟩

/-- `UpdateBuilderFast.PlaceholderFormat`, update_fast.go:146-149. -/
def UpdateBuilderFast.PlaceholderFormat (b : UpdateBuilderFast) (f : PlaceholderFormat) :
    UpdateBuilderFast :=
  { b with placeholderFormat := f }

/-- `UpdateBuilderFast.PrefixExpr`, update_fast.go:179-182. -/
def UpdateBuilderFast.PrefixExpr (b : UpdateBuilderFast) (expr : Sqlizer) : UpdateBuilderFast :=
  { b with prefixes := b.prefixes ++ [expr] }

/-- `UpdateBuilderFast.Prefix`, update_fast.go:174-176. -/
def UpdateBuilderFast.Prefix (b : UpdateBuilderFast) (sql : Text) (args : List Arg) :
    UpdateBuilderFast :=
  b.PrefixExpr (Expr sql args)

/-- `UpdateBuilderFast.Table`, update_fast.go:185-188. -/
def UpdateBuilderFast.Table (b : UpdateBuilderFast) (table : Text) : UpdateBuilderFast :=
  { b with table := table }

/-- `UpdateBuilderFast.Set`, update_fast.go:191-194. -/
def UpdateBuilderFast.Set (b : UpdateBuilderFast) (column : Text) (value : Value) :
    UpdateBuilderFast :=
  { b with setClauses := b.setClauses ++ [⟨column, value⟩] }

/-- `UpdateBuilderFast.From`, update_fast.go:214-217. -/
def UpdateBuilderFast.From (b : UpdateBuilderFast) («from» : Text) : UpdateBuilderFast :=
  { b with «from» := some (newPart (.str «from») []) }

/-- `UpdateBuilderFast.Where`, update_fast.go:230-233. -/
def UpdateBuilderFast.Where (b : UpdateBuilderFast) (pred : Pred) (args : List Arg) :
    UpdateBuilderFast :=
  { b with whereParts := b.whereParts ++ [newWherePart pred args] }

/-- `UpdateBuilderFast.OrderBy`, update_fast.go:236-239. -/
def UpdateBuilderFast.OrderBy (b : UpdateBuilderFast) (orderBys : List Text) : UpdateBuilderFast :=
  { b with orderBys := b.orderBys ++ orderBys }

/-- `UpdateBuilderFast.Limit`, update_fast.go:242-245; `limit` is a `uint64`. -/
def UpdateBuilderFast.Limit (b : UpdateBuilderFast) (limit : Nat) : UpdateBuilderFast :=
  { b with limit := Nat.toDigits 10 limit }

/-- `UpdateBuilderFast.Offset`, update_fast.go:248-251; `offset` is a `uint64`. -/
def UpdateBuilderFast.Offset (b : UpdateBuilderFast) (offset : Nat) : UpdateBuilderFast :=
  { b with offset := Nat.toDigits 10 offset }

/-- `UpdateBuilderFast.SuffixExpr`, update_fast.go:259-262. -/
def UpdateBuilderFast.SuffixExpr (b : UpdateBuilderFast) (expr : Sqlizer) : UpdateBuilderFast :=
  { b with suffixes := b.suffixes ++ [expr] }

/-- `UpdateBuilderFast.Suffix`, update_fast.go:254-256. -/
def UpdateBuilderFast.Suffix (b : UpdateBuilderFast) (sql : Text) (args : List Arg) :
    UpdateBuilderFast :=
  b.SuffixExpr (Expr sql args)

/-- `StatementBuilderType.UpdateFast`, statement.go:37-39, for a statement
builder whose placeholder format is `f`. -/
def StatementBuilderType.UpdateFast (f : PlaceholderFormat) (table : Text) : UpdateBuilderFast :=
  UpdateBuilderFast.Table ⟨f, [], [], [], none, [], [], [], [], []⟩ table

/-- `UpdateFast`, statement.go:117-119. -/
def UpdateFast (table : Text) : UpdateBuilderFast :=
  StatementBuilderType.UpdateFast .Question table

/-- Modelled from the spec: a `SelectBuilder` (the type is not among the
source files) held in a `Sqlizer` interface, given by what its `ToSql` and
`toSqlRaw` return; §4.9 calls it "a SELECT statement builder". The type test
of update_fast.go:83 succeeds on it. -/
def selectBuilderValue (toSql toSqlRaw : SqlResult) : Sqlizer :=
  ⟨toSql, some toSqlRaw, true⟩

/-- The test `TestUpdateBuilderFastToSql`, update_fast_test.go:9-40; the CASE
builders and the `SelectBuilder` are given as the fragments they render to. -/
def testUpdate : UpdateBuilderFast :=
  UpdateFast []
    |>.Prefix "WITH prefix AS ?".toList [.int 0]
    |>.Table "a".toList
    |>.Set "b".toList (.sqlizer (Expr "? + 1".toList [.int 1]))
    |>.Set "c".toList (.plain (.int 2))
    |>.Set "c1".toList (.sqlizer (Expr "CASE status WHEN 1 THEN 2 WHEN 2 THEN 1 END".toList []))
    |>.Set "c2".toList (.sqlizer (Expr "CASE WHEN a = 2 THEN ? WHEN a = 3 THEN ? END".toList
        [.str "foo", .str "bar"]))
    |>.Set "c3".toList (.sqlizer (selectBuilderValue ⟨"SELECT a FROM b".toList, [], none⟩
        ⟨"SELECT a FROM b".toList, [], none⟩))
    |>.Where (.str "d = ?".toList) [.int 3]
    |>.OrderBy ["e".toList]
    |>.Limit 4
    |>.Offset 5
    |>.Suffix "RETURNING ?".toList [.int 6]

/-- The SELECT `SelectFast("a").Where("b = ?", 1)` used as a nested builder. -/
def nestedSelect : SelectBuilderFast :=
  SelectFast ["a".toList] |>.Where (.str "b = ?".toList) [.int 1]

/-- The UPDATE `UpdateFast("t").Set("x", nestedSelect.PlaceholderFormat(f))`. -/
def updateSetSelect (f : PlaceholderFormat) : UpdateBuilderFast :=
  UpdateFast "t".toList |>.Set "x".toList (.sqlizer (nestedSelect.PlaceholderFormat f).toSqlizer)

/-- The test `TestSelectBuilderFastPlaceholders`, select_fast_test.go:99-113:
a raw string with two markers and no argument. -/
def testPlaceholders : SelectBuilderFast :=
  SelectFast ["test".toList] |>.Where (.str "x = ? AND y = ?".toList) []

/-! ## Slices and their backing arrays

The value-level model above reads a builder slot as the list of its elements.
In Go a slot is a slice header `(pointer, len, cap)` into a backing array, the
builder methods copy the header and `append` writes into the array when the
capacity allows. The definitions below model that: memory is a list of backing
arrays, a method takes the memory and returns the new builder with the new
memory, and a builder is rendered by reading its slots from the memory. -/

namespace Go

/-- A Go slice header: the index of the backing array in the memory, the
length and the capacity. The nil slice has length and capacity 0. -/
structure Slice where
  ptr : Nat
  len : Nat
  cap : Nat
  deriving DecidableEq, Repr

/-- The nil slice. -/
def Slice.nil : Slice := ⟨0, 0, 0⟩

/-- The backing arrays of one element type; a cell that was never written
holds the zero value `none`. -/
abbrev Arrays (α : Type) := List (List (Option α))

/-- `make([]T, 0, cap)`: a new backing array of `cap` zero cells. -/
def make {α : Type} (h : Arrays α) (cap : Nat) : Slice × Arrays α :=
  (⟨h.length, 0, cap⟩, h ++ [List.replicate cap none])

/-- The elements `s[0], ..., s[len-1]` of a slice. -/
def read {α : Type} (h : Arrays α) (s : Slice) : List α :=
  ((h.getD s.ptr []).take s.len).filterMap id

/-- The capacity of the array that `append` allocates when the elements do not
fit: Go promises only "a new, sufficiently large underlying array"; here at
least the needed length and at least twice the old capacity. -/
def growCap (oldCap needed : Nat) : Nat := max needed (2 * oldCap)

/-- Go `append(s, xs...)`: when the capacity allows, the elements are written
into the backing array of `s` from index `len(s)` on, whatever other slice
shares that array; otherwise they are copied with the elements of `s` into a
new array. -/
def append {α : Type} (h : Arrays α) (s : Slice) (xs : List α) : Slice × Arrays α :=
  if xs.length = 0 then (s, h)
  else if s.len + xs.length ≤ s.cap then
    (⟨s.ptr, s.len + xs.length, s.cap⟩,
      h.modify (fun arr => arr.take s.len ++ xs.map some ++ arr.drop (s.len + xs.length)) s.ptr)
  else
    (⟨h.length, s.len + xs.length, growCap s.cap (s.len + xs.length)⟩,
      h ++ [(read h s).map some ++ xs.map some ++
        List.replicate (growCap s.cap (s.len + xs.length) - (s.len + xs.length)) none])

/-- A value of interface type `Sqlizer` as it lies in memory: a fragment that
holds no slice (its rendering is fixed), a `SelectBuilderFast` struct held by
value (its slots are slice headers), or the `aliasExpr` struct of `Alias`. -/
inductive Sqlizer where
  | value (s : Squirrel.Sqlizer)
  | selectFast (placeholderFormat : PlaceholderFormat) (prefixes options columns : Slice)
      («from» : Option Sqlizer) (joins whereParts groupBys havingParts orderByParts : Slice)
      (limit offset : Text) (suffixes : Slice)
  | aliasExpr (expr : Sqlizer) (alias_ : Text)
  deriving Repr

/-- The memory: the backing arrays of the `[]Sqlizer` slots and those of the
`[]string` slots. -/
structure Mem where
  sqlizers : Arrays Sqlizer
  strings : Arrays Text
  deriving Repr

/-- The `SelectBuilderFast` struct, select_fast.go:10-25, with its slices as
slice headers (without `runWith`). -/
structure SelectBuilderFast where
  placeholderFormat : PlaceholderFormat
  prefixes : Slice
  options : Slice
  columns : Slice
  «from» : Option Sqlizer
  joins : Slice
  whereParts : Slice
  groupBys : Slice
  havingParts : Slice
  orderByParts : Slice
  limit : Text
  offset : Text
  suffixes : Slice
  deriving Repr

/-- A `SelectBuilderFast` held in a `Sqlizer` interface: the struct is copied,
its slice headers with it. -/
def SelectBuilderFast.toSqlizer (b : SelectBuilderFast) : Sqlizer :=
  .selectFast b.placeholderFormat b.prefixes b.options b.columns b.«from» b.joins b.whereParts
    b.groupBys b.havingParts b.orderByParts b.limit b.offset b.suffixes

/-- What a fragment in memory renders as, read from the memory `m`; `fuel`
bounds the depth of nesting of builders that is followed. -/
def Sqlizer.resolve (m : Mem) : Nat → Sqlizer → Squirrel.Sqlizer
  | 0, _ => ⟨⟨[], [], some "nesting too deep"⟩, none, false⟩
  | fuel + 1, s =>
    match s with
    | .value v => v
    | .aliasExpr expr alias_ => Squirrel.Alias (resolve m fuel expr) alias_
    | .selectFast pf prefixes options columns «from» joins whereParts groupBys havingParts
        orderByParts limit offset suffixes =>
      Squirrel.SelectBuilderFast.toSqlizer
        ⟨pf, (read m.sqlizers prefixes).map (resolve m fuel), read m.strings options,
          (read m.sqlizers columns).map (resolve m fuel), «from».map (resolve m fuel),
          (read m.sqlizers joins).map (resolve m fuel),
          (read m.sqlizers whereParts).map (resolve m fuel), read m.strings groupBys,
          (read m.sqlizers havingParts).map (resolve m fuel),
          (read m.sqlizers orderByParts).map (resolve m fuel), limit, offset,
          (read m.sqlizers suffixes).map (resolve m fuel)⟩

/-- The value a builder has in the memory `m`: every slot read from its
backing array. -/
def SelectBuilderFast.view (fuel : Nat) (m : Mem) (b : SelectBuilderFast) :
    Squirrel.SelectBuilderFast :=
  ⟨b.placeholderFormat, (read m.sqlizers b.prefixes).map (Sqlizer.resolve m fuel),
    read m.strings b.options, (read m.sqlizers b.columns).map (Sqlizer.resolve m fuel),
    b.«from».map (Sqlizer.resolve m fuel),
    (read m.sqlizers b.joins).map (Sqlizer.resolve m fuel),
    (read m.sqlizers b.whereParts).map (Sqlizer.resolve m fuel), read m.strings b.groupBys,
    (read m.sqlizers b.havingParts).map (Sqlizer.resolve m fuel),
    (read m.sqlizers b.orderByParts).map (Sqlizer.resolve m fuel), b.limit, b.offset,
    (read m.sqlizers b.suffixes).map (Sqlizer.resolve m fuel)⟩

/-- `SelectBuilderFast.ToSql` called in the memory `m`. -/
def SelectBuilderFast.ToSql (fuel : Nat) (m : Mem) (b : SelectBuilderFast) : SqlResult :=
  (b.view fuel m).ToSql

/-- `SelectBuilderFast.Columns`, select_fast.go:219-226. -/
def SelectBuilderFast.Columns (m : Mem) (b : SelectBuilderFast) (columns : List Text) :
    SelectBuilderFast × Mem :=
  let r := append m.sqlizers b.columns
    (columns.map (fun str => Sqlizer.value (newPart (.str str) [])))
  ({ b with columns := r.1 }, { m with sqlizers := r.2 })

/-- `SelectBuilderFast.Where`, select_fast.go:317-323, for a predicate that
holds no slice. -/
def SelectBuilderFast.Where (m : Mem) (b : SelectBuilderFast) (pred : Pred) (args : List Arg) :
    SelectBuilderFast × Mem :=
  if pred = .nil ∨ pred = .str [] then (b, m)
  else
    let r := append m.sqlizers b.whereParts [Sqlizer.value (newWherePart pred args)]
    ({ b with whereParts := r.1 }, { m with sqlizers := r.2 })

/-- `SelectBuilderFast.PlaceholderFormat`, select_fast.go:165-168. -/
def SelectBuilderFast.PlaceholderFormat (b : SelectBuilderFast) (f : PlaceholderFormat) :
    SelectBuilderFast :=
  { b with placeholderFormat := f }

/-- `SelectBuilderFast.FromSelectFast`, select_fast.go:260-264: no slice is
written, the struct `from` is copied into the alias. -/
def SelectBuilderFast.FromSelectFast (m : Mem) (b : SelectBuilderFast)
    («from» : SelectBuilderFast) (alias_ : Text) : SelectBuilderFast × Mem :=
  ({ b with «from» := some (.aliasExpr («from».PlaceholderFormat .Question).toSqlizer alias_) }, m)

/-- `StatementBuilderType.SelectFast`, statement.go:12-14, for a statement
builder whose placeholder format is `f`: `columns` and `whereParts` are made
with capacity 10, the other slices are nil. -/
def StatementBuilderType.SelectFast (m : Mem) (f : PlaceholderFormat) (columns : List Text) :
    SelectBuilderFast × Mem :=
  let c := make m.sqlizers 10
  let w := make c.2 10
  SelectBuilderFast.Columns { m with sqlizers := w.2 }
    ⟨f, .nil, .nil, c.1, none, .nil, w.1, .nil, .nil, .nil, [], [], .nil⟩ columns

/-- `SelectFast`, statement.go:82-84. -/
def SelectFast (m : Mem) (columns : List Text) : SelectBuilderFast × Mem :=
  StatementBuilderType.SelectFast m .Question columns

/-- The program
`b := SelectFast("a"); b1 := b.Where("x = ?", 1); s1 := b1.ToSql();
 b2 := b.Where("y = ?", 2); s2 := b1.ToSql()`
run from the empty memory: the pair `(s1, s2)`. -/
def siblingsProgram : SqlResult × SqlResult :=
  let (b, m) := SelectFast ⟨[], []⟩ ["a".toList]
  let (b1, m) := b.Where m (.str "x = ?".toList) [.int 1]
  let s1 := b1.ToSql 4 m
  let (_, m) := b.Where m (.str "y = ?".toList) [.int 2]
  let s2 := b1.ToSql 4 m
  (s1, s2)

/-- The program
`b0 := SelectFast("a"); inner := b0.Where("x = ?", 1);
 b := b0.FromSelectFast(inner, "s"); s1 := b.ToSql();
 b.Where("y = ?", 2); s2 := b.ToSql()`
run from the empty memory: the pair `(s1, s2)`. -/
def receiverProgram : SqlResult × SqlResult :=
  let (b0, m) := SelectFast ⟨[], []⟩ ["a".toList]
  let (inner, m) := b0.Where m (.str "x = ?".toList) [.int 1]
  let (b, m) := b0.FromSelectFast m inner "s".toList
  let s1 := b.ToSql 4 m
  let (_, m) := b.Where m (.str "y = ?".toList) [.int 2]
  let s2 := b.ToSql 4 m
  (s1, s2)

end Go

/-! ### Markers and args -/

/-- A text without any `?`. -/
def NoMark (t : Text) : Prop := '?' ∉ t

instance : DecidablePred NoMark := fun t => by
  unfold NoMark; infer_instance

/-- A text after which the count of markers is additive: nothing appended to
it can pair with its last character into an escape. -/
def Closed (w : Text) : Prop := ∀ t, countMarkers (w ++ t) = countMarkers w + countMarkers t

/-- A render result that, when it succeeded, returns as many args as its text
has unescaped `?` markers. -/
def Balanced (r : SqlResult) : Prop := r.err = none → countMarkers r.sqlStr = r.args.length

instance : DecidablePred Balanced := fun r => by
  unfold Balanced; infer_instance

/-- A render in progress that, when it has not failed, holds as many args as
its buffer has unescaped `?` markers. -/
def BalOk (x : Render) : Prop := ∀ r, x = .ok r → countMarkers r.1 = r.2.length

/-- A SELECT whose fragments each return as many args as their text has
markers and whose plain strings (options, group-bys, limit, offset) hold no
`?`. -/
def SelectBuilderFast.WellMarked (d : SelectBuilderFast) : Prop :=
  (∀ p ∈ d.fragments, Balanced (nestedToSql p)) ∧ (∀ o ∈ d.options, NoMark o) ∧
    (∀ g ∈ d.groupBys, NoMark g) ∧ NoMark d.limit ∧ NoMark d.offset

instance : DecidablePred SelectBuilderFast.WellMarked := fun d => by
  unfold SelectBuilderFast.WellMarked; infer_instance

/-! ### DeleteBuilderFast (delete_fast.go) -/

/-- The `DeleteBuilderFast` struct, delete_fast.go:10-20 (without `runWith`). -/
structure DeleteBuilderFast where
  placeholderFormat : PlaceholderFormat
  prefixes : List Sqlizer
  «from» : Text
  whereParts : List Sqlizer
  orderBys : List Text
  limit : Text
  offset : Text
  suffixes : List Sqlizer
  deriving DecidableEq, Repr

/-- The part of `DeleteBuilderFast.ToSql` between the check and the
placeholder rewrite, delete_fast.go:35-78. -/
def DeleteBuilderFast.toSqlBody (d : DeleteBuilderFast) : Render := do
  let s ← (if d.prefixes.length > 0 then do
      let s ← appendToSql d.prefixes [] " ".toList []
      pure (s.1 ++ " ".toList, s.2)
    else pure ([], []))
  let sql := s.1 ++ "DELETE FROM ".toList ++ d.«from»
  let s ← (if d.whereParts.length > 0 then
      appendToSql d.whereParts (sql ++ " WHERE ".toList) " AND ".toList s.2
    else pure (sql, s.2))
  let sql := if d.orderBys.length > 0 then
      s.1 ++ " ORDER BY ".toList ++ ", ".toList.intercalate d.orderBys
    else s.1
  let sql := if d.limit.length > 0 then sql ++ " LIMIT ".toList ++ d.limit else sql
  let sql := if d.offset.length > 0 then sql ++ " OFFSET ".toList ++ d.offset else sql
  let s ← (if d.suffixes.length > 0 then
      appendToSql d.suffixes (sql ++ " ".toList) " ".toList s.2
    else pure (sql, s.2))
  pure s

/-- `DeleteBuilderFast.ToSql`, delete_fast.go:29-82. -/
def DeleteBuilderFast.ToSql (d : DeleteBuilderFast) : SqlResult :=
  if d.«from».length = 0 then
    ⟨[], [], some "delete statements must specify a From table"⟩
  else
    rewriteResult d.placeholderFormat (finish d.toSqlBody)

/-- A `DeleteBuilderFast` held in a `Sqlizer` interface: it has no `toSqlRaw`. -/
def DeleteBuilderFast.toSqlizer (d : DeleteBuilderFast) : Sqlizer :=
  ⟨d.ToSql, none, false⟩

/-- `DeleteBuilderFast.PlaceholderFormat`, delete_fast.go:90-93. -/
def DeleteBuilderFast.PlaceholderFormat (b : DeleteBuilderFast) (f : PlaceholderFormat) :
    DeleteBuilderFast :=
  { b with placeholderFormat := f }

/-- `DeleteBuilderFast.PrefixExpr`, delete_fast.go:119-122. -/
def DeleteBuilderFast.PrefixExpr (b : DeleteBuilderFast) (expr : Sqlizer) : DeleteBuilderFast :=
  { b with prefixes := b.prefixes ++ [expr] }

/-- `DeleteBuilderFast.Prefix`, delete_fast.go:114-116. -/
def DeleteBuilderFast.Prefix (b : DeleteBuilderFast) (sql : Text) (args : List Arg) :
    DeleteBuilderFast :=
  b.PrefixExpr (Expr sql args)

/-- `DeleteBuilderFast.From`, delete_fast.go:125-128. -/
def DeleteBuilderFast.From (b : DeleteBuilderFast) («from» : Text) : DeleteBuilderFast :=
  { b with «from» := «from» }

/-- `DeleteBuilderFast.Where`, delete_fast.go:133-136. -/
def DeleteBuilderFast.Where (b : DeleteBuilderFast) (pred : Pred) (args : List Arg) :
    DeleteBuilderFast :=
  { b with whereParts := b.whereParts ++ [newWherePart pred args] }

/-- `DeleteBuilderFast.OrderBy`, delete_fast.go:139-142. -/
def DeleteBuilderFast.OrderBy (b : DeleteBuilderFast) (orderBys : List Text) : DeleteBuilderFast :=
  { b with orderBys := b.orderBys ++ orderBys }

/-- `DeleteBuilderFast.Limit`, delete_fast.go:145-148; `limit` is a `uint64`. -/
def DeleteBuilderFast.Limit (b : DeleteBuilderFast) (limit : Nat) : DeleteBuilderFast :=
  { b with limit := Nat.toDigits 10 limit }

/-- `DeleteBuilderFast.Offset`, delete_fast.go:151-154; `offset` is a `uint64`. -/
def DeleteBuilderFast.Offset (b : DeleteBuilderFast) (offset : Nat) : DeleteBuilderFast :=
  { b with offset := Nat.toDigits 10 offset }

/-- `DeleteBuilderFast.SuffixExpr`, delete_fast.go:162-165. -/
def DeleteBuilderFast.SuffixExpr (b : DeleteBuilderFast) (expr : Sqlizer) : DeleteBuilderFast :=
  { b with suffixes := b.suffixes ++ [expr] }

/-- `DeleteBuilderFast.Suffix`, delete_fast.go:157-159. -/
def DeleteBuilderFast.Suffix (b : DeleteBuilderFast) (sql : Text) (args : List Arg) :
    DeleteBuilderFast :=
  b.SuffixExpr (Expr sql args)

/-- `StatementBuilderType.DeleteFast`, statement.go:45-47, for a statement
builder whose placeholder format is `f`. -/
def StatementBuilderType.DeleteFast (f : PlaceholderFormat) («from» : Text) : DeleteBuilderFast :=
  DeleteBuilderFast.From ⟨f, [], [], [], [], [], [], []⟩ «from»

/-- `DeleteFast`, statement.go:127-129. -/
def DeleteFast («from» : Text) : DeleteBuilderFast :=
  StatementBuilderType.DeleteFast .Question «from»

/-! ### Builders whose markers and args correspond -/

/-- A VALUES or SET value that, when it is a fragment, returns as many args as
its text has markers. -/
def Value.Balanced : Value → Prop
  | .sqlizer vs => Squirrel.Balanced vs.ToSql
  | .plain _ => True

instance : DecidablePred Value.Balanced := fun v => by
  cases v <;> unfold Value.Balanced <;> infer_instance

/-- An INSERT whose fragments and fragment values are balanced and whose plain
strings hold no `?`. -/
def InsertBuilderFast.WellMarked (d : InsertBuilderFast) : Prop :=
  (∀ p ∈ d.prefixes, Balanced (nestedToSql p)) ∧ (∀ p ∈ d.suffixes, Balanced (nestedToSql p)) ∧
    NoMark d.statementKeywordStr ∧ (∀ o ∈ d.options, NoMark o) ∧ NoMark d.into ∧
    (∀ c ∈ d.columns, NoMark c) ∧ (∀ s ∈ d.selectBuilder.toList, Balanced s.ToSql) ∧
    (∀ row ∈ d.values, ∀ v ∈ row, v.Balanced)

instance : DecidablePred InsertBuilderFast.WellMarked := fun d => by
  unfold InsertBuilderFast.WellMarked; infer_instance

/-- An UPDATE whose fragments and fragment values are balanced and whose plain
strings hold no `?`. -/
def UpdateBuilderFast.WellMarked (d : UpdateBuilderFast) : Prop :=
  (∀ p ∈ d.prefixes, Balanced (nestedToSql p)) ∧ NoMark d.table ∧
    (∀ c ∈ d.setClauses, NoMark c.column ∧ c.value.Balanced) ∧
    (∀ p ∈ d.«from».toList, Balanced (nestedToSql p)) ∧
    (∀ p ∈ d.whereParts, Balanced (nestedToSql p)) ∧ (∀ o ∈ d.orderBys, NoMark o) ∧
    NoMark d.limit ∧ NoMark d.offset ∧ (∀ p ∈ d.suffixes, Balanced (nestedToSql p))

instance : DecidablePred UpdateBuilderFast.WellMarked := fun d => by
  unfold UpdateBuilderFast.WellMarked; infer_instance

/-- A DELETE whose fragments are balanced and whose plain strings hold no `?`. -/
def DeleteBuilderFast.WellMarked (d : DeleteBuilderFast) : Prop :=
  (∀ p ∈ d.prefixes, Balanced (nestedToSql p)) ∧ NoMark d.«from» ∧
    (∀ p ∈ d.whereParts, Balanced (nestedToSql p)) ∧ (∀ o ∈ d.orderBys, NoMark o) ∧
    NoMark d.limit ∧ NoMark d.offset ∧ (∀ p ∈ d.suffixes, Balanced (nestedToSql p))

instance : DecidablePred DeleteBuilderFast.WellMarked := fun d => by
  unfold DeleteBuilderFast.WellMarked; infer_instance

/-- The test `TestDeleteBuilderFastToSql` of delete_fast_test.go. -/
def testDelete : DeleteBuilderFast :=
  DeleteFast []
    |>.Prefix "WITH prefix AS ?".toList [.int 0]
    |>.From "a".toList
    |>.Where (.str "b = ?".toList) [.int 1]
    |>.OrderBy ["c".toList]
    |>.Limit 2
    |>.Offset 3
    |>.Suffix "RETURNING ?".toList [.int 4]

/-- A text without the escape `??`. -/
def NoEscape (t : Text) : Prop := ¬ ['?', '?'] <:+: t

instance : DecidablePred NoEscape := fun t => by
  unfold NoEscape; infer_instance

/-- The test `TestSelectFastSubqueryPlaceholderNumbering`,
select_fast_test.go:250-265: a `Dollar` sub-select used as prefix fragment and
as FROM sub-select of a `Dollar` SELECT. -/
def testSubqueryNumbering : SelectBuilderFast :=
  let subquery := SelectFast ["a".toList]
    |>.Where (.str "b = ?".toList) [.int 1]
    |>.PlaceholderFormat .Dollar
  let with_ := subquery.Prefix "WITH a AS (".toList [] |>.Suffix ")".toList []
  SelectFast ["*".toList]
    |>.PrefixExpr with_.toSqlizer
    |>.FromSelectFast subquery "q".toList
    |>.Where (.str "c = ?".toList) [.int 2]
    |>.PlaceholderFormat .Dollar

/-! ### Errors of the statements -/

/-- The fragments of a DELETE, in the order of rendering: prefixes, whereParts,
suffixes. -/
def DeleteBuilderFast.fragments (d : DeleteBuilderFast) : List Sqlizer :=
  d.prefixes ++ d.whereParts ++ d.suffixes

/-- The error of the first value of the list that is a fragment and whose
`ToSql` fails, if any. -/
def firstValueError : List Value → Option String
  | [] => none
  | .plain _ :: vs => firstValueError vs
  | .sqlizer s :: vs =>
    match s.ToSql.err with
    | some e => some e
    | none => firstValueError vs

/-- The error of a loop over values, if it has failed. -/
def loopErr {α : Type} : Except String α → Option String
  | .ok _ => none
  | .error e => some e

/-- A DELETE with a table and no fragment. -/
def plainDelete : DeleteBuilderFast := DeleteFast "a".toList

/-- The error with which the body of `UpdateBuilderFast.ToSql` fails, written
from the order of rendering: the first failing fragment among the prefixes,
then among the SET values, then among from, whereParts and suffixes. -/
def UpdateBuilderFast.firstFailure (d : UpdateBuilderFast) : Option String :=
  (firstError d.prefixes).or
    ((firstValueError (d.setClauses.map (·.value))).or
      (firstError (d.«from».toList ++ d.whereParts ++ d.suffixes)))

/-- An UPDATE of the table `t` whose SET value is an UPDATE without table. -/
def updateWithTablelessValue : UpdateBuilderFast :=
  UpdateFast "t".toList
    |>.Set "x".toList (.sqlizer (UpdateFast [] |>.Set "y".toList (.plain (.int 1))).toSqlizer)

/-- The error with which the select source or the VALUES rows of an INSERT
fail: that of the select source when there is one, otherwise that of the first
failing fragment value in row-major order (insert_fast.go:94-98, 115-160). -/
def InsertBuilderFast.sourceError (d : InsertBuilderFast) : Option String :=
  match d.selectBuilder with
  | some sb => sb.ToSql.err
  | none =>
    if d.values = [] then some "values for insert statements are not set"
    else firstValueError d.values.flatten

/-- An INSERT into the table `t` whose select source is an INSERT without
table. -/
def insertWithTablelessSelect : InsertBuilderFast :=
  InsertFast "t".toList
    |>.Select (InsertFast [] |>.Values [.plain (.int 1)]).toSqlizer

/-! ### The UPDATE and INSERT skeletons in the words of the specification -/

/-- A VALUES or SET value that, when it is a fragment, renders successfully. -/
def Value.Renders : Value → Prop
  | .sqlizer vs => vs.ToSql.err = none
  | .plain _ => True

instance : DecidablePred Value.Renders := fun v => by
  cases v <;> unfold Value.Renders <;> infer_instance

/-- The args a VALUES or SET value contributes: the value itself, or the args
of the fragment. -/
def valueArgs : Value → List Arg
  | .sqlizer vs => vs.ToSql.args
  | .plain a => [a]

/-- The right-hand side of a set clause, §4.9: `?` for a value that is not a
fragment, the text of a fragment without parentheses, and the text of a SELECT
statement builder "wrapped in extra parentheses". -/
def setValueText : Value → Text
  | .plain _ => "?".toList
  | .sqlizer vs =>
    if vs.isSelectBuilder then "(".toList ++ vs.ToSql.sqlStr ++ ")".toList else vs.ToSql.sqlStr

/-- A set clause, §4.9: `col = <rhs>`. -/
def setClauseText (c : setClause) : Text := c.column ++ " = ".toList ++ setValueText c.value

/-- The fragments of an UPDATE that `appendToSql` renders, in the order of
rendering: prefixes, from, whereParts, suffixes. -/
def UpdateBuilderFast.fragments (d : UpdateBuilderFast) : List Sqlizer :=
  d.prefixes ++ d.«from».toList ++ d.whereParts ++ d.suffixes

/-- The rendering skeleton of §4.9, written from the specification. -/
def updateSkeleton (d : UpdateBuilderFast) : Text :=
  (if d.prefixes ≠ [] then " ".toList.intercalate (textsOf d.prefixes) ++ " ".toList else []) ++
  "UPDATE ".toList ++ d.table ++ " SET ".toList ++
  ", ".toList.intercalate (d.setClauses.map setClauseText) ++
  (match d.«from» with
    | some f => " FROM ".toList ++ textOf f
    | none => []) ++
  (if d.whereParts ≠ [] then
    " WHERE ".toList ++ " AND ".toList.intercalate (textsOf d.whereParts) else []) ++
  (if d.orderBys ≠ [] then " ORDER BY ".toList ++ ", ".toList.intercalate d.orderBys else []) ++
  (if d.limit ≠ [] then " LIMIT ".toList ++ d.limit else []) ++
  (if d.offset ≠ [] then " OFFSET ".toList ++ d.offset else []) ++
  (if d.suffixes ≠ [] then " ".toList ++ " ".toList.intercalate (textsOf d.suffixes) else [])

/-- The args of an UPDATE: prefix args, SET args in clause order, then the
from, where and suffix args. -/
def updateArgs (d : UpdateBuilderFast) : List Arg :=
  argsOf d.prefixes ++ d.setClauses.flatMap (fun c => valueArgs c.value) ++
    argsOf d.«from».toList ++ argsOf d.whereParts ++ argsOf d.suffixes

/-- A CASE builder without WHEN clause, given by what its `ToSql` returns
(case_fast.go:21-26); it has no `toSqlRaw` and is no `SelectBuilder`. -/
def caseWithoutWhen : Sqlizer :=
  ⟨⟨[], [], some "case expression must contain at lease one WHEN clause"⟩, none, false⟩

/-- The UPDATE `UpdateFast("t").Set("x", CaseFast())`. -/
def updateSetFailingCase : UpdateBuilderFast :=
  UpdateFast "t".toList |>.Set "x".toList (.sqlizer caseWithoutWhen)

/-- A slot of a VALUES row, §4.8: `?` for a value that is not a fragment, the
rendered text of a fragment. -/
def slotText : Value → Text
  | .plain _ => "?".toList
  | .sqlizer vs => vs.ToSql.sqlStr

/-- A VALUES row, §4.8: `(` + its slots joined by `,` + `)`. -/
def rowText (row : List Value) : Text :=
  "(".toList ++ ",".toList.intercalate (row.map slotText) ++ ")".toList

/-- The statement keyword with its blank: `INSERT ` for the empty keyword. -/
def keywordText (d : InsertBuilderFast) : Text :=
  if d.statementKeywordStr = [] then "INSERT ".toList else d.statementKeywordStr ++ " ".toList

/-- The header of an INSERT after the keyword, §4.8: options joined by space,
`INTO <into> `, optional `(col,col,...) `. -/
def insertIntoText (d : InsertBuilderFast) : Text :=
  (if d.options ≠ [] then " ".toList.intercalate d.options ++ " ".toList else []) ++
  "INTO ".toList ++ d.into ++ " ".toList ++
  (if d.columns ≠ [] then "(".toList ++ ",".toList.intercalate d.columns ++ ") ".toList else [])

/-- The header of an INSERT, §4.8: prefixes, keyword, options, into,
columns. -/
def insertHeader (d : InsertBuilderFast) : Text :=
  (if d.prefixes ≠ [] then " ".toList.intercalate (textsOf d.prefixes) ++ " ".toList else []) ++
  keywordText d ++ insertIntoText d

/-- The INSERT with VALUES rows, §4.8: header, `VALUES ` and the rows joined
by `,`, suffixes. -/
def insertValuesSkeleton (d : InsertBuilderFast) : Text :=
  insertHeader d ++ "VALUES ".toList ++ ",".toList.intercalate (d.values.map rowText) ++
  (if d.suffixes ≠ [] then " ".toList ++ " ".toList.intercalate (textsOf d.suffixes) else [])

/-- The INSERT `InsertFast("t").Values(1)` with a prefix fragment that fails:
a SELECT without columns. -/
def insertWithFailingPrefix : InsertBuilderFast :=
  InsertFast "t".toList
    |>.Values [.plain (.int 1)]
    |>.PrefixExpr (SelectFast []).toSqlizer

/-! ### SetMap -/

/-- A Go `map[string]interface{}`: its entries in the order in which `range`
visits them, which Go leaves unspecified, with distinct keys. -/
structure GoMap where
  entries : List (Text × Value)
  nodup : (entries.map Prod.fst).Nodup

/-- The keys of a map in the order in which `range` visits them. -/
def GoMap.keys (m : GoMap) : List Text := m.entries.map Prod.fst

/-- The map access `clauses[key]`: the value stored under the key, the zero
value nil for a key that is absent. -/
def GoMap.get (m : GoMap) (key : Text) : Value :=
  match m.entries.find? (fun e => e.1 = key) with
  | some e => e.2
  | none => .plain .null

/-- `sort.Strings` of the Go standard library: the strings in increasing
lexicographic order. -/
def sortStrings (keys : List Text) : List Text := keys.insertionSort (· ≤ ·)

/-- `UpdateBuilderFast.SetMap`, update_fast.go:197-210. -/
def UpdateBuilderFast.SetMap (b : UpdateBuilderFast) (clauses : GoMap) : UpdateBuilderFast :=
  let keys := sortStrings clauses.keys
  keys.foldl (fun b key => b.Set key (clauses.get key)) b

/-- `InsertBuilderFast.SetMap`, insert_fast.go:251-268. -/
def InsertBuilderFast.SetMap (b : InsertBuilderFast) (clauses : GoMap) : InsertBuilderFast :=
  let cols := sortStrings clauses.keys
  let vals := cols.map clauses.get
  { b with columns := b.columns ++ cols, values := b.values ++ [vals] }

/-- The map `{"y": 2, "x": 1}`, visited in this order. -/
def demoMap : GoMap :=
  ⟨[("y".toList, .plain (.int 2)), ("x".toList, .plain (.int 1))], by decide⟩

/-- The map `{"x": 1, "y": 2}`, visited in this order. -/
def demoMapSorted : GoMap :=
  ⟨[("x".toList, .plain (.int 1)), ("y".toList, .plain (.int 2))], by decide⟩

/-- The test `TestUpdateBuilderFastPlaceholders`, update_fast_test.go:59-67. -/
def testUpdateSetMap : UpdateBuilderFast :=
  UpdateFast "test".toList |>.SetMap demoMap

/-- The INSERT `InsertFast("t").Columns("a").Values(1).SetMap({"b": 2})`. -/
def insertSetMapAfterValues : InsertBuilderFast :=
  InsertFast "t".toList
    |>.Columns ["a".toList]
    |>.Values [.plain (.int 1)]
    |>.SetMap ⟨[("b".toList, .plain (.int 2))], by decide⟩

/-- The map `Eq{"field1": 1, "field2": 2, "field3": 3}`, visited in the order
field3, field1, field2. -/
def fieldsMap : GoMap :=
  ⟨[("field3".toList, .plain (.int 3)), ("field1".toList, .plain (.int 1)),
    ("field2".toList, .plain (.int 2))], by decide⟩

/-- The test `TestInsertFastBuilderSetMap`, insert_fast_test.go:76-87. -/
def testInsertSetMap : InsertBuilderFast :=
  InsertFast "table".toList |>.SetMap fieldsMap

/-- A value whose dynamic type implements `Sqlizer`. -/
def Value.IsFragment : Value → Prop
  | .sqlizer _ => True
  | .plain _ => False

instance : DecidablePred Value.IsFragment := fun v => by
  cases v <;> unfold Value.IsFragment <;> infer_instance

/-- The map `{"a": Expr("? + 1", 4)}`. -/
def fragmentMap : GoMap :=
  ⟨[("a".toList, .sqlizer (Expr "? + 1".toList [.int 4]))], by decide⟩

/-- The INSERT `InsertFast("t").SetMap({"a": Expr("? + 1", 4)})`. -/
def insertSetMapFragment : InsertBuilderFast :=
  InsertFast "t".toList |>.SetMap fragmentMap

/-- The select source of the test `TestInsertFastBuilderSelect`,
insert_fast_test.go:90: `SelectFast("field1").From("table1")` with the
condition `field1 = ?` on the argument 1 (the test writes it as an `Eq`, whose
declaration is not among the source files). -/
def testSelectSource : SelectBuilderFast :=
  SelectFast ["field1".toList]
    |>.From "table1".toList
    |>.Where (.str "field1 = ?".toList) [.int 1]

/-- The test `TestInsertFastBuilderSelect`, insert_fast_test.go:89-101. -/
def testInsertSelect : InsertBuilderFast :=
  InsertFast "table2".toList
    |>.Columns ["field1".toList]
    |>.Select testSelectSource.toSqlizer

/-- The builder of `TestInsertFastBuilderSelect` with two value rows set, one
before and one after the select source. -/
def insertSelectAndValues : InsertBuilderFast :=
  InsertFast "table2".toList
    |>.Columns ["field1".toList]
    |>.Values [.plain (.int 8)]
    |>.Select testSelectSource.toSqlizer
    |>.Values [.plain (.int 9)]

/-- The INSERT with a select source, §4.8: header, the text of the select
source, suffixes. -/
def insertSelectSkeleton (d : InsertBuilderFast) (sb : Sqlizer) : Text :=
  insertHeader d ++ sb.ToSql.sqlStr ++
  (if d.suffixes ≠ [] then " ".toList ++ " ".toList.intercalate (textsOf d.suffixes) else [])

/-! ### The statement keyword of INSERT and REPLACE -/

/-- A call of one of the builder methods of `InsertBuilderFast`,
insert_fast.go:175-275, with its arguments (`RunWith` sets the runner, which
plays no part in rendering and is left out of the struct). -/
inductive InsertCall where
  | PlaceholderFormat (f : Squirrel.PlaceholderFormat)
  | Prefix (sql : Text) (args : List Arg)
  | PrefixExpr (expr : Sqlizer)
  | Options (options : List Text)
  | Into (into : Text)
  | Columns (columns : List Text)
  | Values (values : List Value)
  | Suffix (sql : Text) (args : List Arg)
  | SuffixExpr (expr : Sqlizer)
  | SetMap (clauses : GoMap)
  | Select (sb : Sqlizer)

/-- The builder after a call of a builder method. -/
def InsertBuilderFast.call (b : InsertBuilderFast) : InsertCall → InsertBuilderFast
  | .PlaceholderFormat f => b.PlaceholderFormat f
  | .Prefix sql args => b.Prefix sql args
  | .PrefixExpr expr => b.PrefixExpr expr
  | .Options options => b.Options options
  | .Into into => b.Into into
  | .Columns columns => b.Columns columns
  | .Values values => b.Values values
  | .Suffix sql args => b.Suffix sql args
  | .SuffixExpr expr => b.SuffixExpr expr
  | .SetMap clauses => b.SetMap clauses
  | .Select sb => b.Select sb

/-- The builder after a chain of calls, each on the result of the one before. -/
def InsertBuilderFast.chain (b : InsertBuilderFast) (calls : List InsertCall) :
    InsertBuilderFast :=
  calls.foldl InsertBuilderFast.call b

/-- A render in progress with the text `w` written before its buffer. -/
def prepend (w : Text) : Render → Render
  | .ok (u, args) => .ok (w ++ u, args)
  | .error e => .error e

/-- The statements of `InsertBuilderFast.ToSql` that render the prefixes,
insert_fast.go:63-70. -/
def InsertBuilderFast.toSqlPrefixes (d : InsertBuilderFast) : Render :=
  if d.prefixes.length > 0 then do
    let s ← appendToSql d.prefixes [] " ".toList []
    pure (s.1 ++ " ".toList, s.2)
  else pure ([], [])

/-- The statements of `InsertBuilderFast.ToSql` after the statement keyword,
insert_fast.go:79-107, on the buffer `sql` and the args `args`. -/
def InsertBuilderFast.toSqlTail (d : InsertBuilderFast) (sql : Text) (args : List Arg) :
    Render := do
  let sql := if d.options.length > 0 then
      sql ++ " ".toList.intercalate d.options ++ " ".toList
    else sql
  let sql := sql ++ "INTO ".toList ++ d.into ++ " ".toList
  let sql := if d.columns.length > 0 then
      sql ++ "(".toList ++ ",".toList.intercalate d.columns ++ ") ".toList
    else sql
  let s ← (if d.selectBuilder ≠ none then d.appendSelectToSQL sql args
    else d.appendValuesToSQL sql args)
  let s ← (if d.suffixes.length > 0 then
      appendToSql d.suffixes (s.1 ++ " ".toList) " ".toList s.2
    else pure s)
  pure s

/-- The test `TestInsertFastBuilderReplace`, insert_fast_test.go:103-112. -/
def testReplace : InsertBuilderFast :=
  ReplaceFast "table".toList |>.Values [.plain (.int 1)]

/-! ### The DELETE skeleton in the words of the specification -/

/-- The rendering skeleton of a DELETE, §4.10 ("the obvious skeleton"):
`[prefixes ' '] DELETE FROM from [ WHERE ...] [ ORDER BY ...] [ LIMIT n]
[ OFFSET n] [' ' suffixes]`, each group present exactly when its slot is
non-empty. -/
def deleteSkeleton (d : DeleteBuilderFast) : Text :=
  (if d.prefixes ≠ [] then " ".toList.intercalate (textsOf d.prefixes) ++ " ".toList else []) ++
  "DELETE FROM ".toList ++ d.«from» ++
  (if d.whereParts ≠ [] then
    " WHERE ".toList ++ " AND ".toList.intercalate (textsOf d.whereParts) else []) ++
  (if d.orderBys ≠ [] then " ORDER BY ".toList ++ ", ".toList.intercalate d.orderBys else []) ++
  (if d.limit ≠ [] then " LIMIT ".toList ++ d.limit else []) ++
  (if d.offset ≠ [] then " OFFSET ".toList ++ d.offset else []) ++
  (if d.suffixes ≠ [] then " ".toList ++ " ".toList.intercalate (textsOf d.suffixes) else [])

/-! ### CaseBuilderFast (case_fast.go) -/

/-- Modelled from the spec: the `whenPart` type, "a helper structure to
describe SQLs WHEN ... THEN ... expression" (case_fast.go:10; its declaration
is not among the source files). §3: a pair `(when_fragment, then_fragment)`. -/
structure whenPart where
  when : Sqlizer
  «then» : Sqlizer
  deriving DecidableEq, Repr

/-- Modelled from the spec: `newWhenPart(when, then)` (not among the source
files): the two values wrapped as parts, as `what` and `Else` wrap theirs
(case_fast.go:65, 77). -/
def newWhenPart (when «then» : Pred) : whenPart :=
  ⟨newPart when [], newPart «then» []⟩

/-- Modelled from the spec: the `sqlizerBuffer` helper "that allows to write
many Sqlizers one by one without constant checks for errors that may come from
Sqlizer" (case_fast.go:7-8; its declaration is not among the source files):
the text written so far, the args collected so far and the first error. -/
structure sqlizerBuffer where
  buf : Text
  args : List Arg
  err : Option String
  deriving DecidableEq, Repr

/-- Modelled from the spec: `sqlizerBuffer.WriteString`, the write of the
embedded buffer. -/
def sqlizerBuffer.WriteString (b : sqlizerBuffer) (s : Text) : sqlizerBuffer :=
  { b with buf := b.buf ++ s }

/-- Modelled from the spec: `sqlizerBuffer.WriteSql(item)`. §4.6: a fragment
is written as its text and a space ("subject text+space", and a space after
the text of the condition, of the result and of the ELSE expression); §4.1:
"the first sub-fragment that fails aborts the enclosing render and surfaces
its error unchanged": after an error no fragment is rendered any more. The
fragment is rendered as a nested fragment. -/
def sqlizerBuffer.WriteSql (b : sqlizerBuffer) (item : Sqlizer) : sqlizerBuffer :=
  match b.err with
  | some _ => b
  | none =>
    match (nestedToSql item).err with
    | some e => { b with err := some e }
    | none =>
      { b with buf := b.buf ++ (nestedToSql item).sqlStr ++ " ".toList, args := b.args ++ (nestedToSql item).args }

/-- Modelled from the spec: `sqlizerBuffer.ToSql`: the text, the args and the
error of the buffer. -/
def sqlizerBuffer.ToSql (b : sqlizerBuffer) : SqlResult :=
  ⟨b.buf, b.args, b.err⟩

/-- The `CaseBuilderFast` struct, case_fast.go:13-17; a nil `Sqlizer` is
`none`. -/
structure CaseBuilderFast where
  whatSqlizer : Option Sqlizer
  whenParts : List whenPart
  elseSqlizer : Option Sqlizer
  deriving DecidableEq, Repr

/-- The body of the loop of `CaseBuilderFast.ToSql`, case_fast.go:34-39. -/
def writeWhenPart (sql : sqlizerBuffer) (p : whenPart) : sqlizerBuffer :=
  (((sql.WriteString "WHEN ".toList).WriteSql p.when).WriteString "THEN ".toList).WriteSql p.«then»

/-- `CaseBuilderFast.ToSql`, case_fast.go:20-49. -/
def CaseBuilderFast.ToSql (d : CaseBuilderFast) : SqlResult :=
  if d.whenParts.length = 0 then
    ⟨[], [], some "case expression must contain at lease one WHEN clause"⟩
  else
    let sql : sqlizerBuffer := ⟨[], [], none⟩
    let sql := sql.WriteString "CASE ".toList
    let sql := match d.whatSqlizer with
      | some what => sql.WriteSql what
      | none => sql
    let sql := d.whenParts.foldl writeWhenPart sql
    let sql := match d.elseSqlizer with
      | some e => (sql.WriteString "ELSE ".toList).WriteSql e
      | none => sql
    let sql := sql.WriteString "END".toList
    sql.ToSql

/-- A `CaseBuilderFast` held in a `Sqlizer` interface: it has no `toSqlRaw`. -/
def CaseBuilderFast.toSqlizer (d : CaseBuilderFast) : Sqlizer :=
  ⟨d.ToSql, none, false⟩

/-- `CaseBuilderFast.what`, case_fast.go:64-67. -/
def CaseBuilderFast.what (b : CaseBuilderFast) (expr : Pred) : CaseBuilderFast :=
  { b with whatSqlizer := some (newPart expr []) }

/-- `CaseBuilderFast.When`, case_fast.go:70-73. -/
def CaseBuilderFast.When (b : CaseBuilderFast) (when «then» : Pred) : CaseBuilderFast :=
  { b with whenParts := b.whenParts ++ [newWhenPart when «then»] }

/-- `CaseBuilderFast.Else`, case_fast.go:76-79. -/
def CaseBuilderFast.Else (b : CaseBuilderFast) (expr : Pred) : CaseBuilderFast :=
  { b with elseSqlizer := some (newPart expr []) }

/-- `CaseFast(what...)`, statement.go:146-158: no argument (`none`), one
argument, or a first argument with further arguments, which are wrapped
together as a part. -/
def CaseFast (what : Option (Pred × List Arg)) : CaseBuilderFast :=
  let b : CaseBuilderFast := ⟨none, [], none⟩
  match what with
  | none => b
  | some (w, []) => b.what w
  | some (w, rest) => b.what (.sqlizer (newPart w rest))

/-- The test `TestCaseFastWithVal`, case_fast_test.go:9-32. -/
def testCaseWithVal : SelectBuilderFast :=
  let caseStmt := CaseFast (some (.str "number".toList, []))
    |>.When (.str "1".toList) (.str "one".toList)
    |>.When (.str "2".toList) (.str "two".toList)
    |>.Else (.sqlizer (Expr "?".toList [.str "big number"]))
  SelectFast []
    |>.Column (.sqlizer caseStmt.toSqlizer) []
    |>.From "table".toList

/-- The test `TestCaseFastWithComplexVal`, case_fast_test.go:34-53. -/
def testCaseWithComplexVal : SelectBuilderFast :=
  let caseStmt := CaseFast (some (.str "? > ?".toList, [.int 10, .int 5]))
    |>.When (.str "true".toList) (.str "'T'".toList)
  SelectFast []
    |>.Column (.sqlizer (Alias caseStmt.toSqlizer "complexCase".toList)) []
    |>.From "table".toList

/-- The CASE of the test `TestCaseFastWithNoVal`, case_fast_test.go:56-58;
the predicate `Eq{"x": 0}` is given as the fragment it renders to. -/
def caseWithNoVal : CaseBuilderFast :=
  CaseFast none
    |>.When (.sqlizer (Expr "x = ?".toList [.int 0])) (.str "x is zero".toList)
    |>.When (.sqlizer (Expr "x > ?".toList [.int 1]))
      (.sqlizer (Expr "CONCAT('x is greater than ', ?)".toList [.int 2]))

/-- The test `TestCaseFastWithNoVal`, case_fast_test.go:55-75. -/
def testCaseWithNoVal : SelectBuilderFast :=
  SelectFast []
    |>.Column (.sqlizer caseWithNoVal.toSqlizer) []
    |>.From "table".toList

/-- The CASE of the test `TestCaseFastWithNoWhenClause`,
case_fast_test.go:131-132. -/
def caseWithNoWhen : CaseBuilderFast :=
  CaseFast (some (.str "something".toList, [])) |>.Else (.str "42".toList)

/-- The test `TestCaseFastWithNoWhenClause`, case_fast_test.go:130-141. -/
def testCaseWithNoWhenClause : SelectBuilderFast :=
  SelectFast []
    |>.Column (.sqlizer caseWithNoWhen.toSqlizer) []
    |>.From "table".toList

/-- A CASE with one WHEN pair whose condition is a CASE without WHEN:
`CaseFast().When(CaseFast(), "1")`. -/
def caseWithFailingWhen : CaseBuilderFast :=
  CaseFast none |>.When (.sqlizer (CaseFast none).toSqlizer) (.str "1".toList)

/-- The fragments of a CASE in the order of rendering: the subject, the
condition and the result of each WHEN pair, the ELSE expression. -/
def CaseBuilderFast.fragments (d : CaseBuilderFast) : List Sqlizer :=
  d.whatSqlizer.toList ++ d.whenParts.flatMap (fun p => [p.when, p.«then»]) ++
    d.elseSqlizer.toList

/-- A WHEN pair, §4.6: `"WHEN " when_text " THEN " then_text " "`. -/
def whenText (p : whenPart) : Text :=
  "WHEN ".toList ++ textOf p.when ++ " THEN ".toList ++ textOf p.«then» ++ " ".toList

/-- The args of a WHEN pair: those of the condition, then those of the
result. -/
def whenArgs (p : whenPart) : List Arg :=
  (nestedToSql p.when).args ++ (nestedToSql p.«then»).args

/-- The rendering order of §4.6, written from the specification: `"CASE "`,
subject text and space (if present), the WHEN pairs, `"ELSE " else_text " "`
(if present), `"END"`. -/
def caseSkeleton (d : CaseBuilderFast) : Text :=
  "CASE ".toList ++
  (match d.whatSqlizer with
    | some what => textOf what ++ " ".toList
    | none => []) ++
  (d.whenParts.map whenText).flatten ++
  (match d.elseSqlizer with
    | some e => "ELSE ".toList ++ textOf e ++ " ".toList
    | none => []) ++
  "END".toList

/-- The args of a CASE: those of the subject, of the WHEN pairs in insertion
order, then of the ELSE expression. -/
def caseArgs (d : CaseBuilderFast) : List Arg :=
  argsOf d.whatSqlizer.toList ++ d.whenParts.flatMap whenArgs ++ argsOf d.elseSqlizer.toList

/-! ### MustSql -/

/-- The outcome of a call of `MustSql`: the two values it returns, or the
panic with the value it carries. -/
inductive MustResult where
  | returned (sql : Text) (args : List Arg)
  | panicked (err : String)
  deriving DecidableEq, Repr

/-- `CaseBuilderFast.MustSql`, case_fast.go:55-61. -/
def CaseBuilderFast.MustSql (b : CaseBuilderFast) : MustResult :=
  match b.ToSql.err with
  | some err => .panicked err
  | none => .returned b.ToSql.sqlStr b.ToSql.args

/-- `SelectBuilderFast.MustSql`, select_fast.go:188-194. -/
def SelectBuilderFast.MustSql (b : SelectBuilderFast) : MustResult :=
  match b.ToSql.err with
  | some err => .panicked err
  | none => .returned b.ToSql.sqlStr b.ToSql.args

/-- `InsertBuilderFast.MustSql`, insert_fast.go:195-201. -/
def InsertBuilderFast.MustSql (b : InsertBuilderFast) : MustResult :=
  match b.ToSql.err with
  | some err => .panicked err
  | none => .returned b.ToSql.sqlStr b.ToSql.args

/-- `UpdateBuilderFast.MustSql`, update_fast.go:165-171. -/
def UpdateBuilderFast.MustSql (b : UpdateBuilderFast) : MustResult :=
  match b.ToSql.err with
  | some err => .panicked err
  | none => .returned b.ToSql.sqlStr b.ToSql.args

/-- `DeleteBuilderFast.MustSql`, delete_fast.go:105-111. -/
def DeleteBuilderFast.MustSql (b : DeleteBuilderFast) : MustResult :=
  match b.ToSql.err with
  | some err => .panicked err
  | none => .returned b.ToSql.sqlStr b.ToSql.args

/-- What the claim says of `MustSql` with respect to the result `r` of
`ToSql`: it panics, carrying the error of `r`, exactly when `r` holds an
error, and otherwise returns exactly the text and the args of `r`. -/
def PanicsExactlyOnError (r : SqlResult) (m : MustResult) : Prop :=
  (∀ e, m = .panicked e ↔ r.err = some e) ∧
    (r.err = none → m = .returned r.sqlStr r.args) ∧
    (∀ sql args, m = .returned sql args → r = ⟨sql, args, none⟩)

/-! ### Nil and empty predicates -/

/-- The test `TestSelectFastWithNilWhereClause`, select_fast_test.go:238-242. -/
def testNilWhere : SelectBuilderFast :=
  SelectFast ["*".toList] |>.From "users".toList |>.Where .nil []

/-- The test `TestSelectFastWithEmptyStringWhereClause`,
select_fast_test.go:244-248. -/
def testEmptyWhere : SelectBuilderFast :=
  SelectFast ["*".toList] |>.From "users".toList |>.Where (.str []) []

/-- The SELECT `SelectFast("a").Having(nil)`. -/
def selectHavingNil : SelectBuilderFast :=
  SelectFast ["a".toList] |>.Having .nil []

/-- The SELECT `SelectFast("a").Having("")`. -/
def selectHavingEmpty : SelectBuilderFast :=
  SelectFast ["a".toList] |>.Having (.str []) []

/-- The SELECT `SelectFast("a").Having(nil).Having("m = n")`. -/
def selectHavingNilFirst : SelectBuilderFast :=
  SelectFast ["a".toList] |>.Having .nil [] |>.Having (.str "m = n".toList) []

/-- The DELETE `DeleteFast("a").Where(nil)`. -/
def deleteWhereNil : DeleteBuilderFast :=
  DeleteFast "a".toList |>.Where .nil []

/-- The DELETE `DeleteFast("a").Where("")`. -/
def deleteWhereEmpty : DeleteBuilderFast :=
  DeleteFast "a".toList |>.Where (.str []) []

/-- The UPDATE `UpdateFast("a").Set("b", 1)`. -/
def updateSetOne : UpdateBuilderFast :=
  UpdateFast "a".toList |>.Set "b".toList (.plain (.int 1))

/-- The UPDATE `UpdateFast("a").Set("b", 1).Where(nil)`. -/
def updateWhereNil : UpdateBuilderFast :=
  updateSetOne.Where .nil []

/-- The UPDATE `UpdateFast("a").Set("b", 1).Where("")`. -/
def updateWhereEmpty : UpdateBuilderFast :=
  updateSetOne.Where (.str []) []

/-! ### The placeholder rewrite in the words of the specification -/

/-- The pieces with the markers between them: piece, marker, piece, marker,
..., piece. -/
def interleave : List Text → List Text → Text
  | [], _ => []
  | s :: ss, [] => s ++ ss.flatten
  | s :: ss, m :: ms => s ++ m ++ interleave ss ms

/-- The markers of a positional format for the positions 1 to `n`: the
marker text `p` followed by the decimal numeral of the position. -/
def positionalMarkers (p : Text) (n : Nat) : List Text :=
  (List.range' 1 n).map (fun k => p ++ Nat.toDigits 10 k)

/-- The text in which the k-th unescaped `?` of `s` (k = 1..n, left to right)
is replaced by `p` followed by the decimal numeral of k, every `??` by a
single `?`, and every other character is kept. -/
def positionalText (p : Text) (s : Text) : Text :=
  interleave (segments s) (positionalMarkers p (countMarkers s))

/-- The text with every `??` collapsed to a single `?` and every other
character, the unescaped `?` included, kept. -/
def collapseEscapes : Text → Text
  | [] => []
  | '?' :: '?' :: rest => '?' :: collapseEscapes rest
  | c :: rest => c :: collapseEscapes rest

/-- Modelled from the spec: `replacePositionalPlaceholdersFast(sql, prefix)`
(not among the source files; placeholder_test.go:56-67 tests it): the pass of
§4.2 with the counter at `n`, for the marker text `pre` followed by the
decimal position. -/
def replacePositionalFrom (pre : Text) : Nat → Text → Text
  | _, [] => []
  | n, '?' :: '?' :: rest => '?' :: replacePositionalFrom pre n rest
  | n, '?' :: rest => pre ++ Nat.toDigits 10 n ++ replacePositionalFrom pre (n + 1) rest
  | n, c :: rest => c :: replacePositionalFrom pre n rest

/-- Modelled from the spec: `replacePositionalPlaceholdersFast(sql, prefix)`,
see `replacePositionalFrom`; the counter starts at 1 and there is no failing
case. -/
def replacePositionalPlaceholdersFast (sql pre : Text) : Text × Option String :=
  (replacePositionalFrom pre 1 sql, none)

/-- The query of the tests `TestEscapeDollar`, `TestEscapeColon` and
`TestEscapeAtp`, placeholder_test.go:38-54. -/
def escapeQuery : Text :=
  ("SELECT uuid, \"data\" #> '\x7btags\x7d' AS tags FROM nodes WHERE  \"data\" -> 'tags' ??| " ++
    "array['?'] AND enabled = ?").toList

/-- The text the escape tests expect, with the two markers as parameters. -/
def escapeExpected (m1 m2 : String) : Text :=
  ("SELECT uuid, \"data\" #> '\x7btags\x7d' AS tags FROM nodes WHERE  \"data\" -> 'tags' ?| " ++
    "array['" ++ m1 ++ "'] AND enabled = " ++ m2).toList

/-- The test `TestDeleteBuilderFastPlaceholders`, delete_fast_test.go:46-54. -/
def testDeletePlaceholders : DeleteBuilderFast :=
  DeleteFast "test".toList |>.Where (.str "x = ? AND y = ?".toList) [.int 1, .int 2]

/-- The first query of the test `TestReplacePositionalPlaceholdersFast`,
placeholder_test.go:61. -/
def positionalQuery : Text :=
  ("SELECT \"TestBS\".\"id\" AS \"Id\", \"TestBS\".\"a_id\" AS \"AId\", \"" ++
    "TestBS\".\"name\" AS\"Name\", \"TestBS\".\"int4\" AS \"Int4\", \"TestB" ++
    "S\".\"int8\" AS \"Int8\", \"TestBS\".\"float4\"AS \"Float4\", \"TestBS" ++
    "\".\"float8\" AS \"Float8\", \"TestBS\".\"bool\" AS \"Bool\", \"TestBS" ++
    "\".\"text\" AS \"Text\", \"TestBS\".\"time\" AS \"Time\" FROM \"prefor" ++
    "m_benchmark\".\"test_b\" AS \"TestBS\" WHERE (\"TestBS\".\"a_id\" IN (" ++
    "'??',?,?,?))??").toList

/-- The text the test expects for the first query, placeholder_test.go:63. -/
def positionalExpected : Text :=
  ("SELECT \"TestBS\".\"id\" AS \"Id\", \"TestBS\".\"a_id\" AS \"AId\", \"" ++
    "TestBS\".\"name\" AS\"Name\", \"TestBS\".\"int4\" AS \"Int4\", \"TestB" ++
    "S\".\"int8\" AS \"Int8\", \"TestBS\".\"float4\"AS \"Float4\", \"TestBS" ++
    "\".\"float8\" AS \"Float8\", \"TestBS\".\"bool\" AS \"Bool\", \"TestBS" ++
    "\".\"text\" AS \"Text\", \"TestBS\".\"time\" AS \"Time\" FROM \"prefor" ++
    "m_benchmark\".\"test_b\" AS \"TestBS\" WHERE (\"TestBS\".\"a_id\" IN (" ++
    "'?',$1,$2,$3))?").toList

/-- The second query of the test, placeholder_test.go:64. -/
def positionalQuery2 : Text :=
  ("SELECT * FROM \"preform_benchmark\".\"test_b\" AS \"TestBS\" WHERE \"T" ++
    "estBS\".\"a_id\" > ?").toList

/-- The text the test expects for the second query, placeholder_test.go:66. -/
def positionalExpected2 : Text :=
  ("SELECT * FROM \"preform_benchmark\".\"test_b\" AS \"TestBS\" WHERE \"T" ++
    "estBS\".\"a_id\" > $1").toList

/-! ### Builder methods of SELECT: removal and accumulation -/

/-- The parts that `Columns` makes of its strings, select_fast.go:220-223. -/
def columnParts (columns : List Text) : List Sqlizer :=
  columns.map (fun str => newPart (.str str) [])

/-- The test `TestRemoveColumnsFast`, select_fast_test.go:455-463. -/
def testRemoveColumns : SelectBuilderFast :=
  SelectFast ["id".toList]
    |>.From "users".toList
    |>.RemoveColumns
    |>.Columns ["name".toList]

/-- The test `TestSelectFastWithRemoveLimit`, select_fast_test.go:198-203. -/
def testRemoveLimit : SelectBuilderFast :=
  SelectFast ["*".toList] |>.From "foo".toList |>.Limit 10 |>.RemoveLimit

/-- The test `TestSelectFastWithRemoveOffset`, select_fast_test.go:205-210. -/
def testRemoveOffset : SelectBuilderFast :=
  SelectFast ["*".toList] |>.From "foo".toList |>.Offset 10 |>.RemoveOffset

/-- The example `ExampleSelectBuilderFast_Columns_order`,
select_fast_test.go:371-378. -/
def exampleColumnsOrder : SelectBuilderFast :=
  SelectFast ["id".toList]
    |>.Columns ["created".toList]
    |>.From "users".toList
    |>.Columns ["first_name".toList]

/-- The join clause of the test
`TestSelectFastJoinClausePlaceholderNumbering`, select_fast_test.go:283-289:
the sub-select with its prefix and suffix; the predicate `Eq{"b": 2}` is given
as the fragment it renders to. -/
def joinSubquery : Sqlizer :=
  (SelectFast ["a".toList]
    |>.Where (.sqlizer (Expr "b = ?".toList [.int 2])) []
    |>.PlaceholderFormat .Dollar
    |>.Prefix "JOIN (".toList []
    |>.Suffix ") t2 ON (t1.a = t2.a)".toList []).toSqlizer

/-- The test `TestSelectFastJoinClausePlaceholderNumbering`,
select_fast_test.go:282-296: `Where` is called before `JoinClause`. -/
def testJoinClauseNumbering : SelectBuilderFast :=
  SelectFast ["t1.a".toList]
    |>.From "t1".toList
    |>.Where (.sqlizer (Expr "a = ?".toList [.int 1])) []
    |>.JoinClause (.sqlizer joinSubquery) []
    |>.PlaceholderFormat .Dollar

/-- The builder of the test with `JoinClause` called before `Where`. -/
def testJoinClauseFirst : SelectBuilderFast :=
  SelectFast ["t1.a".toList]
    |>.From "t1".toList
    |>.JoinClause (.sqlizer joinSubquery) []
    |>.Where (.sqlizer (Expr "a = ?".toList [.int 1])) []
    |>.PlaceholderFormat .Dollar

/-- The builder `SelectFast("id").From("users")` of `TestRemoveColumnsFast`. -/
def idFromUsers : SelectBuilderFast :=
  SelectFast ["id".toList] |>.From "users".toList

/-- The LIMIT group of a statement: ` LIMIT ` and the text of the limit slot,
present exactly when the slot is non-empty. -/
def limitGroup (limit : Text) : Text :=
  if limit ≠ [] then " LIMIT ".toList ++ limit else []

/-- The OFFSET group of a statement: ` OFFSET ` and the text of the offset
slot, present exactly when the slot is non-empty. -/
def offsetGroup (offset : Text) : Text :=
  if offset ≠ [] then " OFFSET ".toList ++ offset else []

/-- The suffix group of a statement: a blank and the suffixes joined by
blanks, present exactly when there are suffixes. -/
def suffixGroup (suffixes : List Sqlizer) : Text :=
  if suffixes ≠ [] then " ".toList ++ " ".toList.intercalate (textsOf suffixes) else []

/-- The skeleton of a SELECT, §4.7, up to its ORDER BY group. -/
def selectUpToOrderBy (d : SelectBuilderFast) : Text :=
  (if d.prefixes ≠ [] then " ".toList.intercalate (textsOf d.prefixes) ++ " ".toList else []) ++
  "SELECT ".toList ++
  (if d.options ≠ [] then " ".toList.intercalate d.options ++ " ".toList else []) ++
  ", ".toList.intercalate (textsOf d.columns) ++
  (match d.«from» with
    | some f => " FROM ".toList ++ textOf f
    | none => []) ++
  (if d.joins ≠ [] then " ".toList ++ " ".toList.intercalate (textsOf d.joins) else []) ++
  (if d.whereParts ≠ [] then
    " WHERE ".toList ++ " AND ".toList.intercalate (textsOf d.whereParts) else []) ++
  (if d.groupBys ≠ [] then " GROUP BY ".toList ++ ", ".toList.intercalate d.groupBys else []) ++
  (if d.havingParts ≠ [] then
    " HAVING ".toList ++ " AND ".toList.intercalate (textsOf d.havingParts) else []) ++
  (if d.orderByParts ≠ [] then
    " ORDER BY ".toList ++ ", ".toList.intercalate (textsOf d.orderByParts) else [])

/-- The skeleton of an UPDATE, §4.9, up to its ORDER BY group. -/
def updateUpToOrderBy (d : UpdateBuilderFast) : Text :=
  (if d.prefixes ≠ [] then " ".toList.intercalate (textsOf d.prefixes) ++ " ".toList else []) ++
  "UPDATE ".toList ++ d.table ++ " SET ".toList ++
  ", ".toList.intercalate (d.setClauses.map setClauseText) ++
  (match d.«from» with
    | some f => " FROM ".toList ++ textOf f
    | none => []) ++
  (if d.whereParts ≠ [] then
    " WHERE ".toList ++ " AND ".toList.intercalate (textsOf d.whereParts) else []) ++
  (if d.orderBys ≠ [] then " ORDER BY ".toList ++ ", ".toList.intercalate d.orderBys else [])

/-- The skeleton of a DELETE, §4.10, up to its ORDER BY group. -/
def deleteUpToOrderBy (d : DeleteBuilderFast) : Text :=
  (if d.prefixes ≠ [] then " ".toList.intercalate (textsOf d.prefixes) ++ " ".toList else []) ++
  "DELETE FROM ".toList ++ d.«from» ++
  (if d.whereParts ≠ [] then
    " WHERE ".toList ++ " AND ".toList.intercalate (textsOf d.whereParts) else []) ++
  (if d.orderBys ≠ [] then " ORDER BY ".toList ++ ", ".toList.intercalate d.orderBys else [])

/-! ### The result of `ToSql` before the placeholder rewrite -/

/-- What `InsertBuilderFast.ToSql` holds before its last statement, the
placeholder rewrite: the result of an early return, or the buffer and the
args (insert_fast.go:51-109). -/
def InsertBuilderFast.toSqlBeforeRewrite (d : InsertBuilderFast) : SqlResult :=
  if d.into.length = 0 then
    ⟨[], [], some "insert statements must specify a table"⟩
  else if d.values.length = 0 ∧ d.selectBuilder = none then
    ⟨[], [], some "insert statements must have at least one set of values or select clause"⟩
  else
    finish d.toSqlBody

/-- What `UpdateBuilderFast.ToSql` holds before its last statement, the
placeholder rewrite (update_fast.go:49-139). -/
def UpdateBuilderFast.toSqlBeforeRewrite (d : UpdateBuilderFast) : SqlResult :=
  if d.table.length = 0 then
    ⟨[], [], some "update statements must specify a table"⟩
  else if d.setClauses.length = 0 then
    ⟨[], [], some "update statements must have at least one Set clause"⟩
  else
    finish d.toSqlBody

/-- What `DeleteBuilderFast.ToSql` holds before its last statement, the
placeholder rewrite (delete_fast.go:29-78). -/
def DeleteBuilderFast.toSqlBeforeRewrite (d : DeleteBuilderFast) : SqlResult :=
  if d.«from».length = 0 then
    ⟨[], [], some "delete statements must specify a From table"⟩
  else
    finish d.toSqlBody

/-- The test `TestInsertFastBuilderPlaceholders`, insert_fast_test.go:49-57. -/
def testInsertPlaceholders : InsertBuilderFast :=
  InsertFast "test".toList |>.Values [.plain (.int 1), .plain (.int 2)]

/-! ### The first failing fragment -/

/-- The error with which the body of `InsertBuilderFast.ToSql` fails, written
from the order of rendering: the first failing fragment among the prefixes,
then the select source or, without one, the first failing fragment value in
row-major order, then the first failing fragment among the suffixes. -/
def InsertBuilderFast.firstFailure (d : InsertBuilderFast) : Option String :=
  (firstError d.prefixes).or
    ((match d.selectBuilder with
      | some sb => sb.ToSql.err
      | none => firstValueError d.values.flatten).or (firstError d.suffixes))

/-- A DELETE whose where part is a SELECT without columns. -/
def deleteWithFailingWhere : DeleteBuilderFast :=
  DeleteFast "a".toList |>.Where (.sqlizer (SelectFast []).toSqlizer) []

/-- The INSERT `InsertFast("t").Options("IGNORE").Columns("a", "b").Values(1, 2).Values(3, nil)`:
two rows of values that are not fragments. -/
def insertTwoRows : InsertBuilderFast :=
  InsertFast "t".toList
    |>.Options ["IGNORE".toList]
    |>.Columns ["a".toList, "b".toList]
    |>.Values [.plain (.int 1), .plain (.int 2)]
    |>.Values [.plain (.int 3), .plain .null]

/-! ### Runners -/

/-- Modelled from the spec: the errors of the execution side, §6 and §7. The
three sentinels `RunnerNotSet`, `RunnerNotQueryRunner` and `NoContextSupport`
are declared outside the source files and the tests compare them by identity
(select_fast_test.go:134-144); every other error is given by its message. -/
inductive RunError where
  | RunnerNotSet
  | RunnerNotQueryRunner
  | NoContextSupport
  | other (msg : String)
  deriving DecidableEq, Repr

/-- A `sql.Result`, given by the number of rows affected. -/
abbrev ExecResult := Nat

/-- The rows behind a `*sql.Rows`. -/
abbrev Rows := List (List Arg)

/-- A `context.Context`; it is handed to the runner as it is. -/
abbrev Context := Unit

/-- Modelled from the spec: the `RowScanner` interface, §6 ("Row-queryer:
`QueryRow(sql, args…) → scanner`"), given by what its `Scan` returns. -/
structure RowScanner where
  Scan : Option RunError

/-- Modelled from the spec: a `BaseRunner`, §6: an executor and a queryer. The
other adapters are the interfaces a type assertion on the runner asks for
(`QueryRower`, `ExecerContext`, `QueryerContext`, `QueryRowerContext`): a
runner has their method or not. -/
structure BaseRunner where
  Exec : Text → List Arg → Option ExecResult × Option RunError
  Query : Text → List Arg → Option Rows × Option RunError
  QueryRow : Option (Text → List Arg → RowScanner)
  ExecContext : Option (Context → Text → List Arg → Option ExecResult × Option RunError)
  QueryContext : Option (Context → Text → List Arg → Option Rows × Option RunError)
  QueryRowContext : Option (Context → Text → List Arg → RowScanner)

/-- Modelled from the spec: the `Row` struct behind the `RowScanner` that
`QueryRow` returns (not among the source files): a scanner, nil in a row
that is built with an error only, and an error. -/
structure Row where
  scanner : Option RowScanner
  err : Option RunError

/-- What a call of `Row.Scan` does: it returns an error or nil, or it panics. -/
inductive ScanOutcome where
  | returned (err : Option RunError)
  | panicked
  deriving DecidableEq, Repr

/-- Modelled from the spec: `Row.Scan` (not among the source files;
select_fast_test.go:143-144 pins that the error of the row is returned): the
error of the row when it has one, else what the scanner returns; a nil scanner
is dereferenced. -/
def Row.Scan (r : Row) : ScanOutcome :=
  match r.err with
  | some e => .returned (some e)
  | none =>
    match r.scanner with
    | some s => .returned s.Scan
    | none => .panicked

/-- Modelled from the spec: `ExecWith(db, s)` (not among the source files;
select_fast_test.go:119-121 pins that the runner receives the rendered
statement): render, return the error of rendering, else run the statement. -/
def ExecWith (db : Text → List Arg → Option ExecResult × Option RunError) (s : Sqlizer) :
    Option ExecResult × Option RunError :=
  match s.ToSql.err with
  | some e => (none, some (.other e))
  | none => db s.ToSql.sqlStr s.ToSql.args

/-- Modelled from the spec: `QueryWith(db, s)` (not among the source files):
as `ExecWith`, with the queryer. -/
def QueryWith (db : Text → List Arg → Option Rows × Option RunError) (s : Sqlizer) :
    Option Rows × Option RunError :=
  match s.ToSql.err with
  | some e => (none, some (.other e))
  | none => db s.ToSql.sqlStr s.ToSql.args

/-- Modelled from the spec: `QueryRowWith(db, s)` (not among the source
files): the row of the rendered statement with the error of rendering. -/
def QueryRowWith (db : Text → List Arg → RowScanner) (s : Sqlizer) : Row :=
  ⟨some (db s.ToSql.sqlStr s.ToSql.args), s.ToSql.err.map RunError.other⟩

/-- Modelled from the spec: `ExecContextWith(ctx, db, s)` (not among the
source files): as `ExecWith`, with the context. -/
def ExecContextWith (ctx : Context)
    (db : Context → Text → List Arg → Option ExecResult × Option RunError) (s : Sqlizer) :
    Option ExecResult × Option RunError :=
  ExecWith (db ctx) s

/-- Modelled from the spec: `QueryContextWith(ctx, db, s)` (not among the
source files): as `QueryWith`, with the context. -/
def QueryContextWith (ctx : Context)
    (db : Context → Text → List Arg → Option Rows × Option RunError) (s : Sqlizer) :
    Option Rows × Option RunError :=
  QueryWith (db ctx) s

/-- Modelled from the spec: `QueryRowContextWith(ctx, db, s)` (not among the
source files): as `QueryRowWith`, with the context. -/
def QueryRowContextWith (ctx : Context) (db : Context → Text → List Arg → RowScanner)
    (s : Sqlizer) : Row :=
  QueryRowWith (db ctx) s

/-- `SelectBuilderFast.Exec`, select_fast.go:27-32. The `runWith` field, left
out of the structure, is the second parameter of the runner methods: `none` is
the nil runner. -/
def SelectBuilderFast.Exec (d : SelectBuilderFast) (runWith : Option BaseRunner) :
    Option ExecResult × Option RunError :=
  match runWith with
  | none => (none, some .RunnerNotSet)
  | some r => ExecWith r.Exec d.toSqlizer

/-- `SelectBuilderFast.Query`, select_fast.go:34-39. -/
def SelectBuilderFast.Query (d : SelectBuilderFast) (runWith : Option BaseRunner) :
    Option Rows × Option RunError :=
  match runWith with
  | none => (none, some .RunnerNotSet)
  | some r => QueryWith r.Query d.toSqlizer

/-- `SelectBuilderFast.QueryRow`, select_fast.go:41-50. -/
def SelectBuilderFast.QueryRow (d : SelectBuilderFast) (runWith : Option BaseRunner) : Row :=
  match runWith with
  | none => ⟨none, some .RunnerNotSet⟩
  | some r =>
    match r.QueryRow with
    | none => ⟨none, some .RunnerNotQueryRunner⟩
    | some queryRower => QueryRowWith queryRower d.toSqlizer

/-- `SelectBuilderFast.Scan`, select_fast.go:182-184. -/
def SelectBuilderFast.Scan (b : SelectBuilderFast) (runWith : Option BaseRunner) : ScanOutcome :=
  (b.QueryRow runWith).Scan

/-- `InsertBuilderFast.Exec`, insert_fast.go:26-31. -/
def InsertBuilderFast.Exec (d : InsertBuilderFast) (runWith : Option BaseRunner) :
    Option ExecResult × Option RunError :=
  match runWith with
  | none => (none, some .RunnerNotSet)
  | some r => ExecWith r.Exec d.toSqlizer

/-- `InsertBuilderFast.Query`, insert_fast.go:33-38. -/
def InsertBuilderFast.Query (d : InsertBuilderFast) (runWith : Option BaseRunner) :
    Option Rows × Option RunError :=
  match runWith with
  | none => (none, some .RunnerNotSet)
  | some r => QueryWith r.Query d.toSqlizer

/-- `InsertBuilderFast.QueryRow`, insert_fast.go:40-49. -/
def InsertBuilderFast.QueryRow (d : InsertBuilderFast) (runWith : Option BaseRunner) : Row :=
  match runWith with
  | none => ⟨none, some .RunnerNotSet⟩
  | some r =>
    match r.QueryRow with
    | none => ⟨none, some .RunnerNotQueryRunner⟩
    | some queryRower => QueryRowWith queryRower d.toSqlizer

/-- `InsertBuilderFast.Scan`, insert_fast.go:189-191. -/
def InsertBuilderFast.Scan (b : InsertBuilderFast) (runWith : Option BaseRunner) : ScanOutcome :=
  (b.QueryRow runWith).Scan

/-- `InsertBuilderFast.ExecContext`, insert_ctx_fast.go:11-20. -/
def InsertBuilderFast.ExecContext (d : InsertBuilderFast) (runWith : Option BaseRunner)
    (ctx : Context) : Option ExecResult × Option RunError :=
  match runWith with
  | none => (none, some .RunnerNotSet)
  | some r =>
    match r.ExecContext with
    | none => (none, some .NoContextSupport)
    | some ctxRunner => ExecContextWith ctx ctxRunner d.toSqlizer

/-- `InsertBuilderFast.QueryContext`, insert_ctx_fast.go:22-31. -/
def InsertBuilderFast.QueryContext (d : InsertBuilderFast) (runWith : Option BaseRunner)
    (ctx : Context) : Option Rows × Option RunError :=
  match runWith with
  | none => (none, some .RunnerNotSet)
  | some r =>
    match r.QueryContext with
    | none => (none, some .NoContextSupport)
    | some ctxRunner => QueryContextWith ctx ctxRunner d.toSqlizer

/-- `InsertBuilderFast.QueryRowContext`, insert_ctx_fast.go:33-45. -/
def InsertBuilderFast.QueryRowContext (d : InsertBuilderFast) (runWith : Option BaseRunner)
    (ctx : Context) : Row :=
  match runWith with
  | none => ⟨none, some .RunnerNotSet⟩
  | some r =>
    match r.QueryRowContext with
    | none =>
      match r.QueryContext with
      | none => ⟨none, some .RunnerNotQueryRunner⟩
      | some _ => ⟨none, some .NoContextSupport⟩
    | some queryRower => QueryRowContextWith ctx queryRower d.toSqlizer

/-- `InsertBuilderFast.ScanContext`, insert_ctx_fast.go:48-50. -/
def InsertBuilderFast.ScanContext (b : InsertBuilderFast) (runWith : Option BaseRunner)
    (ctx : Context) : ScanOutcome :=
  (b.QueryRowContext runWith ctx).Scan

/-- `UpdateBuilderFast.Exec`, update_fast.go:25-30. -/
def UpdateBuilderFast.Exec (d : UpdateBuilderFast) (runWith : Option BaseRunner) :
    Option ExecResult × Option RunError :=
  match runWith with
  | none => (none, some .RunnerNotSet)
  | some r => ExecWith r.Exec d.toSqlizer

/-- `UpdateBuilderFast.Query`, update_fast.go:32-37. -/
def UpdateBuilderFast.Query (d : UpdateBuilderFast) (runWith : Option BaseRunner) :
    Option Rows × Option RunError :=
  match runWith with
  | none => (none, some .RunnerNotSet)
  | some r => QueryWith r.Query d.toSqlizer

/-- `UpdateBuilderFast.QueryRow`, update_fast.go:39-48. -/
def UpdateBuilderFast.QueryRow (d : UpdateBuilderFast) (runWith : Option BaseRunner) : Row :=
  match runWith with
  | none => ⟨none, some .RunnerNotSet⟩
  | some r =>
    match r.QueryRow with
    | none => ⟨none, some .RunnerNotQueryRunner⟩
    | some queryRower => QueryRowWith queryRower d.toSqlizer

/-- `UpdateBuilderFast.Scan`, update_fast.go:159-161. -/
def UpdateBuilderFast.Scan (b : UpdateBuilderFast) (runWith : Option BaseRunner) : ScanOutcome :=
  (b.QueryRow runWith).Scan

/-- `UpdateBuilderFast.ExecContext`, update_ctx_fast.go:11-20. -/
def UpdateBuilderFast.ExecContext (d : UpdateBuilderFast) (runWith : Option BaseRunner)
    (ctx : Context) : Option ExecResult × Option RunError :=
  match runWith with
  | none => (none, some .RunnerNotSet)
  | some r =>
    match r.ExecContext with
    | none => (none, some .NoContextSupport)
    | some ctxRunner => ExecContextWith ctx ctxRunner d.toSqlizer

/-- `UpdateBuilderFast.QueryContext`, update_ctx_fast.go:22-31. -/
def UpdateBuilderFast.QueryContext (d : UpdateBuilderFast) (runWith : Option BaseRunner)
    (ctx : Context) : Option Rows × Option RunError :=
  match runWith with
  | none => (none, some .RunnerNotSet)
  | some r =>
    match r.QueryContext with
    | none => (none, some .NoContextSupport)
    | some ctxRunner => QueryContextWith ctx ctxRunner d.toSqlizer

/-- `UpdateBuilderFast.QueryRowContext`, update_ctx_fast.go:33-45. -/
def UpdateBuilderFast.QueryRowContext (d : UpdateBuilderFast) (runWith : Option BaseRunner)
    (ctx : Context) : Row :=
  match runWith with
  | none => ⟨none, some .RunnerNotSet⟩
  | some r =>
    match r.QueryRowContext with
    | none =>
      match r.QueryContext with
      | none => ⟨none, some .RunnerNotQueryRunner⟩
      | some _ => ⟨none, some .NoContextSupport⟩
    | some queryRower => QueryRowContextWith ctx queryRower d.toSqlizer

/-- `UpdateBuilderFast.ScanContext`, update_ctx_fast.go:48-50. -/
def UpdateBuilderFast.ScanContext (b : UpdateBuilderFast) (runWith : Option BaseRunner)
    (ctx : Context) : ScanOutcome :=
  (b.QueryRowContext runWith ctx).Scan

/-- `DeleteBuilderFast.Exec`, delete_fast.go:22-27. -/
def DeleteBuilderFast.Exec (d : DeleteBuilderFast) (runWith : Option BaseRunner) :
    Option ExecResult × Option RunError :=
  match runWith with
  | none => (none, some .RunnerNotSet)
  | some r => ExecWith r.Exec d.toSqlizer

/-- `DeleteBuilderFast.Query`, delete_fast.go:167-172. -/
def DeleteBuilderFast.Query (b : DeleteBuilderFast) (runWith : Option BaseRunner) :
    Option Rows × Option RunError :=
  match runWith with
  | none => (none, some .RunnerNotSet)
  | some r => QueryWith r.Query b.toSqlizer

/-- A runner without the other adapters: it affects as many rows as the
statement has args, returns one row with the args, and scans without error. -/
def plainRunner : BaseRunner :=
  ⟨fun _ args => (some args.length, none), fun _ args => (some [args], none), none, none, none,
    none⟩

/-- A runner with every adapter. -/
def fullRunner : BaseRunner :=
  ⟨fun _ args => (some args.length, none), fun _ args => (some [args], none),
    some (fun _ _ => ⟨none⟩), some (fun _ _ args => (some args.length, none)),
    some (fun _ _ args => (some [args], none)), some (fun _ _ _ => ⟨none⟩)⟩

/-- The `b` of the tests without runner: `SelectFast("test")`. -/
def selectNoRunner : SelectBuilderFast := SelectFast ["test".toList]

/-- The `b` of `TestInsertBuilderFastContextNoRunner`:
`InsertFast("test").Values(1)`. -/
def insertNoRunner : InsertBuilderFast := InsertFast "test".toList |>.Values [.plain (.int 1)]

/-- The `b` of `TestUpdateBuilderFastContextNoRunner`:
`UpdateFast("test").Set("x", 1)`. -/
def updateNoRunner : UpdateBuilderFast := UpdateFast "test".toList |>.Set "x".toList (.plain (.int 1))

/-- The `b` of `TestDeleteBuilderFastNoRunner`: `DeleteFast("test")`. -/
def deleteNoRunner : DeleteBuilderFast := DeleteFast "test".toList

/-! ## Theorems -/

/-! ### appendToSql -/

/-- The texts of a list, each preceded by the separator. -/
theorem intercalate_cons_eq (sep x : Text) (xs : List Text) :
    sep.intercalate (x :: xs) = x ++ (xs.map (sep ++ ·)).flatten := by
  induction xs generalizing x with
  | nil => simp [List.intercalate]
  | cons y ys ih =>
    have h : sep.intercalate (x :: y :: ys) = x ++ sep ++ sep.intercalate (y :: ys) := by
      simp [List.intercalate]
    rw [h, ih]; simp

/-- From a part index above 0, parts that render to non-empty text are each
written after a separator. -/
theorem appendToSqlFrom_pos (sep : Text) (parts : List Sqlizer) :
    ∀ (i : Nat) (w : Text) (args : List Arg), 0 < i → (∀ p ∈ parts, RendersNonEmpty p) →
      appendToSqlFrom sep i parts w args =
        .ok (w ++ ((textsOf parts).map (sep ++ ·)).flatten, args ++ argsOf parts) := by
  induction parts with
  | nil => intro i w args _ _; simp [appendToSqlFrom, textsOf, argsOf]
  | cons p ps ih =>
    intro i w args hi h
    have hp := h p (List.mem_cons_self _ _)
    have hps : ∀ q ∈ ps, RendersNonEmpty q := fun q hq => h q (List.mem_cons_of_mem _ hq)
    obtain ⟨he, hne⟩ := hp
    have hlen : (nestedToSql p).sqlStr.length ≠ 0 := by
      simpa [List.length_eq_zero] using hne
    rw [appendToSqlFrom, he]
    simp only [hlen, if_false, hi, if_true]
    rw [ih (i + 1) _ _ (Nat.succ_pos i) hps]
    simp [textsOf, argsOf, textOf]

/-- When every part renders successfully to non-empty text, `appendToSql`
writes the texts joined by the separator and appends the args in order. -/
theorem appendToSql_ok (parts : List Sqlizer) (w sep : Text) (args : List Arg)
    (h : ∀ p ∈ parts, RendersNonEmpty p) :
    appendToSql parts w sep args = .ok (w ++ sep.intercalate (textsOf parts), args ++ argsOf parts) := by
  cases parts with
  | nil => simp [appendToSql, appendToSqlFrom, textsOf, argsOf, List.intercalate]
  | cons p ps =>
    have hp := h p (List.mem_cons_self _ _)
    have hps : ∀ q ∈ ps, RendersNonEmpty q := fun q hq => h q (List.mem_cons_of_mem _ hq)
    obtain ⟨he, hne⟩ := hp
    have hlen : (nestedToSql p).sqlStr.length ≠ 0 := by
      simpa [List.length_eq_zero] using hne
    rw [appendToSql, appendToSqlFrom, he]
    simp only [hlen, if_false, gt_iff_lt, lt_self_iff_false]
    rw [appendToSqlFrom_pos sep ps 1 _ _ Nat.one_pos hps]
    simp [textsOf, argsOf, textOf, intercalate_cons_eq]

/-- A guarded slot: nothing is written for an empty slot, and for a slot whose
parts all render to non-empty text the opening text and the joined texts. -/
theorem appendToSql_guarded (parts : List Sqlizer) (w pre sep : Text) (args : List Arg)
    (h : ∀ p ∈ parts, RendersNonEmpty p) :
    (if parts.length > 0 then appendToSql parts (w ++ pre) sep args else pure (w, args)) =
      (.ok (w ++ (if parts ≠ [] then pre ++ sep.intercalate (textsOf parts) else []),
        args ++ argsOf parts) : Render) := by
  cases parts with
  | nil => simp [argsOf, pure, Except.pure]
  | cons p ps => simp [appendToSql_ok _ _ _ _ h, List.append_assoc]

theorem appendToSql_guarded_pair (parts : List Sqlizer) (pre sep : Text) (s : Text × List Arg)
    (h : ∀ p ∈ parts, RendersNonEmpty p) :
    (if parts.length > 0 then appendToSql parts (s.1 ++ pre) sep s.2 else pure s) =
      (.ok (s.1 ++ (if parts ≠ [] then pre ++ sep.intercalate (textsOf parts) else []),
        s.2 ++ argsOf parts) : Render) :=
  appendToSql_guarded parts s.1 pre sep s.2 h

theorem ite_append_text (c : Prop) [Decidable c] (w x : Text) :
    (if c then w ++ x else w) = w ++ (if c then x else []) := by
  split <;> simp

theorem ok_bind (a : Text × List Arg) (f : Text × List Arg → Render) :
    (Except.ok a >>= f) = f a := rfl

theorem argsOf_append (ps qs : List Sqlizer) : argsOf (ps ++ qs) = argsOf ps ++ argsOf qs := by
  simp [argsOf]

/-- The buffer threaded through `toSqlRaw` is the skeleton of §4.7 when every
fragment renders successfully to non-empty text. -/
theorem SelectBuilderFast.toSqlRaw_eq_skeleton (d : SelectBuilderFast) (hcols : d.columns ≠ [])
    (h : ∀ p ∈ d.fragments, RendersNonEmpty p) :
    d.toSqlRaw = ⟨selectSkeleton d,
      argsOf d.prefixes ++ argsOf d.columns ++ argsOf d.«from».toList ++ argsOf d.joins ++
        argsOf d.whereParts ++ argsOf d.havingParts ++ argsOf d.orderByParts ++
        argsOf d.suffixes, none⟩ := by
  have hpre : ∀ p ∈ d.prefixes, RendersNonEmpty p := fun p hp => h p (by simp [fragments, hp])
  have hcol : ∀ p ∈ d.columns, RendersNonEmpty p := fun p hp => h p (by simp [fragments, hp])
  have hfrom : ∀ p ∈ d.«from».toList, RendersNonEmpty p := fun p hp =>
    h p (by simp only [fragments, List.mem_append]; tauto)
  have hjoin : ∀ p ∈ d.joins, RendersNonEmpty p := fun p hp => h p (by simp [fragments, hp])
  have hwhere : ∀ p ∈ d.whereParts, RendersNonEmpty p := fun p hp => h p (by simp [fragments, hp])
  have hhav : ∀ p ∈ d.havingParts, RendersNonEmpty p := fun p hp => h p (by simp [fragments, hp])
  have hord : ∀ p ∈ d.orderByParts, RendersNonEmpty p := fun p hp => h p (by simp [fragments, hp])
  have hsuf : ∀ p ∈ d.suffixes, RendersNonEmpty p := fun p hp => h p (by simp [fragments, hp])
  have hclen : d.columns.length ≠ 0 := by simpa [List.length_eq_zero] using hcols
  have e1 : (if d.prefixes.length > 0 then
        (appendToSql d.prefixes [] " ".toList [] >>= fun s => pure (s.1 ++ " ".toList, s.2))
      else pure ([], [])) =
      (.ok (if d.prefixes ≠ [] then " ".toList.intercalate (textsOf d.prefixes) ++ " ".toList
        else [], argsOf d.prefixes) : Render) := by
    cases hq : d.prefixes with
    | nil => simp [argsOf, pure, Except.pure]
    | cons p ps =>
      rw [hq] at hpre
      simp [appendToSql_ok _ _ _ _ hpre, bind, Except.bind, pure, Except.pure]
  have e2 : ∀ (w : Text) (a : List Arg),
      (if d.columns.length > 0 then appendToSql d.columns w ", ".toList a else pure (w, a)) =
      (.ok (w ++ ", ".toList.intercalate (textsOf d.columns), a ++ argsOf d.columns) : Render) := by
    intro w a
    rw [if_pos (Nat.pos_of_ne_zero hclen), appendToSql_ok _ _ _ _ hcol]
  have e3 : ∀ (s : Text × List Arg),
      (match d.«from» with
        | some f => appendToSql [f] (s.1 ++ " FROM ".toList) [] s.2
        | none => pure s) =
      (.ok (s.1 ++ (match d.«from» with
        | some f => " FROM ".toList ++ textOf f
        | none => []), s.2 ++ argsOf d.«from».toList) : Render) := by
    intro s
    cases hq : d.«from» with
    | none => simp [argsOf, pure, Except.pure]
    | some f =>
      have hf : ∀ p ∈ [f], RendersNonEmpty p := by simpa [hq] using hfrom
      show appendToSql [f] (s.1 ++ " FROM ".toList) [] s.2 = _
      rw [appendToSql_ok _ _ _ _ hf]
      simp [textsOf, List.intercalate]
  unfold toSqlRaw
  rw [if_neg hclen]
  unfold toSqlRawBody
  simp only [e1, e2, e3, appendToSql_guarded_pair _ _ _ _ hjoin,
    appendToSql_guarded_pair _ _ _ _ hwhere, appendToSql_guarded _ _ _ _ _ hhav,
    appendToSql_guarded_pair _ _ _ _ hord, appendToSql_guarded _ _ _ _ _ hsuf, ok_bind]
  simp only [finish, pure, Except.pure, selectSkeleton, List.append_assoc, gt_iff_lt,
    List.length_pos]
  by_cases h1 : d.options = [] <;> by_cases h2 : d.groupBys = [] <;>
    by_cases h3 : d.limit = [] <;> by_cases h4 : d.offset = [] <;>
    simp only [h1, h2, h3, h4, ne_eq, not_true_eq_false, not_false_eq_true, if_true, if_false,
      List.append_assoc, List.append_nil, List.nil_append]

/-- C1 (SelectBuilderFast.toSqlRaw): with at least one column and every
fragment of every slot rendering successfully to non-empty text, `toSqlRaw`
returns the skeleton of §4.7, each bracketed group present exactly when its
slot is non-empty, with no error, and the args are the args of the fragments
concatenated in the order prefixes, columns, from, joins, whereParts,
havingParts, orderByParts, suffixes. -/
theorem SelectBuilderFast.toSqlRaw_skeleton (d : SelectBuilderFast) (hcols : d.columns ≠ [])
    (h : ∀ p ∈ d.fragments, RendersNonEmpty p) :
    d.toSqlRaw = ⟨selectSkeleton d,
      argsOf d.prefixes ++ argsOf d.columns ++ argsOf d.«from».toList ++ argsOf d.joins ++
        argsOf d.whereParts ++ argsOf d.havingParts ++ argsOf d.orderByParts ++
        argsOf d.suffixes, none⟩ :=
  toSqlRaw_eq_skeleton d hcols h

/-- Witness of C1 at `demoSelect`, where every slot is non-empty. -/
theorem SelectBuilderFast.toSqlRaw_skeleton_witness :
    demoSelect.columns ≠ [] ∧ (∀ p ∈ demoSelect.fragments, RendersNonEmpty p) ∧
    demoSelect.toSqlRaw = ⟨("WITH p AS ? SELECT DISTINCT a, b FROM e JOIN j ON j.x = ? " ++
      "WHERE f = ? GROUP BY l HAVING m = n ORDER BY ? DESC LIMIT 12 OFFSET 13 " ++
      "FETCH FIRST ? ROWS ONLY").toList, [.int 0, .int 1, .int 4, .int 1, .int 14], none⟩ :=
  ⟨by decide, by decide,
    (SelectBuilderFast.toSqlRaw_skeleton demoSelect (by decide) (by decide)).trans (by decide)⟩

/-! ### Errors of a SELECT -/

theorem firstError_append (ps qs : List Sqlizer) :
    firstError (ps ++ qs) = (firstError ps).or (firstError qs) := by
  induction ps with
  | nil => simp [firstError]
  | cons p ps ih =>
    simp only [List.cons_append, firstError]
    cases (nestedToSql p).err <;> simp [ih]

/-- The loop of `appendToSql` fails exactly with the first error of its parts,
and returns nil args with it. -/
theorem appendToSqlFrom_err (sep : Text) (parts : List Sqlizer) :
    ∀ (i : Nat) (w : Text) (args : List Arg),
      errOf (appendToSqlFrom sep i parts w args) = firstError parts ∧
      NilOnError (appendToSqlFrom sep i parts w args) := by
  induction parts with
  | nil => intro i w args; simp [appendToSqlFrom, errOf, firstError, NilOnError]
  | cons p ps ih =>
    intro i w args
    rw [appendToSqlFrom, firstError]
    cases he : (nestedToSql p).err with
    | some e => simp [errOf, NilOnError]
    | none =>
      simp only
      split
      · exact ih _ _ _
      · exact ih _ _ _

theorem appendToSql_err (parts : List Sqlizer) (w sep : Text) (args : List Arg) :
    errOf (appendToSql parts w sep args) = firstError parts ∧
      NilOnError (appendToSql parts w sep args) :=
  appendToSqlFrom_err sep parts 0 w args

/-- A render step whose error does not depend on the state it starts from. -/
theorem errOf_bind (x : Render) (f : Text × List Arg → Render) (E : Option String)
    (h : ∀ a, errOf (f a) = E) : errOf (x >>= f) = (errOf x).or E := by
  cases x with
  | error v => simp [bind, Except.bind, errOf]
  | ok a => simpa [bind, Except.bind, errOf] using h a

theorem nilOnError_bind (x : Render) (f : Text × List Arg → Render)
    (hx : NilOnError x) (h : ∀ a, NilOnError (f a)) : NilOnError (x >>= f) := by
  cases x with
  | error v => simpa [bind, Except.bind, NilOnError] using hx
  | ok a => simpa [bind, Except.bind] using h a

theorem errOf_bind_eq (x : Render) (f : Text × List Arg → Render) (E1 E2 : Option String)
    (hx : errOf x = E1) (h : ∀ a, errOf (f a) = E2) : errOf (x >>= f) = E1.or E2 := by
  rw [errOf_bind x f E2 h, hx]

/-- A guarded slot fails exactly with the first error of its parts. -/
theorem errOf_guarded (parts : List Sqlizer) (w sep : Text) (args : List Arg)
    (s : Text × List Arg) :
    errOf (if parts.length > 0 then appendToSql parts w sep args else pure s) =
      firstError parts := by
  cases parts with
  | nil => simp [errOf, firstError, pure, Except.pure]
  | cons p ps => simpa using (appendToSql_err (p :: ps) w sep args).1

theorem nilOnError_guarded (parts : List Sqlizer) (w sep : Text) (args : List Arg)
    (s : Text × List Arg) :
    NilOnError (if parts.length > 0 then appendToSql parts w sep args else pure s) := by
  cases parts with
  | nil => simp [NilOnError, pure, Except.pure]
  | cons p ps => simpa using (appendToSql_err (p :: ps) w sep args).2

/-- The prefix slot: the prefixes are written into an empty buffer and
followed by a blank. -/
theorem errOf_prefixes (parts : List Sqlizer) :
    errOf (if parts.length > 0 then
        (appendToSql parts [] " ".toList [] >>= fun s => pure (s.1 ++ " ".toList, s.2))
      else pure ([], [])) = firstError parts := by
  cases parts with
  | nil => simp [errOf, firstError, pure, Except.pure]
  | cons p ps =>
    have h := errOf_bind_eq (appendToSql (p :: ps) [] " ".toList [])
      (fun s => pure (s.1 ++ " ".toList, s.2)) _ none (appendToSql_err _ _ _ _).1
      (fun a => by simp [errOf, pure, Except.pure])
    simpa using h

theorem nilOnError_prefixes (parts : List Sqlizer) :
    NilOnError (if parts.length > 0 then
        (appendToSql parts [] " ".toList [] >>= fun s => pure (s.1 ++ " ".toList, s.2))
      else pure ([], [])) := by
  cases parts with
  | nil => simp [NilOnError, pure, Except.pure]
  | cons p ps =>
    have h := nilOnError_bind (appendToSql (p :: ps) [] " ".toList [])
      (fun s => pure (s.1 ++ " ".toList, s.2)) (appendToSql_err _ _ _ _).2
      (fun a => by simp [NilOnError, pure, Except.pure])
    simpa using h

/-- The from slot of a SELECT or an UPDATE. -/
theorem errOf_from (f : Option Sqlizer) (pre : Text) (s : Text × List Arg) :
    errOf (match f with
      | some f => appendToSql [f] (s.1 ++ pre) [] s.2
      | none => pure s) = firstError f.toList := by
  cases f with
  | none => simp [errOf, firstError, pure, Except.pure]
  | some f => simpa using (appendToSql_err [f] (s.1 ++ pre) [] s.2).1

theorem nilOnError_from (f : Option Sqlizer) (pre : Text) (s : Text × List Arg) :
    NilOnError (match f with
      | some f => appendToSql [f] (s.1 ++ pre) [] s.2
      | none => pure s) := by
  cases f with
  | none => simp [NilOnError, pure, Except.pure]
  | some f => simpa using (appendToSql_err [f] (s.1 ++ pre) [] s.2).2

/-- The body of `toSqlRaw` fails exactly with the first error among the
fragments, in the order of rendering. -/
theorem SelectBuilderFast.toSqlRawBody_err (d : SelectBuilderFast) :
    errOf d.toSqlRawBody = firstError d.fragments := by
  unfold toSqlRawBody fragments
  simp only [firstError_append, Option.or_assoc]
  refine errOf_bind_eq _ _ _ _ (errOf_prefixes _) (fun s => ?_)
  refine errOf_bind_eq _ _ _ _ (errOf_guarded _ _ _ _ _) (fun s => ?_)
  refine errOf_bind_eq _ _ _ _ (errOf_from _ _ _) (fun s => ?_)
  refine errOf_bind_eq _ _ _ _ (errOf_guarded _ _ _ _ _) (fun s => ?_)
  refine errOf_bind_eq _ _ _ _ (errOf_guarded _ _ _ _ _) (fun s => ?_)
  refine errOf_bind_eq _ _ _ _ (errOf_guarded _ _ _ _ _) (fun s => ?_)
  refine errOf_bind_eq _ _ _ _ (errOf_guarded _ _ _ _ _) (fun s => ?_)
  simp only [bind_pure]
  exact errOf_guarded _ _ _ _ _

/-- When the body of `toSqlRaw` fails, the args it returns are nil. -/
theorem SelectBuilderFast.toSqlRawBody_nilOnError (d : SelectBuilderFast) :
    NilOnError d.toSqlRawBody := by
  unfold toSqlRawBody
  refine nilOnError_bind _ _ (nilOnError_prefixes _) (fun s => ?_)
  refine nilOnError_bind _ _ (nilOnError_guarded _ _ _ _ _) (fun s => ?_)
  refine nilOnError_bind _ _ (nilOnError_from _ _ _) (fun s => ?_)
  refine nilOnError_bind _ _ (nilOnError_guarded _ _ _ _ _) (fun s => ?_)
  refine nilOnError_bind _ _ (nilOnError_guarded _ _ _ _ _) (fun s => ?_)
  refine nilOnError_bind _ _ (nilOnError_guarded _ _ _ _ _) (fun s => ?_)
  refine nilOnError_bind _ _ (nilOnError_guarded _ _ _ _ _) (fun s => ?_)
  simp only [bind_pure]
  exact nilOnError_guarded _ _ _ _ _

theorem finish_err (x : Render) : (finish x).err = errOf x := by
  cases x with
  | ok a => rfl
  | error v => rfl

/-- The error of `toSqlRaw`: the column check first, then the first failing
fragment. -/
theorem SelectBuilderFast.toSqlRaw_err (d : SelectBuilderFast) :
    d.toSqlRaw.err =
      if d.columns = [] then some "select statements must have at least one result column"
      else firstError d.fragments := by
  unfold toSqlRaw
  by_cases h : d.columns = []
  · simp [h]
  · have hl : d.columns.length ≠ 0 := by simpa [List.length_eq_zero] using h
    simp only [hl, h, if_false, finish_err, toSqlRawBody_err]

/-- `ToSql` fails exactly when `toSqlRaw` does, with the same error. -/
theorem SelectBuilderFast.ToSql_err_eq (d : SelectBuilderFast) : d.ToSql.err = d.toSqlRaw.err := by
  unfold ToSql
  cases h : d.toSqlRaw.err with
  | none => simp [h, PlaceholderFormat.ReplacePlaceholders]
  | some e => simp [h]

/-- C2, amended (SelectBuilderFast.ToSql): with an empty column list the error
is "select statements must have at least one result column" whatever the other
slots hold; with at least one column the error is that of the first fragment,
in rendering order, that fails to render, and there is no error when every
fragment renders. -/
theorem SelectBuilderFast.ToSql_err (d : SelectBuilderFast) :
    d.ToSql.err =
      if d.columns = [] then some "select statements must have at least one result column"
      else firstError d.fragments := by
  rw [ToSql_err_eq, toSqlRaw_err]

/-- C2 as stated fails: a SELECT with the column `a` whose prefix fragment is a
SELECT without columns returns the no-column error although its own column
list is not empty. -/
theorem SelectBuilderFast.ToSql_noColumns_iff_counterexample :
    ¬ (selectWithColumnlessPrefix.ToSql.err =
        some "select statements must have at least one result column" ↔
      selectWithColumnlessPrefix.columns = []) := by
  decide

/-! ### The placeholder rewrite -/

theorem segments_ne_nil (s : Text) : segments s ≠ [] := by
  induction s using segments.induct <;> simp_all [segments]

theorem weave_cons_cons (f : PlaceholderFormat) (n : Nat) (s t : Text) (ss : List Text) :
    weave f n (s :: t :: ss) = s ++ f.marker n ++ weave f (n + 1) (t :: ss) := by
  simp [weave]

theorem weave_cons_head (f : PlaceholderFormat) (n : Nat) (c : Char) (s : Text) (ss : List Text) :
    weave f n ((c :: s) :: ss) = c :: weave f n (s :: ss) := by
  cases ss <;> simp [weave]

/-- The single pass of the rewriter puts the markers `n`, `n + 1`, ... in
order between the literal pieces of the text. -/
theorem replaceFrom_eq_weave (f : PlaceholderFormat) (s : Text) :
    ∀ n, f.replaceFrom n s = weave f n (segments s) := by
  induction s using segments.induct <;> intro n <;>
    simp_all [PlaceholderFormat.replaceFrom, segments, weave, weave_cons_head]
  next rest _ _ =>
    obtain ⟨t, ts, h⟩ := List.exists_cons_of_ne_nil (segments_ne_nil rest)
    rw [h, weave_cons_cons]
    simp

/-- A text with `n` unescaped markers has `n + 1` literal pieces. -/
theorem segments_length (s : Text) : (segments s).length = countMarkers s + 1 := by
  induction s using segments.induct <;> simp_all [segments, countMarkers]

/-! ### Nested SELECT in FROM -/

/-- `toSqlRaw` does not read the placeholder format. -/
theorem SelectBuilderFast.toSqlRaw_PlaceholderFormat (d : SelectBuilderFast)
    (f : Squirrel.PlaceholderFormat) : (d.PlaceholderFormat f).toSqlRaw = d.toSqlRaw := rfl

/-- A failed `toSqlRaw` returns the empty text. -/
theorem SelectBuilderFast.toSqlRaw_sqlStr_of_err (d : SelectBuilderFast) (e : String)
    (h : d.toSqlRaw.err = some e) : d.toSqlRaw.sqlStr = [] := by
  unfold toSqlRaw at h ⊢
  split
  · rfl
  · rename_i hc
    simp only [hc, if_false] at h
    cases hb : d.toSqlRawBody with
    | ok a => simp [hb, finish] at h
    | error v => simp [finish]

/-- The text of `ToSql` is the rewrite of the text of `toSqlRaw` in the
builder's format, with the counter starting at 1. -/
theorem SelectBuilderFast.ToSql_sqlStr (d : SelectBuilderFast) :
    d.ToSql.sqlStr = d.placeholderFormat.replaceFrom 1 d.toSqlRaw.sqlStr := by
  unfold ToSql
  cases h : d.toSqlRaw.err with
  | none => simp [h, PlaceholderFormat.ReplacePlaceholders]
  | some e => simp [h, toSqlRaw_sqlStr_of_err d e h, PlaceholderFormat.replaceFrom]

/-- The result of `ToSql` after `PlaceholderFormat(f)`: the raw result with its
text rewritten in the format `f`, or the raw result as it is when it failed. -/
theorem SelectBuilderFast.ToSql_PlaceholderFormat (d : SelectBuilderFast)
    (f : Squirrel.PlaceholderFormat) :
    (d.PlaceholderFormat f).ToSql =
      (match d.toSqlRaw.err with
        | none => ⟨f.replaceFrom 1 d.toSqlRaw.sqlStr, d.toSqlRaw.args, none⟩
        | some _ => d.toSqlRaw) := by
  have hraw : (d.PlaceholderFormat f).toSqlRaw = d.toSqlRaw := rfl
  have hf : (d.PlaceholderFormat f).placeholderFormat = f := rfl
  unfold ToSql
  rw [hraw, hf]
  cases h : d.toSqlRaw.err with
  | none => simp [h, PlaceholderFormat.ReplacePlaceholders]
  | some e => simp [h]

/-- What `FromSelectFast` stores: the FROM fragment is the alias of `sub` with
its placeholder format forced to `Question`, every other slot of `b` and of
`sub` unchanged; the result does not depend on the placeholder format of `sub`
itself; the fragment renders the raw text of `sub` between `(` and
`) AS alias`; and under `Dollar` the final text is the raw text of the outer
builder with its `?` markers numbered `$1`, `$2`, ... in order of appearance.
A marker that a fragment inside `sub` has already rewritten is no `?` of the
raw text and is copied as it is. -/
theorem SelectBuilderFast.FromSelectFast_stores (b sub : SelectBuilderFast) (a : Text) :
    b.FromSelectFast sub a =
        { b with «from» := some (Alias (sub.PlaceholderFormat .Question).toSqlizer a) } ∧
      sub.PlaceholderFormat .Question = { sub with placeholderFormat := .Question } ∧
      (∀ f, b.FromSelectFast (sub.PlaceholderFormat f) a = b.FromSelectFast sub a) ∧
      nestedToSql (Alias (sub.PlaceholderFormat .Question).toSqlizer a) =
        (match sub.toSqlRaw.err with
          | none => ⟨"(".toList ++ PlaceholderFormat.Question.replaceFrom 1 sub.toSqlRaw.sqlStr ++
              ") AS ".toList ++ a, sub.toSqlRaw.args, none⟩
          | some _ => sub.toSqlRaw) ∧
      ((b.FromSelectFast sub a).PlaceholderFormat .Dollar).ToSql.sqlStr =
        weave .Dollar 1 (segments (b.FromSelectFast sub a).toSqlRaw.sqlStr) := by
  refine ⟨rfl, rfl, fun f => rfl, ?_, ?_⟩
  · have hq := ToSql_PlaceholderFormat sub .Question
    cases h : sub.toSqlRaw.err with
    | none =>
      rw [h] at hq
      simp [nestedToSql, Alias, toSqlizer, hq]
    | some e =>
      rw [h] at hq
      simp [nestedToSql, Alias, toSqlizer, hq, h]
  · rw [ToSql_sqlStr, replaceFrom_eq_weave]
    rfl

/-- The scenario S6 of the specification, select_fast_test.go:75-92: the
counter is global across the final text. -/
theorem nestedDollarSelect_ToSql :
    nestedDollarSelect.ToSql =
      ⟨"SELECT c FROM (SELECT c FROM t WHERE c > $1) AS subq WHERE c < $2".toList,
        [.int 1, .int 2], none⟩ := by
  decide

/-- C3, the code at the failing input: an outer SELECT under `Dollar` whose
sub-select, set with `FromSelectFast`, has the column `Alias(inner, "x")` with
`inner` under `Dollar` renders the marker `$1` twice and `$2` never:
`FromSelectFast` forces `Question` on the sub-select only, and the alias
inside it renders `inner` with the `ToSql` of `inner`, which has already
rewritten its marker. With `inner` under `Question`, or with `inner` itself as
the column (a part, rendered in `?` form), the markers are `$1`, `$2`. -/
theorem SelectBuilderFast.FromSelectFast_nested_dollar_duplicates :
    (fromSelectAliasColumn .Dollar).ToSql =
        ⟨"SELECT c FROM (SELECT (SELECT a WHERE b = $1) AS x) AS s WHERE c < $1".toList,
          [.int 1, .int 2], none⟩ ∧
      (fromSelectAliasColumn .Question).ToSql =
        ⟨"SELECT c FROM (SELECT (SELECT a WHERE b = $1) AS x) AS s WHERE c < $2".toList,
          [.int 1, .int 2], none⟩ ∧
      (fromSelectColumn .Dollar).ToSql =
        ⟨"SELECT c FROM (SELECT SELECT a WHERE b = $1) AS s WHERE c < $2".toList,
          [.int 1, .int 2], none⟩ := by
  decide

/-! ### INSERT -/

/-- The scenario S2 of the specification, insert_fast_test.go:9-30. -/
theorem testInsert_ToSql :
    testInsert.ToSql =
      ⟨("WITH prefix AS ? INSERT DELAYED IGNORE INTO a (b,c) VALUES (?,?),(?,? + 1) " ++
        "RETURNING ?").toList, [.int 0, .int 1, .int 2, .int 3, .int 4, .int 5], none⟩ := by
  decide

/-- C4, the code at the failing input: an INSERT under `Dollar` whose select
source is a `SelectBuilderFast` under `Dollar` renders the marker `$1` twice,
once for the prefix argument and once inside the nested SELECT, because
`appendSelectToSQL` calls the `ToSql` of the select source, which has already
rewritten its markers. -/
theorem InsertBuilderFast.Select_dollar_duplicates :
    insertSelectDollar.ToSql =
      ⟨"WITH p AS $1 INSERT INTO t SELECT a WHERE b = $1".toList, [.int 0, .int 1], none⟩ := by
  decide

/-! ### UPDATE -/

set_option maxRecDepth 8000 in
/-- The test `TestUpdateBuilderFastToSql`, update_fast_test.go:9-40. -/
theorem testUpdate_ToSql :
    testUpdate.ToSql =
      ⟨("WITH prefix AS ? UPDATE a SET b = ? + 1, c = ?, " ++
        "c1 = CASE status WHEN 1 THEN 2 WHEN 2 THEN 1 END, " ++
        "c2 = CASE WHEN a = 2 THEN ? WHEN a = 3 THEN ? END, " ++
        "c3 = (SELECT a FROM b) WHERE d = ? ORDER BY e LIMIT 4 OFFSET 5 RETURNING ?").toList,
        [.int 0, .int 1, .int 2, .str "foo", .str "bar", .int 3, .int 6], none⟩ := by
  rfl

/-- C5, the code at the failing input: the same UPDATE with the same nested
SELECT as SET value renders `b = ?` when the nested builder has the `Question`
format and `b = $1` when it has the `Dollar` format, because the loop over the
set clauses calls the `ToSql` of the value. -/
theorem UpdateBuilderFast.Set_depends_on_nested_format :
    (updateSetSelect .Question).ToSql =
        ⟨"UPDATE t SET x = SELECT a WHERE b = ?".toList, [.int 1], none⟩ ∧
      (updateSetSelect .Dollar).ToSql =
        ⟨"UPDATE t SET x = SELECT a WHERE b = $1".toList, [.int 1], none⟩ ∧
      (updateSetSelect .Question).ToSql ≠ (updateSetSelect .Dollar).ToSql := by
  decide

/-- C10, the code at the failing input: a `SelectBuilderFast` as SET value is
rendered without the extra parentheses, because the type test of
update_fast.go:83 is for `SelectBuilder` only. -/
theorem UpdateBuilderFast.Set_SelectBuilderFast_no_parentheses :
    (updateSetSelect .Question).ToSql.sqlStr = "UPDATE t SET x = SELECT a WHERE b = ?".toList ∧
      (updateSetSelect .Question).ToSql.sqlStr ≠
        "UPDATE t SET x = (SELECT a WHERE b = ?)".toList := by
  decide

/-! ### Builders that share a backing array -/

/-- C9, the code at the failing input: after `b2 := b.Where("y = ?", 2)` the
builder `b1 = b.Where("x = ?", 1)` renders the predicate and the argument of
`b2`, because both appends write cell 0 of the array that `SelectFast` made
with capacity 10. -/
theorem Go.siblingsProgram_aliases :
    Go.siblingsProgram =
      (⟨"SELECT a WHERE x = ?".toList, [.int 1], none⟩,
        ⟨"SELECT a WHERE y = ?".toList, [.int 2], none⟩) := by
  decide

/-- C8, the code at the failing input: the receiver `b` renders differently
after the call `b.Where("y = ?", 2)`, because the nested SELECT in its FROM
slot shares the backing array of `whereParts` that the call writes. -/
theorem Go.receiverProgram_changes_receiver :
    Go.receiverProgram =
      (⟨"SELECT a FROM (SELECT a WHERE x = ?) AS s".toList, [.int 1], none⟩,
        ⟨"SELECT a FROM (SELECT a WHERE y = ?) AS s".toList, [.int 2], none⟩) := by
  decide

/-! ### Raw strings and their arguments -/

/-- A raw string with arguments is rendered unchanged and without error,
whatever the number of its markers. -/
theorem partToSql_str (sql : Text) (args : List Arg) :
    partToSql (.str sql) args = ⟨sql, args, none⟩ := rfl

/-- C7, amended (raw strings passed to Where, Column, Prefix, Suffix): a raw
SQL string with arguments that are not fragments renders to itself with its
arguments and without error, whatever the number of its `?` markers; in
particular `SelectFast(col).Where(sql, args...)` renders successfully, to
`SELECT col WHERE sql` before the placeholder rewrite. -/
theorem SelectBuilderFast.Where_raw_renders (col sql : Text) (args : List Arg)
    (hcol : col ≠ []) (hsql : sql ≠ []) :
    (newWherePart (.str sql) args).ToSql = ⟨sql, args, none⟩ ∧
      (newPart (.str sql) args).ToSql = ⟨sql, args, none⟩ ∧
      (Expr sql args).ToSql = ⟨sql, args, none⟩ ∧
      ((SelectFast [col]).Where (.str sql) args).toSqlRaw =
        ⟨"SELECT ".toList ++ col ++ " WHERE ".toList ++ sql, args, none⟩ ∧
      ∀ f : Squirrel.PlaceholderFormat,
        (((SelectFast [col]).Where (.str sql) args).PlaceholderFormat f).ToSql =
          ⟨f.replaceFrom 1 ("SELECT ".toList ++ col ++ " WHERE ".toList ++ sql), args, none⟩ := by
  have hw : ((SelectFast [col]).Where (.str sql) args) =
      ⟨.Question, [], [], [newPart (.str col) []], none, [], [newWherePart (.str sql) args], [],
        [], [], [], [], []⟩ := by
    simp [SelectFast, StatementBuilderType.SelectFast, Columns, Where, hsql]
  have hraw : ((SelectFast [col]).Where (.str sql) args).toSqlRaw =
      ⟨"SELECT ".toList ++ col ++ " WHERE ".toList ++ sql, args, none⟩ := by
    rw [hw, toSqlRaw_eq_skeleton _ (by simp)]
    · simp [selectSkeleton, textsOf, textOf, argsOf, nestedToSql, newPart, newWherePart,
        partToSql, List.intercalate]
    · intro p hp
      simp [fragments] at hp
      rcases hp with hp | hp <;> subst hp <;>
        simp [RendersNonEmpty, nestedToSql, newPart, newWherePart, partToSql, hcol, hsql]
  refine ⟨rfl, rfl, rfl, hraw, fun f => ?_⟩
  rw [ToSql_PlaceholderFormat, hraw]

/-- Witness of the amended C7 at the builder of `TestSelectBuilderFastPlaceholders`. -/
theorem SelectBuilderFast.Where_raw_renders_witness :
    "test".toList ≠ [] ∧ "x = ? AND y = ?".toList ≠ [] ∧
      (((SelectFast ["test".toList]).Where (.str "x = ? AND y = ?".toList) []).PlaceholderFormat
        .Dollar).ToSql = ⟨"SELECT test WHERE x = $1 AND y = $2".toList, [], none⟩ :=
  ⟨by decide, by decide,
    ((SelectBuilderFast.Where_raw_renders "test".toList "x = ? AND y = ?".toList []
      (by decide) (by decide)).2.2.2.2 .Dollar).trans (by decide)⟩

/-- C7 as stated fails: `SelectFast("test").Where("x = ? AND y = ?")`, with two
markers and no argument, renders successfully (select_fast_test.go:99-103). -/
theorem SelectBuilderFast.Where_mismatch_counterexample :
    countMarkers "x = ? AND y = ?".toList ≠ ([] : List Arg).length ∧
      testPlaceholders.ToSql = ⟨"SELECT test WHERE x = ? AND y = ?".toList, [], none⟩ := by
  decide

/-- C6 as stated fails: `SelectFast("test").Where("x = ? AND y = ?")` renders
successfully under `Question` to a text with two unescaped markers and
returns no args. -/
theorem SelectBuilderFast.args_markers_counterexample :
    testPlaceholders.placeholderFormat = .Question ∧ testPlaceholders.ToSql.err = none ∧
      testPlaceholders.ToSql.args.length ≠ countMarkers testPlaceholders.ToSql.sqlStr := by
  decide

/-! ### Counting markers -/

theorem countMarkers_cons_of_ne (c : Char) (t : Text) (hc : c ≠ '?') :
    countMarkers (c :: t) = countMarkers t := by
  rw [countMarkers]
  · intro rest h _; exact hc h
  · intro h; exact hc h

theorem countMarkers_mark_cons_of_ne (c : Char) (t : Text) (hc : c ≠ '?') :
    countMarkers ('?' :: c :: t) = countMarkers (c :: t) + 1 := by
  rw [countMarkers]
  intro rest h
  exact hc (by injection h)

/-- A character that is not `?` separates what precedes it from what follows. -/
theorem countMarkers_append_cons (w : Text) (c : Char) (t : Text) (hc : c ≠ '?') :
    countMarkers (w ++ c :: t) = countMarkers w + countMarkers (c :: t) := by
  induction w using countMarkers.induct with
  | case1 => simp [countMarkers]
  | case2 rest ih => simp [countMarkers, ih]
  | case3 rest hrest ih =>
    cases rest with
    | nil => simp [countMarkers, countMarkers_mark_cons_of_ne c t hc]; omega
    | cons x xs =>
      have hx : x ≠ '?' := fun h => hrest xs (by rw [h])
      simp only [List.cons_append] at ih ⊢
      rw [countMarkers_mark_cons_of_ne x _ hx, countMarkers_mark_cons_of_ne x _ hx, ih]
      omega
  | case4 x rest hx1 hx2 ih =>
    have hx : x ≠ '?' := fun h => hx2 h
    simp only [List.cons_append]
    rw [countMarkers_cons_of_ne x _ hx, countMarkers_cons_of_ne x _ hx, ih]

/-- Appending a text without `?` adds no marker. -/
theorem countMarkers_append_noMark (w l : Text) (hl : NoMark l) :
    countMarkers (w ++ l) = countMarkers w := by
  induction l generalizing w with
  | nil => simp
  | cons c l ih =>
    have hc : c ≠ '?' := fun h => hl (by simp [h])
    have hl2 : NoMark l := fun h => hl (List.mem_cons_of_mem _ h)
    have h1 : w ++ c :: l = (w ++ [c]) ++ l := by simp
    rw [h1, ih _ hl2, countMarkers_append_cons w c [] hc, countMarkers_cons_of_ne c [] hc]
    simp [countMarkers]

theorem countMarkers_noMark (l : Text) (hl : NoMark l) : countMarkers l = 0 := by
  simpa [countMarkers] using countMarkers_append_noMark [] l hl

theorem closed_nil : Closed [] := by
  intro t; simp [countMarkers]

/-- A buffer that ends with a text without `?` is closed, when that text is
not empty. -/
theorem closed_append_noMark (w l : Text) (hl : NoMark l) (hne : l ≠ []) : Closed (w ++ l) := by
  intro t
  obtain ⟨l0, c, rfl⟩ : ∃ l0 c, l = l0 ++ [c] := by
    rcases List.eq_nil_or_concat l with h | ⟨l0, c, h⟩
    · exact absurd h hne
    · exact ⟨l0, c, by simpa using h⟩
  have hc : c ≠ '?' := fun h => hl (by simp [h])
  have h1 : w ++ (l0 ++ [c]) ++ t = (w ++ l0) ++ c :: t := by simp
  have h2 : w ++ (l0 ++ [c]) = (w ++ l0) ++ c :: [] := by simp
  rw [h1, h2, countMarkers_append_cons _ c t hc, countMarkers_append_cons _ c [] hc,
    countMarkers_cons_of_ne c t hc, countMarkers_cons_of_ne c [] hc]
  simp [countMarkers]

/-- A closed buffer stays closed when a text without `?` is appended. -/
theorem closed_append_noMark_of_closed (w l : Text) (hw : Closed w) (hl : NoMark l) :
    Closed (w ++ l) := by
  by_cases hne : l = []
  · simpa [hne] using hw
  · exact closed_append_noMark w l hl hne

theorem noMark_append (a b : Text) (ha : NoMark a) (hb : NoMark b) : NoMark (a ++ b) := by
  unfold NoMark at *
  simp [ha, hb]

/-- Texts without `?` joined by a separator without `?` hold no `?`. -/
theorem noMark_intercalate (sep : Text) (xs : List Text) (hsep : NoMark sep)
    (hxs : ∀ x ∈ xs, NoMark x) : NoMark (sep.intercalate xs) := by
  cases xs with
  | nil => simp [NoMark, List.intercalate]
  | cons x xs =>
    rw [intercalate_cons_eq]
    have hx := hxs x (List.mem_cons_self _ _)
    have hrest : ∀ y ∈ xs, NoMark y := fun y hy => hxs y (List.mem_cons_of_mem _ hy)
    clear hxs
    apply noMark_append _ _ hx
    induction xs with
    | nil => simp [NoMark]
    | cons y ys ih =>
      simp only [List.map_cons, List.flatten_cons]
      exact noMark_append _ _ (noMark_append _ _ hsep (hrest y (List.mem_cons_self _ _)))
        (ih (fun z hz => hrest z (List.mem_cons_of_mem _ hz)))

/-- The loop of `appendToSql` adds as many markers to the buffer as args to
the args, when each part is balanced, the separator is a non-empty text
without `?`, and the buffer is closed where the first part is written without
a separator. -/
theorem appendToSqlFrom_count (sep : Text) (hsep : NoMark sep) (hne : sep ≠ [])
    (parts : List Sqlizer) :
    ∀ (i : Nat) (w : Text) (args : List Arg) (r : Text × List Arg),
      (∀ p ∈ parts, Balanced (nestedToSql p)) → (i = 0 → Closed w) →
      appendToSqlFrom sep i parts w args = .ok r →
      countMarkers r.1 + args.length = countMarkers w + r.2.length := by
  induction parts with
  | nil =>
    intro i w args r _ _ h
    simp only [appendToSqlFrom, Except.ok.injEq] at h
    subst h; rfl
  | cons p ps ih =>
    intro i w args r hb hw h
    have hp := hb p (List.mem_cons_self _ _)
    have hps : ∀ q ∈ ps, Balanced (nestedToSql q) := fun q hq => hb q (List.mem_cons_of_mem _ hq)
    rw [appendToSqlFrom] at h
    cases he : (nestedToSql p).err with
    | some e => simp [he] at h
    | none =>
      simp only [he] at h
      split at h
      · exact ih _ _ _ _ hps (fun h0 => absurd h0 (Nat.succ_ne_zero i)) h
      · have h1 := ih _ _ _ _ hps (fun h0 => absurd h0 (Nat.succ_ne_zero i)) h
        have hbal := hp he
        have hcount : countMarkers ((if i > 0 then w ++ sep else w) ++ (nestedToSql p).sqlStr) =
            countMarkers w + countMarkers (nestedToSql p).sqlStr := by
          by_cases hi : i > 0
          · simp only [hi, if_true]
            rw [closed_append_noMark w sep hsep hne, countMarkers_append_noMark w sep hsep]
          · simp only [hi, if_false]
            exact hw (by omega) _
        rw [hcount, hbal] at h1
        simp only [List.length_append] at h1
        omega

/-- `appendToSql` of a single part into a closed buffer, whatever the
separator. -/
theorem appendToSql_single_count (f : Sqlizer) (w sep : Text) (args : List Arg)
    (r : Text × List Arg) (hf : Balanced (nestedToSql f)) (hw : Closed w)
    (h : appendToSql [f] w sep args = .ok r) :
    countMarkers r.1 + args.length = countMarkers w + r.2.length := by
  simp only [appendToSql, appendToSqlFrom] at h
  cases he : (nestedToSql f).err with
  | some e => simp [he] at h
  | none =>
    simp only [he] at h
    split at h
    · simp only [Except.ok.injEq] at h
      subst h; rfl
    · simp only [gt_iff_lt, lt_self_iff_false, if_false, Except.ok.injEq] at h
      subst h
      simp only [hw _, hf he, List.length_append]
      omega

theorem balOk_bind (x : Render) (f : Text × List Arg → Render) (hx : BalOk x)
    (h : ∀ a, countMarkers a.1 = a.2.length → BalOk (f a)) : BalOk (x >>= f) := by
  cases x with
  | error v => intro r hr; simp [bind, Except.bind] at hr
  | ok a => exact h a (hx a rfl)

theorem balOk_pure (a : Text × List Arg) (h : countMarkers a.1 = a.2.length) :
    BalOk (pure a) := by
  intro r hr
  simp only [pure, Except.pure, Except.ok.injEq] at hr
  subst hr; exact h

/-- `appendToSql` into a closed, balanced buffer keeps the balance. -/
theorem balOk_appendToSql (parts : List Sqlizer) (w sep : Text) (args : List Arg)
    (hsep : NoMark sep) (hne : sep ≠ []) (hb : ∀ p ∈ parts, Balanced (nestedToSql p))
    (hw : Closed w) (hbal : countMarkers w = args.length) :
    BalOk (appendToSql parts w sep args) := by
  intro r hr
  have := appendToSqlFrom_count sep hsep hne parts 0 w args r hb (fun _ => hw) hr
  omega

/-- A guarded slot keeps the balance: the opening text is a non-empty text
without `?`. -/
theorem balOk_guarded (parts : List Sqlizer) (w pre sep : Text) (args : List Arg)
    (hsep : NoMark sep) (hne : sep ≠ []) (hpre : NoMark pre) (hpne : pre ≠ [])
    (hb : ∀ p ∈ parts, Balanced (nestedToSql p)) (hbal : countMarkers w = args.length) :
    BalOk (if parts.length > 0 then appendToSql parts (w ++ pre) sep args
      else pure (w, args)) := by
  split
  · exact balOk_appendToSql parts _ sep args hsep hne hb (closed_append_noMark w pre hpre hpne)
      (by rw [countMarkers_append_noMark w pre hpre, hbal])
  · exact balOk_pure _ hbal

/-- The prefix slot keeps the balance. -/
theorem balOk_prefixes (parts : List Sqlizer) (hb : ∀ p ∈ parts, Balanced (nestedToSql p)) :
    BalOk (if parts.length > 0 then
        (appendToSql parts [] " ".toList [] >>= fun s => pure (s.1 ++ " ".toList, s.2))
      else pure ([], [])) := by
  split
  · refine balOk_bind _ _ (balOk_appendToSql parts [] _ [] (by decide) (by decide) hb closed_nil
      (by simp [countMarkers])) (fun a ha => balOk_pure _ ?_)
    simp only
    rw [countMarkers_append_noMark a.1 _ (by decide), ha]
  · exact balOk_pure _ (by simp [countMarkers])

/-- The from slot keeps the balance. -/
theorem balOk_from (f : Option Sqlizer) (s : Text × List Arg) :
    (∀ p ∈ f.toList, Balanced (nestedToSql p)) → countMarkers s.1 = s.2.length →
    BalOk (match f with
      | some f => appendToSql [f] (s.1 ++ " FROM ".toList) [] s.2
      | none => pure s) := by
  intro hb hbal
  cases f with
  | none => exact balOk_pure _ hbal
  | some f =>
    intro r hr
    have := appendToSql_single_count f _ _ _ r (hb f (by simp))
      (closed_append_noMark s.1 " FROM ".toList (by decide) (by decide)) hr
    rw [countMarkers_append_noMark s.1 _ (by decide)] at this
    omega

theorem balOk_guarded_pair (parts : List Sqlizer) (pre sep : Text) (s : Text × List Arg)
    (hsep : NoMark sep) (hne : sep ≠ []) (hpre : NoMark pre) (hpne : pre ≠ [])
    (hb : ∀ p ∈ parts, Balanced (nestedToSql p)) (hbal : countMarkers s.1 = s.2.length) :
    BalOk (if parts.length > 0 then appendToSql parts (s.1 ++ pre) sep s.2 else pure s) :=
  balOk_guarded parts s.1 pre sep s.2 hsep hne hpre hpne hb hbal

/-- A guarded slot written into a closed buffer without an opening text. -/
theorem balOk_guarded_closed (parts : List Sqlizer) (w sep : Text) (args : List Arg)
    (hsep : NoMark sep) (hne : sep ≠ []) (hb : ∀ p ∈ parts, Balanced (nestedToSql p))
    (hw : Closed w) (hbal : countMarkers w = args.length) :
    BalOk (if parts.length > 0 then appendToSql parts w sep args else pure (w, args)) := by
  split
  · exact balOk_appendToSql parts w sep args hsep hne hb hw hbal
  · exact balOk_pure _ hbal

/-- A plain text written under a guard adds no marker. -/
theorem countMarkers_ite_noMark (c : Prop) [Decidable c] (w l : Text) (hl : NoMark l) :
    countMarkers (if c then w ++ l else w) = countMarkers w := by
  split
  · exact countMarkers_append_noMark w l hl
  · rfl

/-- The body of `toSqlRaw` keeps the balance of markers and args. -/
theorem SelectBuilderFast.toSqlRawBody_balOk (d : SelectBuilderFast) (h : d.WellMarked) :
    BalOk d.toSqlRawBody := by
  obtain ⟨hfr, hopt, hgb, hlim, hoff⟩ := h
  have hpre : ∀ p ∈ d.prefixes, Balanced (nestedToSql p) := fun p hp =>
    hfr p (by simp [fragments, hp])
  have hcol : ∀ p ∈ d.columns, Balanced (nestedToSql p) := fun p hp =>
    hfr p (by simp [fragments, hp])
  have hfrom : ∀ p ∈ d.«from».toList, Balanced (nestedToSql p) := fun p hp =>
    hfr p (by simp only [fragments, List.mem_append]; tauto)
  have hjoin : ∀ p ∈ d.joins, Balanced (nestedToSql p) := fun p hp =>
    hfr p (by simp [fragments, hp])
  have hwhere : ∀ p ∈ d.whereParts, Balanced (nestedToSql p) := fun p hp =>
    hfr p (by simp [fragments, hp])
  have hhav : ∀ p ∈ d.havingParts, Balanced (nestedToSql p) := fun p hp =>
    hfr p (by simp [fragments, hp])
  have hord : ∀ p ∈ d.orderByParts, Balanced (nestedToSql p) := fun p hp =>
    hfr p (by simp [fragments, hp])
  have hsuf : ∀ p ∈ d.suffixes, Balanced (nestedToSql p) := fun p hp =>
    hfr p (by simp [fragments, hp])
  have hopts : NoMark (" ".toList.intercalate d.options) :=
    noMark_intercalate _ _ (by decide) hopt
  have hgbs : NoMark (", ".toList.intercalate d.groupBys) :=
    noMark_intercalate _ _ (by decide) hgb
  unfold toSqlRawBody
  refine balOk_bind _ _ (balOk_prefixes _ hpre) (fun s hs => ?_)
  refine balOk_bind _ _ (balOk_guarded_closed _ _ _ _ (by decide) (by decide) hcol ?_ ?_)
    (fun s hs => ?_)
  · split
    · exact closed_append_noMark _ _ (by decide) (by decide)
    · exact closed_append_noMark _ _ (by decide) (by decide)
  · split
    · rw [countMarkers_append_noMark _ _ (by decide), countMarkers_append_noMark _ _ hopts,
        countMarkers_append_noMark _ _ (by decide), hs]
    · rw [countMarkers_append_noMark _ _ (by decide), hs]
  refine balOk_bind _ _ (balOk_from _ _ hfrom hs) (fun s hs => ?_)
  refine balOk_bind _ _ (balOk_guarded_pair _ _ _ _ (by decide) (by decide) (by decide)
    (by decide) hjoin hs) (fun s hs => ?_)
  refine balOk_bind _ _ (balOk_guarded_pair _ _ _ _ (by decide) (by decide) (by decide)
    (by decide) hwhere hs) (fun s hs => ?_)
  refine balOk_bind _ _ (balOk_guarded _ _ _ _ _ (by decide) (by decide) (by decide)
    (by decide) hhav ?_) (fun s hs => ?_)
  · split
    · rw [countMarkers_append_noMark _ _ hgbs, countMarkers_append_noMark _ _ (by decide), hs]
    · exact hs
  refine balOk_bind _ _ (balOk_guarded_pair _ _ _ _ (by decide) (by decide) (by decide)
    (by decide) hord hs) (fun s hs => ?_)
  simp only [bind_pure]
  refine balOk_guarded _ _ _ _ _ (by decide) (by decide) (by decide) (by decide) hsuf ?_
  split
  · rw [countMarkers_append_noMark _ _ hoff, countMarkers_append_noMark _ _ (by decide)]
    split
    · rw [countMarkers_append_noMark _ _ hlim, countMarkers_append_noMark _ _ (by decide), hs]
    · exact hs
  · split
    · rw [countMarkers_append_noMark _ _ hlim, countMarkers_append_noMark _ _ (by decide), hs]
    · exact hs

/-! ### DELETE -/

/-- The test `TestDeleteBuilderFastToSql`, delete_fast_test.go:9-30. -/
theorem testDelete_ToSql :
    testDelete.ToSql =
      ⟨("WITH prefix AS ? DELETE FROM a WHERE b = ? ORDER BY c LIMIT 2 OFFSET 3 " ++
        "RETURNING ?").toList, [.int 0, .int 1, .int 4], none⟩ := by
  decide

/-! ### Markers and args of the statements -/

/-- The tail shared by UPDATE and DELETE: ORDER BY, LIMIT and OFFSET add no
marker. -/
theorem countMarkers_orderLimitOffset (w : Text) (orderBys : List Text) (limit offset : Text)
    (hord : ∀ o ∈ orderBys, NoMark o) (hlim : NoMark limit) (hoff : NoMark offset) :
    countMarkers
      (if offset.length > 0 then
        (if limit.length > 0 then
          (if orderBys.length > 0 then
            w ++ " ORDER BY ".toList ++ ", ".toList.intercalate orderBys else w) ++
            " LIMIT ".toList ++ limit
          else (if orderBys.length > 0 then
            w ++ " ORDER BY ".toList ++ ", ".toList.intercalate orderBys else w)) ++
          " OFFSET ".toList ++ offset
      else (if limit.length > 0 then
          (if orderBys.length > 0 then
            w ++ " ORDER BY ".toList ++ ", ".toList.intercalate orderBys else w) ++
            " LIMIT ".toList ++ limit
          else (if orderBys.length > 0 then
            w ++ " ORDER BY ".toList ++ ", ".toList.intercalate orderBys else w))) =
      countMarkers w := by
  have hobs : NoMark (", ".toList.intercalate orderBys) :=
    noMark_intercalate _ _ (by decide) hord
  have h1 : countMarkers (if orderBys.length > 0 then
      w ++ " ORDER BY ".toList ++ ", ".toList.intercalate orderBys else w) = countMarkers w := by
    split
    · rw [countMarkers_append_noMark _ _ hobs, countMarkers_append_noMark _ _ (by decide)]
    · rfl
  split
  · rw [countMarkers_append_noMark _ _ hoff, countMarkers_append_noMark _ _ (by decide)]
    split
    · rw [countMarkers_append_noMark _ _ hlim, countMarkers_append_noMark _ _ (by decide), h1]
    · exact h1
  · split
    · rw [countMarkers_append_noMark _ _ hlim, countMarkers_append_noMark _ _ (by decide), h1]
    · exact h1

/-- The body of `DeleteBuilderFast.ToSql` keeps the balance of markers and
args. -/
theorem DeleteBuilderFast.deleteBody_balOk (d : DeleteBuilderFast) (h : d.WellMarked) :
    BalOk d.toSqlBody := by
  obtain ⟨hpre, hfrom, hwhere, hord, hlim, hoff, hsuf⟩ := h
  unfold toSqlBody
  refine balOk_bind _ _ (balOk_prefixes _ hpre) (fun s hs => ?_)
  refine balOk_bind _ _ (balOk_guarded _ _ _ _ _ (by decide) (by decide) (by decide)
    (by decide) hwhere ?_) (fun s hs => ?_)
  · rw [countMarkers_append_noMark _ _ hfrom, countMarkers_append_noMark _ _ (by decide), hs]
  simp only [bind_pure]
  refine balOk_guarded _ _ _ _ _ (by decide) (by decide) (by decide) (by decide) hsuf ?_
  rw [countMarkers_orderLimitOffset _ _ _ _ hord hlim hoff, hs]

/-- A non-empty separator without `?` separates the markers of what precedes
it from those of what follows. -/
theorem countMarkers_append_sep (x sep rest : Text) (hsep : NoMark sep) (hne : sep ≠ []) :
    countMarkers (x ++ (sep ++ rest)) = countMarkers x + countMarkers rest := by
  have h1 : x ++ (sep ++ rest) = (x ++ sep) ++ rest := by simp
  rw [h1, closed_append_noMark x sep hsep hne, countMarkers_append_noMark x sep hsep]

theorem countMarkers_flatten_sep (sep : Text) (xs : List Text) (hsep : NoMark sep)
    (hne : sep ≠ []) :
    countMarkers ((xs.map (sep ++ ·)).flatten) = (xs.map countMarkers).sum := by
  induction xs with
  | nil => simp [countMarkers]
  | cons x xs ih =>
    simp only [List.map_cons, List.flatten_cons, List.sum_cons]
    have h1 : sep ++ x ++ (List.map (fun t => sep ++ t) xs).flatten =
        [] ++ (sep ++ (x ++ (List.map (fun t => sep ++ t) xs).flatten)) := by simp
    rw [h1, countMarkers_append_sep [] sep _ hsep hne]
    cases xs with
    | nil => simp [countMarkers]
    | cons y ys =>
      simp only [List.map_cons, List.flatten_cons] at ih ⊢
      rw [List.append_assoc sep y, countMarkers_append_sep x sep _ hsep hne]
      rw [List.append_assoc sep y] at ih
      have h2 := countMarkers_append_sep [] sep (y ++ (List.map (fun t => sep ++ t) ys).flatten)
        hsep hne
      simp only [List.nil_append] at h2
      rw [h2] at ih
      simp only [countMarkers, List.sum_cons] at ih ⊢
      omega

/-- The markers of texts joined by a non-empty separator without `?` are the
markers of the texts. -/
theorem countMarkers_intercalate (sep : Text) (xs : List Text) (hsep : NoMark sep)
    (hne : sep ≠ []) :
    countMarkers (sep.intercalate xs) = (xs.map countMarkers).sum := by
  cases xs with
  | nil => simp [List.intercalate, countMarkers]
  | cons x xs =>
    rw [intercalate_cons_eq]
    cases xs with
    | nil => simp
    | cons y ys =>
      simp only [List.map_cons, List.flatten_cons, List.sum_cons]
      rw [List.append_assoc sep y, countMarkers_append_sep x sep _ hsep hne]
      have h := countMarkers_flatten_sep sep (y :: ys) hsep hne
      simp only [List.map_cons, List.flatten_cons, List.sum_cons] at h
      have h2 := countMarkers_append_sep [] sep (y ++ (List.map (fun t => sep ++ t) ys).flatten)
        hsep hne
      simp only [List.nil_append] at h2
      rw [List.append_assoc sep y, h2] at h
      simp only [countMarkers] at h
      omega

/-- One VALUES row: the value strings hold as many markers as args are
added. -/
theorem insertRow_count (row : List Value) :
    ∀ (args : List Arg) (strs : List Text) (args2 : List Arg),
      (∀ v ∈ row, v.Balanced) → insertRow row args = .ok (strs, args2) →
      (strs.map countMarkers).sum + args.length = args2.length := by
  induction row with
  | nil =>
    intro args strs args2 _ h
    simp only [insertRow, Except.ok.injEq, Prod.mk.injEq] at h
    obtain ⟨h1, h2⟩ := h
    subst h1; subst h2; simp
  | cons v row ih =>
    intro args strs args2 hb h
    have hv := hb v (List.mem_cons_self _ _)
    have hrow : ∀ u ∈ row, u.Balanced := fun u hu => hb u (List.mem_cons_of_mem _ hu)
    cases v with
    | sqlizer vs =>
      rw [insertRow] at h
      cases he : vs.ToSql.err with
      | some e => simp [he] at h
      | none =>
        simp only [he] at h
        cases hr : insertRow row (args ++ vs.ToSql.args) with
        | error e => simp [hr] at h
        | ok r =>
          obtain ⟨strs1, args1⟩ := r
          simp only [hr, Except.ok.injEq, Prod.mk.injEq] at h
          obtain ⟨h1, h2⟩ := h
          subst h1; subst h2
          have := ih _ _ _ hrow hr
          have hbal : countMarkers vs.ToSql.sqlStr = vs.ToSql.args.length := hv he
          simp only [List.map_cons, List.sum_cons, List.length_append] at this ⊢
          omega
    | plain a =>
      rw [insertRow] at h
      cases hr : insertRow row (args ++ [a]) with
      | error e => simp [hr] at h
      | ok r =>
        obtain ⟨strs1, args1⟩ := r
        simp only [hr, Except.ok.injEq, Prod.mk.injEq] at h
        obtain ⟨h1, h2⟩ := h
        subst h1; subst h2
        have := ih _ _ _ hrow hr
        have hq : countMarkers "?".toList = 1 := by decide
        simp only [List.map_cons, List.sum_cons, List.length_append, List.length_singleton,
          hq] at this ⊢
        omega

/-- The markers of a parenthesised, comma-joined list of texts. -/
theorem countMarkers_paren_join (strs : List Text) :
    countMarkers ("(".toList ++ ",".toList.intercalate strs ++ ")".toList) =
      (strs.map countMarkers).sum := by
  rw [countMarkers_append_noMark _ _ (by decide)]
  have h := closed_append_noMark [] "(".toList (by decide) (by decide)
    (",".toList.intercalate strs)
  simp only [List.nil_append] at h
  rw [h, countMarkers_intercalate _ _ (by decide) (by decide),
    countMarkers_noMark "(".toList (by decide)]
  omega

/-- The VALUES rows: the row strings hold as many markers as args are added. -/
theorem insertRows_count (rows : List (List Value)) :
    ∀ (args : List Arg) (strs : List Text) (args2 : List Arg),
      (∀ row ∈ rows, ∀ v ∈ row, v.Balanced) → insertRows rows args = .ok (strs, args2) →
      (strs.map countMarkers).sum + args.length = args2.length := by
  induction rows with
  | nil =>
    intro args strs args2 _ h
    simp only [insertRows, Except.ok.injEq, Prod.mk.injEq] at h
    obtain ⟨h1, h2⟩ := h
    subst h1; subst h2; simp
  | cons row rows ih =>
    intro args strs args2 hb h
    have hrow := hb row (List.mem_cons_self _ _)
    have hrows : ∀ r ∈ rows, ∀ v ∈ r, v.Balanced := fun r hr => hb r (List.mem_cons_of_mem _ hr)
    rw [insertRows] at h
    cases h1 : insertRow row args with
    | error e => simp [h1] at h
    | ok r1 =>
      obtain ⟨vstrs, args1⟩ := r1
      simp only [h1] at h
      cases h2 : insertRows rows args1 with
      | error e => simp [h2] at h
      | ok r2 =>
        obtain ⟨strs2, args3⟩ := r2
        simp only [h2, Except.ok.injEq, Prod.mk.injEq] at h
        obtain ⟨h3, h4⟩ := h
        subst h3; subst h4
        have e1 := insertRow_count row _ _ _ hrow h1
        have e2 := ih _ _ _ hrows h2
        simp only [List.map_cons, List.sum_cons, countMarkers_paren_join]
        omega

/-- `appendValuesToSQL` keeps the balance of markers and args. -/
theorem InsertBuilderFast.appendValuesToSQL_balOk (d : InsertBuilderFast) (w : Text)
    (args : List Arg) (hb : ∀ row ∈ d.values, ∀ v ∈ row, v.Balanced)
    (hbal : countMarkers w = args.length) : BalOk (d.appendValuesToSQL w args) := by
  intro r hr
  unfold appendValuesToSQL at hr
  split at hr
  · simp at hr
  · cases h1 : insertRows d.values args with
    | error e => simp [h1] at hr
    | ok r1 =>
      obtain ⟨strs, args1⟩ := r1
      simp only [h1, Except.ok.injEq] at hr
      subst hr
      have e1 := insertRows_count d.values _ _ _ hb h1
      simp only
      rw [closed_append_noMark w "VALUES ".toList (by decide) (by decide),
        countMarkers_append_noMark w _ (by decide),
        countMarkers_intercalate _ _ (by decide) (by decide)]
      omega

/-- `appendSelectToSQL` into a closed buffer keeps the balance of markers and
args. -/
theorem InsertBuilderFast.appendSelectToSQL_balOk (d : InsertBuilderFast) (w : Text)
    (args : List Arg) (hb : ∀ s ∈ d.selectBuilder.toList, Balanced s.ToSql) (hw : Closed w)
    (hbal : countMarkers w = args.length) : BalOk (d.appendSelectToSQL w args) := by
  intro r hr
  unfold appendSelectToSQL at hr
  cases hs : d.selectBuilder with
  | none => simp [hs] at hr
  | some sb =>
    simp only [hs] at hr
    cases he : sb.ToSql.err with
    | some e => simp [he] at hr
    | none =>
      simp only [he, Except.ok.injEq] at hr
      subst hr
      have hsb : Balanced sb.ToSql := hb sb (by simp [hs])
      simp only [hw _, hsb he, List.length_append, hbal]

/-- The body of `InsertBuilderFast.ToSql` keeps the balance of markers and
args. -/
theorem InsertBuilderFast.insertBody_balOk (d : InsertBuilderFast) (h : d.WellMarked) :
    BalOk d.toSqlBody := by
  obtain ⟨hpre, hsuf, hkw, hopt, hinto, hcols, hsel, hvals⟩ := h
  have hopts : NoMark (" ".toList.intercalate d.options) :=
    noMark_intercalate _ _ (by decide) hopt
  have hcs : NoMark (",".toList.intercalate d.columns) :=
    noMark_intercalate _ _ (by decide) hcols
  have l1 : NoMark "INSERT ".toList := by decide
  have l2 : NoMark " ".toList := by decide
  have l3 : NoMark "INTO ".toList := by decide
  have l4 : NoMark "(".toList := by decide
  have l5 : NoMark ") ".toList := by decide
  unfold toSqlBody
  refine balOk_bind _ _ (balOk_prefixes _ hpre) (fun s hs => ?_)
  simp only [bind_pure]
  have hclosed : Closed (if d.columns.length > 0 then
      (if d.options.length > 0 then
        (if d.statementKeywordStr = [] then s.1 ++ "INSERT ".toList
          else s.1 ++ d.statementKeywordStr ++ " ".toList) ++
          " ".toList.intercalate d.options ++ " ".toList
        else if d.statementKeywordStr = [] then s.1 ++ "INSERT ".toList
          else s.1 ++ d.statementKeywordStr ++ " ".toList) ++ "INTO ".toList ++ d.into ++
          " ".toList ++ "(".toList ++ ",".toList.intercalate d.columns ++ ") ".toList
      else
        (if d.options.length > 0 then
          (if d.statementKeywordStr = [] then s.1 ++ "INSERT ".toList
            else s.1 ++ d.statementKeywordStr ++ " ".toList) ++
            " ".toList.intercalate d.options ++ " ".toList
          else if d.statementKeywordStr = [] then s.1 ++ "INSERT ".toList
            else s.1 ++ d.statementKeywordStr ++ " ".toList) ++ "INTO ".toList ++ d.into ++
            " ".toList) := by
    split
    · exact closed_append_noMark _ _ (by decide) (by decide)
    · exact closed_append_noMark _ _ (by decide) (by decide)
  have hcount : countMarkers (if d.columns.length > 0 then
      (if d.options.length > 0 then
        (if d.statementKeywordStr = [] then s.1 ++ "INSERT ".toList
          else s.1 ++ d.statementKeywordStr ++ " ".toList) ++
          " ".toList.intercalate d.options ++ " ".toList
        else if d.statementKeywordStr = [] then s.1 ++ "INSERT ".toList
          else s.1 ++ d.statementKeywordStr ++ " ".toList) ++ "INTO ".toList ++ d.into ++
          " ".toList ++ "(".toList ++ ",".toList.intercalate d.columns ++ ") ".toList
      else
        (if d.options.length > 0 then
          (if d.statementKeywordStr = [] then s.1 ++ "INSERT ".toList
            else s.1 ++ d.statementKeywordStr ++ " ".toList) ++
            " ".toList.intercalate d.options ++ " ".toList
          else if d.statementKeywordStr = [] then s.1 ++ "INSERT ".toList
            else s.1 ++ d.statementKeywordStr ++ " ".toList) ++ "INTO ".toList ++ d.into ++
            " ".toList) = s.2.length := by
    split_ifs <;>
      simp only [countMarkers_append_noMark _ _ l1, countMarkers_append_noMark _ _ l2,
        countMarkers_append_noMark _ _ l3, countMarkers_append_noMark _ _ l4,
        countMarkers_append_noMark _ _ l5, countMarkers_append_noMark _ _ hkw,
        countMarkers_append_noMark _ _ hopts, countMarkers_append_noMark _ _ hinto,
        countMarkers_append_noMark _ _ hcs, hs]
  refine balOk_bind _ _ ?_ (fun s hs =>
    balOk_guarded_pair _ _ _ _ (by decide) (by decide) (by decide) (by decide) hsuf hs)
  split
  · exact appendSelectToSQL_balOk d _ _ hsel hclosed hcount
  · exact appendValuesToSQL_balOk d _ _ hvals hcount

/-- The set clauses: the clause strings hold as many markers as args are
added. -/
theorem updateSetSqls_count (clauses : List setClause) :
    ∀ (args : List Arg) (strs : List Text) (args2 : List Arg),
      (∀ c ∈ clauses, NoMark c.column ∧ c.value.Balanced) →
      updateSetSqls clauses args = .ok (strs, args2) →
      (strs.map countMarkers).sum + args.length = args2.length := by
  induction clauses with
  | nil =>
    intro args strs args2 _ h
    simp only [updateSetSqls, Except.ok.injEq, Prod.mk.injEq] at h
    obtain ⟨h1, h2⟩ := h
    subst h1; subst h2; simp
  | cons c clauses ih =>
    intro args strs args2 hb h
    obtain ⟨hcol, hv⟩ := hb c (List.mem_cons_self _ _)
    have hrest : ∀ u ∈ clauses, NoMark u.column ∧ u.value.Balanced :=
      fun u hu => hb u (List.mem_cons_of_mem _ hu)
    have hhead : ∀ t : Text, countMarkers (c.column ++ " = ".toList ++ t) = countMarkers t := by
      intro t
      have hn : NoMark (c.column ++ " = ".toList) := noMark_append _ _ hcol (by decide)
      have hc := closed_append_noMark [] (c.column ++ " = ".toList) hn (by simp) t
      simp only [List.nil_append] at hc
      rw [hc, countMarkers_noMark _ hn]
      omega
    obtain ⟨column, value⟩ := c
    cases value with
    | sqlizer vs =>
      rw [updateSetSqls] at h
      cases he : vs.ToSql.err with
      | some e => simp [he] at h
      | none =>
        simp only [he] at h
        cases hr : updateSetSqls clauses (args ++ vs.ToSql.args) with
        | error e => simp [hr] at h
        | ok r =>
          obtain ⟨strs1, args1⟩ := r
          simp only [hr, Except.ok.injEq, Prod.mk.injEq] at h
          obtain ⟨h1, h2⟩ := h
          subst h1; subst h2
          have e1 := ih _ _ _ hrest hr
          have hbal : countMarkers vs.ToSql.sqlStr = vs.ToSql.args.length := hv he
          have hval : countMarkers (if vs.isSelectBuilder = true then
              "(".toList ++ vs.ToSql.sqlStr ++ ")".toList else vs.ToSql.sqlStr) =
              countMarkers vs.ToSql.sqlStr := by
            split
            · rw [countMarkers_append_noMark _ _ (by decide)]
              have hc := closed_append_noMark [] "(".toList (by decide) (by decide)
                vs.ToSql.sqlStr
              simp only [List.nil_append] at hc
              rw [hc, countMarkers_noMark "(".toList (by decide)]
              omega
            · rfl
          simp only [List.map_cons, List.sum_cons, List.length_append] at e1 ⊢
          rw [hhead, hval]
          omega
    | plain a =>
      rw [updateSetSqls] at h
      cases hr : updateSetSqls clauses (args ++ [a]) with
      | error e => simp [hr] at h
      | ok r =>
        obtain ⟨strs1, args1⟩ := r
        simp only [hr, Except.ok.injEq, Prod.mk.injEq] at h
        obtain ⟨h1, h2⟩ := h
        subst h1; subst h2
        have e1 := ih _ _ _ hrest hr
        have hq : countMarkers "?".toList = 1 := by decide
        simp only [List.map_cons, List.sum_cons, List.length_append, List.length_singleton]
          at e1 ⊢
        rw [hhead, hq]
        omega

/-- The body of `UpdateBuilderFast.ToSql` keeps the balance of markers and
args. -/
theorem UpdateBuilderFast.updateBody_balOk (d : UpdateBuilderFast) (h : d.WellMarked) :
    BalOk d.toSqlBody := by
  obtain ⟨hpre, htab, hset, hfrom, hwhere, hord, hlim, hoff, hsuf⟩ := h
  unfold toSqlBody
  refine balOk_bind _ _ (balOk_prefixes _ hpre) (fun s hs => ?_)
  refine balOk_bind _ _ ?_ (fun s hs => ?_)
  · intro r hr
    cases h1 : updateSetSqls d.setClauses s.2 with
    | error e => simp [h1] at hr
    | ok r1 =>
      obtain ⟨strs, args1⟩ := r1
      simp only [h1, pure, Except.pure, Except.ok.injEq] at hr
      subst hr
      have e1 := updateSetSqls_count d.setClauses _ _ _ hset h1
      simp only
      rw [closed_append_noMark _ " SET ".toList (by decide) (by decide),
        countMarkers_append_noMark _ _ (by decide), countMarkers_append_noMark _ _ htab,
        countMarkers_append_noMark _ _ (by decide),
        countMarkers_intercalate _ _ (by decide) (by decide)]
      omega
  refine balOk_bind _ _ (balOk_from _ _ hfrom hs) (fun s hs => ?_)
  refine balOk_bind _ _ (balOk_guarded_pair _ _ _ _ (by decide) (by decide) (by decide)
    (by decide) hwhere hs) (fun s hs => ?_)
  simp only [bind_pure]
  refine balOk_guarded _ _ _ _ _ (by decide) (by decide) (by decide) (by decide) hsuf ?_
  rw [countMarkers_orderLimitOffset _ _ _ _ hord hlim hoff, hs]

theorem noEscape_tail (c : Char) (t : Text) (h : NoEscape (c :: t)) : NoEscape t :=
  fun hi => h (List.IsInfix.trans hi (List.suffix_cons c t).isInfix)

/-- Under `Question` the rewrite leaves a text without `??` as it is. -/
theorem replaceFrom_question_noEscape (t : Text) :
    ∀ n, NoEscape t → PlaceholderFormat.Question.replaceFrom n t = t := by
  induction t using countMarkers.induct with
  | case1 => intro n _; simp [PlaceholderFormat.replaceFrom]
  | case2 rest ih =>
    intro n h
    exact absurd (List.prefix_append ['?', '?'] rest).isInfix h
  | case3 rest hrest ih =>
    intro n h
    rw [PlaceholderFormat.replaceFrom]
    · simp [PlaceholderFormat.marker, ih (n + 1) (noEscape_tail _ _ h)]
    · intro rest2 h2
      exact hrest rest2 h2
  | case4 c rest h1 h2 ih =>
    intro n h
    rw [PlaceholderFormat.replaceFrom]
    · rw [ih n (noEscape_tail _ _ h)]
    · intro rest2 hc _; exact h2 hc
    · intro hc; exact h2 hc

/-- A balanced render that is finished, rewritten under `Question` and free
of `??` returns as many args as its text has markers. -/
theorem rewriteResult_question_count (x : Render) (hb : BalOk x)
    (herr : (rewriteResult .Question (finish x)).err = none)
    (hne : NoEscape (finish x).sqlStr) :
    (rewriteResult .Question (finish x)).args.length =
      countMarkers (rewriteResult .Question (finish x)).sqlStr := by
  cases x with
  | error v => simp [finish, rewriteResult] at herr
  | ok a =>
    obtain ⟨w, args⟩ := a
    have hw : countMarkers w = args.length := hb (w, args) rfl
    simp only [finish] at hne
    simp [finish, rewriteResult, PlaceholderFormat.ReplacePlaceholders,
      replaceFrom_question_noEscape w 1 hne, hw]

/-- `SelectBuilderFast.ToSql` is the rewrite of the finished body when there
is a column. -/
theorem SelectBuilderFast.ToSql_eq_rewriteResult (d : SelectBuilderFast) (h : d.columns ≠ []) :
    d.toSqlRaw = finish d.toSqlRawBody ∧
      d.ToSql = rewriteResult d.placeholderFormat (finish d.toSqlRawBody) := by
  have hl : d.columns.length ≠ 0 := by simpa [List.length_eq_zero] using h
  have hraw : d.toSqlRaw = finish d.toSqlRawBody := by
    unfold toSqlRaw; rw [if_neg hl]
  refine ⟨hraw, ?_⟩
  unfold ToSql rewriteResult
  rw [hraw]

/-- C6, amended (ToSql of the four statement builders): when every fragment
of the builder returns as many args as its text has unescaped `?` markers, the
plain strings of the builder hold no `?`, and the text before the placeholder
rewrite holds no `??`, a `ToSql` that succeeds under the `Question` format
returns as many args as the returned SQL has unescaped `?` markers. -/
theorem args_match_markers_of_wellMarked :
    (∀ d : SelectBuilderFast, d.WellMarked → d.placeholderFormat = .Question →
      d.ToSql.err = none → NoEscape d.toSqlRaw.sqlStr →
      d.ToSql.args.length = countMarkers d.ToSql.sqlStr) ∧
    (∀ d : InsertBuilderFast, d.WellMarked → d.placeholderFormat = .Question →
      d.ToSql.err = none → NoEscape (finish d.toSqlBody).sqlStr →
      d.ToSql.args.length = countMarkers d.ToSql.sqlStr) ∧
    (∀ d : UpdateBuilderFast, d.WellMarked → d.placeholderFormat = .Question →
      d.ToSql.err = none → NoEscape (finish d.toSqlBody).sqlStr →
      d.ToSql.args.length = countMarkers d.ToSql.sqlStr) ∧
    (∀ d : DeleteBuilderFast, d.WellMarked → d.placeholderFormat = .Question →
      d.ToSql.err = none → NoEscape (finish d.toSqlBody).sqlStr →
      d.ToSql.args.length = countMarkers d.ToSql.sqlStr) := by
  refine ⟨?_, ?_, ?_, ?_⟩
  · intro d hw hq herr hne
    have hcols : d.columns ≠ [] := by
      intro hc
      have := SelectBuilderFast.ToSql_err_eq d
      rw [SelectBuilderFast.toSqlRaw_err, if_pos hc, herr] at this
      exact absurd this (by simp)
    obtain ⟨hraw, hto⟩ := SelectBuilderFast.ToSql_eq_rewriteResult d hcols
    rw [hraw] at hne
    rw [hto, hq] at herr ⊢
    exact rewriteResult_question_count _ (SelectBuilderFast.toSqlRawBody_balOk d hw) herr hne
  · intro d hw hq herr hne
    unfold InsertBuilderFast.ToSql at herr ⊢
    split at herr
    · simp at herr
    · split at herr
      · simp at herr
      · rename_i h1 h2
        rw [if_neg h1, if_neg h2]
        rw [hq] at herr ⊢
        exact rewriteResult_question_count _ (InsertBuilderFast.insertBody_balOk d hw) herr hne
  · intro d hw hq herr hne
    unfold UpdateBuilderFast.ToSql at herr ⊢
    split at herr
    · simp at herr
    · split at herr
      · simp at herr
      · rename_i h1 h2
        rw [if_neg h1, if_neg h2]
        rw [hq] at herr ⊢
        exact rewriteResult_question_count _ (UpdateBuilderFast.updateBody_balOk d hw) herr hne
  · intro d hw hq herr hne
    unfold DeleteBuilderFast.ToSql at herr ⊢
    split at herr
    · simp at herr
    · rename_i h1
      rw [if_neg h1]
      rw [hq] at herr ⊢
      exact rewriteResult_question_count _ (DeleteBuilderFast.deleteBody_balOk d hw) herr hne

set_option maxRecDepth 8000 in
/-- Witness of the amended C6 at `demoSelect`, `testInsert`, `testUpdate` and
`testDelete`. -/
theorem args_match_markers_of_wellMarked_witness :
    (demoSelect.WellMarked ∧ demoSelect.placeholderFormat = .Question ∧
      demoSelect.ToSql.err = none ∧ NoEscape demoSelect.toSqlRaw.sqlStr ∧
      demoSelect.ToSql.args.length = countMarkers demoSelect.ToSql.sqlStr) ∧
    (testInsert.WellMarked ∧ testInsert.placeholderFormat = .Question ∧
      testInsert.ToSql.err = none ∧ NoEscape (finish testInsert.toSqlBody).sqlStr ∧
      testInsert.ToSql.args.length = countMarkers testInsert.ToSql.sqlStr) ∧
    (testUpdate.WellMarked ∧ testUpdate.placeholderFormat = .Question ∧
      testUpdate.ToSql.err = none ∧ NoEscape (finish testUpdate.toSqlBody).sqlStr ∧
      testUpdate.ToSql.args.length = countMarkers testUpdate.ToSql.sqlStr) ∧
    (testDelete.WellMarked ∧ testDelete.placeholderFormat = .Question ∧
      testDelete.ToSql.err = none ∧ NoEscape (finish testDelete.toSqlBody).sqlStr ∧
      testDelete.ToSql.args.length = countMarkers testDelete.ToSql.sqlStr) :=
  ⟨⟨by decide, by decide, by decide, by decide,
      args_match_markers_of_wellMarked.1 demoSelect (by decide) (by decide) (by decide)
        (by decide)⟩,
    ⟨by decide, by decide, by decide, by decide,
      args_match_markers_of_wellMarked.2.1 testInsert (by decide) (by decide) (by decide)
        (by decide)⟩,
    ⟨by decide, by decide, by decide, by decide,
      args_match_markers_of_wellMarked.2.2.1 testUpdate (by decide) (by decide) (by decide)
        (by decide)⟩,
    ⟨by decide, by decide, by decide, by decide,
      args_match_markers_of_wellMarked.2.2.2 testDelete (by decide) (by decide) (by decide)
        (by decide)⟩⟩

/-- The test `TestSelectFastSubqueryPlaceholderNumbering`,
select_fast_test.go:250-265: nested builders reached through `appendToSql` and
`FromSelectFast` are rendered in `?` form and numbered by the outer rewrite. -/
theorem testSubqueryNumbering_ToSql :
    testSubqueryNumbering.ToSql =
      ⟨("WITH a AS ( SELECT a WHERE b = $1 ) SELECT * FROM (SELECT a WHERE b = $2) AS q " ++
        "WHERE c = $3").toList, [.int 1, .int 1, .int 2], none⟩ := by
  decide

/-- The sibling path of C10: a set clause whose value is a `SelectBuilder`
that renders to `s` is written `column = (s)`. -/
theorem updateSetSqls_SelectBuilder (column : Text) (vs : Sqlizer) (args : List Arg)
    (hsel : vs.isSelectBuilder = true) (herr : vs.ToSql.err = none) :
    updateSetSqls [⟨column, .sqlizer vs⟩] args =
      .ok ([column ++ " = ".toList ++ ("(".toList ++ vs.ToSql.sqlStr ++ ")".toList)],
        args ++ vs.ToSql.args) := by
  simp [updateSetSqls, herr, hsel]

/-! ### Errors of DELETE, UPDATE and INSERT -/

theorem rewriteResult_err (f : PlaceholderFormat) (r : SqlResult) :
    (rewriteResult f r).err = r.err := by
  unfold rewriteResult
  cases h : r.err with
  | none => simp [PlaceholderFormat.ReplacePlaceholders]
  | some e => simp [h]

theorem firstError_eq_none_iff (ps : List Sqlizer) :
    firstError ps = none ↔ ∀ p ∈ ps, (nestedToSql p).err = none := by
  induction ps with
  | nil => simp [firstError]
  | cons p ps ih =>
    simp only [firstError, List.mem_cons, forall_eq_or_imp]
    cases h : (nestedToSql p).err with
    | none => simpa using ih
    | some e => simp

/-- The body of `DeleteBuilderFast.ToSql` fails exactly with the first error
among the prefix, where and suffix fragments. -/
theorem DeleteBuilderFast.deleteBody_err (d : DeleteBuilderFast) :
    errOf d.toSqlBody = firstError d.fragments := by
  unfold toSqlBody fragments
  simp only [firstError_append, Option.or_assoc]
  refine errOf_bind_eq _ _ _ _ (errOf_prefixes _) (fun s => ?_)
  refine errOf_bind_eq _ _ _ _ (errOf_guarded _ _ _ _ _) (fun s => ?_)
  simp only [bind_pure]
  exact errOf_guarded _ _ _ _ _

/-- The error of `DeleteBuilderFast.ToSql`: the table check first, then the
first failing fragment. -/
theorem DeleteBuilderFast.deleteToSql_err (d : DeleteBuilderFast) :
    d.ToSql.err =
      if d.«from» = [] then some "delete statements must specify a From table"
      else firstError d.fragments := by
  unfold ToSql
  by_cases h : d.«from» = []
  · simp [h]
  · have hl : d.«from».length ≠ 0 := by simpa [List.length_eq_zero] using h
    simp only [hl, h, if_false, rewriteResult_err, finish_err, deleteBody_err]

/-- C20 (DeleteBuilderFast.ToSql): an error is returned if and only if the
from table is empty or a prefix, where or suffix fragment fails to render;
`DeleteFast("")` fails, and a builder with a non-empty from table and no
fragment succeeds. -/
theorem DeleteBuilderFast.ToSql_err_iff (d : DeleteBuilderFast) :
    (d.ToSql.err ≠ none ↔
      (d.«from» = [] ∨ ∃ p ∈ d.prefixes ++ d.whereParts ++ d.suffixes,
        (nestedToSql p).err ≠ none)) ∧
    (DeleteFast []).ToSql.err = some "delete statements must specify a From table" ∧
    (d.«from» ≠ [] → d.prefixes = [] → d.whereParts = [] → d.suffixes = [] →
      d.ToSql.err = none) := by
  have herr := deleteToSql_err d
  refine ⟨?_, by decide, ?_⟩
  · rw [herr]
    by_cases h : d.«from» = []
    · simp [h]
    · simp only [h, if_false, false_or, ne_eq]
      rw [firstError_eq_none_iff]
      simp only [fragments, not_forall, exists_prop]
  · intro h hp hw hs
    rw [herr, if_neg h]
    simp [fragments, hp, hw, hs, firstError]

/-- Witness of C20 at `DeleteFast("a")`. -/
theorem DeleteBuilderFast.ToSql_err_iff_witness :
    plainDelete.«from» ≠ [] ∧ plainDelete.prefixes = [] ∧ plainDelete.whereParts = [] ∧
      plainDelete.suffixes = [] ∧ plainDelete.ToSql.err = none :=
  ⟨by decide, by decide, by decide, by decide,
    (DeleteBuilderFast.ToSql_err_iff plainDelete).2.2 (by decide) (by decide) (by decide)
      (by decide)⟩

/-- The loop over the set clauses fails exactly with the first failing
fragment value. -/
theorem updateSetSqls_err (clauses : List setClause) :
    ∀ args, loopErr (updateSetSqls clauses args) =
      firstValueError (clauses.map (·.value)) := by
  induction clauses with
  | nil => intro args; simp [updateSetSqls, loopErr, firstValueError]
  | cons c clauses ih =>
    intro args
    obtain ⟨column, value⟩ := c
    cases value with
    | sqlizer vs =>
      simp only [updateSetSqls, List.map_cons, firstValueError]
      cases he : vs.ToSql.err with
      | some e => simp [loopErr]
      | none =>
        simp only
        have := ih (args ++ vs.ToSql.args)
        cases hr : updateSetSqls clauses (args ++ vs.ToSql.args) with
        | error e => rw [hr] at this; simpa [loopErr] using this
        | ok r => rw [hr] at this; simpa [loopErr] using this
    | plain a =>
      simp only [updateSetSqls, List.map_cons, firstValueError]
      have := ih (args ++ [a])
      cases hr : updateSetSqls clauses (args ++ [a]) with
      | error e => rw [hr] at this; simpa [loopErr] using this
      | ok r => rw [hr] at this; simpa [loopErr] using this

/-- The body of `UpdateBuilderFast.ToSql` fails exactly with the first
failure in the order of rendering. -/
theorem UpdateBuilderFast.updateBody_err (d : UpdateBuilderFast) :
    errOf d.toSqlBody = d.firstFailure := by
  unfold toSqlBody firstFailure
  simp only [firstError_append, Option.or_assoc]
  refine errOf_bind_eq _ _ _ _ (errOf_prefixes _) (fun s => ?_)
  refine errOf_bind_eq _ _ _ _ ?_ (fun s => ?_)
  · have := updateSetSqls_err d.setClauses s.2
    cases hr : updateSetSqls d.setClauses s.2 with
    | error e => rw [hr] at this; simpa [loopErr, errOf] using this
    | ok r => rw [hr] at this; simpa [loopErr, errOf, pure, Except.pure] using this
  refine errOf_bind_eq _ _ _ _ (errOf_from _ _ _) (fun s => ?_)
  refine errOf_bind_eq _ _ _ _ (errOf_guarded _ _ _ _ _) (fun s => ?_)
  simp only [bind_pure]
  exact errOf_guarded _ _ _ _ _

theorem UpdateBuilderFast.updateToSql_err (d : UpdateBuilderFast) :
    d.ToSql.err =
      if d.table = [] then some "update statements must specify a table"
      else if d.setClauses = [] then some "update statements must have at least one Set clause"
      else d.firstFailure := by
  unfold ToSql
  by_cases h : d.table = []
  · simp [h]
  · have hl : d.table.length ≠ 0 := by simpa [List.length_eq_zero] using h
    by_cases h2 : d.setClauses = []
    · simp [h, h2]
    · have hl2 : d.setClauses.length ≠ 0 := by simpa [List.length_eq_zero] using h2
      simp only [hl, hl2, h, h2, if_false, rewriteResult_err, finish_err, updateBody_err]

/-- C12, amended (UpdateBuilderFast.ToSql): with an empty table the error is
"update statements must specify a table", even when set clauses exist; with a
table and no set clause it is "update statements must have at least one Set
clause"; with both present it is the error of the first fragment, in rendering
order, that fails to render (prefixes, SET values, from, where parts,
suffixes), and there is no error when every fragment renders. -/
theorem UpdateBuilderFast.ToSql_error (d : UpdateBuilderFast) :
    d.ToSql.err =
      if d.table = [] then some "update statements must specify a table"
      else if d.setClauses = [] then some "update statements must have at least one Set clause"
      else (firstError d.prefixes).or
        ((firstValueError (d.setClauses.map (·.value))).or
          (firstError (d.«from».toList ++ d.whereParts ++ d.suffixes))) :=
  updateToSql_err d

/-- C12 as stated fails: an UPDATE of the table `t` whose SET value is an
UPDATE without table returns the error "update statements must specify a
table" although its own table is not empty. -/
theorem UpdateBuilderFast.ToSql_noTable_iff_counterexample :
    ¬ (updateWithTablelessValue.ToSql.err = some "update statements must specify a table" ↔
      updateWithTablelessValue.table = []) := by
  decide

theorem firstValueError_append (vs ws : List Value) :
    firstValueError (vs ++ ws) = (firstValueError vs).or (firstValueError ws) := by
  induction vs with
  | nil => simp [firstValueError]
  | cons v vs ih =>
    cases v with
    | plain a => simpa [firstValueError] using ih
    | sqlizer s =>
      simp only [List.cons_append, firstValueError]
      cases s.ToSql.err <;> simp [ih]

/-- One VALUES row fails exactly with its first failing fragment value. -/
theorem insertRow_err (row : List Value) :
    ∀ args, loopErr (insertRow row args) = firstValueError row := by
  induction row with
  | nil => intro args; simp [insertRow, loopErr, firstValueError]
  | cons v row ih =>
    intro args
    cases v with
    | sqlizer vs =>
      simp only [insertRow, firstValueError]
      cases he : vs.ToSql.err with
      | some e => simp [loopErr]
      | none =>
        simp only
        have := ih (args ++ vs.ToSql.args)
        cases hr : insertRow row (args ++ vs.ToSql.args) with
        | error e => rw [hr] at this; simpa [loopErr] using this
        | ok r => rw [hr] at this; simpa [loopErr] using this
    | plain a =>
      simp only [insertRow, firstValueError]
      have := ih (args ++ [a])
      cases hr : insertRow row (args ++ [a]) with
      | error e => rw [hr] at this; simpa [loopErr] using this
      | ok r => rw [hr] at this; simpa [loopErr] using this

/-- The VALUES rows fail exactly with the first failing fragment value in
row-major order. -/
theorem insertRows_err (rows : List (List Value)) :
    ∀ args, loopErr (insertRows rows args) = firstValueError rows.flatten := by
  induction rows with
  | nil => intro args; simp [insertRows, loopErr, firstValueError]
  | cons row rows ih =>
    intro args
    simp only [insertRows, List.flatten_cons, firstValueError_append]
    have h1 := insertRow_err row args
    cases hr : insertRow row args with
    | error e => rw [hr] at h1; simp [loopErr] at h1 ⊢; rw [← h1]; simp
    | ok r =>
      rw [hr] at h1
      simp only [loopErr] at h1
      rw [← h1]
      simp only [Option.none_or]
      have h2 := ih r.2
      cases hr2 : insertRows rows r.2 with
      | error e => rw [hr2] at h2; simpa [loopErr] using h2
      | ok r2 => rw [hr2] at h2; simpa [loopErr] using h2

/-- The select source or the VALUES rows fail exactly with `sourceError`. -/
theorem InsertBuilderFast.source_err (d : InsertBuilderFast) (w : Text) (args : List Arg) :
    errOf (if d.selectBuilder ≠ none then d.appendSelectToSQL w args
      else d.appendValuesToSQL w args) = d.sourceError := by
  unfold sourceError
  cases hs : d.selectBuilder with
  | some sb =>
    simp only [ne_eq, reduceCtorEq, not_false_eq_true, if_true, appendSelectToSQL, hs]
    cases he : sb.ToSql.err <;> simp [errOf]
  | none =>
    simp only [ne_eq, not_true_eq_false, if_false, appendValuesToSQL]
    by_cases hv : d.values = []
    · simp [hv, errOf]
    · have hl : d.values.length ≠ 0 := by simpa [List.length_eq_zero] using hv
      simp only [hl, hv, if_false]
      have := insertRows_err d.values args
      cases hr : insertRows d.values args with
      | error e => rw [hr] at this; simpa [loopErr, errOf] using this
      | ok r => rw [hr] at this; simpa [loopErr, errOf] using this

/-- The body of `InsertBuilderFast.ToSql` fails exactly with the first
failure in the order of rendering: prefixes, select source or VALUES rows,
suffixes. -/
theorem InsertBuilderFast.insertBody_err (d : InsertBuilderFast) :
    errOf d.toSqlBody =
      (firstError d.prefixes).or (d.sourceError.or (firstError d.suffixes)) := by
  unfold toSqlBody
  refine errOf_bind_eq _ _ _ _ (errOf_prefixes _) (fun s => ?_)
  refine errOf_bind_eq _ _ _ _ (source_err d _ _) (fun s => ?_)
  simp only [bind_pure]
  exact errOf_guarded _ _ _ _ _

theorem InsertBuilderFast.insertToSql_err (d : InsertBuilderFast) :
    d.ToSql.err =
      if d.into = [] then some "insert statements must specify a table"
      else if d.values = [] ∧ d.selectBuilder = none then
        some "insert statements must have at least one set of values or select clause"
      else (firstError d.prefixes).or
        ((match d.selectBuilder with
          | some sb => sb.ToSql.err
          | none => firstValueError d.values.flatten).or (firstError d.suffixes)) := by
  unfold ToSql
  by_cases h : d.into = []
  · simp [h]
  · have hl : d.into.length ≠ 0 := by simpa [List.length_eq_zero] using h
    by_cases h2 : d.values = [] ∧ d.selectBuilder = none
    · simp [h, h2]
    · have h3 : ¬ (d.values.length = 0 ∧ d.selectBuilder = none) := by
        simpa [List.length_eq_zero] using h2
      simp only [hl, h, h2, h3, if_false, rewriteResult_err, finish_err, insertBody_err,
        sourceError]
      cases hs : d.selectBuilder with
      | some sb => rfl
      | none =>
        have hv : d.values ≠ [] := fun hv => h2 ⟨hv, hs⟩
        simp [hv]

/-- C14, amended (InsertBuilderFast.ToSql): with an empty `into` the error is
"insert statements must specify a table", whatever values or select source are
set; with a table, no value row and no select source it is "insert statements
must have at least one set of values or select clause"; otherwise it is the
error of the first fragment, in rendering order, that fails to render
(prefixes, the select source or else the fragment values in row-major order,
suffixes). -/
theorem InsertBuilderFast.ToSql_error_cases (d : InsertBuilderFast) :
    d.ToSql.err =
      if d.into = [] then some "insert statements must specify a table"
      else if d.values = [] ∧ d.selectBuilder = none then
        some "insert statements must have at least one set of values or select clause"
      else (firstError d.prefixes).or
        ((match d.selectBuilder with
          | some sb => sb.ToSql.err
          | none => firstValueError d.values.flatten).or (firstError d.suffixes)) :=
  insertToSql_err d

/-- C14 as stated fails: an INSERT into the table `t` whose select source is
an INSERT without table returns the error "insert statements must specify a
table" although its own `into` is not empty. -/
theorem InsertBuilderFast.ToSql_noTable_counterexample :
    ¬ (insertWithTablelessSelect.ToSql.err = some "insert statements must specify a table" ↔
      insertWithTablelessSelect.into = []) := by
  decide

/-! ### The UPDATE skeleton -/

/-- The prefix slot when every prefix renders to non-empty text. -/
theorem appendToSql_prefixes_ok (parts : List Sqlizer) (h : ∀ p ∈ parts, RendersNonEmpty p) :
    (if parts.length > 0 then
        (appendToSql parts [] " ".toList [] >>= fun s => pure (s.1 ++ " ".toList, s.2))
      else pure ([], [])) =
      (.ok (if parts ≠ [] then " ".toList.intercalate (textsOf parts) ++ " ".toList
        else [], argsOf parts) : Render) := by
  cases parts with
  | nil => simp [argsOf, pure, Except.pure]
  | cons p ps => simp [appendToSql_ok _ _ _ _ h, bind, Except.bind, pure, Except.pure]

/-- The from slot when the from fragment renders to non-empty text. -/
theorem appendToSql_from_ok (f : Option Sqlizer) (s : Text × List Arg) :
    (∀ p ∈ f.toList, RendersNonEmpty p) →
    (match f with
      | some f => appendToSql [f] (s.1 ++ " FROM ".toList) [] s.2
      | none => pure s) =
      (.ok (s.1 ++ (match f with
        | some f => " FROM ".toList ++ textOf f
        | none => []), s.2 ++ argsOf f.toList) : Render) := by
  intro h
  cases f with
  | none => simp [argsOf, pure, Except.pure]
  | some f =>
    have hf : ∀ p ∈ [f], RendersNonEmpty p := by simpa using h
    show appendToSql [f] (s.1 ++ " FROM ".toList) [] s.2 = _
    rw [appendToSql_ok _ _ _ _ hf]
    simp [textsOf, List.intercalate]

/-- The loop over the set clauses when every fragment value renders. -/
theorem updateSetSqls_ok (clauses : List setClause) :
    ∀ args, (∀ c ∈ clauses, c.value.Renders) →
      updateSetSqls clauses args =
        .ok (clauses.map setClauseText, args ++ clauses.flatMap (fun c => valueArgs c.value)) := by
  induction clauses with
  | nil => intro args _; simp [updateSetSqls]
  | cons c clauses ih =>
    intro args h
    have hc := h c (List.mem_cons_self _ _)
    have hrest : ∀ u ∈ clauses, u.value.Renders := fun u hu => h u (List.mem_cons_of_mem _ hu)
    obtain ⟨column, value⟩ := c
    cases value with
    | sqlizer vs =>
      have he : vs.ToSql.err = none := hc
      simp [updateSetSqls, he, ih _ hrest, setClauseText, setValueText, valueArgs]
    | plain a =>
      simp [updateSetSqls, ih _ hrest, setClauseText, setValueText, valueArgs]

/-- The body of `UpdateBuilderFast.ToSql` is the skeleton of §4.9 when every
fragment renders, the fragments that `appendToSql` renders to non-empty
text. -/
theorem UpdateBuilderFast.toSqlBody_eq_skeleton (d : UpdateBuilderFast)
    (h : ∀ p ∈ d.fragments, RendersNonEmpty p) (hv : ∀ c ∈ d.setClauses, c.value.Renders) :
    d.toSqlBody = .ok (updateSkeleton d, updateArgs d) := by
  have hpre : ∀ p ∈ d.prefixes, RendersNonEmpty p := fun p hp => h p (by simp [fragments, hp])
  have hfrom : ∀ p ∈ d.«from».toList, RendersNonEmpty p := fun p hp =>
    h p (by simp only [fragments, List.mem_append]; tauto)
  have hwhere : ∀ p ∈ d.whereParts, RendersNonEmpty p := fun p hp => h p (by simp [fragments, hp])
  have hsuf : ∀ p ∈ d.suffixes, RendersNonEmpty p := fun p hp => h p (by simp [fragments, hp])
  unfold toSqlBody
  simp only [appendToSql_prefixes_ok _ hpre, updateSetSqls_ok _ _ hv,
    appendToSql_from_ok _ _ hfrom, appendToSql_guarded_pair _ _ _ _ hwhere,
    appendToSql_guarded _ _ _ _ _ hsuf, ok_bind]
  simp only [pure, Except.pure, updateSkeleton, updateArgs, List.append_assoc, gt_iff_lt,
    List.length_pos, ok_bind]
  by_cases h1 : d.orderBys = [] <;> by_cases h3 : d.limit = [] <;> by_cases h4 : d.offset = [] <;>
    simp only [h1, h3, h4, ne_eq, not_true_eq_false, not_false_eq_true, if_true, if_false,
      List.append_assoc, List.append_nil, List.nil_append]

/-- C11, amended (UpdateBuilderFast.ToSql): for an UPDATE with non-empty table
and at least one set clause whose fragments all render successfully (the
prefix, from, where and suffix fragments to non-empty text), the statement is
the placeholder rewrite of `[prefixes ' '] UPDATE table SET ` followed by the
set clauses in insertion order joined by `, ` and by the FROM, WHERE, ORDER BY,
LIMIT, OFFSET and suffix groups; a clause whose value is not a fragment is
`col = ?` and contributes that value, a clause whose value is a fragment that
is no `SelectBuilder` is `col = ` followed by the fragment's text without
parentheses and contributes the fragment's args; the args are the prefix args,
the SET args, then the from, where and suffix args. -/
theorem UpdateBuilderFast.ToSql_skeleton (d : UpdateBuilderFast) (ht : d.table ≠ [])
    (hs : d.setClauses ≠ []) (h : ∀ p ∈ d.fragments, RendersNonEmpty p)
    (hv : ∀ c ∈ d.setClauses, c.value.Renders) :
    d.ToSql = ⟨d.placeholderFormat.replaceFrom 1 (updateSkeleton d),
        argsOf d.prefixes ++ d.setClauses.flatMap (fun c => valueArgs c.value) ++
          argsOf d.«from».toList ++ argsOf d.whereParts ++ argsOf d.suffixes, none⟩ ∧
      (∀ (col : Text) (a : Arg),
        setClauseText ⟨col, .plain a⟩ = col ++ " = ?".toList ∧ valueArgs (.plain a) = [a]) ∧
      (∀ (col : Text) (vs : Sqlizer), vs.isSelectBuilder = false →
        setClauseText ⟨col, .sqlizer vs⟩ = col ++ " = ".toList ++ vs.ToSql.sqlStr ∧
          valueArgs (.sqlizer vs) = vs.ToSql.args) := by
  refine ⟨?_, fun col a => ⟨by simp [setClauseText, setValueText], rfl⟩, fun col vs hsel =>
    ⟨by simp [setClauseText, setValueText, hsel], rfl⟩⟩
  have hl : d.table.length ≠ 0 := by simpa [List.length_eq_zero] using ht
  have hl2 : d.setClauses.length ≠ 0 := by simpa [List.length_eq_zero] using hs
  unfold ToSql
  rw [if_neg hl, if_neg hl2, toSqlBody_eq_skeleton d h hv]
  simp [finish, rewriteResult, PlaceholderFormat.ReplacePlaceholders, updateArgs]

set_option maxRecDepth 8000 in
/-- Witness of the amended C11 at the builder of `TestUpdateBuilderFastToSql`. -/
theorem UpdateBuilderFast.ToSql_skeleton_witness :
    testUpdate.table ≠ [] ∧ testUpdate.setClauses ≠ [] ∧
      (∀ p ∈ testUpdate.fragments, RendersNonEmpty p) ∧
      (∀ c ∈ testUpdate.setClauses, c.value.Renders) ∧
      testUpdate.ToSql = ⟨testUpdate.placeholderFormat.replaceFrom 1 (updateSkeleton testUpdate),
        argsOf testUpdate.prefixes ++
          testUpdate.setClauses.flatMap (fun c => valueArgs c.value) ++
          argsOf testUpdate.«from».toList ++ argsOf testUpdate.whereParts ++
          argsOf testUpdate.suffixes, none⟩ :=
  ⟨by decide, by decide, by decide, by decide,
    (UpdateBuilderFast.ToSql_skeleton testUpdate (by decide) (by decide) (by decide)
      (by decide)).1⟩

/-- C11 as stated fails: `UpdateFast("t").Set("x", CaseFast())` has a table
and a set clause whose value is a fragment that is no SELECT, and what it
renders is the error of the CASE builder and the empty text, not a statement
`UPDATE t SET x = ...`. -/
theorem UpdateBuilderFast.ToSql_failing_value_counterexample :
    updateSetFailingCase.table ≠ [] ∧ updateSetFailingCase.setClauses ≠ [] ∧
      updateSetFailingCase.ToSql =
        ⟨[], [], some "case expression must contain at lease one WHEN clause"⟩ := by
  decide

/-! ### The INSERT skeleton -/

/-- One VALUES row when every fragment value renders. -/
theorem insertRow_ok (row : List Value) :
    ∀ args, (∀ v ∈ row, v.Renders) →
      insertRow row args = .ok (row.map slotText, args ++ row.flatMap valueArgs) := by
  induction row with
  | nil => intro args _; simp [insertRow]
  | cons v row ih =>
    intro args h
    have hv := h v (List.mem_cons_self _ _)
    have hrest : ∀ u ∈ row, u.Renders := fun u hu => h u (List.mem_cons_of_mem _ hu)
    cases v with
    | sqlizer vs =>
      have he : vs.ToSql.err = none := hv
      simp [insertRow, he, ih _ hrest, slotText, valueArgs]
    | plain a => simp [insertRow, ih _ hrest, slotText, valueArgs]

/-- The VALUES rows when every fragment value renders: the row texts in
insertion order and the args in row-major order. -/
theorem insertRows_ok (rows : List (List Value)) :
    ∀ args, (∀ row ∈ rows, ∀ v ∈ row, v.Renders) →
      insertRows rows args =
        .ok (rows.map rowText, args ++ rows.flatten.flatMap valueArgs) := by
  induction rows with
  | nil => intro args _; simp [insertRows]
  | cons row rows ih =>
    intro args h
    have hrow := h row (List.mem_cons_self _ _)
    have hrest : ∀ r ∈ rows, ∀ v ∈ r, v.Renders := fun r hr => h r (List.mem_cons_of_mem _ hr)
    simp [insertRows, insertRow_ok row args hrow, ih _ hrest, rowText]

/-- The body of `InsertBuilderFast.ToSql` for VALUES rows is the skeleton of
§4.8 when every fragment renders, the prefixes and suffixes to non-empty
text. -/
theorem InsertBuilderFast.toSqlBody_eq_valuesSkeleton (d : InsertBuilderFast)
    (hsel : d.selectBuilder = none) (hvals : d.values ≠ [])
    (hpre : ∀ p ∈ d.prefixes, RendersNonEmpty p) (hsuf : ∀ p ∈ d.suffixes, RendersNonEmpty p)
    (hv : ∀ row ∈ d.values, ∀ v ∈ row, v.Renders) :
    d.toSqlBody = .ok (insertValuesSkeleton d,
      argsOf d.prefixes ++ d.values.flatten.flatMap valueArgs ++ argsOf d.suffixes) := by
  have hl : d.values.length ≠ 0 := by simpa [List.length_eq_zero] using hvals
  unfold toSqlBody
  simp only [appendToSql_prefixes_ok _ hpre, ok_bind, hsel, ne_eq, not_true_eq_false, if_false,
    appendValuesToSQL, hl, insertRows_ok _ _ hv, appendToSql_guarded_pair _ _ _ _ hsuf]
  simp only [pure, Except.pure, insertValuesSkeleton, insertHeader, keywordText, insertIntoText,
    List.append_assoc, gt_iff_lt, List.length_pos]
  by_cases h1 : d.statementKeywordStr = [] <;> by_cases h2 : d.options = [] <;>
    by_cases h3 : d.columns = [] <;>
    simp only [h1, h2, h3, ne_eq, not_true_eq_false, not_false_eq_true, if_true, if_false,
      List.append_assoc, List.append_nil, List.nil_append]

/-- C15, amended (InsertBuilderFast.appendValuesToSQL): for an INSERT with
non-empty `into`, no select source and at least one value row, rows of any
widths, in which every fragment value renders successfully and every prefix
and suffix fragment renders successfully to non-empty text, `ToSql` succeeds;
the statement is the placeholder rewrite of the header, `VALUES ` and the rows
in insertion order joined by `,`, each row `(` + its slots joined by `,` +
`)`, a slot being `?` for a value that is not a fragment and the fragment's
text for a fragment; the args are the prefix args, the value args in row-major
order, then the suffix args. -/
theorem InsertBuilderFast.ToSql_values (d : InsertBuilderFast) (hinto : d.into ≠ [])
    (hsel : d.selectBuilder = none) (hvals : d.values ≠ [])
    (hpre : ∀ p ∈ d.prefixes, RendersNonEmpty p) (hsuf : ∀ p ∈ d.suffixes, RendersNonEmpty p)
    (hv : ∀ row ∈ d.values, ∀ v ∈ row, v.Renders) :
    d.ToSql = ⟨d.placeholderFormat.replaceFrom 1
        (insertHeader d ++ "VALUES ".toList ++ ",".toList.intercalate (d.values.map rowText) ++
          (if d.suffixes ≠ [] then " ".toList ++ " ".toList.intercalate (textsOf d.suffixes)
            else [])),
        argsOf d.prefixes ++ d.values.flatten.flatMap valueArgs ++ argsOf d.suffixes, none⟩ ∧
      (∀ row : List Value,
        rowText row = "(".toList ++ ",".toList.intercalate (row.map slotText) ++ ")".toList) ∧
      (∀ a : Arg, slotText (.plain a) = "?".toList ∧ valueArgs (.plain a) = [a]) ∧
      (∀ vs : Sqlizer, slotText (.sqlizer vs) = vs.ToSql.sqlStr ∧
        valueArgs (.sqlizer vs) = vs.ToSql.args) := by
  refine ⟨?_, fun _ => rfl, fun _ => ⟨rfl, rfl⟩, fun _ => ⟨rfl, rfl⟩⟩
  have hl : d.into.length ≠ 0 := by simpa [List.length_eq_zero] using hinto
  have h2 : ¬ (d.values.length = 0 ∧ d.selectBuilder = none) := by
    simp [List.length_eq_zero, hvals]
  unfold ToSql
  rw [if_neg hl, if_neg h2, toSqlBody_eq_valuesSkeleton d hsel hvals hpre hsuf hv]
  simp [finish, rewriteResult, PlaceholderFormat.ReplacePlaceholders, insertValuesSkeleton]

/-- Witness of the amended C15 at the builder of `TestInsertFastBuilderToSql`,
whose second row holds a fragment. -/
theorem InsertBuilderFast.ToSql_values_witness :
    testInsert.into ≠ [] ∧ testInsert.selectBuilder = none ∧ testInsert.values ≠ [] ∧
      (∀ p ∈ testInsert.prefixes, RendersNonEmpty p) ∧
      (∀ p ∈ testInsert.suffixes, RendersNonEmpty p) ∧
      (∀ row ∈ testInsert.values, ∀ v ∈ row, v.Renders) ∧
      testInsert.ToSql = ⟨testInsert.placeholderFormat.replaceFrom 1
        (insertHeader testInsert ++ "VALUES ".toList ++
          ",".toList.intercalate (testInsert.values.map rowText) ++
          (if testInsert.suffixes ≠ [] then
            " ".toList ++ " ".toList.intercalate (textsOf testInsert.suffixes) else [])),
        argsOf testInsert.prefixes ++ testInsert.values.flatten.flatMap valueArgs ++
          argsOf testInsert.suffixes, none⟩ :=
  ⟨by decide, by decide, by decide, by decide, by decide, by decide,
    (InsertBuilderFast.ToSql_values testInsert (by decide) (by decide) (by decide) (by decide)
      (by decide) (by decide)).1⟩

/-- C15 as stated fails: `InsertFast("t").Values(1)` with a prefix fragment
that fails to render has a table, no select source, a value row and no
failing fragment value, and its `ToSql` does not succeed. -/
theorem InsertBuilderFast.ToSql_values_counterexample :
    insertWithFailingPrefix.into ≠ [] ∧ insertWithFailingPrefix.selectBuilder = none ∧
      insertWithFailingPrefix.values ≠ [] ∧
      (∀ row ∈ insertWithFailingPrefix.values, ∀ v ∈ row, v.Renders) ∧
      insertWithFailingPrefix.ToSql =
        ⟨[], [], some "select statements must have at least one result column"⟩ := by
  decide

/-! ### SetMap -/

/-- The access of a map at the key of one of its entries gives the value of
that entry. -/
theorem GoMap.get_of_mem (m : GoMap) (e : Text × Value) (he : e ∈ m.entries) :
    m.get e.1 = e.2 := by
  obtain ⟨entries, nodup⟩ := m
  simp only [GoMap.get]
  induction entries with
  | nil => simp at he
  | cons x rest ih =>
    simp only [List.map_cons, List.nodup_cons] at nodup
    obtain ⟨hx, hrest⟩ := nodup
    by_cases hxe : x.1 = e.1
    · have hxeq : e = x := by
        rcases List.mem_cons.1 he with h | h
        · exact h
        · exact absurd (hxe ▸ List.mem_map_of_mem Prod.fst h) hx
      subst hxeq
      simp [List.find?]
    · have hmem : e ∈ rest := by
        rcases List.mem_cons.1 he with h | h
        · exact absurd (congrArg Prod.fst h).symm hxe
        · exact h
      simp only [List.find?, hxe, decide_False]
      exact ih hrest hmem

/-- The access of a map does not depend on the order of its entries. -/
theorem GoMap.get_perm (m m2 : GoMap) (h : m.entries.Perm m2.entries) (k : Text)
    (hk : k ∈ m.keys) : m2.get k = m.get k := by
  obtain ⟨e, he, rfl⟩ := List.mem_map.1 hk
  rw [GoMap.get_of_mem m e he, GoMap.get_of_mem m2 e (h.subset he)]

theorem sortStrings_perm (keys : List Text) : (sortStrings keys).Perm keys :=
  List.perm_insertionSort _ _

theorem sortStrings_sorted (keys : List Text) : List.Sorted (· ≤ ·) (sortStrings keys) :=
  List.sorted_insertionSort _ _

/-- The sorted keys do not depend on the order in which the map is visited. -/
theorem sortStrings_keys_perm (m m2 : GoMap) (h : m.entries.Perm m2.entries) :
    sortStrings m2.keys = sortStrings m.keys := by
  apply List.eq_of_perm_of_sorted (r := (· ≤ ·)) _ (sortStrings_sorted _) (sortStrings_sorted _)
  exact (sortStrings_perm _).trans (((h.map Prod.fst).symm).trans (sortStrings_perm _).symm)

/-- Setting the keys of a list one after the other appends one clause for
each key, in the order of the list. -/
theorem UpdateBuilderFast.foldl_Set (keys : List Text) (f : Text → Value) :
    ∀ b : UpdateBuilderFast,
      keys.foldl (fun b key => b.Set key (f key)) b =
        { b with setClauses := b.setClauses ++ keys.map (fun k => ⟨k, f k⟩) } := by
  induction keys with
  | nil => intro b; simp
  | cons k keys ih =>
    intro b
    rw [List.foldl_cons, ih]
    simp [Set]

/-- `SetMap` appends one set clause for each key in increasing order. -/
theorem UpdateBuilderFast.SetMap_eq (b : UpdateBuilderFast) (m : GoMap) :
    b.SetMap m = { b with setClauses := b.setClauses ++
      (sortStrings m.keys).map (fun k => ⟨k, m.get k⟩) } := by
  unfold SetMap
  exact foldl_Set _ _ b

/-- C13 (UpdateBuilderFast.SetMap): `b.SetMap(m)` is `b.Set(k, m[k])` called
once for each key of `m` in increasing lexicographic order; it appends exactly
`len(m)` set clauses after those of `b` and changes no other slot; the columns
of the appended clauses are the keys of `m`, each once, in strictly increasing
order; each clause carries the value the map holds under its key; `SetMap` of
the empty map leaves the builder unchanged; and the result does not depend on
the order in which the map is visited. -/
theorem UpdateBuilderFast.SetMap_spec (b : UpdateBuilderFast) (m : GoMap) :
    b.SetMap m = (sortStrings m.keys).foldl (fun b k => b.Set k (m.get k)) b ∧
      b.SetMap m = { b with setClauses := b.setClauses ++
        (sortStrings m.keys).map (fun k => ⟨k, m.get k⟩) } ∧
      (b.SetMap m).setClauses.length = b.setClauses.length + m.entries.length ∧
      (sortStrings m.keys).Perm m.keys ∧
      List.Sorted (· < ·) (sortStrings m.keys) ∧
      (∀ e ∈ m.entries, (⟨e.1, e.2⟩ : setClause) ∈ (b.SetMap m).setClauses) ∧
      b.SetMap ⟨[], List.nodup_nil⟩ = b ∧
      (∀ m2 : GoMap, m.entries.Perm m2.entries → b.SetMap m2 = b.SetMap m) := by
  have hperm := sortStrings_perm m.keys
  refine ⟨rfl, SetMap_eq b m, ?_, hperm, ?_, ?_, rfl, ?_⟩
  · rw [SetMap_eq]
    simp only [List.length_append, List.length_map, hperm.length_eq]
    simp [GoMap.keys]
  · exact (sortStrings_sorted m.keys).lt_of_le (hperm.nodup_iff.2 m.nodup)
  · intro e he
    rw [SetMap_eq]
    simp only [List.mem_append, List.mem_map]
    right
    exact ⟨e.1, hperm.mem_iff.2 (List.mem_map_of_mem Prod.fst he), by
      rw [GoMap.get_of_mem m e he]⟩
  · intro m2 h
    rw [SetMap_eq, SetMap_eq, sortStrings_keys_perm m m2 h]
    congr 2
    apply List.map_congr_left
    intro k hk
    rw [GoMap.get_perm m m2 h k (hperm.mem_iff.1 hk)]

/-- The test `TestUpdateBuilderFastPlaceholders`, update_fast_test.go:59-67. -/
theorem testUpdateSetMap_ToSql :
    (testUpdateSetMap.PlaceholderFormat .Question).ToSql =
        ⟨"UPDATE test SET x = ?, y = ?".toList, [.int 1, .int 2], none⟩ ∧
      (testUpdateSetMap.PlaceholderFormat .Dollar).ToSql =
        ⟨"UPDATE test SET x = $1, y = $2".toList, [.int 1, .int 2], none⟩ := by
  decide

/-- The rewrite copies a character that is not `?`. -/
theorem replaceFrom_cons_of_ne (f : PlaceholderFormat) (n : Nat) (c : Char) (t : Text)
    (hc : c ≠ '?') : f.replaceFrom n (c :: t) = c :: f.replaceFrom n t := by
  rw [PlaceholderFormat.replaceFrom]
  · intro rest h _; exact hc h
  · intro h; exact hc h

/-- A `?` before a character that is not `?` is a marker. -/
theorem replaceFrom_mark_cons_of_ne (f : PlaceholderFormat) (n : Nat) (c : Char) (t : Text)
    (hc : c ≠ '?') :
    f.replaceFrom n ('?' :: c :: t) = f.marker n ++ f.replaceFrom (n + 1) (c :: t) := by
  rw [PlaceholderFormat.replaceFrom]
  intro rest h
  exact hc (by injection h)

/-- The rewrite copies a text without `?` that stands first. -/
theorem replaceFrom_noMark_append (f : PlaceholderFormat) (p q : Text) (hp : NoMark p) :
    ∀ n, f.replaceFrom n (p ++ q) = p ++ f.replaceFrom n q := by
  induction p with
  | nil => intro n; rfl
  | cons c p ih =>
    intro n
    have hc : c ≠ '?' := fun h => hp (h ▸ List.mem_cons_self _ _)
    have hp2 : NoMark p := fun h => hp (List.mem_cons_of_mem _ h)
    rw [List.cons_append, replaceFrom_cons_of_ne f n c _ hc, ih hp2, List.cons_append]

/-- Under `Question` the rewrite leaves the slots `,?,?...)` as they are. -/
theorem replaceFrom_question_tail (ks : List Text) :
    ∀ k, PlaceholderFormat.Question.replaceFrom k
        ((ks.map (fun _ => [',', '?'])).flatten ++ [')']) =
      (ks.map (fun _ => [',', '?'])).flatten ++ [')'] := by
  induction ks with
  | nil => intro k; simp [PlaceholderFormat.replaceFrom]
  | cons x xs ih =>
    intro k
    simp only [List.map_cons, List.flatten_cons, List.cons_append, List.nil_append]
    rw [replaceFrom_cons_of_ne _ _ _ _ (by decide)]
    cases xs with
    | nil => simp [PlaceholderFormat.replaceFrom, PlaceholderFormat.marker]
    | cons y ys =>
      simp only [List.map_cons, List.flatten_cons, List.cons_append, List.nil_append] at ih ⊢
      rw [replaceFrom_mark_cons_of_ne _ _ _ _ (by decide), ih (k + 1)]
      simp [PlaceholderFormat.marker]

/-- Under `Question` the rewrite leaves a row of `?` slots as it is. -/
theorem replaceFrom_question_slots (ks : List Text) (k : Nat) :
    PlaceholderFormat.Question.replaceFrom k
        (",".toList.intercalate (ks.map (fun _ => "?".toList)) ++ ")".toList) =
      ",".toList.intercalate (ks.map (fun _ => "?".toList)) ++ ")".toList := by
  cases ks with
  | nil => simp [PlaceholderFormat.replaceFrom, List.intercalate]
  | cons x xs =>
    have h := replaceFrom_question_tail xs (k + 1)
    rw [List.map_cons, intercalate_cons_eq]
    simp only [List.map_map, Function.comp_def, String.toList, List.cons_append,
      List.nil_append, List.singleton_append] at h ⊢
    cases xs with
    | nil => simp [PlaceholderFormat.replaceFrom, PlaceholderFormat.marker]
    | cons y ys =>
      simp only [List.map_cons, List.flatten_cons, List.cons_append, List.nil_append] at h ⊢
      rw [replaceFrom_mark_cons_of_ne _ _ _ _ (by decide), h]
      simp [PlaceholderFormat.marker]

/-- The args of values that are not fragments are the values themselves. -/
theorem valueArgs_plain (vals : List Value) (h : ∀ v ∈ vals, ∃ a, v = .plain a) :
    (vals.flatMap valueArgs).map Value.plain = vals ∧
      vals.map slotText = vals.map (fun _ => "?".toList) ∧ ∀ v ∈ vals, v.Renders := by
  induction vals with
  | nil => simp
  | cons v vals ih =>
    obtain ⟨a, rfl⟩ := h v (List.mem_cons_self _ _)
    obtain ⟨h1, h2, h3⟩ := ih (fun u hu => h u (List.mem_cons_of_mem _ hu))
    refine ⟨?_, ?_, ?_⟩
    · simpa [valueArgs] using h1
    · simpa [slotText] using h2
    · intro u hu
      rcases List.mem_cons.1 hu with rfl | hu
      · trivial
      · exact h3 u hu

/-- `SetMap` appends the sorted keys to the columns and one row to the value
rows. -/
theorem InsertBuilderFast.SetMap_perm (b : InsertBuilderFast) (m m2 : GoMap)
    (h : m.entries.Perm m2.entries) : b.SetMap m2 = b.SetMap m := by
  unfold SetMap
  simp only [sortStrings_keys_perm m m2 h]
  congr 3
  apply List.map_congr_left
  intro k hk
  exact GoMap.get_perm m m2 h k ((sortStrings_perm m.keys).mem_iff.1 hk)

/-- The statement of a fresh builder after `SetMap` with a map whose values
are not fragments. -/
theorem InsertBuilderFast.SetMap_fresh_ToSql (m : GoMap) (t : Text) (ht : t ≠ [])
    (htm : NoMark t) (hk : ∀ k ∈ m.keys, NoMark k)
    (hplain : ∀ e ∈ m.entries, ∃ a, e.2 = .plain a) :
    ((InsertFast t).SetMap m).ToSql =
      ⟨"INSERT INTO ".toList ++ t ++ " ".toList ++
        (if sortStrings m.keys ≠ [] then
          "(".toList ++ ",".toList.intercalate (sortStrings m.keys) ++ ") ".toList else []) ++
        "VALUES (".toList ++
        ",".toList.intercalate ((sortStrings m.keys).map (fun _ => "?".toList)) ++ ")".toList,
        ((sortStrings m.keys).map m.get).flatMap valueArgs, none⟩ := by
  have hperm := sortStrings_perm m.keys
  have hvals : ∀ v ∈ (sortStrings m.keys).map m.get, ∃ a, v = .plain a := by
    intro v hv
    obtain ⟨k, hk2, rfl⟩ := List.mem_map.1 hv
    obtain ⟨e, he, rfl⟩ := List.mem_map.1 (hperm.mem_iff.1 hk2)
    rw [GoMap.get_of_mem m e he]
    exact hplain e he
  obtain ⟨_, hslots, hrenders⟩ := valueArgs_plain _ hvals
  have hks : ∀ k ∈ sortStrings m.keys, NoMark k := fun k h => hk k (hperm.mem_iff.1 h)
  have hl : ((InsertFast t).SetMap m).into.length ≠ 0 := by
    simpa [List.length_eq_zero, InsertFast, StatementBuilderType.InsertFast, Into, SetMap] using ht
  have h2 : ¬ (((InsertFast t).SetMap m).values.length = 0 ∧
      ((InsertFast t).SetMap m).selectBuilder = none) := by
    simp [SetMap]
  have hbody := toSqlBody_eq_valuesSkeleton ((InsertFast t).SetMap m) rfl (by simp [SetMap])
    (by intro p hp; simp [SetMap, InsertFast, StatementBuilderType.InsertFast, Into] at hp)
    (by intro p hp; simp [SetMap, InsertFast, StatementBuilderType.InsertFast, Into] at hp)
    (by
      intro row hrow v hv
      simp only [SetMap, InsertFast, StatementBuilderType.InsertFast, Into, List.nil_append,
        List.mem_singleton] at hrow
      subst hrow
      exact hrenders v hv)
  unfold ToSql
  rw [if_neg hl, if_neg h2, hbody]
  simp only [finish, rewriteResult, PlaceholderFormat.ReplacePlaceholders, insertValuesSkeleton,
    insertHeader, keywordText, insertIntoText, SetMap, InsertFast,
    StatementBuilderType.InsertFast, Into, rowText, hslots, argsOf, textsOf, List.map_nil,
    List.flatMap_nil, List.nil_append, List.append_nil, ne_eq, not_true_eq_false, if_true,
    if_false, List.map_cons, List.flatten_cons, List.flatten_nil, List.append_assoc,
    List.map_map, Function.comp_def]
  have hC : NoMark (if ¬ sortStrings m.keys = [] then
      "(".toList ++ (",".toList.intercalate (sortStrings m.keys) ++ ") ".toList) else []) := by
    split
    · exact noMark_append _ _ (by decide)
        (noMark_append _ _ (noMark_intercalate _ _ (by decide) hks) (by decide))
    · exact (by decide : NoMark [])
  have hP := noMark_append _ _ (noMark_append _ _ (noMark_append _ _
    (noMark_append _ _ (by decide : NoMark "INSERT INTO ".toList) htm)
    (by decide : NoMark " ".toList)) hC) (by decide : NoMark "VALUES (".toList)
  have hrw := replaceFrom_noMark_append .Question _
    (",".toList.intercalate ((sortStrings m.keys).map (fun _ => "?".toList)) ++ ")".toList) hP 1
  rw [replaceFrom_question_slots] at hrw
  have hone : ∀ x : Text, [','].intercalate [x] = x := fun x => by simp [List.intercalate]
  simpa [List.append_assoc, hone] using hrw

/-- The test `TestInsertFastBuilderSetMap`, insert_fast_test.go:76-87. -/
theorem testInsertSetMap_ToSql :
    testInsertSetMap.ToSql =
      ⟨"INSERT INTO table (field1,field2,field3) VALUES (?,?,?)".toList,
        [.int 1, .int 2, .int 3], none⟩ := by
  decide

/-- C16 (InsertBuilderFast.SetMap): `SetMap` does not reset the columns and
value rows set before: it appends the sorted keys of the map to the columns
and one row to the value rows. After
`InsertFast("t").Columns("a").Values(1).SetMap({"b": 2})` the columns are
`a, b` and there are two value rows, and the statement is
`INSERT INTO t (a,b) VALUES (?),(?)`. -/
theorem InsertBuilderFast.SetMap_keeps_previous (b : InsertBuilderFast) (m : GoMap) :
    (b.SetMap m).columns = b.columns ++ sortStrings m.keys ∧
      (b.SetMap m).values = b.values ++ [(sortStrings m.keys).map m.get] ∧
      insertSetMapAfterValues.columns = ["a".toList, "b".toList] ∧
      insertSetMapAfterValues.values = [[.plain (.int 1)], [.plain (.int 2)]] ∧
      insertSetMapAfterValues.ToSql =
        ⟨"INSERT INTO t (a,b) VALUES (?),(?)".toList, [.int 1, .int 2], none⟩ :=
  ⟨rfl, rfl, by decide, by decide, by decide⟩

/-- C17, amended (InsertBuilderFast.SetMap): for every builder `b` and map
`m`, `b.SetMap(m)` extends the columns of `b` with the keys of `m` in strictly
increasing lexicographic order and appends exactly one value row whose i-th
position holds the value `m` maps the i-th sorted key to, whatever the order
in which the map is visited; on a fresh builder `InsertFast(t)` with a
non-empty `t`, when `t` and the keys hold no `?` and no value of `m` is a
fragment, `ToSql` succeeds with the statement
`INSERT INTO t (k1,...,kn) VALUES (?,...,?)` (without the column list for the
empty map) and the args `[m[k1],...,m[kn]]`. -/
theorem InsertBuilderFast.SetMap_extends (b : InsertBuilderFast) (m : GoMap) (t : Text) :
    b.SetMap m = { b with columns := b.columns ++ sortStrings m.keys, values := b.values ++ [(sortStrings m.keys).map m.get] } ∧
      (sortStrings m.keys).Perm m.keys ∧
      List.Sorted (· < ·) (sortStrings m.keys) ∧
      (∀ i : Nat, ((sortStrings m.keys).map m.get)[i]? = (sortStrings m.keys)[i]?.map m.get) ∧
      (∀ e ∈ m.entries, m.get e.1 = e.2) ∧
      (∀ m2 : GoMap, m.entries.Perm m2.entries → b.SetMap m2 = b.SetMap m) ∧
      (t ≠ [] → NoMark t → (∀ k ∈ m.keys, NoMark k) → (∀ e ∈ m.entries, ¬ e.2.IsFragment) →
        ((InsertFast t).SetMap m).ToSql.err = none ∧
        ((InsertFast t).SetMap m).ToSql.sqlStr =
          "INSERT INTO ".toList ++ t ++ " ".toList ++
            (if sortStrings m.keys ≠ [] then
              "(".toList ++ ",".toList.intercalate (sortStrings m.keys) ++ ") ".toList else []) ++
            "VALUES (".toList ++
            ",".toList.intercalate ((sortStrings m.keys).map (fun _ => "?".toList)) ++
            ")".toList ∧
        ((InsertFast t).SetMap m).ToSql.args.map Value.plain =
          (sortStrings m.keys).map m.get) := by
  have hperm := sortStrings_perm m.keys
  refine ⟨rfl, hperm, ?_, ?_, GoMap.get_of_mem m, SetMap_perm b m, ?_⟩
  · exact (sortStrings_sorted m.keys).lt_of_le (hperm.nodup_iff.2 m.nodup)
  · intro i
    exact List.getElem?_map _ _ _
  intro ht htm hk hplain
  have hex : ∀ e ∈ m.entries, ∃ a, e.2 = .plain a := by
    intro e he
    have h := hplain e he
    cases hv : e.2 with
    | sqlizer s => rw [hv] at h; exact absurd trivial h
    | plain a => exact ⟨a, rfl⟩
  have hvals : ∀ v ∈ (sortStrings m.keys).map m.get, ∃ a, v = .plain a := by
    intro v hv
    obtain ⟨k, hk2, rfl⟩ := List.mem_map.1 hv
    obtain ⟨e, he, rfl⟩ := List.mem_map.1 (hperm.mem_iff.1 hk2)
    rw [GoMap.get_of_mem m e he]
    exact hex e he
  have hsql := SetMap_fresh_ToSql m t ht htm hk hex
  refine ⟨?_, ?_, ?_⟩
  · rw [hsql]
  · rw [hsql]
  · rw [hsql]
    exact (valueArgs_plain _ hvals).1

/-- Witness of the amended C17 at the map of `TestInsertFastBuilderSetMap`,
visited in the order field3, field1, field2. -/
theorem InsertBuilderFast.SetMap_extends_witness :
    "table".toList ≠ [] ∧ NoMark "table".toList ∧ (∀ k ∈ fieldsMap.keys, NoMark k) ∧
      (∀ e ∈ fieldsMap.entries, ¬ e.2.IsFragment) ∧
      ((InsertFast "table".toList).SetMap fieldsMap).ToSql.err = none ∧
      ((InsertFast "table".toList).SetMap fieldsMap).ToSql.sqlStr =
        "INSERT INTO ".toList ++ "table".toList ++ " ".toList ++
          (if sortStrings fieldsMap.keys ≠ [] then
            "(".toList ++ ",".toList.intercalate (sortStrings fieldsMap.keys) ++ ") ".toList
            else []) ++
          "VALUES (".toList ++
          ",".toList.intercalate ((sortStrings fieldsMap.keys).map (fun _ => "?".toList)) ++
          ")".toList ∧
      ((InsertFast "table".toList).SetMap fieldsMap).ToSql.args.map Value.plain =
        (sortStrings fieldsMap.keys).map fieldsMap.get :=
  ⟨by decide, by decide, by decide, by decide,
    (InsertBuilderFast.SetMap_extends (InsertFast "table".toList) fieldsMap
      "table".toList).2.2.2.2.2.2 (by decide) (by decide) (by decide) (by decide)⟩

/-- C17 as stated fails for a map that holds a fragment: the statement of
`InsertFast("t").SetMap({"a": Expr("? + 1", 4)})` on a fresh builder is
`INSERT INTO t (a) VALUES (? + 1)` with the args `[4]`, not
`INSERT INTO t (a) VALUES (?)` with the args `[m["a"]]`. -/
theorem InsertBuilderFast.SetMap_fragment_counterexample :
    insertSetMapFragment.ToSql =
        ⟨"INSERT INTO t (a) VALUES (? + 1)".toList, [.int 4], none⟩ ∧
      insertSetMapFragment.ToSql.sqlStr ≠ "INSERT INTO t (a) VALUES (?)".toList ∧
      insertSetMapFragment.ToSql.args.map Value.plain ≠
        (sortStrings fragmentMap.keys).map fragmentMap.get := by
  decide

/-! ### INSERT with a select source -/

/-- The test `TestInsertFastBuilderSelect`, insert_fast_test.go:89-101. -/
theorem testInsertSelect_ToSql :
    testInsertSelect.ToSql =
      ⟨"INSERT INTO table2 (field1) SELECT field1 FROM table1 WHERE field1 = ?".toList,
        [.int 1], none⟩ := by
  decide

/-- With a select source the value rows play no part in `ToSql`. -/
theorem InsertBuilderFast.ToSql_select_rows (d : InsertBuilderFast) (sb : Sqlizer)
    (hsel : d.selectBuilder = some sb) (rows : List (List Value)) :
    ({ d with values := rows }).ToSql = d.ToSql := by
  simp [ToSql, toSqlBody, appendSelectToSQL, hsel]

/-- The body of `InsertBuilderFast.ToSql` with a select source is the skeleton
of §4.8 when every fragment renders, the prefixes and suffixes to non-empty
text. -/
theorem InsertBuilderFast.toSqlBody_eq_selectSkeleton (d : InsertBuilderFast) (sb : Sqlizer)
    (hsel : d.selectBuilder = some sb) (hsb : sb.ToSql.err = none)
    (hpre : ∀ p ∈ d.prefixes, RendersNonEmpty p) (hsuf : ∀ p ∈ d.suffixes, RendersNonEmpty p) :
    d.toSqlBody = .ok (insertSelectSkeleton d sb,
      argsOf d.prefixes ++ sb.ToSql.args ++ argsOf d.suffixes) := by
  unfold toSqlBody
  simp only [appendToSql_prefixes_ok _ hpre, ok_bind, hsel, ne_eq, not_false_eq_true, if_true,
    appendSelectToSQL, hsb, appendToSql_guarded_pair _ _ _ _ hsuf, reduceCtorEq]
  simp only [pure, Except.pure, insertSelectSkeleton, insertHeader, keywordText, insertIntoText,
    List.append_assoc, gt_iff_lt, List.length_pos]
  by_cases h1 : d.statementKeywordStr = [] <;> by_cases h2 : d.options = [] <;>
    by_cases h3 : d.columns = [] <;>
    simp only [h1, h2, h3, ne_eq, not_true_eq_false, not_false_eq_true, if_true, if_false,
      List.append_assoc, List.append_nil, List.nil_append]

/-- C18 (InsertBuilderFast.Select): when an INSERT with non-empty `into` has a
select source, the select source has priority over the value rows: `ToSql`
returns what it returns for the same builder with its value rows removed, and
for any other value rows; when the select source renders successfully, and the
prefix and suffix fragments to non-empty text, the statement is the
placeholder rewrite of the header, the text of the select source and the
suffixes, without VALUES clause, and the args are the prefix args, the args of
the select source and the suffix args, none of them from the value rows. -/
theorem InsertBuilderFast.Select_priority (d : InsertBuilderFast) (sb : Sqlizer)
    (hinto : d.into ≠ []) (hsel : d.selectBuilder = some sb) :
    d.ToSql = ({ d with values := [] }).ToSql ∧
      (∀ rows : List (List Value), ({ d with values := rows }).ToSql = d.ToSql) ∧
      (sb.ToSql.err = none → (∀ p ∈ d.prefixes, RendersNonEmpty p) →
        (∀ p ∈ d.suffixes, RendersNonEmpty p) →
        d.ToSql = ⟨d.placeholderFormat.replaceFrom 1
            (insertHeader d ++ sb.ToSql.sqlStr ++
              (if d.suffixes ≠ [] then " ".toList ++ " ".toList.intercalate (textsOf d.suffixes)
                else [])),
          argsOf d.prefixes ++ sb.ToSql.args ++ argsOf d.suffixes, none⟩) := by
  refine ⟨(ToSql_select_rows d sb hsel []).symm, ToSql_select_rows d sb hsel, ?_⟩
  intro hsb hpre hsuf
  have hl : d.into.length ≠ 0 := by simpa [List.length_eq_zero] using hinto
  have h2 : ¬ (d.values.length = 0 ∧ d.selectBuilder = none) := by simp [hsel]
  unfold ToSql
  rw [if_neg hl, if_neg h2, toSqlBody_eq_selectSkeleton d sb hsel hsb hpre hsuf]
  simp [finish, rewriteResult, PlaceholderFormat.ReplacePlaceholders, insertSelectSkeleton]

/-- The builder of `TestInsertFastBuilderSelect` with two value rows renders
as the test expects for the builder without value rows. -/
theorem insertSelectAndValues_ToSql :
    insertSelectAndValues.values = [[.plain (.int 8)], [.plain (.int 9)]] ∧
      insertSelectAndValues.ToSql =
        ⟨"INSERT INTO table2 (field1) SELECT field1 FROM table1 WHERE field1 = ?".toList,
          [.int 1], none⟩ := by
  decide

/-- Witness of C18 at the builder of `TestInsertFastBuilderSelect` with a
value row set before and one after the select source. -/
theorem InsertBuilderFast.Select_priority_witness :
    insertSelectAndValues.into ≠ [] ∧
      insertSelectAndValues.selectBuilder = some testSelectSource.toSqlizer ∧
      testSelectSource.toSqlizer.ToSql.err = none ∧
      (∀ p ∈ insertSelectAndValues.prefixes, RendersNonEmpty p) ∧
      (∀ p ∈ insertSelectAndValues.suffixes, RendersNonEmpty p) ∧
      insertSelectAndValues.ToSql = ({ insertSelectAndValues with values := [] }).ToSql ∧
      insertSelectAndValues.ToSql =
        ⟨insertSelectAndValues.placeholderFormat.replaceFrom 1
            (insertHeader insertSelectAndValues ++ testSelectSource.toSqlizer.ToSql.sqlStr ++
              (if insertSelectAndValues.suffixes ≠ [] then
                " ".toList ++ " ".toList.intercalate (textsOf insertSelectAndValues.suffixes)
                else [])),
          argsOf insertSelectAndValues.prefixes ++ testSelectSource.toSqlizer.ToSql.args ++
            argsOf insertSelectAndValues.suffixes, none⟩ :=
  ⟨by decide, by decide, by decide, by decide, by decide,
    (InsertBuilderFast.Select_priority insertSelectAndValues testSelectSource.toSqlizer
      (by decide) (by decide)).1,
    (InsertBuilderFast.Select_priority insertSelectAndValues testSelectSource.toSqlizer
      (by decide) (by decide)).2.2 (by decide) (by decide) (by decide)⟩

/-! ### The statement keyword of INSERT and REPLACE -/

/-- The test `TestInsertFastBuilderReplace`, insert_fast_test.go:103-112. -/
theorem testReplace_ToSql :
    testReplace.ToSql = ⟨"REPLACE INTO table VALUES (?)".toList, [.int 1], none⟩ := by
  decide

/-- A text written before the buffer stays before what `appendToSql` writes. -/
theorem appendToSqlFrom_buffer (sep w : Text) (parts : List Sqlizer) :
    ∀ (i : Nat) (u : Text) (args : List Arg),
      appendToSqlFrom sep i parts (w ++ u) args = prepend w (appendToSqlFrom sep i parts u args) := by
  induction parts with
  | nil => intro i u args; simp [appendToSqlFrom, prepend]
  | cons p ps ih =>
    intro i u args
    rw [appendToSqlFrom, appendToSqlFrom]
    cases he : (nestedToSql p).err with
    | some e => simp [prepend]
    | none =>
      simp only
      by_cases hlen : (nestedToSql p).sqlStr.length = 0
      · simp only [hlen, if_true]
        exact ih _ _ _
      · simp only [hlen, if_false]
        rw [← ih]
        by_cases hi : i > 0 <;> simp [hi, List.append_assoc]

theorem InsertBuilderFast.appendSelectToSQL_buffer (d : InsertBuilderFast) (w u : Text)
    (args : List Arg) :
    d.appendSelectToSQL (w ++ u) args = prepend w (d.appendSelectToSQL u args) := by
  unfold appendSelectToSQL
  cases d.selectBuilder with
  | none => simp [prepend]
  | some sb =>
    simp only
    cases sb.ToSql.err with
    | none => simp [prepend, List.append_assoc]
    | some e => simp [prepend]

theorem InsertBuilderFast.appendValuesToSQL_buffer (d : InsertBuilderFast) (w u : Text)
    (args : List Arg) :
    d.appendValuesToSQL (w ++ u) args = prepend w (d.appendValuesToSQL u args) := by
  unfold appendValuesToSQL
  by_cases h : d.values.length = 0
  · simp [h, prepend]
  · simp only [h, if_false]
    cases insertRows d.values args with
    | error e => simp [prepend]
    | ok r => simp [prepend, List.append_assoc]

/-- Binding after `prepend` is `prepend` after binding, for a continuation
that keeps the text before its buffer. -/
theorem prepend_bind (w : Text) (x : Render) (g g2 : Text × List Arg → Render)
    (h : ∀ s, g (w ++ s.1, s.2) = prepend w (g2 s)) :
    (prepend w x >>= g) = prepend w (x >>= g2) := by
  cases x with
  | error e => rfl
  | ok s => exact h s

/-- A text written before the buffer stays before what the statements after
the keyword write. -/
theorem InsertBuilderFast.toSqlTail_buffer (d : InsertBuilderFast) (w : Text)
    (args : List Arg) :
    d.toSqlTail w args = prepend w (d.toSqlTail [] args) := by
  have hsrc : ∀ u, (if d.selectBuilder ≠ none then d.appendSelectToSQL (w ++ u) args
      else d.appendValuesToSQL (w ++ u) args) =
      prepend w (if d.selectBuilder ≠ none then d.appendSelectToSQL u args
        else d.appendValuesToSQL u args) := by
    intro u
    split
    · exact appendSelectToSQL_buffer d w u args
    · exact appendValuesToSQL_buffer d w u args
  have hsuf : ∀ s : Text × List Arg,
      (if d.suffixes.length > 0 then
          appendToSql d.suffixes ((w ++ s.1, s.2).1 ++ " ".toList) " ".toList (w ++ s.1, s.2).2
        else pure (w ++ s.1, s.2)) =
      prepend w (if d.suffixes.length > 0 then
          appendToSql d.suffixes (s.1 ++ " ".toList) " ".toList s.2
        else pure s) := by
    intro s
    split
    · simp only [appendToSql, List.append_assoc]
      exact appendToSqlFrom_buffer _ w _ 0 _ _
    · rfl
  unfold toSqlTail
  by_cases h2 : d.options.length > 0 <;> by_cases h3 : d.columns.length > 0
  all_goals
    simp only [h2, h3, if_true, if_false, List.nil_append, List.append_assoc, bind_pure]
    rw [hsrc]
    exact prepend_bind w _ _ _ hsuf

/-- The body of `InsertBuilderFast.ToSql` is the render of the prefixes, the
statement keyword and what the statements after the keyword write. -/
theorem InsertBuilderFast.toSqlBody_eq_parts (d : InsertBuilderFast) :
    d.toSqlBody =
      d.toSqlPrefixes >>= fun s => prepend (s.1 ++ keywordText d) (d.toSqlTail [] s.2) := by
  have h : d.toSqlBody = d.toSqlPrefixes >>= fun s => d.toSqlTail (s.1 ++ keywordText d) s.2 := by
    unfold toSqlBody toSqlTail toSqlPrefixes keywordText
    by_cases hk : d.statementKeywordStr = [] <;>
      simp only [hk, if_true, if_false, List.append_assoc, bind_pure]
  rw [h]
  congr 1
  funext s
  exact toSqlTail_buffer d _ _

/-- The rewrite of a text up to a character that is not `?`, and of the text
from that character on with the counter moved on by the markers before it. -/
theorem replaceFrom_append_cons (f : PlaceholderFormat) (w : Text) (c : Char) (t : Text)
    (hc : c ≠ '?') :
    ∀ n, f.replaceFrom n (w ++ c :: t) =
      f.replaceFrom n w ++ f.replaceFrom (n + countMarkers w) (c :: t) := by
  induction w using countMarkers.induct with
  | case1 => intro n; simp [PlaceholderFormat.replaceFrom, countMarkers]
  | case2 rest ih =>
    intro n
    simp [PlaceholderFormat.replaceFrom, countMarkers, ih]
  | case3 rest hrest ih =>
    intro n
    cases rest with
    | nil =>
      simp only [List.nil_append, List.cons_append]
      rw [replaceFrom_mark_cons_of_ne f n c t hc]
      simp [PlaceholderFormat.replaceFrom, countMarkers]
    | cons x xs =>
      have hx : x ≠ '?' := fun h => hrest xs (by rw [h])
      simp only [List.cons_append] at ih ⊢
      rw [replaceFrom_mark_cons_of_ne f n x _ hx, replaceFrom_mark_cons_of_ne f n x _ hx,
        countMarkers_mark_cons_of_ne x _ hx, ih (n + 1), List.append_assoc]
      congr 3
      omega
  | case4 x rest hx1 hx2 ih =>
    intro n
    have hx : x ≠ '?' := fun h => hx2 h
    simp only [List.cons_append]
    rw [replaceFrom_cons_of_ne f n x _ hx, replaceFrom_cons_of_ne f n x _ hx,
      countMarkers_cons_of_ne x _ hx, ih n, List.cons_append]

/-- A builder method does not read or write the statement keyword. -/
theorem InsertBuilderFast.call_statementKeyword (b : InsertBuilderFast) (k : Text)
    (c : InsertCall) :
    (b.statementKeyword k).call c = (b.call c).statementKeyword k ∧
      (b.call c).statementKeywordStr = b.statementKeywordStr := by
  cases c <;> exact ⟨rfl, rfl⟩

theorem InsertBuilderFast.chain_statementKeyword (calls : List InsertCall) (k : Text) :
    ∀ b : InsertBuilderFast,
      (b.statementKeyword k).chain calls = (b.chain calls).statementKeyword k ∧
        (b.chain calls).statementKeywordStr = b.statementKeywordStr := by
  induction calls with
  | nil => intro b; exact ⟨rfl, rfl⟩
  | cons c calls ih =>
    intro b
    simp only [chain, List.foldl_cons] at ih ⊢
    rw [(call_statementKeyword b k c).1, (ih (b.call c)).1, (ih (b.call c)).2,
      (call_statementKeyword b k c).2]
    exact ⟨rfl, rfl⟩

/-- The rewrite of a buffer that holds a keyword without `?`: the keyword is
copied, and what follows it is rewritten with the counter moved on by the
markers before the keyword. -/
theorem replaceFrom_keyword (f : PlaceholderFormat) (p kw r : Text) (hkw : NoMark kw)
    (hne : kw ≠ []) :
    f.replaceFrom 1 (p ++ kw ++ r) =
      f.replaceFrom 1 p ++ kw ++ f.replaceFrom (1 + countMarkers p) r := by
  cases kw with
  | nil => exact absurd rfl hne
  | cons c k =>
    have hc : c ≠ '?' := fun h => hkw (h ▸ List.mem_cons_self _ _)
    have h1 : p ++ c :: k ++ r = p ++ c :: (k ++ r) := by simp
    rw [h1, replaceFrom_append_cons f p c _ hc 1, ← List.cons_append,
      replaceFrom_noMark_append f (c :: k) r hkw, List.append_assoc]

/-- The result of `ToSql` in terms of the statement keyword. -/
theorem InsertBuilderFast.ToSql_eq_parts (d : InsertBuilderFast) :
    d.ToSql =
      if d.into.length = 0 then
        ⟨[], [], some "insert statements must specify a table"⟩
      else if d.values.length = 0 ∧ d.selectBuilder = none then
        ⟨[], [], some "insert statements must have at least one set of values or select clause"⟩
      else
        rewriteResult d.placeholderFormat (finish
          (d.toSqlPrefixes >>= fun s => prepend (s.1 ++ keywordText d) (d.toSqlTail [] s.2))) := by
  unfold ToSql
  rw [toSqlBody_eq_parts]

/-- The rewritten render of a buffer with the keyword `INSERT ` and of the
same buffer with the keyword `REPLACE `. -/
theorem rewriteResult_keyword (f : PlaceholderFormat) (x : Render)
    (tail : List Arg → Render) (a r : SqlResult)
    (ha : a = rewriteResult f (finish
      (x >>= fun s => prepend (s.1 ++ "INSERT ".toList) (tail s.2))))
    (hr : r = rewriteResult f (finish
      (x >>= fun s => prepend (s.1 ++ "REPLACE ".toList) (tail s.2)))) :
    r.err = a.err ∧ r.args = a.args ∧
      ((a.err = none ∧ ∃ P R, a.sqlStr = P ++ "INSERT ".toList ++ R ∧
          r.sqlStr = P ++ "REPLACE ".toList ++ R) ∨
        (a.err ≠ none ∧ a.sqlStr = [] ∧ r.sqlStr = [])) := by
  subst ha hr
  cases x with
  | error e => simp [finish, rewriteResult, bind, Except.bind]
  | ok s =>
    cases ht : tail s.2 with
    | error e => simp [bind, Except.bind, prepend, ht, finish, rewriteResult]
    | ok u =>
      obtain ⟨R0, args⟩ := u
      simp only [bind, Except.bind, prepend, ht, finish, rewriteResult,
        PlaceholderFormat.ReplacePlaceholders, true_and, ne_eq, not_true_eq_false, false_and,
        or_false]
      exact ⟨f.replaceFrom 1 s.1, f.replaceFrom (1 + countMarkers s.1) R0,
        replaceFrom_keyword f s.1 _ R0 (by decide) (by decide),
        replaceFrom_keyword f s.1 _ R0 (by decide) (by decide)⟩

/-- The statement of a builder without statement keyword and of the same
builder with the keyword `REPLACE`. -/
theorem InsertBuilderFast.ToSql_keyword (d : InsertBuilderFast)
    (hkw : d.statementKeywordStr = []) :
    (d.statementKeyword "REPLACE".toList).ToSql.err = d.ToSql.err ∧
      (d.statementKeyword "REPLACE".toList).ToSql.args = d.ToSql.args ∧
      ((d.ToSql.err = none ∧ ∃ P R, d.ToSql.sqlStr = P ++ "INSERT ".toList ++ R ∧
          (d.statementKeyword "REPLACE".toList).ToSql.sqlStr = P ++ "REPLACE ".toList ++ R) ∨
        (d.ToSql.err ≠ none ∧ d.ToSql.sqlStr = [] ∧
          (d.statementKeyword "REPLACE".toList).ToSql.sqlStr = [])) := by
  have e1 : keywordText d = "INSERT ".toList := by simp [keywordText, hkw]
  have e2 : keywordText (d.statementKeyword "REPLACE".toList) = "REPLACE ".toList := by
    simp [keywordText, statementKeyword]
  have e3 : (d.statementKeyword "REPLACE".toList).toSqlPrefixes = d.toSqlPrefixes := rfl
  have e4 : (d.statementKeyword "REPLACE".toList).toSqlTail = d.toSqlTail := rfl
  have hd := ToSql_eq_parts d
  have hr := ToSql_eq_parts (d.statementKeyword "REPLACE".toList)
  rw [e2, e3, e4] at hr
  rw [e1] at hd
  have hi : (d.statementKeyword "REPLACE".toList).into = d.into := rfl
  have hv : (d.statementKeyword "REPLACE".toList).values = d.values := rfl
  have hs : (d.statementKeyword "REPLACE".toList).selectBuilder = d.selectBuilder := rfl
  have hf : (d.statementKeyword "REPLACE".toList).placeholderFormat = d.placeholderFormat := rfl
  rw [hi, hv, hs, hf] at hr
  by_cases h1 : d.into.length = 0
  · rw [if_pos h1] at hd hr
    rw [hd, hr]
    simp
  · rw [if_neg h1] at hd hr
    by_cases h2 : d.values.length = 0 ∧ d.selectBuilder = none
    · rw [if_pos h2] at hd hr
      rw [hd, hr]
      simp
    · rw [if_neg h2] at hd hr
      exact rewriteResult_keyword _ _ _ _ _ hd hr

/-- The test `TestInsertFastBuilderReplace` and its INSERT counterpart. -/
theorem testReplace_chain :
    testReplace = (ReplaceFast "table".toList).chain [.Values [.plain (.int 1)]] ∧
      ((InsertFast "table".toList).chain [.Values [.plain (.int 1)]]).ToSql =
        ⟨"INSERT INTO table VALUES (?)".toList, [.int 1], none⟩ := by
  decide

/-- C19 (StatementBuilderType.ReplaceFast): for every table name `t` and every
chain of builder calls, the builder that the chain makes of `ReplaceFast(t)`
is the one it makes of `InsertFast(t)` with the statement keyword `REPLACE`
in place of the empty keyword; `ToSql` of the two returns the same error and
the same args, and either both succeed with statements `P INSERT R` and
`P REPLACE R` that differ in the keyword only, or both fail with the empty
statement; a builder whose statement keyword is the empty string renders as
the same builder with the keyword `INSERT`. -/
theorem ReplaceFast_keyword (t : Text) (calls : List InsertCall) :
    (ReplaceFast t).chain calls =
        ((InsertFast t).chain calls).statementKeyword "REPLACE".toList ∧
      ((InsertFast t).chain calls).statementKeywordStr = [] ∧
      ((ReplaceFast t).chain calls).statementKeywordStr = "REPLACE".toList ∧
      ((ReplaceFast t).chain calls).ToSql.err = ((InsertFast t).chain calls).ToSql.err ∧
      ((ReplaceFast t).chain calls).ToSql.args = ((InsertFast t).chain calls).ToSql.args ∧
      ((((InsertFast t).chain calls).ToSql.err = none ∧
          ∃ P R, ((InsertFast t).chain calls).ToSql.sqlStr = P ++ "INSERT ".toList ++ R ∧
            ((ReplaceFast t).chain calls).ToSql.sqlStr = P ++ "REPLACE ".toList ++ R) ∨
        (((InsertFast t).chain calls).ToSql.err ≠ none ∧
          ((InsertFast t).chain calls).ToSql.sqlStr = [] ∧
          ((ReplaceFast t).chain calls).ToSql.sqlStr = [])) ∧
      (∀ d : InsertBuilderFast,
        (d.statementKeyword []).ToSql = (d.statementKeyword "INSERT".toList).ToSql) := by
  have hbase : ReplaceFast t = (InsertFast t).statementKeyword "REPLACE".toList := rfl
  have hchain := InsertBuilderFast.chain_statementKeyword calls "REPLACE".toList (InsertFast t)
  have heq : (ReplaceFast t).chain calls =
      ((InsertFast t).chain calls).statementKeyword "REPLACE".toList := by
    rw [hbase, hchain.1]
  have hkw : ((InsertFast t).chain calls).statementKeywordStr = [] := by
    rw [hchain.2]; rfl
  have h := InsertBuilderFast.ToSql_keyword ((InsertFast t).chain calls) hkw
  rw [← heq] at h
  refine ⟨heq, hkw, by rw [heq]; rfl, h.1, h.2.1, h.2.2, ?_⟩
  intro d
  have e : keywordText (d.statementKeyword []) =
      keywordText (d.statementKeyword "INSERT".toList) := by
    simp [keywordText, InsertBuilderFast.statementKeyword]
  rw [InsertBuilderFast.ToSql_eq_parts, InsertBuilderFast.ToSql_eq_parts, e]
  rfl

/-! ### The DELETE skeleton -/

/-- The body of `DeleteBuilderFast.ToSql` is the skeleton when every fragment
renders successfully to non-empty text. -/
theorem DeleteBuilderFast.toSqlBody_eq_deleteSkeleton (d : DeleteBuilderFast)
    (hpre : ∀ p ∈ d.prefixes, RendersNonEmpty p) (hwhere : ∀ p ∈ d.whereParts, RendersNonEmpty p)
    (hsuf : ∀ p ∈ d.suffixes, RendersNonEmpty p) :
    d.toSqlBody = .ok (deleteSkeleton d,
      argsOf d.prefixes ++ argsOf d.whereParts ++ argsOf d.suffixes) := by
  unfold toSqlBody
  simp only [appendToSql_prefixes_ok _ hpre, appendToSql_guarded _ _ _ _ _ hwhere,
    appendToSql_guarded _ _ _ _ _ hsuf, ok_bind]
  simp only [pure, Except.pure, deleteSkeleton, List.append_assoc, gt_iff_lt, List.length_pos,
    ok_bind]
  by_cases h1 : d.orderBys = [] <;> by_cases h3 : d.limit = [] <;> by_cases h4 : d.offset = [] <;>
    simp only [h1, h3, h4, ne_eq, not_true_eq_false, not_false_eq_true, if_true, if_false,
      List.append_assoc, List.append_nil, List.nil_append]

/-- C21 (DeleteBuilderFast.ToSql): for a DELETE with non-empty `from` whose
prefix, where and suffix fragments all render successfully to non-empty text,
the text before the placeholder rewrite is
`[prefixes joined by ' ', then ' '] DELETE FROM from [ WHERE whereParts joined
by ' AND '] [ ORDER BY orderBys joined by ', '] [ LIMIT limit] [ OFFSET
offset] [' ' suffixes joined by ' ']`, each group present exactly when its
slot is non-empty; the args are the prefix args, the where args, then the
suffix args; `ToSql` returns the rewrite of that text with those args. -/
theorem DeleteBuilderFast.ToSql_deleteSkeleton (d : DeleteBuilderFast) (hfrom : d.«from» ≠ [])
    (hpre : ∀ p ∈ d.prefixes, RendersNonEmpty p) (hwhere : ∀ p ∈ d.whereParts, RendersNonEmpty p)
    (hsuf : ∀ p ∈ d.suffixes, RendersNonEmpty p) :
    finish d.toSqlBody =
        ⟨(if d.prefixes ≠ [] then
            " ".toList.intercalate (textsOf d.prefixes) ++ " ".toList else []) ++
          "DELETE FROM ".toList ++ d.«from» ++
          (if d.whereParts ≠ [] then
            " WHERE ".toList ++ " AND ".toList.intercalate (textsOf d.whereParts) else []) ++
          (if d.orderBys ≠ [] then
            " ORDER BY ".toList ++ ", ".toList.intercalate d.orderBys else []) ++
          (if d.limit ≠ [] then " LIMIT ".toList ++ d.limit else []) ++
          (if d.offset ≠ [] then " OFFSET ".toList ++ d.offset else []) ++
          (if d.suffixes ≠ [] then
            " ".toList ++ " ".toList.intercalate (textsOf d.suffixes) else []),
          argsOf d.prefixes ++ argsOf d.whereParts ++ argsOf d.suffixes, none⟩ ∧
      d.ToSql = ⟨d.placeholderFormat.replaceFrom 1 (deleteSkeleton d),
        argsOf d.prefixes ++ argsOf d.whereParts ++ argsOf d.suffixes, none⟩ := by
  have hl : d.«from».length ≠ 0 := by simpa [List.length_eq_zero] using hfrom
  have hb := toSqlBody_eq_deleteSkeleton d hpre hwhere hsuf
  refine ⟨?_, ?_⟩
  · rw [hb]
    rfl
  · unfold ToSql
    rw [if_neg hl, hb]
    simp [finish, rewriteResult, PlaceholderFormat.ReplacePlaceholders]

/-- Witness of C21 at the builder of `TestDeleteBuilderFastToSql`. -/
theorem DeleteBuilderFast.ToSql_deleteSkeleton_witness :
    testDelete.«from» ≠ [] ∧ (∀ p ∈ testDelete.prefixes, RendersNonEmpty p) ∧
      (∀ p ∈ testDelete.whereParts, RendersNonEmpty p) ∧
      (∀ p ∈ testDelete.suffixes, RendersNonEmpty p) ∧
      testDelete.ToSql = ⟨testDelete.placeholderFormat.replaceFrom 1 (deleteSkeleton testDelete),
        argsOf testDelete.prefixes ++ argsOf testDelete.whereParts ++
          argsOf testDelete.suffixes, none⟩ :=
  ⟨by decide, by decide, by decide, by decide,
    (DeleteBuilderFast.ToSql_deleteSkeleton testDelete (by decide) (by decide) (by decide)
      (by decide)).2⟩

/-! ### CaseBuilderFast -/

/-- The tests `TestCaseFastWithVal`, `TestCaseFastWithComplexVal` and
`TestCaseFastWithNoVal`, case_fast_test.go:9-75. -/
theorem testCase_ToSql :
    testCaseWithVal.ToSql =
        ⟨"SELECT CASE number WHEN 1 THEN one WHEN 2 THEN two ELSE ? END FROM table".toList,
          [.str "big number"], none⟩ ∧
      testCaseWithComplexVal.ToSql =
        ⟨"SELECT (CASE ? > ? WHEN true THEN 'T' END) AS complexCase FROM table".toList,
          [.int 10, .int 5], none⟩ ∧
      testCaseWithNoVal.ToSql =
        ⟨("SELECT CASE WHEN x = ? THEN x is zero " ++
            "WHEN x > ? THEN CONCAT('x is greater than ', ?) END FROM table").toList,
          [.int 0, .int 1, .int 2], none⟩ := by
  decide

/-- The test `TestCaseFastWithNoWhenClause`, case_fast_test.go:130-141. -/
theorem testCaseWithNoWhenClause_ToSql :
    testCaseWithNoWhenClause.ToSql.err =
      some "case expression must contain at lease one WHEN clause" := by
  decide

theorem sqlizerBuffer.WriteString_err (b : sqlizerBuffer) (s : Text) :
    (b.WriteString s).err = b.err := rfl

/-- The error after `WriteSql`: the error the buffer had, or else that of the
fragment. -/
theorem sqlizerBuffer.WriteSql_err (b : sqlizerBuffer) (item : Sqlizer) :
    (b.WriteSql item).err = b.err.or (nestedToSql item).err := by
  unfold WriteSql
  cases hb : b.err with
  | some e => simp [hb]
  | none =>
    cases hi : (nestedToSql item).err with
    | some e => simp
    | none => simp [hb]

theorem firstError_nil : firstError [] = none := rfl

theorem firstError_singleton (p : Sqlizer) : firstError [p] = (nestedToSql p).err := by
  cases h : (nestedToSql p).err <;> simp [firstError, h]

theorem writeWhenPart_err (sql : sqlizerBuffer) (p : whenPart) :
    (writeWhenPart sql p).err = sql.err.or (firstError [p.when, p.«then»]) := by
  unfold writeWhenPart
  rw [sqlizerBuffer.WriteSql_err, sqlizerBuffer.WriteString_err, sqlizerBuffer.WriteSql_err,
    sqlizerBuffer.WriteString_err]
  cases sql.err <;> cases h1 : (nestedToSql p.when).err <;>
    cases h2 : (nestedToSql p.«then»).err <;> simp [firstError, h1, h2]

theorem foldl_writeWhenPart_err (ps : List whenPart) :
    ∀ sql : sqlizerBuffer, (ps.foldl writeWhenPart sql).err =
      sql.err.or (firstError (ps.flatMap (fun p => [p.when, p.«then»]))) := by
  induction ps with
  | nil => intro sql; simp [firstError]
  | cons p ps ih =>
    intro sql
    rw [List.foldl_cons, ih, writeWhenPart_err, List.flatMap_cons, firstError_append,
      Option.or_assoc]

/-- The error of `CaseBuilderFast.ToSql`: the WHEN check first, then the first
failing fragment. -/
theorem CaseBuilderFast.caseToSql_err (d : CaseBuilderFast) :
    d.ToSql.err =
      if d.whenParts = [] then some "case expression must contain at lease one WHEN clause"
      else firstError d.fragments := by
  unfold ToSql
  by_cases h : d.whenParts = []
  · simp [h]
  · have hl : d.whenParts.length ≠ 0 := by simpa [List.length_eq_zero] using h
    simp only [hl, h, if_false, sqlizerBuffer.ToSql, sqlizerBuffer.WriteString_err, fragments,
      firstError_append]
    cases hw : d.whatSqlizer <;> cases he : d.elseSqlizer <;>
      simp [sqlizerBuffer.WriteSql_err, sqlizerBuffer.WriteString_err, foldl_writeWhenPart_err,
        firstError_singleton, firstError_nil]

/-- A fragment that renders is written as its text, a space and its args. -/
theorem sqlizerBuffer.WriteSql_ok (buf : Text) (args : List Arg) (item : Sqlizer)
    (h : (nestedToSql item).err = none) :
    (⟨buf, args, none⟩ : sqlizerBuffer).WriteSql item =
      ⟨buf ++ textOf item ++ " ".toList, args ++ (nestedToSql item).args, none⟩ := by
  simp [WriteSql, h, textOf]

theorem writeWhenPart_ok (buf : Text) (args : List Arg) (p : whenPart)
    (h1 : (nestedToSql p.when).err = none) (h2 : (nestedToSql p.«then»).err = none) :
    writeWhenPart ⟨buf, args, none⟩ p = ⟨buf ++ whenText p, args ++ whenArgs p, none⟩ := by
  simp [writeWhenPart, sqlizerBuffer.WriteString, sqlizerBuffer.WriteSql_ok, h1, h2, whenText,
    whenArgs, List.append_assoc]

theorem foldl_writeWhenPart_ok (ps : List whenPart) :
    ∀ (buf : Text) (args : List Arg),
      (∀ p ∈ ps, (nestedToSql p.when).err = none ∧ (nestedToSql p.«then»).err = none) →
      ps.foldl writeWhenPart ⟨buf, args, none⟩ =
        ⟨buf ++ (ps.map whenText).flatten, args ++ ps.flatMap whenArgs, none⟩ := by
  induction ps with
  | nil => intro buf args _; simp
  | cons p ps ih =>
    intro buf args h
    have hp := h p (List.mem_cons_self _ _)
    rw [List.foldl_cons, writeWhenPart_ok _ _ _ hp.1 hp.2,
      ih _ _ (fun q hq => h q (List.mem_cons_of_mem _ hq))]
    simp [List.append_assoc]

/-- The result of `CaseBuilderFast.ToSql` when there is a WHEN pair and every
fragment renders. -/
theorem CaseBuilderFast.ToSql_eq_caseSkeleton (d : CaseBuilderFast) (hw : d.whenParts ≠ [])
    (h : ∀ p ∈ d.fragments, (nestedToSql p).err = none) :
    d.ToSql = ⟨caseSkeleton d, caseArgs d, none⟩ := by
  have hl : d.whenParts.length ≠ 0 := by simpa [List.length_eq_zero] using hw
  have hwhen : ∀ p ∈ d.whenParts,
      (nestedToSql p.when).err = none ∧ (nestedToSql p.«then»).err = none := by
    intro p hp
    constructor
    · exact h p.when (by
        simp only [fragments, List.mem_append, List.mem_flatMap]
        exact Or.inl (Or.inr ⟨p, hp, by simp⟩))
    · exact h p.«then» (by
        simp only [fragments, List.mem_append, List.mem_flatMap]
        exact Or.inl (Or.inr ⟨p, hp, by simp⟩))
  unfold ToSql
  simp only [hl, if_false, sqlizerBuffer.WriteString, List.nil_append]
  cases hwhat : d.whatSqlizer with
  | none =>
    cases helse : d.elseSqlizer with
    | none =>
      simp [foldl_writeWhenPart_ok _ _ _ hwhen, sqlizerBuffer.ToSql, caseSkeleton, caseArgs,
        hwhat, helse, argsOf]
    | some e =>
      have he : (nestedToSql e).err = none := h e (by simp [fragments, helse])
      simp [foldl_writeWhenPart_ok _ _ _ hwhen, sqlizerBuffer.WriteSql_ok _ _ _ he,
        sqlizerBuffer.ToSql, caseSkeleton, caseArgs, hwhat, helse, argsOf, List.append_assoc]
  | some w =>
    have hwe : (nestedToSql w).err = none := h w (by simp [fragments, hwhat])
    cases helse : d.elseSqlizer with
    | none =>
      simp [foldl_writeWhenPart_ok _ _ _ hwhen, sqlizerBuffer.WriteSql_ok _ _ _ hwe,
        sqlizerBuffer.ToSql, caseSkeleton, caseArgs, hwhat, helse, argsOf, List.append_assoc]
    | some e =>
      have he : (nestedToSql e).err = none := h e (by simp [fragments, helse])
      simp [foldl_writeWhenPart_ok _ _ _ hwhen, sqlizerBuffer.WriteSql_ok _ _ _ hwe,
        sqlizerBuffer.WriteSql_ok _ _ _ he, sqlizerBuffer.ToSql, caseSkeleton, caseArgs, hwhat,
        helse, argsOf, List.append_assoc]

/-- The error of a failing fragment used as a column of a SELECT whose
prefixes and earlier columns render is the error of the SELECT. -/
theorem SelectBuilderFast.Column_err (b : SelectBuilderFast) (s : Sqlizer) (e : String)
    (hb : firstError (b.prefixes ++ b.columns) = none) (hs : (nestedToSql s).err = some e) :
    (b.Column (.sqlizer s) []).ToSql.err = some e := by
  have hnp : (nestedToSql (newPart (.sqlizer s) [])).err = some e := hs
  rw [firstError_append] at hb
  have hpre : firstError b.prefixes = none := by
    cases h : firstError b.prefixes with
    | none => rfl
    | some x => rw [h] at hb; simp at hb
  have hcol : firstError b.columns = none := by
    rw [hpre] at hb; simpa using hb
  rw [ToSql_err_eq, toSqlRaw_err]
  simp only [Column, fragments, firstError_append, hpre, hcol, Option.none_or,
    firstError_singleton, hnp, List.append_eq_nil, List.cons_ne_self, and_false,
    if_false, reduceCtorEq]
  rfl

/-- C22, amended (CaseBuilderFast.ToSql): without WHEN pair `ToSql` fails with
the error "case expression must contain at lease one WHEN clause", whatever
the subject and the ELSE expression are, and the text and args are empty; with
at least one WHEN pair the error is that of the first fragment, in rendering
order, that fails to render, and there is none when every fragment renders;
the error of a CASE used as a column of a SELECT whose prefixes and earlier
columns render is the error of the SELECT. -/
theorem CaseBuilderFast.ToSql_emptyWhen (d : CaseBuilderFast) :
    d.ToSql.err =
        (if d.whenParts = [] then some "case expression must contain at lease one WHEN clause"
        else firstError d.fragments) ∧
      (∀ what els : Option Sqlizer, (⟨what, [], els⟩ : CaseBuilderFast).ToSql =
        ⟨[], [], some "case expression must contain at lease one WHEN clause"⟩) ∧
      (∀ (b : SelectBuilderFast) (e : String), firstError (b.prefixes ++ b.columns) = none →
        d.ToSql.err = some e → (b.Column (.sqlizer d.toSqlizer) []).ToSql.err = some e) :=
  ⟨caseToSql_err d, fun _ _ => rfl, fun b e hb he => SelectBuilderFast.Column_err b _ e hb he⟩

/-- C22 as stated fails: `CaseFast().When(CaseFast(), "1")` has a WHEN pair and
fails with the error "case expression must contain at lease one WHEN clause",
which comes from the CASE without WHEN that is its condition. -/
theorem CaseBuilderFast.ToSql_emptyWhen_iff_counterexample :
    ¬ (caseWithFailingWhen.ToSql.err =
        some "case expression must contain at lease one WHEN clause" ↔
      caseWithFailingWhen.whenParts = []) := by
  decide

/-- C23 (CaseBuilderFast.ToSql): for a CASE with at least one WHEN pair whose
fragments all render successfully, `ToSql` returns the text `"CASE "`, the
subject text and a space if a subject is set, for each pair in insertion order
`"WHEN " when_text " THEN " then_text " "`, `"ELSE " else_text " "` if an ELSE
is set, and `"END"`; the args are those of the subject, for each pair the args
of the condition followed by those of the result, then those of the ELSE. -/
theorem CaseBuilderFast.ToSql_case (d : CaseBuilderFast) (hw : d.whenParts ≠ [])
    (h : ∀ p ∈ d.fragments, (nestedToSql p).err = none) :
    d.ToSql =
      ⟨"CASE ".toList ++
        (match d.whatSqlizer with
          | some what => textOf what ++ " ".toList
          | none => []) ++
        (d.whenParts.map (fun p =>
          "WHEN ".toList ++ textOf p.when ++ " THEN ".toList ++ textOf p.«then» ++
            " ".toList)).flatten ++
        (match d.elseSqlizer with
          | some e => "ELSE ".toList ++ textOf e ++ " ".toList
          | none => []) ++
        "END".toList,
      argsOf d.whatSqlizer.toList ++
        d.whenParts.flatMap (fun p => (nestedToSql p.when).args ++ (nestedToSql p.«then»).args) ++
        argsOf d.elseSqlizer.toList, none⟩ :=
  ToSql_eq_caseSkeleton d hw h

/-- Witness of C23 at the CASE of `TestCaseFastWithNoVal` (scenario S4 of the
specification), with its text and args. -/
theorem CaseBuilderFast.ToSql_case_witness :
    caseWithNoVal.whenParts ≠ [] ∧
      (∀ p ∈ caseWithNoVal.fragments, (nestedToSql p).err = none) ∧
      caseWithNoVal.ToSql = ⟨caseSkeleton caseWithNoVal, caseArgs caseWithNoVal, none⟩ ∧
      caseSkeleton caseWithNoVal =
        "CASE WHEN x = ? THEN x is zero WHEN x > ? THEN CONCAT('x is greater than ', ?) END".toList ∧
      caseArgs caseWithNoVal = [.int 0, .int 1, .int 2] :=
  ⟨by decide, by decide,
    CaseBuilderFast.ToSql_case caseWithNoVal (by decide) (by decide), by decide, by decide⟩

/-- C24 (CaseBuilderFast.Else): setting ELSE overwrites: `b.Else(x).Else(y)` is
the builder `b.Else(y)` and renders as it does, `b.Else(x).Else(x)` is
`b.Else(x)`, and `Else` leaves the subject and the WHEN pairs as they are. -/
theorem CaseBuilderFast.Else_overwrite (b : CaseBuilderFast) (x y : Pred) :
    (b.Else x).Else y = b.Else y ∧ ((b.Else x).Else y).ToSql = (b.Else y).ToSql ∧
      (b.Else x).Else x = b.Else x ∧ ((b.Else x).Else x).ToSql = (b.Else x).ToSql ∧
      (b.Else x).whatSqlizer = b.whatSqlizer ∧ (b.Else x).whenParts = b.whenParts ∧
      (b.Else x).elseSqlizer = some (newPart x []) :=
  ⟨rfl, rfl, rfl, rfl, rfl, rfl, rfl⟩

/-! ### MustSql -/

/-- The body shared by the five `MustSql` methods does what the claim says. -/
theorem panicsExactlyOnError_of (r : SqlResult) (m : MustResult)
    (h : m = match r.err with
      | some err => .panicked err
      | none => .returned r.sqlStr r.args) :
    PanicsExactlyOnError r m := by
  subst h
  obtain ⟨sqlStr, args, err⟩ := r
  cases err with
  | none => simp [PanicsExactlyOnError]
  | some e => simp [PanicsExactlyOnError]

/-- The tests `TestCaseFastBuilderMustSql`, `TestInsertFastBuilderMustSql`,
`TestUpdateBuilderFastMustSql` and `TestDeleteBuilderFastMustSql`: the calls
panic; a builder that renders returns what `ToSql` returns. -/
theorem testMustSql :
    (CaseFast (some (.str [], []))).MustSql =
        .panicked "case expression must contain at lease one WHEN clause" ∧
      (InsertFast []).MustSql = .panicked "insert statements must specify a table" ∧
      (UpdateFast []).MustSql = .panicked "update statements must specify a table" ∧
      (DeleteFast []).MustSql = .panicked "delete statements must specify a From table" ∧
      (SelectFast []).MustSql =
        .panicked "select statements must have at least one result column" ∧
      (DeleteFast "a".toList).MustSql = .returned "DELETE FROM a".toList [] := by
  decide

/-- C25 (MustSql): for each of `CaseBuilderFast`, `SelectBuilderFast`,
`InsertBuilderFast`, `UpdateBuilderFast` and `DeleteBuilderFast`, `MustSql`
panics, carrying the error of `ToSql`, exactly when `ToSql` returns an error,
and otherwise returns exactly the text and the args that `ToSql` returns. -/
theorem MustSql_panics_exactly_on_error (c : CaseBuilderFast) (s : SelectBuilderFast)
    (i : InsertBuilderFast) (u : UpdateBuilderFast) (d : DeleteBuilderFast) :
    PanicsExactlyOnError c.ToSql c.MustSql ∧ PanicsExactlyOnError s.ToSql s.MustSql ∧
      PanicsExactlyOnError i.ToSql i.MustSql ∧ PanicsExactlyOnError u.ToSql u.MustSql ∧
      PanicsExactlyOnError d.ToSql d.MustSql :=
  ⟨panicsExactlyOnError_of _ _ rfl, panicsExactlyOnError_of _ _ rfl,
    panicsExactlyOnError_of _ _ rfl, panicsExactlyOnError_of _ _ rfl,
    panicsExactlyOnError_of _ _ rfl⟩

/-! ### Nil and empty predicates -/

/-- The tests `TestSelectFastWithNilWhereClause` and
`TestSelectFastWithEmptyStringWhereClause`, select_fast_test.go:238-248. -/
theorem testNilWhere_ToSql :
    testNilWhere.ToSql = ⟨"SELECT * FROM users".toList, [], none⟩ ∧
      testEmptyWhere.ToSql = ⟨"SELECT * FROM users".toList, [], none⟩ := by
  decide

/-- C26 (SelectBuilderFast.Where): `Where` with a nil or empty-string
predicate is a no-op: for every builder `b` and any args, `b.Where(nil,
args...)` and `b.Where("", args...)` are the builder `b`: no where part is
added, `ToSql` and `toSqlRaw` return what they return for `b`; with the
slices in memory, the builder and the memory are returned as they are. -/
theorem SelectBuilderFast.Where_nil_noop (b : SelectBuilderFast) (args : List Arg) :
    b.Where .nil args = b ∧ b.Where (.str []) args = b ∧
      (b.Where .nil args).whereParts = b.whereParts ∧
      (b.Where (.str []) args).whereParts = b.whereParts ∧
      (b.Where .nil args).ToSql = b.ToSql ∧ (b.Where (.str []) args).ToSql = b.ToSql ∧
      (b.Where .nil args).toSqlRaw = b.toSqlRaw ∧
      (b.Where (.str []) args).toSqlRaw = b.toSqlRaw ∧
      (∀ (m : Go.Mem) (g : Go.SelectBuilderFast),
        Go.SelectBuilderFast.Where m g .nil args = (g, m) ∧
          Go.SelectBuilderFast.Where m g (.str []) args = (g, m)) := by
  have h1 : b.Where .nil args = b := by simp [Where]
  have h2 : b.Where (.str []) args = b := by simp [Where]
  refine ⟨h1, h2, by rw [h1], by rw [h2], by rw [h1], by rw [h2], by rw [h1], by rw [h2], ?_⟩
  intro m g
  constructor <;> simp [Go.SelectBuilderFast.Where]

/-- C27 (SelectBuilderFast.Having): `Having` has no test of its predicate: it
appends a where part for every predicate, nil and the empty string included.
`SelectFast("a").Having(nil)` and `SelectFast("a").Having("")` render
`SELECT a HAVING ` where `SelectFast("a")` renders `SELECT a`, and
`SelectFast("a").Having(nil).Having("m = n")` renders
`SELECT a HAVING  AND m = n`. -/
theorem SelectBuilderFast.Having_nil_dangling (b : SelectBuilderFast) (pred : Pred)
    (rest : List Arg) :
    (b.Having pred rest).havingParts = b.havingParts ++ [newWherePart pred rest] ∧
      (SelectFast ["a".toList]).ToSql = ⟨"SELECT a".toList, [], none⟩ ∧
      selectHavingNil.ToSql = ⟨"SELECT a HAVING ".toList, [], none⟩ ∧
      selectHavingEmpty.ToSql = ⟨"SELECT a HAVING ".toList, [], none⟩ ∧
      selectHavingNilFirst.ToSql = ⟨"SELECT a HAVING  AND m = n".toList, [], none⟩ :=
  ⟨rfl, by decide, by decide, by decide, by decide⟩

/-- C28 (DeleteBuilderFast.Where, UpdateBuilderFast.Where): the two methods
have no test of their predicate: they append a where part for every
predicate, nil and the empty string included. `DeleteFast("a").Where(nil)` and
`DeleteFast("a").Where("")` render `DELETE FROM a WHERE ` where
`DeleteFast("a")` renders `DELETE FROM a`, and
`UpdateFast("a").Set("b", 1).Where(nil)` renders `UPDATE a SET b = ? WHERE `. -/
theorem Where_nil_dangling (d : DeleteBuilderFast) (u : UpdateBuilderFast) (pred : Pred)
    (args : List Arg) :
    (d.Where pred args).whereParts = d.whereParts ++ [newWherePart pred args] ∧
      (u.Where pred args).whereParts = u.whereParts ++ [newWherePart pred args] ∧
      (DeleteFast "a".toList).ToSql = ⟨"DELETE FROM a".toList, [], none⟩ ∧
      deleteWhereNil.ToSql = ⟨"DELETE FROM a WHERE ".toList, [], none⟩ ∧
      deleteWhereEmpty.ToSql = ⟨"DELETE FROM a WHERE ".toList, [], none⟩ ∧
      updateSetOne.ToSql = ⟨"UPDATE a SET b = ?".toList, [.int 1], none⟩ ∧
      updateWhereNil.ToSql = ⟨"UPDATE a SET b = ? WHERE ".toList, [.int 1], none⟩ ∧
      updateWhereEmpty.ToSql = ⟨"UPDATE a SET b = ? WHERE ".toList, [.int 1], none⟩ :=
  ⟨rfl, rfl, by decide, by decide, by decide, by decide, by decide, by decide⟩

/-! ### The placeholder rewrite -/

/-- The tests `TestQuestion`, `TestDollar`, `TestColon` and `TestAtp`,
placeholder_test.go:10-32. -/
theorem testPlaceholderFormats :
    PlaceholderFormat.Question.ReplacePlaceholders "x = ? AND y = ?".toList =
        ("x = ? AND y = ?".toList, none) ∧
      PlaceholderFormat.Dollar.ReplacePlaceholders "x = ? AND y = ?".toList =
        ("x = $1 AND y = $2".toList, none) ∧
      PlaceholderFormat.Colon.ReplacePlaceholders "x = ? AND y = ?".toList =
        ("x = :1 AND y = :2".toList, none) ∧
      PlaceholderFormat.AtP.ReplacePlaceholders "x = ? AND y = ?".toList =
        ("x = @p1 AND y = @p2".toList, none) := by
  decide

set_option maxRecDepth 8000 in
/-- The tests `TestEscapeDollar`, `TestEscapeColon` and `TestEscapeAtp`,
placeholder_test.go:38-54. -/
theorem testEscape :
    PlaceholderFormat.Dollar.ReplacePlaceholders escapeQuery =
        (escapeExpected "$1" "$2", none) ∧
      PlaceholderFormat.Colon.ReplacePlaceholders escapeQuery =
        (escapeExpected ":1" ":2", none) ∧
      PlaceholderFormat.AtP.ReplacePlaceholders escapeQuery =
        (escapeExpected "@p1" "@p2", none) := by
  decide

/-- The scenario of §8 and of `TestReplacePositionalPlaceholdersFast`: the
escape inside the quotes and at the end collapses, the three markers are
numbered. -/
theorem testReplacePositional :
    replacePositionalPlaceholdersFast "x IN ('??',?,?,?)??".toList "$".toList =
        ("x IN ('?',$1,$2,$3)?".toList, none) ∧
      PlaceholderFormat.Dollar.ReplacePlaceholders "x IN ('??',?,?,?)??".toList =
        ("x IN ('?',$1,$2,$3)?".toList, none) ∧
      segments "x IN ('??',?,?,?)??".toList =
        ["x IN ('?',".toList, ",".toList, ",".toList, ")?".toList] ∧
      positionalMarkers "$".toList 3 = ["$1".toList, "$2".toList, "$3".toList] := by
  decide

/-- The weave of the pieces is the pieces with the markers of the positions
`n`, `n + 1`, ... between them. -/
theorem weave_eq_interleave (f : PlaceholderFormat) (ss : List Text) :
    ∀ n, weave f n ss = interleave ss ((List.range' n (ss.length - 1)).map f.marker) := by
  induction ss with
  | nil => intro n; simp [weave, interleave]
  | cons s ss ih =>
    intro n
    cases ss with
    | nil => simp [weave, interleave]
    | cons t ss =>
      rw [weave_cons_cons, ih (n + 1)]
      simp [List.range'_succ, interleave]

/-- The rewrite is the text of the words of the specification, for a format
whose marker is `p` followed by the decimal position. -/
theorem replaceFrom_eq_positionalText (f : PlaceholderFormat) (p : Text)
    (hp : ∀ k, f.marker k = p ++ Nat.toDigits 10 k) (s : Text) :
    f.replaceFrom 1 s = positionalText p s := by
  have hf : f.marker = fun k => p ++ Nat.toDigits 10 k := funext hp
  rw [replaceFrom_eq_weave, weave_eq_interleave, segments_length, hf]
  simp [positionalText, positionalMarkers]

theorem collapseEscapes_cons_of_ne (c : Char) (t : Text) (hc : c ≠ '?') :
    collapseEscapes (c :: t) = c :: collapseEscapes t := by
  rw [collapseEscapes]
  intro rest h _
  exact hc h

theorem collapseEscapes_mark_cons_of_ne (c : Char) (t : Text) (hc : c ≠ '?') :
    collapseEscapes ('?' :: c :: t) = '?' :: collapseEscapes (c :: t) := by
  rw [collapseEscapes]
  intro rest _ h
  exact hc (by injection h)

/-- Under `Question` the rewrite is the collapse of the escapes. -/
theorem replaceFrom_question_eq_collapse (s : Text) :
    ∀ n, PlaceholderFormat.Question.replaceFrom n s = collapseEscapes s := by
  induction s using countMarkers.induct with
  | case1 => intro n; simp [PlaceholderFormat.replaceFrom, collapseEscapes]
  | case2 rest ih => intro n; simp [PlaceholderFormat.replaceFrom, collapseEscapes, ih]
  | case3 rest hrest ih =>
    intro n
    cases rest with
    | nil => simp [PlaceholderFormat.replaceFrom, collapseEscapes, PlaceholderFormat.marker]
    | cons x xs =>
      have hx : x ≠ '?' := fun h => hrest xs (by rw [h])
      rw [replaceFrom_mark_cons_of_ne _ _ _ _ hx, ih, collapseEscapes_mark_cons_of_ne _ _ hx]
      simp [PlaceholderFormat.marker]
  | case4 x rest hx1 hx2 ih =>
    intro n
    have hx : x ≠ '?' := fun h => hx2 h
    rw [replaceFrom_cons_of_ne _ _ _ _ hx, ih, collapseEscapes_cons_of_ne _ _ hx]

/-- Under `Question` the weave of the pieces joins them with `?`. -/
theorem weave_question (ss : List Text) :
    ∀ n, weave .Question n ss = "?".toList.intercalate ss := by
  induction ss with
  | nil => intro n; simp [weave, List.intercalate]
  | cons s ss ih =>
    intro n
    cases ss with
    | nil => simp [weave, List.intercalate]
    | cons t ss =>
      rw [weave_cons_cons, ih (n + 1), intercalate_cons_eq, intercalate_cons_eq]
      simp [PlaceholderFormat.marker]

/-- The pass with the marker text as parameter is the pass of a format whose
marker is that text followed by the decimal position. -/
theorem replacePositionalFrom_eq (f : PlaceholderFormat) (p : Text)
    (hp : ∀ k, f.marker k = p ++ Nat.toDigits 10 k) (s : Text) :
    ∀ n, replacePositionalFrom p n s = f.replaceFrom n s := by
  induction s using countMarkers.induct <;> intro n <;>
    simp_all [replacePositionalFrom, PlaceholderFormat.replaceFrom]

/-- C29 (ReplacePlaceholders of Dollar, Colon, AtP): for the formats with the
marker texts `$`, `:` and `@p`, `ReplacePlaceholders` applied to any text with
`n` unescaped `?` markers succeeds and returns the `n + 1` pieces of the text
between its markers, with every `??` collapsed to `?` and every other
character kept, and between them the markers of the positions 1 to `n` in
order, each the marker text followed by the decimal numeral of its position;
the pieces joined by `?` are the text with its escapes collapsed;
`replacePositionalPlaceholdersFast` with the marker text returns the same. -/
theorem ReplacePlaceholders_positional (s : Text) :
    PlaceholderFormat.Dollar.ReplacePlaceholders s = (positionalText "$".toList s, none) ∧
      PlaceholderFormat.Colon.ReplacePlaceholders s = (positionalText ":".toList s, none) ∧
      PlaceholderFormat.AtP.ReplacePlaceholders s = (positionalText "@p".toList s, none) ∧
      (∀ p : Text, positionalText p s = interleave (segments s)
        ((List.range' 1 (countMarkers s)).map (fun k => p ++ Nat.toDigits 10 k))) ∧
      (segments s).length = countMarkers s + 1 ∧
      "?".toList.intercalate (segments s) = collapseEscapes s ∧
      replacePositionalPlaceholdersFast s "$".toList =
        PlaceholderFormat.Dollar.ReplacePlaceholders s ∧
      replacePositionalPlaceholdersFast s ":".toList =
        PlaceholderFormat.Colon.ReplacePlaceholders s ∧
      replacePositionalPlaceholdersFast s "@p".toList =
        PlaceholderFormat.AtP.ReplacePlaceholders s := by
  have hd : ∀ k, PlaceholderFormat.Dollar.marker k = "$".toList ++ Nat.toDigits 10 k :=
    fun _ => rfl
  have hc : ∀ k, PlaceholderFormat.Colon.marker k = ":".toList ++ Nat.toDigits 10 k :=
    fun _ => rfl
  have ha : ∀ k, PlaceholderFormat.AtP.marker k = "@p".toList ++ Nat.toDigits 10 k :=
    fun _ => rfl
  refine ⟨?_, ?_, ?_, fun _ => rfl, segments_length s, ?_, ?_, ?_, ?_⟩
  · simp only [PlaceholderFormat.ReplacePlaceholders, replaceFrom_eq_positionalText _ _ hd]
  · simp only [PlaceholderFormat.ReplacePlaceholders, replaceFrom_eq_positionalText _ _ hc]
  · simp only [PlaceholderFormat.ReplacePlaceholders, replaceFrom_eq_positionalText _ _ ha]
  · rw [← weave_question _ 1, ← replaceFrom_eq_weave, replaceFrom_question_eq_collapse]
  · simp only [replacePositionalPlaceholdersFast, PlaceholderFormat.ReplacePlaceholders,
      replacePositionalFrom_eq _ _ hd]
  · simp only [replacePositionalPlaceholdersFast, PlaceholderFormat.ReplacePlaceholders,
      replacePositionalFrom_eq _ _ hc]
  · simp only [replacePositionalPlaceholdersFast, PlaceholderFormat.ReplacePlaceholders,
      replacePositionalFrom_eq _ _ ha]

/-- The test `TestDeleteBuilderFastPlaceholders`, delete_fast_test.go:46-54. -/
theorem testDeletePlaceholders_ToSql :
    (testDeletePlaceholders.PlaceholderFormat .Question).ToSql =
        ⟨"DELETE FROM test WHERE x = ? AND y = ?".toList, [.int 1, .int 2], none⟩ ∧
      (testDeletePlaceholders.PlaceholderFormat .Dollar).ToSql =
        ⟨"DELETE FROM test WHERE x = $1 AND y = $2".toList, [.int 1, .int 2], none⟩ := by
  decide

/-- Under `Question` the last statement of `ToSql` leaves a result without
`??` as it is. -/
theorem rewriteResult_question_noEscape (r : SqlResult) (h : NoEscape r.sqlStr) :
    rewriteResult .Question r = r := by
  obtain ⟨sqlStr, args, err⟩ := r
  cases err with
  | some e => rfl
  | none =>
    simp only [rewriteResult, PlaceholderFormat.ReplacePlaceholders]
    rw [replaceFrom_question_noEscape _ 1 h]

/-- C30 (Question.ReplacePlaceholders): the rewrite of `Question` succeeds and
returns its input with each `??` collapsed to a single `?` and every other
character, the markers included, kept; it is the identity on every text that
holds no `??`; the last statement of `ToSql` under `Question` leaves a
rendered result without `??` as it is, so a SELECT under `Question` returns
the text and args of `toSqlRaw` and a DELETE those of its buffer. -/
theorem Question_ReplacePlaceholders_collapse (s : Text) :
    PlaceholderFormat.Question.ReplacePlaceholders s = (collapseEscapes s, none) ∧
      (NoEscape s → PlaceholderFormat.Question.ReplacePlaceholders s = (s, none)) ∧
      (NoEscape s → collapseEscapes s = s) ∧
      (∀ r : SqlResult, NoEscape r.sqlStr → rewriteResult .Question r = r) ∧
      (∀ d : SelectBuilderFast, NoEscape d.toSqlRaw.sqlStr →
        (d.PlaceholderFormat .Question).ToSql = d.toSqlRaw) ∧
      (∀ d : DeleteBuilderFast, d.«from» ≠ [] → NoEscape (finish d.toSqlBody).sqlStr →
        (d.PlaceholderFormat .Question).ToSql = finish d.toSqlBody) := by
  refine ⟨?_, ?_, ?_, rewriteResult_question_noEscape, ?_, ?_⟩
  · simp only [PlaceholderFormat.ReplacePlaceholders, replaceFrom_question_eq_collapse]
  · intro h
    simp only [PlaceholderFormat.ReplacePlaceholders, replaceFrom_question_noEscape _ 1 h]
  · intro h
    rw [← replaceFrom_question_eq_collapse s 1, replaceFrom_question_noEscape _ 1 h]
  · intro d h
    have hr := rewriteResult_question_noEscape d.toSqlRaw h
    show rewriteResult .Question d.toSqlRaw = d.toSqlRaw
    exact hr
  · intro d hfrom h
    have hl : d.«from».length ≠ 0 := by simpa [List.length_eq_zero] using hfrom
    have hr := rewriteResult_question_noEscape (finish d.toSqlBody) h
    show (if d.«from».length = 0 then _ else rewriteResult .Question (finish d.toSqlBody)) = _
    rw [if_neg hl]
    exact hr

set_option maxRecDepth 20000 in
/-- The test `TestReplacePositionalPlaceholdersFast`, placeholder_test.go:56-67. -/
theorem testReplacePositionalFast :
    replacePositionalPlaceholdersFast positionalQuery "$".toList = (positionalExpected, none) ∧
      replacePositionalPlaceholdersFast positionalQuery2 "$".toList =
        (positionalExpected2, none) := by
  decide

/-! ### Builder methods of SELECT: removal and accumulation -/

/-- The tests `TestRemoveColumnsFast`, `TestSelectFastWithRemoveLimit` and
`TestSelectFastWithRemoveOffset`, and the example
`ExampleSelectBuilderFast_Columns_order`. -/
theorem testRemove_ToSql :
    testRemoveColumns.ToSql = ⟨"SELECT name FROM users".toList, [], none⟩ ∧
      testRemoveLimit.ToSql = ⟨"SELECT * FROM foo".toList, [], none⟩ ∧
      testRemoveOffset.ToSql = ⟨"SELECT * FROM foo".toList, [], none⟩ ∧
      exampleColumnsOrder.ToSql =
        ⟨"SELECT id, created, first_name FROM users".toList, [], none⟩ := by
  decide

/-- The test `TestSelectFastJoinClausePlaceholderNumbering`,
select_fast_test.go:282-296, in the order of the test and with the two calls
exchanged. -/
theorem testJoinClauseNumbering_ToSql :
    testJoinClauseNumbering.ToSql =
        ⟨("SELECT t1.a FROM t1 JOIN ( SELECT a WHERE b = $1 ) t2 ON (t1.a = t2.a) " ++
            "WHERE a = $2").toList, [.int 2, .int 1], none⟩ ∧
      testJoinClauseFirst.ToSql = testJoinClauseNumbering.ToSql := by
  decide

/-- The parts of column strings render to the strings, without args. -/
theorem columnParts_texts (cs : List Text) :
    textsOf (columnParts cs) = cs ∧ argsOf (columnParts cs) = [] ∧
      firstError (columnParts cs) = none := by
  induction cs with
  | nil => simp [columnParts, textsOf, argsOf, firstError]
  | cons c cs ih =>
    obtain ⟨h1, h2, h3⟩ := ih
    refine ⟨?_, ?_, ?_⟩
    · simpa [columnParts, textsOf, textOf, nestedToSql, newPart, partToSql] using h1
    · simp [columnParts, argsOf, nestedToSql, newPart, partToSql]
    · simpa [columnParts, firstError, nestedToSql, newPart, partToSql] using h3

/-- The parts of non-empty column strings render to non-empty text. -/
theorem columnParts_rendersNonEmpty (cs : List Text) (h : ∀ c ∈ cs, c ≠ []) :
    ∀ p ∈ columnParts cs, RendersNonEmpty p := by
  intro p hp
  obtain ⟨c, hc, rfl⟩ := List.mem_map.1 hp
  exact ⟨rfl, h c hc⟩

/-- C31 (SelectBuilderFast.RemoveColumns): for every builder `b`,
`b.RemoveColumns()` fails to render with the no-columns error; for every
non-empty list `cs` of column strings, `b.RemoveColumns().Columns(cs...)` is
`b` with the parts of `cs` as its columns and every other slot as it was; when
the strings of `cs` are non-empty and the fragments of the other slots render
to non-empty text, it renders the skeleton whose column list is exactly `cs`
joined by `, `, with the args of the other slots of `b` and none of the
previous columns. -/
theorem SelectBuilderFast.RemoveColumns_only_new (b : SelectBuilderFast) (cs : List Text) :
    b.RemoveColumns.ToSql =
        ⟨[], [], some "select statements must have at least one result column"⟩ ∧
      b.RemoveColumns.Columns cs = { b with columns := columnParts cs } ∧
      textsOf (b.RemoveColumns.Columns cs).columns = cs ∧
      (cs ≠ [] → (∀ c ∈ cs, c ≠ []) →
        (∀ p ∈ b.prefixes ++ b.«from».toList ++ b.joins ++ b.whereParts ++ b.havingParts ++
          b.orderByParts ++ b.suffixes, RendersNonEmpty p) →
        (b.RemoveColumns.Columns cs).toSqlRaw =
          ⟨selectSkeleton { b with columns := columnParts cs },
            argsOf b.prefixes ++ argsOf b.«from».toList ++ argsOf b.joins ++
              argsOf b.whereParts ++ argsOf b.havingParts ++ argsOf b.orderByParts ++
              argsOf b.suffixes, none⟩ ∧
        (b.RemoveColumns.Columns cs).ToSql.err = none) := by
  have heq : b.RemoveColumns.Columns cs = { b with columns := columnParts cs } := by
    simp [RemoveColumns, Columns, columnParts]
  refine ⟨rfl, heq, ?_, ?_⟩
  · rw [heq]
    exact (columnParts_texts cs).1
  intro hcs hne h
  have hcols : (b.RemoveColumns.Columns cs).columns ≠ [] := by
    rw [heq]
    simpa [columnParts] using hcs
  have hfr : ∀ p ∈ (b.RemoveColumns.Columns cs).fragments, RendersNonEmpty p := by
    intro p hp
    rw [heq] at hp
    simp only [fragments, List.mem_append] at hp
    simp only [List.mem_append] at h
    rcases hp with ((((((hp | hp) | hp) | hp) | hp) | hp) | hp) | hp
    · exact h p (by tauto)
    · exact columnParts_rendersNonEmpty cs hne p hp
    all_goals exact h p (by tauto)
  have hraw := toSqlRaw_eq_skeleton _ hcols hfr
  refine ⟨?_, ?_⟩
  · rw [hraw, heq]
    simp [(columnParts_texts cs).2.1]
  · rw [ToSql_err_eq, hraw]

/-- Witness of C31 at the builder and the column of `TestRemoveColumnsFast`. -/
theorem SelectBuilderFast.RemoveColumns_only_new_witness :
    ["name".toList] ≠ [] ∧ (∀ c ∈ ["name".toList], c ≠ []) ∧
      (∀ p ∈ idFromUsers.prefixes ++ idFromUsers.«from».toList ++ idFromUsers.joins ++
        idFromUsers.whereParts ++ idFromUsers.havingParts ++ idFromUsers.orderByParts ++
        idFromUsers.suffixes, RendersNonEmpty p) ∧
      (idFromUsers.RemoveColumns.Columns ["name".toList]).toSqlRaw =
        ⟨selectSkeleton { idFromUsers with columns := columnParts ["name".toList] },
          argsOf idFromUsers.prefixes ++ argsOf idFromUsers.«from».toList ++
            argsOf idFromUsers.joins ++ argsOf idFromUsers.whereParts ++
            argsOf idFromUsers.havingParts ++ argsOf idFromUsers.orderByParts ++
            argsOf idFromUsers.suffixes, none⟩ ∧
      selectSkeleton { idFromUsers with columns := columnParts ["name".toList] } =
        "SELECT name FROM users".toList :=
  ⟨by decide, by decide, by decide,
    ((SelectBuilderFast.RemoveColumns_only_new idFromUsers ["name".toList]).2.2.2 (by decide)
      (by decide) (by decide)).1, by decide⟩

theorem selectSkeleton_eq_groups (d : SelectBuilderFast) :
    selectSkeleton d = selectUpToOrderBy d ++ limitGroup d.limit ++ offsetGroup d.offset ++
      suffixGroup d.suffixes := by
  simp [selectSkeleton, selectUpToOrderBy, limitGroup, offsetGroup, suffixGroup,
    List.append_assoc]

theorem updateSkeleton_eq_groups (d : UpdateBuilderFast) :
    updateSkeleton d = updateUpToOrderBy d ++ limitGroup d.limit ++ offsetGroup d.offset ++
      suffixGroup d.suffixes := by
  simp [updateSkeleton, updateUpToOrderBy, limitGroup, offsetGroup, suffixGroup,
    List.append_assoc]

theorem deleteSkeleton_eq_groups (d : DeleteBuilderFast) :
    deleteSkeleton d = deleteUpToOrderBy d ++ limitGroup d.limit ++ offsetGroup d.offset ++
      suffixGroup d.suffixes := by
  simp [deleteSkeleton, deleteUpToOrderBy, limitGroup, offsetGroup, suffixGroup,
    List.append_assoc]

/-- C32 (SelectBuilderFast.RemoveLimit, RemoveOffset): for every builder `b`
and every `n`, `b.Limit(n).RemoveLimit()` is the builder `b.RemoveLimit()` and
`b.Offset(n).RemoveOffset()` is `b.RemoveOffset()`, so they render
identically; `RemoveLimit` leaves the offset and `RemoveOffset` the limit as
they are; when the fragments of `b` render to non-empty text, the text of
`b.Limit(n).RemoveLimit()` is the skeleton of `b` up to ORDER BY followed by
the OFFSET group and the suffixes, without LIMIT group, and that of
`b.Offset(n).RemoveOffset()` is the skeleton up to ORDER BY followed by the
LIMIT group and the suffixes, without OFFSET group. -/
theorem SelectBuilderFast.RemoveLimit_RemoveOffset (b : SelectBuilderFast) (n : Nat) :
    (b.Limit n).RemoveLimit = b.RemoveLimit ∧ (b.Offset n).RemoveOffset = b.RemoveOffset ∧
      ((b.Limit n).RemoveLimit).ToSql = b.RemoveLimit.ToSql ∧
      ((b.Offset n).RemoveOffset).ToSql = b.RemoveOffset.ToSql ∧
      b.RemoveLimit.limit = [] ∧ b.RemoveLimit.offset = b.offset ∧
      b.RemoveOffset.offset = [] ∧ b.RemoveOffset.limit = b.limit ∧
      (b.columns ≠ [] → (∀ p ∈ b.fragments, RendersNonEmpty p) →
        ((b.Limit n).RemoveLimit).toSqlRaw.sqlStr =
          selectUpToOrderBy b ++ offsetGroup b.offset ++ suffixGroup b.suffixes ∧
        ((b.Offset n).RemoveOffset).toSqlRaw.sqlStr =
          selectUpToOrderBy b ++ limitGroup b.limit ++ suffixGroup b.suffixes ∧
        ((b.Limit n).RemoveLimit).toSqlRaw.err = none ∧
        ((b.Offset n).RemoveOffset).toSqlRaw.err = none) := by
  refine ⟨rfl, rfl, rfl, rfl, rfl, rfl, rfl, rfl, ?_⟩
  intro hcols h
  have h1 := toSqlRaw_eq_skeleton ((b.Limit n).RemoveLimit) hcols h
  have h2 := toSqlRaw_eq_skeleton ((b.Offset n).RemoveOffset) hcols h
  refine ⟨?_, ?_, ?_, ?_⟩
  · rw [h1, selectSkeleton_eq_groups]
    simp [Limit, RemoveLimit, limitGroup, selectUpToOrderBy]
  · rw [h2, selectSkeleton_eq_groups]
    simp [Offset, RemoveOffset, offsetGroup, selectUpToOrderBy]
  · rw [h1]
  · rw [h2]

/-- Witness of C32 at a SELECT with every slot filled. -/
theorem SelectBuilderFast.RemoveLimit_RemoveOffset_witness :
    demoSelect.columns ≠ [] ∧ (∀ p ∈ demoSelect.fragments, RendersNonEmpty p) ∧
      ((demoSelect.Limit 7).RemoveLimit).toSqlRaw.sqlStr =
        selectUpToOrderBy demoSelect ++ offsetGroup demoSelect.offset ++
          suffixGroup demoSelect.suffixes ∧
      ((demoSelect.Offset 7).RemoveOffset).toSqlRaw.sqlStr =
        selectUpToOrderBy demoSelect ++ limitGroup demoSelect.limit ++
          suffixGroup demoSelect.suffixes :=
  ⟨by decide, by decide,
    ((SelectBuilderFast.RemoveLimit_RemoveOffset demoSelect 7).2.2.2.2.2.2.2.2 (by decide)
      (by decide)).1,
    ((SelectBuilderFast.RemoveLimit_RemoveOffset demoSelect 7).2.2.2.2.2.2.2.2 (by decide)
      (by decide)).2.1⟩

/-- C36 (SelectBuilderFast.JoinClause, Where): `Where` and `JoinClause` write
different slots and commute: for every builder `b`, join clause `j` and
predicate `p`, `b.Where(p).JoinClause(j)` and `b.JoinClause(j).Where(p)` are
the same builder, so `toSqlRaw` and `ToSql` return the same text and args for
both; the joins are those of `b` followed by `j`; when the fragments of the
result render to non-empty text, the text is the skeleton, in which the join
group precedes the WHERE group, and the join args precede the where args. -/
theorem SelectBuilderFast.Where_JoinClause_comm (b : SelectBuilderFast) (j p : Pred)
    (ja pa : List Arg) :
    (b.Where p pa).JoinClause j ja = (b.JoinClause j ja).Where p pa ∧
      ((b.Where p pa).JoinClause j ja).ToSql = ((b.JoinClause j ja).Where p pa).ToSql ∧
      ((b.Where p pa).JoinClause j ja).toSqlRaw = ((b.JoinClause j ja).Where p pa).toSqlRaw ∧
      ((b.Where p pa).JoinClause j ja).joins = b.joins ++ [newPart j ja] ∧
      ((b.Where p pa).JoinClause j ja).whereParts = (b.Where p pa).whereParts ∧
      (b.columns ≠ [] →
        (∀ q ∈ ((b.Where p pa).JoinClause j ja).fragments, RendersNonEmpty q) →
        ((b.JoinClause j ja).Where p pa).toSqlRaw =
          ⟨selectSkeleton ((b.Where p pa).JoinClause j ja),
            argsOf b.prefixes ++ argsOf b.columns ++ argsOf b.«from».toList ++
              argsOf (b.joins ++ [newPart j ja]) ++ argsOf (b.Where p pa).whereParts ++
              argsOf b.havingParts ++ argsOf b.orderByParts ++ argsOf b.suffixes, none⟩) := by
  have heq : (b.Where p pa).JoinClause j ja = (b.JoinClause j ja).Where p pa := by
    unfold Where JoinClause
    split <;> rfl
  refine ⟨heq, by rw [heq], by rw [heq], ?_, rfl, ?_⟩
  · unfold Where JoinClause
    split <;> rfl
  · intro hcols h
    have hc : ((b.Where p pa).JoinClause j ja).columns ≠ [] := by
      unfold Where JoinClause
      split <;> exact hcols
    have hraw := toSqlRaw_eq_skeleton _ hc h
    rw [← heq, hraw]
    unfold Where JoinClause
    split <;> rfl

/-- Witness of C36 at the builder, the join clause and the predicate of
`TestSelectFastJoinClausePlaceholderNumbering`. -/
theorem SelectBuilderFast.Where_JoinClause_comm_witness :
    (SelectFast ["t1.a".toList] |>.From "t1".toList).columns ≠ [] ∧
      (∀ q ∈ (((SelectFast ["t1.a".toList] |>.From "t1".toList).Where
          (.sqlizer (Expr "a = ?".toList [.int 1])) []).JoinClause
          (.sqlizer joinSubquery) []).fragments, RendersNonEmpty q) ∧
      ((SelectFast ["t1.a".toList] |>.From "t1".toList).Where
          (.sqlizer (Expr "a = ?".toList [.int 1])) []).JoinClause (.sqlizer joinSubquery) [] =
        ((SelectFast ["t1.a".toList] |>.From "t1".toList).JoinClause
          (.sqlizer joinSubquery) []).Where (.sqlizer (Expr "a = ?".toList [.int 1])) [] ∧
      (((SelectFast ["t1.a".toList] |>.From "t1".toList).JoinClause
          (.sqlizer joinSubquery) []).Where
          (.sqlizer (Expr "a = ?".toList [.int 1])) []).toSqlRaw.err = none :=
  ⟨by decide, by decide,
    (SelectBuilderFast.Where_JoinClause_comm (SelectFast ["t1.a".toList] |>.From "t1".toList)
      (.sqlizer joinSubquery) (.sqlizer (Expr "a = ?".toList [.int 1])) [] []).1,
    by
      rw [(SelectBuilderFast.Where_JoinClause_comm
        (SelectFast ["t1.a".toList] |>.From "t1".toList) (.sqlizer joinSubquery)
        (.sqlizer (Expr "a = ?".toList [.int 1])) [] []).2.2.2.2.2 (by decide) (by decide)]⟩

/-- C37 (SelectBuilderFast.Columns): `Columns` accumulates the result columns
in call order: for every builder `b` and lists `xs` and `ys` of column
strings, `b.Columns(xs...).Columns(ys...)` is the builder
`b.Columns(xs ++ ys...)`, also with a call of `From` between the two calls;
the column texts are those of `b`, then `xs`, then `ys`; when the fragments
render to non-empty text, the text is the skeleton, whose column list is
these texts joined by `, `. -/
theorem SelectBuilderFast.Columns_append (b : SelectBuilderFast) (xs ys : List Text)
    (t : Text) :
    (b.Columns xs).Columns ys = b.Columns (xs ++ ys) ∧
      ((b.Columns xs).From t).Columns ys = (b.Columns (xs ++ ys)).From t ∧
      ((b.Columns xs).Columns ys).ToSql = (b.Columns (xs ++ ys)).ToSql ∧
      (((b.Columns xs).From t).Columns ys).ToSql = ((b.Columns (xs ++ ys)).From t).ToSql ∧
      textsOf ((b.Columns xs).Columns ys).columns = textsOf b.columns ++ xs ++ ys ∧
      ((b.Columns (xs ++ ys)).columns ≠ [] →
        (∀ q ∈ (b.Columns (xs ++ ys)).fragments, RendersNonEmpty q) →
        ((b.Columns xs).Columns ys).toSqlRaw.sqlStr =
          selectSkeleton ((b.Columns xs).Columns ys) ∧
        ((b.Columns xs).Columns ys).toSqlRaw.err = none) := by
  have heq : (b.Columns xs).Columns ys = b.Columns (xs ++ ys) := by
    simp [Columns]
  have heq2 : ((b.Columns xs).From t).Columns ys = (b.Columns (xs ++ ys)).From t := by
    simp [Columns, From]
  refine ⟨heq, heq2, by rw [heq], by rw [heq2], ?_, ?_⟩
  · have hx := (columnParts_texts xs).1
    have hy := (columnParts_texts ys).1
    simp only [columnParts, textsOf] at hx hy
    simp [Columns, textsOf, hx, hy]
  · intro hcols h
    have hraw := toSqlRaw_eq_skeleton _ hcols h
    refine ⟨?_, ?_⟩
    · rw [heq, hraw]
    · rw [heq, hraw]

/-- Witness of C37 at the builder and the columns of
`ExampleSelectBuilderFast_Columns_order`. -/
theorem SelectBuilderFast.Columns_append_witness :
    ((SelectFast ["id".toList]).Columns (["created".toList] ++ ["first_name".toList])).columns
        ≠ [] ∧
      (∀ q ∈ ((SelectFast ["id".toList]).Columns
        (["created".toList] ++ ["first_name".toList])).fragments, RendersNonEmpty q) ∧
      (((SelectFast ["id".toList]).Columns ["created".toList]).From "users".toList).Columns
          ["first_name".toList] =
        ((SelectFast ["id".toList]).Columns
          (["created".toList] ++ ["first_name".toList])).From "users".toList ∧
      textsOf (((SelectFast ["id".toList]).Columns ["created".toList]).Columns
          ["first_name".toList]).columns =
        textsOf (SelectFast ["id".toList]).columns ++ ["created".toList] ++
          ["first_name".toList] ∧
      (((SelectFast ["id".toList]).Columns ["created".toList]).Columns
          ["first_name".toList]).toSqlRaw.err = none :=
  ⟨by decide, by decide,
    (SelectBuilderFast.Columns_append (SelectFast ["id".toList]) ["created".toList]
      ["first_name".toList] "users".toList).2.1,
    (SelectBuilderFast.Columns_append (SelectFast ["id".toList]) ["created".toList]
      ["first_name".toList] "users".toList).2.2.2.2.1,
    ((SelectBuilderFast.Columns_append (SelectFast ["id".toList]) ["created".toList]
      ["first_name".toList] "users".toList).2.2.2.2.2 (by decide) (by decide)).2⟩

/-! ### LIMIT and OFFSET numerals -/

/-- The digits that `Nat.toDigitsCore` puts before a non-empty accumulator
leave it non-empty. -/
theorem toDigitsCore_ne_nil (b f : Nat) :
    ∀ (n : Nat) (c : Char) (ds : List Char), Nat.toDigitsCore b f n (c :: ds) ≠ [] := by
  induction f with
  | zero => intro n c ds; simp [Nat.toDigitsCore]
  | succ f ih =>
    intro n c ds
    simp only [Nat.toDigitsCore]
    split
    · simp
    · exact ih _ _ _

/-- The numeral of a number is not empty. -/
theorem toDigits_ne_nil (n : Nat) : Nat.toDigits 10 n ≠ [] := by
  simp only [Nat.toDigits, Nat.toDigitsCore]
  split
  · simp
  · exact toDigitsCore_ne_nil _ _ _ _ _

/-- With enough fuel `Nat.toDigitsCore` puts the digits of a positive number,
most significant first, before the accumulator. -/
theorem toDigitsCore_eq_digits (f : Nat) :
    ∀ (n : Nat) (ds : List Char), 0 < n → n < f →
      Nat.toDigitsCore 10 f n ds = (Nat.digits 10 n).reverse.map Nat.digitChar ++ ds := by
  induction f with
  | zero => intro n ds _ h; omega
  | succ f ih =>
    intro n ds hn hf
    rw [Nat.digits_def' (by decide) hn]
    simp only [Nat.toDigitsCore]
    by_cases h0 : n / 10 = 0
    · simp [h0]
    · have hpos : 0 < n / 10 := Nat.pos_of_ne_zero h0
      have hlt : n / 10 < f := by omega
      simp [h0, ih _ _ hpos hlt]

/-- The numeral of a positive number is the list of its decimal digits, most
significant first, each as its character. -/
theorem toDigits_eq_digits (n : Nat) (hn : 0 < n) :
    Nat.toDigits 10 n = (Nat.digits 10 n).reverse.map Nat.digitChar := by
  have h := toDigitsCore_eq_digits (n + 1) n [] hn (by omega)
  simpa [Nat.toDigits] using h

/-- The numerals of 0 and of the largest `uint64`; `Limit(0)` renders
`LIMIT 0`. -/
theorem testLimitNumerals :
    Nat.toDigits 10 0 = "0".toList ∧
      Nat.toDigits 10 (2 ^ 64 - 1) = "18446744073709551615".toList ∧
      ((DeleteFast "a".toList).Limit 0).ToSql = ⟨"DELETE FROM a LIMIT 0".toList, [], none⟩ ∧
      ((DeleteFast "a".toList).Offset 0).ToSql = ⟨"DELETE FROM a OFFSET 0".toList, [], none⟩ ∧
      ((SelectFast ["a".toList]).Limit (2 ^ 64 - 1)).ToSql =
        ⟨"SELECT a LIMIT 18446744073709551615".toList, [], none⟩ ∧
      ((UpdateFast "a".toList |>.Set "b".toList (.plain (.int 1))).Limit 0).ToSql =
        ⟨"UPDATE a SET b = ? LIMIT 0".toList, [.int 1], none⟩ := by
  decide

/-- A bind that succeeds: its first part succeeds, and the rest succeeds on
what the first part returns. -/
theorem bind_ok_inv {x : Render} {k : Text × List Arg → Render} {r : Text × List Arg}
    (h : (x >>= k) = .ok r) : ∃ y, x = .ok y ∧ k y = .ok r := by
  cases x with
  | error e => simp [bind, Except.bind] at h
  | ok y => exact ⟨y, rfl, h⟩

/-- The suffixes are written after the text that stands in the buffer. -/
theorem suffixes_after (suffixes : List Sqlizer) (w : Text) (args : List Arg)
    (r : Text × List Arg)
    (h : (if suffixes.length > 0 then appendToSql suffixes (w ++ " ".toList) " ".toList args
      else pure (w, args)) = .ok r) : ∃ B, r.1 = w ++ B := by
  split at h
  · rw [appendToSql, appendToSqlFrom_buffer] at h
    cases hx : appendToSqlFrom " ".toList 0 suffixes " ".toList args with
    | error e => rw [hx] at h; simp [prepend] at h
    | ok s =>
      rw [hx] at h
      obtain ⟨t, a⟩ := s
      simp only [prepend, Except.ok.injEq] at h
      exact ⟨t, by rw [← h]⟩
  · simp only [pure, Except.pure, Except.ok.injEq] at h
    exact ⟨[], by rw [← h]; simp⟩

/-- The two statements that write the LIMIT and the OFFSET group. -/
theorem limit_offset_groups (base limit offset : Text) :
    (if offset.length > 0 then
        (if limit.length > 0 then base ++ " LIMIT ".toList ++ limit else base) ++
          " OFFSET ".toList ++ offset
      else (if limit.length > 0 then base ++ " LIMIT ".toList ++ limit else base)) =
      base ++ limitGroup limit ++ offsetGroup offset := by
  cases limit <;> cases offset <;> simp [limitGroup, offsetGroup]

/-- A DELETE that renders holds its LIMIT and OFFSET groups. -/
theorem DeleteBuilderFast.deleteBody_groups (d : DeleteBuilderFast) (r : Text × List Arg)
    (h : d.toSqlBody = .ok r) :
    ∃ A B, r.1 = A ++ limitGroup d.limit ++ offsetGroup d.offset ++ B := by
  unfold toSqlBody at h
  obtain ⟨s1, _, h⟩ := bind_ok_inv h
  obtain ⟨s2, _, h⟩ := bind_ok_inv h
  obtain ⟨s3, h3, h⟩ := bind_ok_inv h
  simp only [pure, Except.pure, Except.ok.injEq] at h h3
  subst h
  simp only [limit_offset_groups] at h3
  obtain ⟨B, hB⟩ := suffixes_after _ _ _ _ h3
  exact ⟨_, B, hB⟩

/-- An UPDATE that renders holds its LIMIT and OFFSET groups. -/
theorem UpdateBuilderFast.updateBody_groups (d : UpdateBuilderFast) (r : Text × List Arg)
    (h : d.toSqlBody = .ok r) :
    ∃ A B, r.1 = A ++ limitGroup d.limit ++ offsetGroup d.offset ++ B := by
  unfold toSqlBody at h
  obtain ⟨s1, _, h⟩ := bind_ok_inv h
  obtain ⟨s2, _, h⟩ := bind_ok_inv h
  obtain ⟨s3, _, h⟩ := bind_ok_inv h
  obtain ⟨s4, _, h⟩ := bind_ok_inv h
  obtain ⟨s5, h5, h⟩ := bind_ok_inv h
  simp only [pure, Except.pure, Except.ok.injEq] at h h5
  subst h
  simp only [limit_offset_groups] at h5
  obtain ⟨B, hB⟩ := suffixes_after _ _ _ _ h5
  exact ⟨_, B, hB⟩

/-- A SELECT that renders holds its LIMIT and OFFSET groups. -/
theorem SelectBuilderFast.toSqlRawBody_groups (d : SelectBuilderFast) (r : Text × List Arg)
    (h : d.toSqlRawBody = .ok r) :
    ∃ A B, r.1 = A ++ limitGroup d.limit ++ offsetGroup d.offset ++ B := by
  unfold toSqlRawBody at h
  obtain ⟨s1, _, h⟩ := bind_ok_inv h
  obtain ⟨s2, _, h⟩ := bind_ok_inv h
  obtain ⟨s3, _, h⟩ := bind_ok_inv h
  obtain ⟨s4, _, h⟩ := bind_ok_inv h
  obtain ⟨s5, _, h⟩ := bind_ok_inv h
  obtain ⟨s6, _, h⟩ := bind_ok_inv h
  obtain ⟨s7, _, h⟩ := bind_ok_inv h
  obtain ⟨s8, h8, h⟩ := bind_ok_inv h
  simp only [pure, Except.pure, Except.ok.injEq] at h h8
  subst h
  simp only [limit_offset_groups] at h8
  obtain ⟨B, hB⟩ := suffixes_after _ _ _ _ h8
  exact ⟨_, B, hB⟩

/-- A result without error is the result of a render that succeeded. -/
theorem finish_ok_of_err (x : Render) (h : (finish x).err = none) :
    ∃ r, x = .ok r ∧ (finish x).sqlStr = r.1 := by
  cases x with
  | error e => obtain ⟨a, m⟩ := e; simp [finish] at h
  | ok r => exact ⟨r, rfl, by obtain ⟨t, a⟩ := r; rfl⟩

/-- A numeral holds no `?`. -/
theorem noMark_toDigits (n : Nat) : NoMark (Nat.toDigits 10 n) := by
  rcases Nat.eq_zero_or_pos n with rfl | hn
  · decide
  · rw [toDigits_eq_digits n hn]
    intro hm
    obtain ⟨k, hk, hc⟩ := List.mem_map.1 hm
    have hlt : k < 10 := Nat.digits_lt_base (by decide) (List.mem_reverse.1 hk)
    interval_cases k <;> exact absurd hc (by decide)

/-- A text without `?` that stands in the buffer stands in the text after the
placeholder rewrite. -/
theorem rewriteResult_infix (f : PlaceholderFormat) (r : SqlResult) (A kw B : Text)
    (hkw : NoMark kw) (hne : kw ≠ []) (h : r.sqlStr = A ++ kw ++ B) (he : r.err = none) :
    kw <:+: (rewriteResult f r).sqlStr := by
  unfold rewriteResult
  rw [he]
  simp only [PlaceholderFormat.ReplacePlaceholders, h]
  rw [replaceFrom_keyword f A kw B hkw hne]
  exact ⟨_, _, rfl⟩

/-- The LIMIT group of a numeral and the OFFSET group of a numeral hold no `?`
and are not empty. -/
theorem groups_noMark (n : Nat) :
    NoMark (" LIMIT ".toList ++ Nat.toDigits 10 n) ∧
      NoMark (" OFFSET ".toList ++ Nat.toDigits 10 n) ∧
      limitGroup (Nat.toDigits 10 n) = " LIMIT ".toList ++ Nat.toDigits 10 n ∧
      offsetGroup (Nat.toDigits 10 n) = " OFFSET ".toList ++ Nat.toDigits 10 n :=
  ⟨noMark_append _ _ (by decide) (noMark_toDigits n),
    noMark_append _ _ (by decide) (noMark_toDigits n),
    by simp [limitGroup, toDigits_ne_nil], by simp [offsetGroup, toDigits_ne_nil]⟩

/-- A result of the placeholder rewrite without error: the text in the buffer
that holds the LIMIT and OFFSET groups of numerals holds them after the
rewrite. -/
theorem rewriteResult_groups (f : PlaceholderFormat) (x : Render) (limit offset : Text)
    (hx : ∀ r, x = .ok r → ∃ A B, r.1 = A ++ limitGroup limit ++ offsetGroup offset ++ B)
    (he : (rewriteResult f (finish x)).err = none) :
    (∀ n, limit = Nat.toDigits 10 n →
        (" LIMIT ".toList ++ Nat.toDigits 10 n) <:+: (rewriteResult f (finish x)).sqlStr) ∧
      (∀ n, offset = Nat.toDigits 10 n →
        (" OFFSET ".toList ++ Nat.toDigits 10 n) <:+: (rewriteResult f (finish x)).sqlStr) := by
  rw [rewriteResult_err] at he
  obtain ⟨r, hr, hs⟩ := finish_ok_of_err x he
  obtain ⟨A, B, hAB⟩ := hx r hr
  constructor
  · intro n hn
    subst hn
    refine rewriteResult_infix f _ A _ (offsetGroup offset ++ B) (groups_noMark n).1 (by simp)
      ?_ he
    rw [hs, hAB, (groups_noMark n).2.2.1]
    simp
  · intro n hn
    subst hn
    refine rewriteResult_infix f _ (A ++ limitGroup limit) _ B (groups_noMark n).2.1 (by simp)
      ?_ he
    rw [hs, hAB, (groups_noMark n).2.2.2]

/-- The place of the LIMIT and OFFSET groups: for every natural number `n`,
`Limit(n)` stores the decimal numeral of `n`, which is never empty, and when
the fragments render the text before the placeholder rewrite holds ` LIMIT `
and that numeral right after the skeleton up to ORDER BY; the same holds for
`Offset` and ` OFFSET `, after the LIMIT group. -/
theorem Limit_after_orderBy (s : SelectBuilderFast) (u : UpdateBuilderFast)
    (d : DeleteBuilderFast) (n : Nat) (hcols : s.columns ≠ [])
    (hs : ∀ p ∈ s.fragments, RendersNonEmpty p) (hu : ∀ p ∈ u.fragments, RendersNonEmpty p)
    (hv : ∀ c ∈ u.setClauses, c.value.Renders) (hd : ∀ p ∈ d.fragments, RendersNonEmpty p) :
    Nat.toDigits 10 n ≠ [] ∧
      (0 < n → Nat.toDigits 10 n = (Nat.digits 10 n).reverse.map Nat.digitChar) ∧
      Nat.toDigits 10 0 = "0".toList ∧
      (s.Limit n).limit = Nat.toDigits 10 n ∧ (s.Offset n).offset = Nat.toDigits 10 n ∧
      (u.Limit n).limit = Nat.toDigits 10 n ∧ (u.Offset n).offset = Nat.toDigits 10 n ∧
      (d.Limit n).limit = Nat.toDigits 10 n ∧ (d.Offset n).offset = Nat.toDigits 10 n ∧
      (s.Limit n).toSqlRaw.sqlStr = selectUpToOrderBy s ++ " LIMIT ".toList ++
        Nat.toDigits 10 n ++ offsetGroup s.offset ++ suffixGroup s.suffixes ∧
      (s.Offset n).toSqlRaw.sqlStr = selectUpToOrderBy s ++ limitGroup s.limit ++
        " OFFSET ".toList ++ Nat.toDigits 10 n ++ suffixGroup s.suffixes ∧
      (finish (u.Limit n).toSqlBody).sqlStr = updateUpToOrderBy u ++ " LIMIT ".toList ++
        Nat.toDigits 10 n ++ offsetGroup u.offset ++ suffixGroup u.suffixes ∧
      (finish (u.Offset n).toSqlBody).sqlStr = updateUpToOrderBy u ++ limitGroup u.limit ++
        " OFFSET ".toList ++ Nat.toDigits 10 n ++ suffixGroup u.suffixes ∧
      (finish (d.Limit n).toSqlBody).sqlStr = deleteUpToOrderBy d ++ " LIMIT ".toList ++
        Nat.toDigits 10 n ++ offsetGroup d.offset ++ suffixGroup d.suffixes ∧
      (finish (d.Offset n).toSqlBody).sqlStr = deleteUpToOrderBy d ++ limitGroup d.limit ++
        " OFFSET ".toList ++ Nat.toDigits 10 n ++ suffixGroup d.suffixes := by
  have hne := toDigits_ne_nil n
  have hdp : ∀ p ∈ d.prefixes, RendersNonEmpty p := fun p hp =>
    hd p (by simp [DeleteBuilderFast.fragments, hp])
  have hdw : ∀ p ∈ d.whereParts, RendersNonEmpty p := fun p hp =>
    hd p (by simp [DeleteBuilderFast.fragments, hp])
  have hds : ∀ p ∈ d.suffixes, RendersNonEmpty p := fun p hp =>
    hd p (by simp [DeleteBuilderFast.fragments, hp])
  refine ⟨hne, toDigits_eq_digits n, by decide, rfl, rfl, rfl, rfl, rfl, rfl, ?_, ?_, ?_, ?_,
    ?_, ?_⟩
  · rw [SelectBuilderFast.toSqlRaw_eq_skeleton (s.Limit n) hcols hs, selectSkeleton_eq_groups]
    simp [SelectBuilderFast.Limit, limitGroup, hne, selectUpToOrderBy, List.append_assoc]
  · rw [SelectBuilderFast.toSqlRaw_eq_skeleton (s.Offset n) hcols hs, selectSkeleton_eq_groups]
    simp [SelectBuilderFast.Offset, offsetGroup, hne, selectUpToOrderBy, List.append_assoc]
  · rw [UpdateBuilderFast.toSqlBody_eq_skeleton (u.Limit n) hu hv, finish,
      updateSkeleton_eq_groups]
    simp [UpdateBuilderFast.Limit, limitGroup, hne, updateUpToOrderBy, List.append_assoc]
  · rw [UpdateBuilderFast.toSqlBody_eq_skeleton (u.Offset n) hu hv, finish,
      updateSkeleton_eq_groups]
    simp [UpdateBuilderFast.Offset, offsetGroup, hne, updateUpToOrderBy, List.append_assoc]
  · rw [DeleteBuilderFast.toSqlBody_eq_deleteSkeleton (d.Limit n) hdp hdw hds, finish,
      deleteSkeleton_eq_groups]
    simp [DeleteBuilderFast.Limit, limitGroup, hne, deleteUpToOrderBy, List.append_assoc]
  · rw [DeleteBuilderFast.toSqlBody_eq_deleteSkeleton (d.Offset n) hdp hdw hds, finish,
      deleteSkeleton_eq_groups]
    simp [DeleteBuilderFast.Offset, offsetGroup, hne, deleteUpToOrderBy, List.append_assoc]

set_option maxRecDepth 8000 in
/-- The place of the LIMIT group at the builders of the `ToSql` tests and the
limit 0. -/
theorem Limit_after_orderBy_demo :
    demoSelect.columns ≠ [] ∧ (∀ p ∈ demoSelect.fragments, RendersNonEmpty p) ∧
      (∀ p ∈ testUpdate.fragments, RendersNonEmpty p) ∧
      (∀ c ∈ testUpdate.setClauses, c.value.Renders) ∧
      (∀ p ∈ testDelete.fragments, RendersNonEmpty p) ∧
      (finish (testDelete.Limit 0).toSqlBody).sqlStr =
        deleteUpToOrderBy testDelete ++ " LIMIT ".toList ++ Nat.toDigits 10 0 ++
          offsetGroup testDelete.offset ++ suffixGroup testDelete.suffixes ∧
      (demoSelect.Limit 0).toSqlRaw.sqlStr =
        selectUpToOrderBy demoSelect ++ " LIMIT ".toList ++ Nat.toDigits 10 0 ++
          offsetGroup demoSelect.offset ++ suffixGroup demoSelect.suffixes :=
  ⟨by decide, by decide, by decide, by decide, by decide,
    (Limit_after_orderBy demoSelect testUpdate testDelete 0 (by decide) (by decide)
      (by decide) (by decide) (by decide)).2.2.2.2.2.2.2.2.2.2.2.2.2.1,
    (Limit_after_orderBy demoSelect testUpdate testDelete 0 (by decide) (by decide)
      (by decide) (by decide) (by decide)).2.2.2.2.2.2.2.2.2.1⟩

/-- A SELECT that renders holds the LIMIT and OFFSET groups of its numerals. -/
theorem SelectBuilderFast.selectToSql_groups (d : SelectBuilderFast) (he : d.ToSql.err = none) :
    (∀ n, d.limit = Nat.toDigits 10 n →
        (" LIMIT ".toList ++ Nat.toDigits 10 n) <:+: d.ToSql.sqlStr) ∧
      (∀ n, d.offset = Nat.toDigits 10 n →
        (" OFFSET ".toList ++ Nat.toDigits 10 n) <:+: d.ToSql.sqlStr) := by
  have hrw : d.ToSql = rewriteResult d.placeholderFormat d.toSqlRaw := rfl
  rw [hrw] at he ⊢
  by_cases hc : d.columns.length = 0
  · simp [toSqlRaw, hc, rewriteResult] at he
  · have hraw : d.toSqlRaw = finish d.toSqlRawBody := by unfold toSqlRaw; rw [if_neg hc]
    rw [hraw] at he ⊢
    exact rewriteResult_groups _ _ _ _ (toSqlRawBody_groups d) he

/-- An UPDATE that renders holds the LIMIT and OFFSET groups of its
numerals. -/
theorem UpdateBuilderFast.updateToSql_groups (d : UpdateBuilderFast) (he : d.ToSql.err = none) :
    (∀ n, d.limit = Nat.toDigits 10 n →
        (" LIMIT ".toList ++ Nat.toDigits 10 n) <:+: d.ToSql.sqlStr) ∧
      (∀ n, d.offset = Nat.toDigits 10 n →
        (" OFFSET ".toList ++ Nat.toDigits 10 n) <:+: d.ToSql.sqlStr) := by
  unfold ToSql at he ⊢
  by_cases h1 : d.table.length = 0
  · simp [h1] at he
  · by_cases h2 : d.setClauses.length = 0
    · simp [h1, h2] at he
    · rw [if_neg h1, if_neg h2] at he ⊢
      exact rewriteResult_groups _ _ _ _ (updateBody_groups d) he

/-- A DELETE that renders holds the LIMIT and OFFSET groups of its
numerals. -/
theorem DeleteBuilderFast.deleteToSql_groups (d : DeleteBuilderFast) (he : d.ToSql.err = none) :
    (∀ n, d.limit = Nat.toDigits 10 n →
        (" LIMIT ".toList ++ Nat.toDigits 10 n) <:+: d.ToSql.sqlStr) ∧
      (∀ n, d.offset = Nat.toDigits 10 n →
        (" OFFSET ".toList ++ Nat.toDigits 10 n) <:+: d.ToSql.sqlStr) := by
  unfold ToSql at he ⊢
  by_cases h1 : d.«from».length = 0
  · simp [h1] at he
  · rw [if_neg h1] at he ⊢
    exact rewriteResult_groups _ _ _ _ (deleteBody_groups d) he

/-- C38 (Limit, Offset): for `SelectBuilderFast`, `UpdateBuilderFast` and
`DeleteBuilderFast` and every natural number `n`, so for every `uint64`, 0
and `2^64 - 1` included, `Limit(n)` stores the decimal numeral of `n`, which
is never empty (`0` for 0), so that the text of every `ToSql` that succeeds
holds ` LIMIT ` followed by that numeral; the same holds for `Offset` and
` OFFSET `. -/
theorem Limit_always_rendered (s : SelectBuilderFast) (u : UpdateBuilderFast)
    (d : DeleteBuilderFast) (n : Nat) :
    Nat.toDigits 10 n ≠ [] ∧
      (0 < n → Nat.toDigits 10 n = (Nat.digits 10 n).reverse.map Nat.digitChar) ∧
      Nat.toDigits 10 0 = "0".toList ∧
      (s.Limit n).limit = Nat.toDigits 10 n ∧ (s.Offset n).offset = Nat.toDigits 10 n ∧
      (u.Limit n).limit = Nat.toDigits 10 n ∧ (u.Offset n).offset = Nat.toDigits 10 n ∧
      (d.Limit n).limit = Nat.toDigits 10 n ∧ (d.Offset n).offset = Nat.toDigits 10 n ∧
      ((s.Limit n).ToSql.err = none →
        (" LIMIT ".toList ++ Nat.toDigits 10 n) <:+: (s.Limit n).ToSql.sqlStr) ∧
      ((s.Offset n).ToSql.err = none →
        (" OFFSET ".toList ++ Nat.toDigits 10 n) <:+: (s.Offset n).ToSql.sqlStr) ∧
      ((u.Limit n).ToSql.err = none →
        (" LIMIT ".toList ++ Nat.toDigits 10 n) <:+: (u.Limit n).ToSql.sqlStr) ∧
      ((u.Offset n).ToSql.err = none →
        (" OFFSET ".toList ++ Nat.toDigits 10 n) <:+: (u.Offset n).ToSql.sqlStr) ∧
      ((d.Limit n).ToSql.err = none →
        (" LIMIT ".toList ++ Nat.toDigits 10 n) <:+: (d.Limit n).ToSql.sqlStr) ∧
      ((d.Offset n).ToSql.err = none →
        (" OFFSET ".toList ++ Nat.toDigits 10 n) <:+: (d.Offset n).ToSql.sqlStr) :=
  ⟨toDigits_ne_nil n, toDigits_eq_digits n, by decide, rfl, rfl, rfl, rfl, rfl, rfl,
    fun he => (SelectBuilderFast.selectToSql_groups _ he).1 n rfl,
    fun he => (SelectBuilderFast.selectToSql_groups _ he).2 n rfl,
    fun he => (UpdateBuilderFast.updateToSql_groups _ he).1 n rfl,
    fun he => (UpdateBuilderFast.updateToSql_groups _ he).2 n rfl,
    fun he => (DeleteBuilderFast.deleteToSql_groups _ he).1 n rfl,
    fun he => (DeleteBuilderFast.deleteToSql_groups _ he).2 n rfl⟩

/-! ### The placeholder format of a statement -/

/-- The test `TestInsertFastBuilderPlaceholders`, insert_fast_test.go:49-57. -/
theorem testInsertPlaceholders_ToSql :
    (testInsertPlaceholders.PlaceholderFormat .Question).ToSql =
        ⟨"INSERT INTO test VALUES (?,?)".toList, [.int 1, .int 2], none⟩ ∧
      (testInsertPlaceholders.PlaceholderFormat .Dollar).ToSql =
        ⟨"INSERT INTO test VALUES ($1,$2)".toList, [.int 1, .int 2], none⟩ := by
  decide

theorem rewriteResult_args (f : PlaceholderFormat) (r : SqlResult) :
    (rewriteResult f r).args = r.args := by
  unfold rewriteResult
  cases h : r.err <;> simp

/-- The text after the rewrite is the rewritten text, also for a failed
result, whose text is empty. -/
theorem rewriteResult_sqlStr (f : PlaceholderFormat) (r : SqlResult)
    (h : r.err ≠ none → r.sqlStr = []) :
    (rewriteResult f r).sqlStr = (f.ReplacePlaceholders r.sqlStr).1 := by
  unfold rewriteResult
  cases he : r.err with
  | none => simp
  | some e =>
    have hs : r.sqlStr = [] := h (by simp [he])
    simp [hs, PlaceholderFormat.ReplacePlaceholders, PlaceholderFormat.replaceFrom]

/-- A render that failed leaves the text empty. -/
theorem finish_sqlStr_of_err (x : Render) (h : (finish x).err ≠ none) :
    (finish x).sqlStr = [] := by
  cases x with
  | ok a => simp [finish] at h
  | error v => rfl

theorem InsertBuilderFast.insertToSql_eq_rewrite (d : InsertBuilderFast) :
    d.ToSql = rewriteResult d.placeholderFormat d.toSqlBeforeRewrite ∧
      (d.toSqlBeforeRewrite.err ≠ none → d.toSqlBeforeRewrite.sqlStr = []) := by
  unfold ToSql toSqlBeforeRewrite
  by_cases h1 : d.into.length = 0
  · simp [h1, rewriteResult]
  · by_cases h2 : d.values.length = 0 ∧ d.selectBuilder = none
    · simp [h1, h2, rewriteResult]
    · simp only [h1, h2, if_false, true_and]
      exact finish_sqlStr_of_err _

theorem UpdateBuilderFast.updateToSql_eq_rewrite (d : UpdateBuilderFast) :
    d.ToSql = rewriteResult d.placeholderFormat d.toSqlBeforeRewrite ∧
      (d.toSqlBeforeRewrite.err ≠ none → d.toSqlBeforeRewrite.sqlStr = []) := by
  unfold ToSql toSqlBeforeRewrite
  by_cases h1 : d.table.length = 0
  · simp [h1, rewriteResult]
  · by_cases h2 : d.setClauses.length = 0
    · simp [h1, h2, rewriteResult]
    · simp only [h1, h2, if_false, true_and]
      exact finish_sqlStr_of_err _

theorem DeleteBuilderFast.deleteToSql_eq_rewrite (d : DeleteBuilderFast) :
    d.ToSql = rewriteResult d.placeholderFormat d.toSqlBeforeRewrite ∧
      (d.toSqlBeforeRewrite.err ≠ none → d.toSqlBeforeRewrite.sqlStr = []) := by
  unfold ToSql toSqlBeforeRewrite
  by_cases h1 : d.«from».length = 0
  · simp [h1, rewriteResult]
  · simp only [h1, if_false, true_and]
    exact finish_sqlStr_of_err _

theorem SelectBuilderFast.selectToSql_eq_rewrite (d : SelectBuilderFast) :
    d.ToSql = rewriteResult d.placeholderFormat d.toSqlRaw ∧
      (d.toSqlRaw.err ≠ none → d.toSqlRaw.sqlStr = []) := by
  refine ⟨rfl, ?_⟩
  intro h
  cases he : d.toSqlRaw.err with
  | none => exact absurd he h
  | some e => exact toSqlRaw_sqlStr_of_err d e he

/-- The test `TestSelectBuilderFastPlaceholders`, select_fast_test.go:99-113. -/
theorem testPlaceholders_formats :
    (testPlaceholders.PlaceholderFormat .Question).ToSql.sqlStr =
        "SELECT test WHERE x = ? AND y = ?".toList ∧
      (testPlaceholders.PlaceholderFormat .Dollar).ToSql.sqlStr =
        "SELECT test WHERE x = $1 AND y = $2".toList ∧
      (testPlaceholders.PlaceholderFormat .Colon).ToSql.sqlStr =
        "SELECT test WHERE x = :1 AND y = :2".toList ∧
      (testPlaceholders.PlaceholderFormat .AtP).ToSql.sqlStr =
        "SELECT test WHERE x = @p1 AND y = @p2".toList := by
  decide

/-- C35 (PlaceholderFormat): for every SELECT, INSERT, UPDATE and DELETE
builder `b` and all formats `f` and `g`, the result of
`b.PlaceholderFormat(f).ToSql()` is the result before the rewrite, which does
not depend on the placeholder format, with the rewrite of `f` applied once to
its text: the args and the error are those before the rewrite, the same for
`f` and `g`, and the texts are `f.ReplacePlaceholders(t)` and
`g.ReplacePlaceholders(t)` for the one text `t` before the rewrite, which for
a SELECT is the text of `toSqlRaw`; `PlaceholderFormat` changes no other
slot. -/
theorem PlaceholderFormat_applied_once (s : SelectBuilderFast) (i : InsertBuilderFast)
    (u : UpdateBuilderFast) (d : DeleteBuilderFast) (f g : PlaceholderFormat) :
    (s.PlaceholderFormat f = { s with placeholderFormat := f } ∧
      (s.PlaceholderFormat f).toSqlRaw = s.toSqlRaw ∧
      (s.PlaceholderFormat f).ToSql = rewriteResult f s.toSqlRaw ∧
      (s.PlaceholderFormat f).ToSql.sqlStr = (f.ReplacePlaceholders s.toSqlRaw.sqlStr).1 ∧
      (s.PlaceholderFormat g).ToSql.sqlStr = (g.ReplacePlaceholders s.toSqlRaw.sqlStr).1 ∧
      (s.PlaceholderFormat f).ToSql.args = s.toSqlRaw.args ∧
      (s.PlaceholderFormat f).ToSql.args = (s.PlaceholderFormat g).ToSql.args ∧
      (s.PlaceholderFormat f).ToSql.err = (s.PlaceholderFormat g).ToSql.err) ∧
    (i.PlaceholderFormat f = { i with placeholderFormat := f } ∧
      (i.PlaceholderFormat f).toSqlBeforeRewrite = i.toSqlBeforeRewrite ∧
      (i.PlaceholderFormat f).ToSql = rewriteResult f i.toSqlBeforeRewrite ∧
      (i.PlaceholderFormat f).ToSql.sqlStr =
        (f.ReplacePlaceholders i.toSqlBeforeRewrite.sqlStr).1 ∧
      (i.PlaceholderFormat g).ToSql.sqlStr =
        (g.ReplacePlaceholders i.toSqlBeforeRewrite.sqlStr).1 ∧
      (i.PlaceholderFormat f).ToSql.args = i.toSqlBeforeRewrite.args ∧
      (i.PlaceholderFormat f).ToSql.args = (i.PlaceholderFormat g).ToSql.args ∧
      (i.PlaceholderFormat f).ToSql.err = (i.PlaceholderFormat g).ToSql.err) ∧
    (u.PlaceholderFormat f = { u with placeholderFormat := f } ∧
      (u.PlaceholderFormat f).toSqlBeforeRewrite = u.toSqlBeforeRewrite ∧
      (u.PlaceholderFormat f).ToSql = rewriteResult f u.toSqlBeforeRewrite ∧
      (u.PlaceholderFormat f).ToSql.sqlStr =
        (f.ReplacePlaceholders u.toSqlBeforeRewrite.sqlStr).1 ∧
      (u.PlaceholderFormat g).ToSql.sqlStr =
        (g.ReplacePlaceholders u.toSqlBeforeRewrite.sqlStr).1 ∧
      (u.PlaceholderFormat f).ToSql.args = u.toSqlBeforeRewrite.args ∧
      (u.PlaceholderFormat f).ToSql.args = (u.PlaceholderFormat g).ToSql.args ∧
      (u.PlaceholderFormat f).ToSql.err = (u.PlaceholderFormat g).ToSql.err) ∧
    (d.PlaceholderFormat f = { d with placeholderFormat := f } ∧
      (d.PlaceholderFormat f).toSqlBeforeRewrite = d.toSqlBeforeRewrite ∧
      (d.PlaceholderFormat f).ToSql = rewriteResult f d.toSqlBeforeRewrite ∧
      (d.PlaceholderFormat f).ToSql.sqlStr =
        (f.ReplacePlaceholders d.toSqlBeforeRewrite.sqlStr).1 ∧
      (d.PlaceholderFormat g).ToSql.sqlStr =
        (g.ReplacePlaceholders d.toSqlBeforeRewrite.sqlStr).1 ∧
      (d.PlaceholderFormat f).ToSql.args = d.toSqlBeforeRewrite.args ∧
      (d.PlaceholderFormat f).ToSql.args = (d.PlaceholderFormat g).ToSql.args ∧
      (d.PlaceholderFormat f).ToSql.err = (d.PlaceholderFormat g).ToSql.err) := by
  have hs : ∀ h : PlaceholderFormat, (s.PlaceholderFormat h).ToSql = rewriteResult h s.toSqlRaw :=
    fun h => (SelectBuilderFast.selectToSql_eq_rewrite (s.PlaceholderFormat h)).1
  have hi : ∀ h : PlaceholderFormat,
      (i.PlaceholderFormat h).ToSql = rewriteResult h i.toSqlBeforeRewrite :=
    fun h => (InsertBuilderFast.insertToSql_eq_rewrite (i.PlaceholderFormat h)).1
  have hu : ∀ h : PlaceholderFormat,
      (u.PlaceholderFormat h).ToSql = rewriteResult h u.toSqlBeforeRewrite :=
    fun h => (UpdateBuilderFast.updateToSql_eq_rewrite (u.PlaceholderFormat h)).1
  have hd : ∀ h : PlaceholderFormat,
      (d.PlaceholderFormat h).ToSql = rewriteResult h d.toSqlBeforeRewrite :=
    fun h => (DeleteBuilderFast.deleteToSql_eq_rewrite (d.PlaceholderFormat h)).1
  have ns := (SelectBuilderFast.selectToSql_eq_rewrite s).2
  have ni := (InsertBuilderFast.insertToSql_eq_rewrite i).2
  have nu := (UpdateBuilderFast.updateToSql_eq_rewrite u).2
  have nd := (DeleteBuilderFast.deleteToSql_eq_rewrite d).2
  refine ⟨⟨rfl, rfl, hs f, ?_, ?_, ?_, ?_, ?_⟩, ⟨rfl, rfl, hi f, ?_, ?_, ?_, ?_, ?_⟩,
    ⟨rfl, rfl, hu f, ?_, ?_, ?_, ?_, ?_⟩, ⟨rfl, rfl, hd f, ?_, ?_, ?_, ?_, ?_⟩⟩
  · rw [hs, rewriteResult_sqlStr _ _ ns]
  · rw [hs, rewriteResult_sqlStr _ _ ns]
  · rw [hs, rewriteResult_args]
  · rw [hs, hs, rewriteResult_args, rewriteResult_args]
  · rw [hs, hs, rewriteResult_err, rewriteResult_err]
  · rw [hi, rewriteResult_sqlStr _ _ ni]
  · rw [hi, rewriteResult_sqlStr _ _ ni]
  · rw [hi, rewriteResult_args]
  · rw [hi, hi, rewriteResult_args, rewriteResult_args]
  · rw [hi, hi, rewriteResult_err, rewriteResult_err]
  · rw [hu, rewriteResult_sqlStr _ _ nu]
  · rw [hu, rewriteResult_sqlStr _ _ nu]
  · rw [hu, rewriteResult_args]
  · rw [hu, hu, rewriteResult_args, rewriteResult_args]
  · rw [hu, hu, rewriteResult_err, rewriteResult_err]
  · rw [hd, rewriteResult_sqlStr _ _ nd]
  · rw [hd, rewriteResult_sqlStr _ _ nd]
  · rw [hd, rewriteResult_args]
  · rw [hd, hd, rewriteResult_args, rewriteResult_args]
  · rw [hd, hd, rewriteResult_err, rewriteResult_err]

/-! ### The first failing fragment -/

/-- `firstError` is the error of the first fragment of the list that fails:
every fragment before it renders. -/
theorem firstError_eq_some_iff (ps : List Sqlizer) (e : String) :
    firstError ps = some e ↔
      ∃ pre p post, ps = pre ++ p :: post ∧ (∀ q ∈ pre, (nestedToSql q).err = none) ∧
        (nestedToSql p).err = some e := by
  induction ps with
  | nil => simp [firstError]
  | cons a ps ih =>
    rw [firstError]
    cases ha : (nestedToSql a).err with
    | some x =>
      simp only [Option.some.injEq]
      constructor
      · rintro rfl
        exact ⟨[], a, ps, rfl, by simp, ha⟩
      · rintro ⟨pre, p, post, hps, hpre, hp⟩
        cases pre with
        | nil =>
          simp only [List.nil_append, List.cons.injEq] at hps
          rw [← hps.1, ha] at hp
          exact Option.some.inj hp
        | cons b pre =>
          simp only [List.cons_append, List.cons.injEq] at hps
          have hb := hpre b (List.mem_cons_self _ _)
          rw [← hps.1, ha] at hb
          exact absurd hb (by simp)
    | none =>
      simp only
      rw [ih]
      constructor
      · rintro ⟨pre, p, post, hps, hpre, hp⟩
        refine ⟨a :: pre, p, post, by simp [hps], ?_, hp⟩
        intro q hq
        rcases List.mem_cons.1 hq with rfl | hq
        · exact ha
        · exact hpre q hq
      · rintro ⟨pre, p, post, hps, hpre, hp⟩
        cases pre with
        | nil =>
          simp only [List.nil_append, List.cons.injEq] at hps
          rw [← hps.1, ha] at hp
          exact absurd hp (by simp)
        | cons b pre =>
          simp only [List.cons_append, List.cons.injEq] at hps
          exact ⟨pre, p, post, hps.2, fun q hq => hpre q (List.mem_cons_of_mem _ hq), hp⟩

/-- A failed result stays as it is under the rewrite: its text is empty. -/
theorem rewriteResult_sqlStr_of_err (f : PlaceholderFormat) (r : SqlResult)
    (hr : r.err ≠ none → r.sqlStr = []) (h : (rewriteResult f r).err ≠ none) :
    (rewriteResult f r).sqlStr = [] := by
  rw [rewriteResult_err] at h
  unfold rewriteResult
  cases he : r.err with
  | none => exact absurd he h
  | some e => exact hr h

/-- C34 (error propagation): for a SELECT, INSERT, UPDATE and DELETE whose
required slots are present, the error of `ToSql` is that of the first
fragment, in rendering order, that fails to render, unchanged, and there is no
error when none fails; when `ToSql` fails the returned text is empty. The
first failing fragment of a list is the one before which every fragment
renders. -/
theorem ToSql_first_failure (s : SelectBuilderFast) (i : InsertBuilderFast)
    (u : UpdateBuilderFast) (d : DeleteBuilderFast) (hs : s.columns ≠ []) (hi : i.into ≠ [])
    (hiv : ¬ (i.values = [] ∧ i.selectBuilder = none)) (hu : u.table ≠ [])
    (hus : u.setClauses ≠ []) (hd : d.«from» ≠ []) :
    (s.ToSql.err = firstError s.fragments ∧ (s.ToSql.err ≠ none → s.ToSql.sqlStr = [])) ∧
      (i.ToSql.err = i.firstFailure ∧ (i.ToSql.err ≠ none → i.ToSql.sqlStr = [])) ∧
      (u.ToSql.err = u.firstFailure ∧ (u.ToSql.err ≠ none → u.ToSql.sqlStr = [])) ∧
      (d.ToSql.err = firstError d.fragments ∧ (d.ToSql.err ≠ none → d.ToSql.sqlStr = [])) ∧
      (∀ (ps : List Sqlizer) (e : String), firstError ps = some e ↔
        ∃ pre p post, ps = pre ++ p :: post ∧ (∀ q ∈ pre, (nestedToSql q).err = none) ∧
          (nestedToSql p).err = some e) := by
  refine ⟨⟨?_, ?_⟩, ⟨?_, ?_⟩, ⟨?_, ?_⟩, ⟨?_, ?_⟩, firstError_eq_some_iff⟩
  · rw [SelectBuilderFast.ToSql_err_eq, SelectBuilderFast.toSqlRaw_err, if_neg hs]
  · intro h
    rw [(SelectBuilderFast.selectToSql_eq_rewrite s).1] at h ⊢
    exact rewriteResult_sqlStr_of_err _ _ (SelectBuilderFast.selectToSql_eq_rewrite s).2 h
  · rw [InsertBuilderFast.insertToSql_err, if_neg hi, if_neg hiv]
    rfl
  · intro h
    rw [(InsertBuilderFast.insertToSql_eq_rewrite i).1] at h ⊢
    exact rewriteResult_sqlStr_of_err _ _ (InsertBuilderFast.insertToSql_eq_rewrite i).2 h
  · rw [UpdateBuilderFast.updateToSql_err, if_neg hu, if_neg hus]
  · intro h
    rw [(UpdateBuilderFast.updateToSql_eq_rewrite u).1] at h ⊢
    exact rewriteResult_sqlStr_of_err _ _ (UpdateBuilderFast.updateToSql_eq_rewrite u).2 h
  · rw [DeleteBuilderFast.deleteToSql_err, if_neg hd]
  · intro h
    rw [(DeleteBuilderFast.deleteToSql_eq_rewrite d).1] at h ⊢
    exact rewriteResult_sqlStr_of_err _ _ (DeleteBuilderFast.deleteToSql_eq_rewrite d).2 h

/-- Witness of C34 at four builders with a failing fragment each: a prefix of
a SELECT, a prefix of an INSERT, a SET value of an UPDATE and a where part of
a DELETE; each returns the error of that fragment and the empty text. -/
theorem ToSql_first_failure_witness :
    selectWithColumnlessPrefix.columns ≠ [] ∧ insertWithFailingPrefix.into ≠ [] ∧
      ¬ (insertWithFailingPrefix.values = [] ∧ insertWithFailingPrefix.selectBuilder = none) ∧
      updateSetFailingCase.table ≠ [] ∧ updateSetFailingCase.setClauses ≠ [] ∧
      deleteWithFailingWhere.«from» ≠ [] ∧
      (selectWithColumnlessPrefix.ToSql.err = firstError selectWithColumnlessPrefix.fragments ∧
        (selectWithColumnlessPrefix.ToSql.err ≠ none →
          selectWithColumnlessPrefix.ToSql.sqlStr = [])) ∧
      (insertWithFailingPrefix.ToSql.err = insertWithFailingPrefix.firstFailure ∧
        (insertWithFailingPrefix.ToSql.err ≠ none →
          insertWithFailingPrefix.ToSql.sqlStr = [])) ∧
      selectWithColumnlessPrefix.ToSql =
        ⟨[], [], some "select statements must have at least one result column"⟩ ∧
      insertWithFailingPrefix.ToSql =
        ⟨[], [], some "select statements must have at least one result column"⟩ ∧
      updateSetFailingCase.ToSql =
        ⟨[], [], some "case expression must contain at lease one WHEN clause"⟩ ∧
      deleteWithFailingWhere.ToSql =
        ⟨[], [], some "select statements must have at least one result column"⟩ :=
  ⟨by decide, by decide, by decide, by decide, by decide, by decide,
    (ToSql_first_failure selectWithColumnlessPrefix insertWithFailingPrefix
      updateSetFailingCase deleteWithFailingWhere (by decide) (by decide) (by decide)
      (by decide) (by decide) (by decide)).1,
    (ToSql_first_failure selectWithColumnlessPrefix insertWithFailingPrefix
      updateSetFailingCase deleteWithFailingWhere (by decide) (by decide) (by decide)
      (by decide) (by decide) (by decide)).2.1,
    by decide, by decide, by decide, by decide⟩

/-! ### Markers and values of an INSERT -/

/-- The collapse of the escapes copies a text without `?` that stands first. -/
theorem collapseEscapes_noMark_append (p q : Text) (hp : NoMark p) :
    collapseEscapes (p ++ q) = p ++ collapseEscapes q := by
  rw [← replaceFrom_question_eq_collapse _ 1, ← replaceFrom_question_eq_collapse _ 1]
  exact replaceFrom_noMark_append _ p q hp 1

/-- The collapse of the escapes splits before a character that is not `?`. -/
theorem collapseEscapes_append_cons (w : Text) (c : Char) (t : Text) (hc : c ≠ '?') :
    collapseEscapes (w ++ c :: t) = collapseEscapes w ++ collapseEscapes (c :: t) := by
  rw [← replaceFrom_question_eq_collapse _ 1, ← replaceFrom_question_eq_collapse w 1,
    ← replaceFrom_question_eq_collapse (c :: t) (1 + countMarkers w)]
  exact replaceFrom_append_cons _ w c t hc 1

/-- The collapse of the escapes works piece by piece when no piece starts with
`?`. -/
theorem collapseEscapes_flatten (pieces : List Text)
    (h : ∀ p ∈ pieces, ∃ c t, p = c :: t ∧ c ≠ '?') :
    collapseEscapes pieces.flatten = (pieces.map collapseEscapes).flatten := by
  induction pieces with
  | nil => simp [collapseEscapes]
  | cons p ps ih =>
    have ih2 := ih (fun q hq => h q (List.mem_cons_of_mem _ hq))
    cases ps with
    | nil => simp
    | cons q qs =>
      obtain ⟨c, t, rfl, hc⟩ := h q (List.mem_cons_of_mem _ (List.mem_cons_self _ _))
      rw [List.flatten_cons, List.flatten_cons, List.cons_append,
        collapseEscapes_append_cons p c _ hc, ← List.cons_append, ← List.flatten_cons, ih2]
      simp

/-- A row of values that are not fragments is left as it is by the collapse of
the escapes. -/
theorem collapseEscapes_rowText (row : List Value) (h : ∀ v ∈ row, ∃ a, v = .plain a) :
    collapseEscapes (rowText row) = rowText row := by
  have hs := (valueArgs_plain row h).2.1
  have hq := replaceFrom_question_slots (row.map slotText) 1
  rw [replaceFrom_question_eq_collapse, List.map_map] at hq
  unfold rowText
  rw [hs]
  show collapseEscapes ('(' :: (",".toList.intercalate (row.map (fun _ => "?".toList)) ++
    ")".toList)) = '(' :: (",".toList.intercalate (row.map (fun _ => "?".toList)) ++ ")".toList)
  rw [collapseEscapes_cons_of_ne _ _ (by decide)]
  exact congrArg _ hq

/-- The number of `?` in the slots `,?,?...`. -/
theorem count_slots_tail (ks : List Value) :
    List.count '?' (ks.map (fun _ => [',', '?'])).flatten = ks.length := by
  induction ks with
  | nil => rfl
  | cons k ks ih =>
    rw [List.map_cons, List.flatten_cons, List.count_append, ih]
    simp [Nat.add_comm]

/-- A row of values that are not fragments has one `?` for each value. -/
theorem count_rowText (row : List Value) (h : ∀ v ∈ row, ∃ a, v = .plain a) :
    List.count '?' (rowText row) = row.length := by
  have hs := (valueArgs_plain row h).2.1
  unfold rowText
  rw [hs]
  cases row with
  | nil => simp [List.intercalate]
  | cons v vs =>
    rw [List.map_cons, intercalate_cons_eq, List.map_map]
    have ht := count_slots_tail vs
    simp only [String.toList, Function.comp_def, List.count_append, List.cons_append,
      List.nil_append, List.singleton_append, List.length_cons] at ht ⊢
    rw [List.count_cons, List.count_cons, List.count_append, ht]
    simp

/-- The rows of an INSERT whose values are not fragments: the collapse of the
escapes leaves them as they are, and they hold one `?` for each value. -/
theorem rows_marks (rows : List (List Value))
    (h : ∀ row ∈ rows, ∀ v ∈ row, ∃ a, v = .plain a) :
    collapseEscapes (",".toList.intercalate (rows.map rowText)) =
        ",".toList.intercalate (rows.map rowText) ∧
      List.count '?' (",".toList.intercalate (rows.map rowText)) = rows.flatten.length := by
  cases rows with
  | nil => simp [List.intercalate, collapseEscapes]
  | cons r rs =>
    have hrs : ∀ row ∈ rs, ∀ v ∈ row, ∃ a, v = .plain a :=
      fun row hrow => h row (List.mem_cons_of_mem _ hrow)
    rw [List.map_cons, intercalate_cons_eq, List.map_map]
    have hpieces : rowText r ++ (rs.map ((",".toList ++ ·) ∘ rowText)).flatten =
        (rowText r :: rs.map ((",".toList ++ ·) ∘ rowText)).flatten := rfl
    have hstart : ∀ p ∈ rowText r :: rs.map ((",".toList ++ ·) ∘ rowText),
        ∃ c t, p = c :: t ∧ c ≠ '?' := by
      intro p hp
      rcases List.mem_cons.1 hp with rfl | hp
      · exact ⟨'(', _, rfl, by decide⟩
      · obtain ⟨row, _, rfl⟩ := List.mem_map.1 hp
        exact ⟨',', _, rfl, by decide⟩
    have hfix : ∀ p ∈ rowText r :: rs.map ((",".toList ++ ·) ∘ rowText),
        collapseEscapes p = p := by
      intro p hp
      rcases List.mem_cons.1 hp with rfl | hp
      · exact collapseEscapes_rowText r (h r (List.mem_cons_self _ _))
      · obtain ⟨row, hrow, rfl⟩ := List.mem_map.1 hp
        show collapseEscapes (',' :: rowText row) = ',' :: rowText row
        rw [collapseEscapes_cons_of_ne _ _ (by decide), collapseEscapes_rowText row (hrs row hrow)]
    constructor
    · rw [hpieces, collapseEscapes_flatten _ hstart]
      congr 1
      exact List.map_congr_left (fun p hp => hfix p hp) |>.trans (List.map_id _)
    · rw [List.count_append, count_rowText r (h r (List.mem_cons_self _ _)), List.flatten_cons,
        List.length_append]
      congr 1
      clear hpieces hstart hfix h
      induction rs with
      | nil => rfl
      | cons s ss ih =>
        rw [List.map_cons, List.flatten_cons, List.count_append, List.flatten_cons,
          List.length_append, ih (fun row hrow => hrs row (List.mem_cons_of_mem _ hrow))]
        congr 1
        show List.count '?' (',' :: rowText s) = _
        rw [List.count_cons, count_rowText s (hrs s (List.mem_cons_self _ _))]
        simp

/-- The header of an INSERT without prefixes holds no `?` when its keyword,
options, table and columns hold none. -/
theorem noMark_insertHeader (d : InsertBuilderFast) (hpre : d.prefixes = [])
    (hk : NoMark d.statementKeywordStr) (hi : NoMark d.into) (ho : ∀ o ∈ d.options, NoMark o)
    (hc : ∀ c ∈ d.columns, NoMark c) : NoMark (insertHeader d ++ "VALUES ".toList) := by
  have h1 := noMark_intercalate " ".toList d.options (by decide) ho
  have h2 := noMark_intercalate ",".toList d.columns (by decide) hc
  simp only [insertHeader, keywordText, insertIntoText, hpre, ne_eq, not_true_eq_false,
    if_false, List.nil_append]
  by_cases hkw : d.statementKeywordStr = [] <;> by_cases hop : d.options = [] <;>
    by_cases hco : d.columns = [] <;>
    simp only [hkw, hop, hco, not_true_eq_false, not_false_eq_true, if_true, if_false,
      List.append_nil] <;>
    repeat (first | assumption | decide | apply noMark_append)

/-- The statement of an INSERT with rows of values that are not fragments,
under the `Question` format: the skeleton of §4.8 unchanged, one `?` for each
value, and the values as args. -/
theorem InsertBuilderFast.ToSql_plain_rows (d : InsertBuilderFast) (hinto : d.into ≠ [])
    (hpre : d.prefixes = []) (hsuf : d.suffixes = []) (hsel : d.selectBuilder = none)
    (hrows : d.values ≠ []) (hplain : ∀ row ∈ d.values, ∀ v ∈ row, ¬ v.IsFragment)
    (hk : NoMark d.statementKeywordStr) (hi : NoMark d.into) (ho : ∀ o ∈ d.options, NoMark o)
    (hc : ∀ c ∈ d.columns, NoMark c) (hf : d.placeholderFormat = .Question) :
    d.ToSql = ⟨insertValuesSkeleton d, d.values.flatten.flatMap valueArgs, none⟩ ∧
      List.count '?' (insertValuesSkeleton d) = d.values.flatten.length ∧
      (d.values.flatten.flatMap valueArgs).map Value.plain = d.values.flatten := by
  have hex : ∀ row ∈ d.values, ∀ v ∈ row, ∃ a, v = .plain a := by
    intro row hrow v hv
    have := hplain row hrow v hv
    cases v with
    | sqlizer s => exact absurd trivial this
    | plain a => exact ⟨a, rfl⟩
  have hflat : ∀ v ∈ d.values.flatten, ∃ a, v = .plain a := by
    intro v hv
    obtain ⟨row, hrow, hv2⟩ := List.mem_flatten.1 hv
    exact hex row hrow v hv2
  have hbody := toSqlBody_eq_valuesSkeleton d hsel hrows (by simp [hpre]) (by simp [hsuf])
    (fun row hrow v hv => (valueArgs_plain row (hex row hrow)).2.2 v hv)
  have hl : d.into.length ≠ 0 := by simpa [List.length_eq_zero] using hinto
  have h2 : ¬ (d.values.length = 0 ∧ d.selectBuilder = none) := by
    simp [List.length_eq_zero, hrows]
  have hhead := noMark_insertHeader d hpre hk hi ho hc
  have hrm := rows_marks d.values hex
  have hskel : insertValuesSkeleton d =
      (insertHeader d ++ "VALUES ".toList) ++ ",".toList.intercalate (d.values.map rowText) := by
    simp [insertValuesSkeleton, hsuf]
  refine ⟨?_, ?_, (valueArgs_plain _ hflat).1⟩
  · unfold ToSql
    rw [if_neg hl, if_neg h2, hbody, hf]
    simp only [finish, rewriteResult, PlaceholderFormat.ReplacePlaceholders, hpre, hsuf, argsOf,
      List.flatMap_nil, List.nil_append, List.append_nil]
    rw [replaceFrom_question_eq_collapse, hskel, collapseEscapes_noMark_append _ _ hhead, hrm.1]
  · rw [hskel, List.count_append, hrm.2, List.count_eq_zero.2 hhead, Nat.zero_add]

/-- C39 (markers and args of an INSERT): for an INSERT with non-empty into, no
prefixes, suffixes or select source, at least one row and only values that are
not fragments, whose into, options and columns hold no `?` (nor its statement
keyword, which is empty after `InsertFast` and `REPLACE` after `ReplaceFast`),
`ToSql` under `Question` succeeds, the number of `?` in its text is the number
of values over all rows, which is the length of the args, and the k-th arg is
the k-th value in row-major order. -/
theorem InsertBuilderFast.ToSql_marks_eq_values (d : InsertBuilderFast) (hinto : d.into ≠ [])
    (hpre : d.prefixes = []) (hsuf : d.suffixes = []) (hsel : d.selectBuilder = none)
    (hrows : d.values ≠ []) (hplain : ∀ row ∈ d.values, ∀ v ∈ row, ¬ v.IsFragment)
    (hk : d.statementKeywordStr = [] ∨ d.statementKeywordStr = "REPLACE".toList)
    (hi : NoMark d.into) (ho : ∀ o ∈ d.options, NoMark o) (hc : ∀ c ∈ d.columns, NoMark c)
    (hf : d.placeholderFormat = .Question) :
    d.ToSql.err = none ∧
      List.count '?' d.ToSql.sqlStr = (d.values.map List.length).sum ∧
      d.ToSql.args.length = (d.values.map List.length).sum ∧
      (∀ k : Nat, (d.ToSql.args[k]?).map Value.plain = d.values.flatten[k]?) ∧
      d.ToSql.sqlStr = insertValuesSkeleton d := by
  have hkw : NoMark d.statementKeywordStr := by
    rcases hk with hk | hk <;> rw [hk] <;> decide
  obtain ⟨h1, h2, h3⟩ := ToSql_plain_rows d hinto hpre hsuf hsel hrows hplain hkw hi ho hc hf
  have hlen : d.values.flatten.length = (d.values.map List.length).sum := List.length_flatten _
  rw [h1]
  refine ⟨rfl, by rw [← hlen]; exact h2, ?_, ?_, rfl⟩
  · show (d.values.flatten.flatMap valueArgs).length = _
    rw [← hlen, ← List.length_map _ Value.plain, h3]
  · intro k
    show ((d.values.flatten.flatMap valueArgs)[k]?).map Value.plain = _
    rw [← List.getElem?_map, h3]

/-- Witness of C39 at `InsertFast("t").Options("IGNORE").Columns("a", "b")`
with the rows `(1, 2)` and `(3, nil)`: four `?`, four args. -/
theorem InsertBuilderFast.ToSql_marks_eq_values_witness :
    insertTwoRows.into ≠ [] ∧ insertTwoRows.prefixes = [] ∧ insertTwoRows.suffixes = [] ∧
      insertTwoRows.selectBuilder = none ∧ insertTwoRows.values ≠ [] ∧
      (∀ row ∈ insertTwoRows.values, ∀ v ∈ row, ¬ v.IsFragment) ∧
      NoMark insertTwoRows.into ∧ (∀ o ∈ insertTwoRows.options, NoMark o) ∧
      (∀ c ∈ insertTwoRows.columns, NoMark c) ∧
      insertTwoRows.placeholderFormat = .Question ∧
      (insertTwoRows.ToSql.err = none ∧
        List.count '?' insertTwoRows.ToSql.sqlStr = (insertTwoRows.values.map List.length).sum ∧
        insertTwoRows.ToSql.args.length = (insertTwoRows.values.map List.length).sum ∧
        (∀ k : Nat, (insertTwoRows.ToSql.args[k]?).map Value.plain =
          insertTwoRows.values.flatten[k]?) ∧
        insertTwoRows.ToSql.sqlStr = insertValuesSkeleton insertTwoRows) ∧
      insertTwoRows.ToSql =
        ⟨"INSERT IGNORE INTO t (a,b) VALUES (?,?),(?,?)".toList,
          [.int 1, .int 2, .int 3, .null], none⟩ :=
  ⟨by decide, by decide, by decide, by decide, by decide, by decide, by decide, by decide,
    by decide, by decide,
    InsertBuilderFast.ToSql_marks_eq_values insertTwoRows (by decide) (by decide) (by decide)
      (by decide) (by decide) (by decide) (Or.inl (by decide)) (by decide) (by decide)
      (by decide) (by decide),
    by decide⟩

/-! ### Runners -/

/-- The tests without runner: `TestSelectBuilderFastNoRunner`,
`TestInsertFastBuilderNoRunner`, `TestInsertBuilderFastContextNoRunner`,
`TestUpdateBuilderFastNoRunner`, `TestUpdateBuilderFastContextNoRunner` and
`TestDeleteBuilderFastNoRunner`. -/
theorem testNoRunner :
    (selectNoRunner.Exec none).2 = some .RunnerNotSet ∧
      (selectNoRunner.Query none).2 = some .RunnerNotSet ∧
      selectNoRunner.Scan none = .returned (some .RunnerNotSet) ∧
      (insertNoRunner.Exec none).2 = some .RunnerNotSet ∧
      (insertNoRunner.ExecContext none ()).2 = some .RunnerNotSet ∧
      (insertNoRunner.QueryContext none ()).2 = some .RunnerNotSet ∧
      insertNoRunner.ScanContext none () = .returned (some .RunnerNotSet) ∧
      (updateNoRunner.Exec none).2 = some .RunnerNotSet ∧
      (updateNoRunner.ExecContext none ()).2 = some .RunnerNotSet ∧
      (updateNoRunner.QueryContext none ()).2 = some .RunnerNotSet ∧
      updateNoRunner.ScanContext none () = .returned (some .RunnerNotSet) ∧
      (deleteNoRunner.Exec none).2 = some .RunnerNotSet := by
  decide

/-- With a runner the statement is rendered: the runner receives the args, and
a builder that does not render returns the error of rendering; a runner
without the adapter asked for gives the sentinel of that adapter. -/
theorem testWithRunner :
    selectNoRunner.Exec (some plainRunner) = (some 0, none) ∧
      insertNoRunner.Exec (some plainRunner) = (some 1, none) ∧
      insertNoRunner.Query (some plainRunner) = (some [[.int 1]], none) ∧
      (SelectFast []).Exec (some plainRunner) =
        (none, some (.other "select statements must have at least one result column")) ∧
      (SelectFast []).Exec none = (none, some .RunnerNotSet) ∧
      (SelectFast []).Scan (some fullRunner) =
        .returned (some (.other "select statements must have at least one result column")) ∧
      selectNoRunner.Scan (some fullRunner) = .returned none ∧
      selectNoRunner.Scan (some plainRunner) = .returned (some .RunnerNotQueryRunner) ∧
      insertNoRunner.ExecContext (some plainRunner) () = (none, some .NoContextSupport) ∧
      insertNoRunner.ExecContext (some fullRunner) () = (some 1, none) ∧
      updateNoRunner.ScanContext (some plainRunner) () =
        .returned (some .RunnerNotQueryRunner) ∧
      updateNoRunner.ScanContext (some fullRunner) () = .returned none := by
  decide

/-- C33 (no runner): for every SELECT, INSERT, UPDATE and DELETE builder,
whatever its slots hold and whether or not it renders, without a runner `Exec`
and `Query` (and `ExecContext` and `QueryContext` of `InsertBuilderFast` and
`UpdateBuilderFast`) return no result and `RunnerNotSet`, and `Scan` and
`ScanContext` return `RunnerNotSet`, the error of the row that `QueryRow` and
`QueryRowContext` return. -/
theorem Exec_without_runner (s : SelectBuilderFast) (i : InsertBuilderFast)
    (u : UpdateBuilderFast) (d : DeleteBuilderFast) (ctx : Context) :
    (s.Exec none = (none, some .RunnerNotSet) ∧ s.Query none = (none, some .RunnerNotSet) ∧
      s.QueryRow none = ⟨none, some .RunnerNotSet⟩ ∧
      s.Scan none = .returned (some .RunnerNotSet)) ∧
    (i.Exec none = (none, some .RunnerNotSet) ∧ i.Query none = (none, some .RunnerNotSet) ∧
      i.ExecContext none ctx = (none, some .RunnerNotSet) ∧
      i.QueryContext none ctx = (none, some .RunnerNotSet) ∧
      i.QueryRow none = ⟨none, some .RunnerNotSet⟩ ∧
      i.QueryRowContext none ctx = ⟨none, some .RunnerNotSet⟩ ∧
      i.Scan none = .returned (some .RunnerNotSet) ∧
      i.ScanContext none ctx = .returned (some .RunnerNotSet)) ∧
    (u.Exec none = (none, some .RunnerNotSet) ∧ u.Query none = (none, some .RunnerNotSet) ∧
      u.ExecContext none ctx = (none, some .RunnerNotSet) ∧
      u.QueryContext none ctx = (none, some .RunnerNotSet) ∧
      u.QueryRow none = ⟨none, some .RunnerNotSet⟩ ∧
      u.QueryRowContext none ctx = ⟨none, some .RunnerNotSet⟩ ∧
      u.Scan none = .returned (some .RunnerNotSet) ∧
      u.ScanContext none ctx = .returned (some .RunnerNotSet)) ∧
    (d.Exec none = (none, some .RunnerNotSet) ∧ d.Query none = (none, some .RunnerNotSet)) :=
  ⟨⟨rfl, rfl, rfl, rfl⟩, ⟨rfl, rfl, rfl, rfl, rfl, rfl, rfl, rfl⟩,
    ⟨rfl, rfl, rfl, rfl, rfl, rfl, rfl, rfl⟩, ⟨rfl, rfl⟩⟩

end Squirrel
